import Mathlib

/-!
# The generalized linear model (kriging) fitting engine of OpenTURNS

A shallow embedding of `GeneralizedLinearModelAlgorithm.cxx`: the class is a record of its
member fields, every method is a function from the record (and the method's arguments) to an
outcome and the record after the call.  The dimension bookkeeping of
`OptimizationProblemImplementation.cxx` is embedded the same way.

Conventions of the embedding.

* Scalars (`NumericalScalar`) are the elements of a linearly ordered field `R`; the results are
  those of exact arithmetic.  `std::sqrt` and `std::log` are supplied by the environment, so that
  the definitions stay executable over `ℚ` and the analytic statements are read over `ℝ`.
* A method that may throw returns an `Outcome` together with the record as the call left it, so
  that "nothing is stored on failure" is a statement about the code and not about a type.
* A division by zero is not an operation of the scalars: the quotient `x / 0 = 0` of the field
  stands for no result of the program, and the statements that rest on a quotient name the
  divisor and ask it to be nonzero.
* A read by the unchecked `operator[]` past the end of a point is not determined by the
  program: its value is taken from the environment (`Collaborators.outOfBounds`).
* The regularization loops are run with a fuel; `Outcome.unfinished` is the loop still running
  when the fuel is spent.
* Classes of the library that are used by the engine but are not part of the engine
  (covariance models, linear algebra, optimizer, configuration) are collected in `Collaborators`.
-/

namespace OT

/-! ## Exceptions and outcomes -/

/-- The places of the engine that throw, one constructor per `throw` statement. -/
inductive Error where
  /-- Thrown by `setData`: the samples have different sizes. -/
  | sampleSizeMismatch
  /-- Thrown by `setCovarianceModel`: none of the four dimension cases applies. -/
  | covarianceModelDimension
  /-- Thrown by `setBasisCollection`: the collection size is not the output dimension. -/
  | basisCollectionSize
  /-- Thrown by `setBasisCollection`: every basis of the collection is empty. -/
  | basisCollectionEmpty
  /-- Thrown by `initializeDefaultOptimizationSolver`. -/
  | unknownSolver
  /-- Thrown by `computeReducedLogLikelihood`: wrong size of the parameter vector. -/
  | parameterSize
  /-- Thrown by `computeLapackLogDeterminantCholesky`: the scaling was not enough. -/
  | lapackCholesky
  /-- Thrown by `computeHMatLogDeterminantCholesky`: the scaling was not enough. -/
  | hmatCholesky
  /-- Thrown by `setInputTransformation`. -/
  | transformationDimension
  /-- Thrown by `setOptimizationBounds`. -/
  | optimizationBoundsDimension
  /-- Thrown by `setNoise`: wrong size. -/
  | noiseSize
  /-- Thrown by `setNoise`: an entry is not nonnegative. -/
  | noiseSign
  /-- Thrown by `OptimizationProblemImplementation::setBounds`. -/
  | problemBoundsDimension
  deriving DecidableEq, Repr

/-- What a call does: it returns a value, throws, or is still running when the fuel is spent. -/
inductive Outcome (α : Type) where
  | returned (a : α)
  | thrown (e : Error)
  | unfinished

/-! ## Points, samples and matrices -/

/-- The class `NumericalSample`: a dimension and the list of its points. -/
structure NumericalSample (R : Type) where
  dimension : Nat
  data : List (List R)

/-- The method `NumericalSample::getSize`. -/
def NumericalSample.getSize {R : Type} (s : NumericalSample R) : Nat := s.data.length

/-- The method `NumericalSample::getDimension`. -/
def NumericalSample.getDimension {R : Type} (s : NumericalSample R) : Nat := s.dimension

/-- The flat data of a sample, point after point (`getImplementation()->getData()`). -/
def NumericalSample.getData {R : Type} (s : NumericalSample R) : List R := s.data.flatten

/-- A square matrix of run-time dimension (`SquareMatrix`, `CovarianceMatrix`,
`TriangularMatrix`). -/
structure SquareMatrix (R : Type) where
  dim : Nat
  coeff : Matrix (Fin dim) (Fin dim) R

/-- A rectangular matrix of run-time dimensions (the class `Matrix`). -/
structure DenseMatrix (R : Type) where
  nbRows : Nat
  nbColumns : Nat
  coeff : Matrix (Fin nbRows) (Fin nbColumns) R

/-- The class `Interval`, by its two corner points. -/
structure Interval (R : Type) where
  lowerBound : List R
  upperBound : List R

/-- The class `NumericalMathFunction`: its dimensions and its evaluation. -/
structure NumericalMathFunction (R : Type) where
  inputDimension : Nat
  outputDimension : Nat
  eval : List R → List R

section Scalars

variable {R : Type} [LinearOrderedField R]

/-- The method `NumericalPoint::normSquare`. -/
def normSquare (p : List R) : R := (p.map (fun x => x * x)).sum

/-- The operator `NumericalPoint::operator/=`, for a divisor that is not zero (the quotient by
zero of the field, `x / 0 = 0`, is not a result of the program). -/
def divPoint (p : List R) (a : R) : List R := p.map (fun x => x / a)

/-- The operator `NumericalPoint::operator-=`. -/
def subPoint (p q : List R) : List R := List.zipWith (fun x y => x - y) p q

/-- The method `getDimension` of a square matrix. -/
def SquareMatrix.getDimension (C : SquareMatrix R) : Nat := C.dim

/-- The entry `C(i, i)`, zero outside the matrix. -/
def SquareMatrix.diagonalEntry (C : SquareMatrix R) (i : Nat) : R :=
  if h : i < C.dim then C.coeff ⟨i, h⟩ ⟨i, h⟩ else 0

/-- The loop `for (i = 0; i < C.getDimension(); ++i) C(i, i) += d(i)`. -/
def SquareMatrix.addToDiagonal (C : SquareMatrix R) (d : Nat → R) : SquareMatrix R :=
  ⟨C.dim, fun i j => if i = j then C.coeff i j + d i.val else C.coeff i j⟩

/-- The product of a square matrix by a scalar (`covarianceCholeskyFactor_ * sigma`). -/
def SquareMatrix.scale (L : SquareMatrix R) (a : R) : SquareMatrix R :=
  ⟨L.dim, fun i j => L.coeff i j * a⟩

/-- The zero matrix `Matrix(nbRows, nbColumns)`. -/
def DenseMatrix.zero (nbRows nbColumns : Nat) : DenseMatrix R :=
  ⟨nbRows, nbColumns, fun _ _ => 0⟩

/-- The assignment `F(i, j) = v` (no entry is written outside the matrix). -/
def DenseMatrix.set (A : DenseMatrix R) (i j : Nat) (v : R) : DenseMatrix R :=
  ⟨A.nbRows, A.nbColumns, fun a b => if a.val = i ∧ b.val = j then v else A.coeff a b⟩

/-- The entry `F(i, j)`, zero outside the matrix. -/
def DenseMatrix.entry (A : DenseMatrix R) (i j : Nat) : R :=
  if h : i < A.nbRows ∧ j < A.nbColumns then A.coeff ⟨i, h.1⟩ ⟨j, h.2⟩ else 0

/-- The product `Phi * beta` of a matrix by a point. -/
def DenseMatrix.mulPoint (A : DenseMatrix R) (x : List R) : List R :=
  List.ofFn (fun i : Fin A.nbRows => ∑ j : Fin A.nbColumns, A.coeff i j * x.getD j.val 0)

/-- The product `L * x` of a square matrix by a point. -/
def SquareMatrix.mulPoint (L : SquareMatrix R) (x : List R) : List R :=
  List.ofFn (fun i : Fin L.dim => ∑ j : Fin L.dim, L.coeff i j * x.getD j.val 0)

/-- A solve `L * rho = y` that is exact: the solution has the size of `L` and satisfies the
equation. -/
def ExactPointSolve (L : SquareMatrix R) (solve : List R → List R) (y : List R) : Prop :=
  (solve y).length = L.dim ∧ L.mulPoint (solve y) = y

/-- A solve `L * Phi = F` that is exact: the solution has as many rows as `L` and satisfies
the equation, `L * (Phi * b) = F * b` for every point `b`. -/
def ExactMatrixSolve (L : SquareMatrix R) (solveMatrix : DenseMatrix R → DenseMatrix R)
    (F : DenseMatrix R) : Prop :=
  (solveMatrix F).nbRows = L.dim ∧
    ∀ b : List R, L.mulPoint ((solveMatrix F).mulPoint b) = F.mulPoint b

/-- The method `Interval::getDimension`. -/
def Interval.getDimension (b : Interval R) : Nat := b.lowerBound.length

/-! ## Covariance models -/

/-- Modelled from the spec: the class `CovarianceModel` (only the header of its implementation
is in the sources).  The data model of the spec gives it the attributes scale, amplitude,
spatial dimension, dimension and active-parameter index set; the spatial correlation and the
nugget factor, which the engine never reads or writes, are left out.  The full parameter is the
scale followed by the amplitude. -/
structure CovarianceModel (R : Type) where
  spatialDimension_ : Nat
  dimension_ : Nat
  scale_ : List R
  amplitude_ : List R
  activeParameter_ : List Nat

/-- Modelled from the spec: accessor `getSpatialDimension`. -/
def CovarianceModel.getSpatialDimension (m : CovarianceModel R) : Nat := m.spatialDimension_

/-- Modelled from the spec: accessor `getDimension`. -/
def CovarianceModel.getDimension (m : CovarianceModel R) : Nat := m.dimension_

/-- Modelled from the spec: accessor `getFullParameter`, the scale then the amplitude. -/
def CovarianceModel.getFullParameter (m : CovarianceModel R) : List R :=
  m.scale_ ++ m.amplitude_

/-- Modelled from the spec: accessor `getFullParameterDescription`, with the names
`scale_i` and `amplitude_i`. -/
def CovarianceModel.getFullParameterDescription (m : CovarianceModel R) : List String :=
  (List.range m.scale_.length).map (fun i => "scale_" ++ toString i) ++
    (List.range m.amplitude_.length).map (fun i => "amplitude_" ++ toString i)

/-- Modelled from the spec: accessor `getActiveParameter`. -/
def CovarianceModel.getActiveParameter (m : CovarianceModel R) : List Nat := m.activeParameter_

/-- Modelled from the spec: accessor `setActiveParameter`. -/
def CovarianceModel.setActiveParameter (m : CovarianceModel R) (active : List Nat) :
    CovarianceModel R :=
  { m with activeParameter_ := active }

/-- Modelled from the spec: accessor `getParameter`, the values of the active parameters (its
size is the size of the active set). -/
def CovarianceModel.getParameter (m : CovarianceModel R) : List R :=
  m.activeParameter_.map (fun i => m.getFullParameter.getD i 0)

/-- Modelled from the spec: accessor `getParameterDescription`, the names of the active
parameters. -/
def CovarianceModel.getParameterDescription (m : CovarianceModel R) : List String :=
  m.activeParameter_.map (fun i => m.getFullParameterDescription.getD i "")

/-- Modelled from the spec: accessor `getAmplitude`. -/
def CovarianceModel.getAmplitude (m : CovarianceModel R) : List R := m.amplitude_

/-- Modelled from the spec: accessor `setAmplitude`. -/
def CovarianceModel.setAmplitude (m : CovarianceModel R) (amplitude : List R) :
    CovarianceModel R :=
  { m with amplitude_ := amplitude }

/-- The full parameter in which the active entries are overwritten by the given values. -/
def writeActive : List Nat → List R → List R → List R
  | i :: active, v :: values, full => writeActive active values (full.set i v)
  | _, _, full => full

/-- Modelled from the spec: accessor `setParameter`, which writes the given values at the
active positions of the full parameter. -/
def CovarianceModel.setParameter (m : CovarianceModel R) (parameter : List R) :
    CovarianceModel R :=
  { m with
    scale_ := (writeActive m.activeParameter_ parameter m.getFullParameter).take m.scale_.length
    amplitude_ :=
      (writeActive m.activeParameter_ parameter m.getFullParameter).drop m.scale_.length }

/-! ## Configuration and collaborators -/

/-- The entries of the `ResourceMap` read by the engine. -/
structure ResourceMap (R : Type) where
  OptimizeParameters : Bool
  UseAnalyticalAmplitudeEstimate : Bool
  UnbiasedVariance : Bool
  DefaultOptimizationLowerBound : R
  DefaultOptimizationUpperBound : R
  StartingScaling : R
  MaximalScaling : R
  MeanEpsilon : R
  LinearAlgebra : String
  DefaultOptimizationSolver : String
  HMatrixAssemblyEpsilon : R
  HMatrixRecompressionEpsilon : R

/-- The constants of `SpecFunc` read by the engine. -/
structure SpecFunc (R : Type) where
  LogMinNumericalScalar : R
  LogMaxNumericalScalar : R
  MaxNumericalScalar : R
  MinNumericalScalar : R
  NumericalScalarEpsilon : R

/-- A hierarchical matrix, held by the matrix it stands for. -/
structure HMatrix (R : Type) where
  dense : SquareMatrix R

/-- The class `HMatrixParameters`: the two compression tolerances. -/
structure HMatrixParameters (R : Type) where
  assemblyEpsilon : R
  recompressionEpsilon : R

/-- What an optimizer does with the objective: it asks for the objective at a point and goes on
from the value it gets, or it stops and reports an optimal point and an optimal value.  Every
run is a finite sequence of evaluations. -/
inductive SolverScript (R : Type) where
  | evaluate (point : List R) (next : List R → SolverScript R)
  | report (optimalPoint : List R) (optimalValue : List R)

/-- The class `OptimizationProblem`, as far as the engine sets it: the input dimension of the
objective, the bounds and the direction. -/
structure OptimizationProblem (R : Type) where
  dimension_ : Nat
  bounds_ : Interval R
  minimization_ : Bool

/-- The class `OptimizationSolver`: starting point, problem, the behaviour of `run` on a
problem and a starting point, and the result of the last run. -/
structure OptimizationSolver (R : Type) where
  startingPoint_ : List R
  problem_ : OptimizationProblem R
  script : OptimizationProblem R → List R → SolverScript R
  optimalPoint_ : List R
  optimalValue_ : List R

/-- The library code the engine calls and that is not part of the engine. -/
structure Collaborators (R : Type) where
  /-- The configuration. -/
  resourceMap : ResourceMap R
  /-- The numerical constants. -/
  specFunc : SpecFunc R
  /-- The function `std::sqrt`. -/
  sqrt : R → R
  /-- The function `std::log`. -/
  log : R → R
  /-- Whether the library was built with `OPENTURNS_HAVE_MUPARSER`. -/
  haveMuParser : Bool
  /-- The constructor `ProductCovarianceModel(collection)`. -/
  ProductCovarianceModel : List (CovarianceModel R) → CovarianceModel R
  /-- The constructor `TensorizedCovarianceModel(collection)`. -/
  TensorizedCovarianceModel : List (CovarianceModel R) → CovarianceModel R
  /-- The method `CovarianceModel::discretize(sample)`. -/
  discretize : CovarianceModel R → NumericalSample R → SquareMatrix R
  /-- The method `CovarianceMatrix::computeCholesky`; `none` is the `InternalException`. -/
  computeCholesky : SquareMatrix R → Option (SquareMatrix R)
  /-- The method `TriangularMatrix::solveLinearSystem` on a point. -/
  solveLinearSystem : SquareMatrix R → List R → List R
  /-- The method `TriangularMatrix::solveLinearSystem` on a matrix. -/
  solveLinearSystemMatrix : SquareMatrix R → DenseMatrix R → DenseMatrix R
  /-- The method `Matrix::solveLinearSystem` (least squares). -/
  leastSquares : DenseMatrix R → List R → List R
  /-- The method `HMatrixFactory::build(sample, dimension, true, parameters)`. -/
  hmatBuild : NumericalSample R → Nat → HMatrixParameters R → HMatrix R
  /-- The rest of the `try` block of the hierarchical backend: the built matrix is assembled
  from the model on the sample with the given regularization (by a block assembly function
  when the flag is set) and factorized; `none` is the `InternalException`. -/
  hmatAssembleFactorize : HMatrix R → CovarianceModel R → NumericalSample R → Bool → R →
    Option (HMatrix R)
  /-- The method `HMatrix::solveLower` on a point. -/
  hmatSolveLower : HMatrix R → List R → List R
  /-- The method `HMatrix::solveLower` on a matrix. -/
  hmatSolveLowerMatrix : HMatrix R → DenseMatrix R → DenseMatrix R
  /-- The method `HMatrix::getDiagonal`. -/
  hmatGetDiagonal : HMatrix R → List R
  /-- The method `HMatrix::scale`. -/
  hmatScale : HMatrix R → R → HMatrix R
  /-- The method `NumericalSample::computeVariance`. -/
  computeVariance : NumericalSample R → List R
  /-- What the unchecked `NumericalPoint::operator[]` reads at an index past the end of a
  point: nothing that the program determines. -/
  outOfBounds : List R → Nat → R

/-! ## The engine -/

/-- The class `GeneralizedLinearModelResult`. -/
structure GeneralizedLinearModelResult (R : Type) where
  inputSample : NumericalSample R
  outputSample : NumericalSample R
  metaModel : NumericalMathFunction R
  residuals : List R
  relativeErrors : List R
  basisCollection : List (List (NumericalMathFunction R))
  trendCoefficients : List (List R)
  covarianceModel : CovarianceModel R
  optimalLogLikelihood : R
  covarianceCholeskyFactor : Option (SquareMatrix R)
  covarianceCholeskyFactorHMatrix : Option (HMatrix R)
  transformation : Option (NumericalMathFunction R)

/-- The member fields of the class `GeneralizedLinearModelAlgorithm`. -/
structure GeneralizedLinearModelAlgorithm (R : Type) where
  inputSample_ : NumericalSample R
  normalizedInputSample_ : NumericalSample R
  inputTransformation_ : NumericalMathFunction R
  normalize_ : Bool
  outputSample_ : NumericalSample R
  covarianceModel_ : CovarianceModel R
  reducedCovarianceModel_ : CovarianceModel R
  solver_ : OptimizationSolver R
  optimizationBounds_ : Interval R
  beta_ : List R
  rho_ : List R
  F_ : DenseMatrix R
  result_ : Option (GeneralizedLinearModelResult R)
  basisCollection_ : List (List (NumericalMathFunction R))
  covarianceCholeskyFactor_ : SquareMatrix R
  covarianceCholeskyFactorHMatrix_ : HMatrix R
  keepCholeskyFactor_ : Bool
  method_ : Nat
  hasRun_ : Bool
  optimizeParameters_ : Bool
  analyticalAmplitude_ : Bool
  lastReducedLogLikelihood_ : R
  noise_ : List R

/-- A collection made of `n` copies of a model (`CovarianceModelCollection(n, model)`). -/
def CovarianceModelCollection (n : Nat) (m : CovarianceModel R) : List (CovarianceModel R) :=
  List.replicate n m

/-- The loop of `setCovarianceModel` over the description of the active parameters: the first
index `i` with `description[i] == "amplitude_0"`, counted from `i`. -/
def findAmplitude : List String → Nat → Option Nat
  | [], _ => none
  | d :: description, i =>
    if d = "amplitude_0" then some i else findAmplitude description (i + 1)

/-- Modelled from the spec: the default `Interval()`, which the spec calls the empty
interval. -/
def Interval.empty : Interval R := ⟨[], []⟩

/-- Lines 380-396 of `setCovarianceModel`: the model stored as the full model, or `none` when
the four cases all fail. -/
def fullCovarianceModel (E : Collaborators R) (inputDimension dimension : Nat)
    (covarianceModel : CovarianceModel R) : Option (CovarianceModel R) :=
  let sameDimension : Bool := dimension == covarianceModel.getDimension
  let unitModelDimension : Bool := covarianceModel.getDimension == 1
  let sameSpatialDimension : Bool := inputDimension == covarianceModel.getSpatialDimension
  let unitModelSpatialDimension : Bool := covarianceModel.getSpatialDimension == 1
  -- Case 1
  if sameSpatialDimension && sameDimension then
    some covarianceModel
  -- Case 2
  else if unitModelSpatialDimension && sameDimension && unitModelDimension then
    some (E.ProductCovarianceModel (CovarianceModelCollection inputDimension covarianceModel))
  -- Case 3
  else if sameSpatialDimension && unitModelDimension then
    some (E.TensorizedCovarianceModel (CovarianceModelCollection dimension covarianceModel))
  -- Case 4
  else if unitModelSpatialDimension && unitModelDimension then
    some (E.TensorizedCovarianceModel (CovarianceModelCollection dimension
      (E.ProductCovarianceModel (CovarianceModelCollection inputDimension covarianceModel))))
  else none

/-- Lines 398-427 of `setCovarianceModel`: the reduced model and the analytical-amplitude flag
derived from the full model. -/
def reduceCovarianceModel (E : Collaborators R) (optimizeParameters : Bool)
    (full : CovarianceModel R) : CovarianceModel R × Bool :=
  if !optimizeParameters then (full.setActiveParameter [], false)
  else if E.resourceMap.UseAnalyticalAmplitudeEstimate then
    if full.getDimension = 1 then
      match findAmplitude full.getParameterDescription 0 with
      | some i =>
        (((full.setActiveParameter (full.getActiveParameter.eraseIdx i)).setAmplitude [1]), true)
      | none => (full, false)
    else (full, false)
  else (full, false)

/-- Lines 429-437 of `setCovarianceModel`: the bounds for a reduced model. -/
def defaultOptimizationBounds (E : Collaborators R) (reduced : CovarianceModel R) :
    Interval R :=
  let optimizationDimension := reduced.getParameter.length
  if optimizationDimension > 0 then
    ⟨List.replicate optimizationDimension E.resourceMap.DefaultOptimizationLowerBound,
     List.replicate optimizationDimension E.resourceMap.DefaultOptimizationUpperBound⟩
  else Interval.empty

/-- The method `setCovarianceModel`. -/
def setCovarianceModel (E : Collaborators R) (self : GeneralizedLinearModelAlgorithm R)
    (covarianceModel : CovarianceModel R) :
    Outcome Unit × GeneralizedLinearModelAlgorithm R :=
  let inputDimension := self.inputSample_.getDimension
  let dimension := self.outputSample_.getDimension
  match fullCovarianceModel E inputDimension dimension covarianceModel with
  | none => (.thrown .covarianceModelDimension, self)
  | some full =>
    let reduced := reduceCovarianceModel E self.optimizeParameters_ full
    (.returned (),
     { self with
       covarianceModel_ := full
       reducedCovarianceModel_ := reduced.1
       analyticalAmplitude_ := reduced.2
       optimizationBounds_ := defaultOptimizationBounds E reduced.1 })

/-- The accessor `getCovarianceModel`. -/
def getCovarianceModel (self : GeneralizedLinearModelAlgorithm R) : CovarianceModel R :=
  self.covarianceModel_

/-- The accessor `getReducedCovarianceModel`. -/
def getReducedCovarianceModel (self : GeneralizedLinearModelAlgorithm R) : CovarianceModel R :=
  self.reducedCovarianceModel_

/-! ### The dense backend -/

/-- The local variables of the retry loop of `computeLapackLogDeterminantCholesky` and the
factor it assigns.  The counters `attempts` (executions of the `try` block) and `failures`
(executions of the `catch` block) are not variables of the source; nothing reads them. -/
structure LapackLadder (R : Type) where
  C : SquareMatrix R
  covarianceCholeskyFactor_ : SquareMatrix R
  continuationCondition : Bool
  cumulatedScaling : R
  scaling : R
  attempts : Nat
  failures : Nat

/-- One pass through the body of the `while` loop, lines 804-816. -/
def lapackLadderStep (E : Collaborators R) (l : LapackLadder R) : LapackLadder R :=
  match E.computeCholesky l.C with
  | some L =>
    { l with
      covarianceCholeskyFactor_ := L
      continuationCondition := false
      attempts := l.attempts + 1 }
  | none =>
    { l with
      cumulatedScaling := l.cumulatedScaling + l.scaling
      C := l.C.addToDiagonal (fun _ => l.scaling)
      scaling := l.scaling * 2
      attempts := l.attempts + 1
      failures := l.failures + 1 }

/-- The `while (continuationCondition && (cumulatedScaling < maximalScaling))` loop, line 802;
`none` when the fuel is spent before the loop exits. -/
def lapackLadderLoop (E : Collaborators R) (maximalScaling : R) :
    Nat → LapackLadder R → Option (LapackLadder R)
  | 0, l =>
    if l.continuationCondition && decide (l.cumulatedScaling < maximalScaling) then none
    else some l
  | fuel + 1, l =>
    if l.continuationCondition && decide (l.cumulatedScaling < maximalScaling) then
      lapackLadderLoop E maximalScaling fuel (lapackLadderStep E l)
    else some l

/-- The read `point[i]` by the unchecked `NumericalPoint::operator[]`: the entry of the point
when there is one, and past the end of the point what the environment finds there. -/
def readUnchecked (E : Collaborators R) (point : List R) (i : Nat) : R :=
  if h : i < point.length then point.get ⟨i, h⟩ else E.outOfBounds point i

/-- Lines 789-794: the discretized covariance matrix with the noise added to its diagonal when
a noise vector is stored.  The loop of line 793 reads `noise_[i]` for every row `i` of the
matrix, also past the end of the noise vector when the matrix has more rows than the vector
has entries (an output dimension of 2 or more). -/
def lapackCovarianceMatrix (E : Collaborators R) (self : GeneralizedLinearModelAlgorithm R) :
    SquareMatrix R :=
  let C := E.discretize self.reducedCovarianceModel_ self.normalizedInputSample_
  if self.noise_.length > 0 then C.addToDiagonal (fun i => readUnchecked E self.noise_ i) else C

/-- What lines 792-793 add to the diagonal entry `C(i, i)`: nothing without a noise vector, and
what `noise_[i]` reads with one. -/
def noiseDiagonal (E : Collaborators R) (noise : List R) (i : Nat) : R :=
  if noise.length > 0 then readUnchecked E noise i else 0

/-- Lines 797-801: the variables on entry of the loop. -/
def lapackLadderStart (E : Collaborators R) (self : GeneralizedLinearModelAlgorithm R) :
    LapackLadder R :=
  { C := lapackCovarianceMatrix E self
    covarianceCholeskyFactor_ := self.covarianceCholeskyFactor_
    continuationCondition := true
    cumulatedScaling := 0
    scaling := E.resourceMap.StartingScaling
    attempts := 0
    failures := 0 }

/-- The invariant of the retry loop of the dense backend, for the starting scaling `s` and
the matrix `C0` on entry of the loop: after `failures` failed attempts the cumulated scaling is
`s * (2 ^ failures - 1)`, the next scaling is `s * 2 ^ failures`, the matrix is `C0` with the
cumulated scaling on its diagonal, one more attempt was made when the loop was stopped by a
success, and the factor is then the one of the matrix. -/
def LapackLadder.Invariant (E : Collaborators R) (s : R) (C0 : SquareMatrix R)
    (l : LapackLadder R) : Prop :=
  l.cumulatedScaling = s * (2 ^ l.failures - 1) ∧
    l.scaling = s * 2 ^ l.failures ∧
    l.attempts = l.failures + (if l.continuationCondition then 0 else 1) ∧
    l.C = C0.addToDiagonal (fun _ => l.cumulatedScaling) ∧
    (l.continuationCondition = false →
      E.computeCholesky l.C = some l.covarianceCholeskyFactor_)

/-- The loop of lines 849-854 over the diagonal entries still to be read, with the running
value of `logDetL`; `none` is the early `return` at a non-positive entry. -/
def logDetLoop (E : Collaborators R) : List R → R → Option R
  | [], logDetL => some logDetL
  | lii :: diagonal, logDetL =>
    if lii ≤ 0 then none else logDetLoop E diagonal (logDetL + E.log lii)

/-- The diagonal `L(0, 0), ..., L(n - 1, n - 1)` of a square matrix. -/
def SquareMatrix.diagonal (L : SquareMatrix R) : List R :=
  List.ofFn (fun i : Fin L.dim => L.coeff i i)

/-- Lines 847-856: the value returned for a factor. -/
def lapackLogDeterminant (E : Collaborators R) (L : SquareMatrix R) : R :=
  match logDetLoop E L.diagonal 0 with
  | none => -E.specFunc.LogMaxNumericalScalar
  | some logDetL => 2 * logDetL

/-- Lines 825-846: `rho_` and `beta_` computed from a factor. -/
def lapackSolve (E : Collaborators R) (self : GeneralizedLinearModelAlgorithm R) :
    GeneralizedLinearModelAlgorithm R :=
  let y := self.outputSample_.getData
  let rho := E.solveLinearSystem self.covarianceCholeskyFactor_ y
  if self.basisCollection_.length > 0 then
    let Phi := E.solveLinearSystemMatrix self.covarianceCholeskyFactor_ self.F_
    let beta := E.leastSquares Phi rho
    { self with beta_ := beta, rho_ := subPoint rho (Phi.mulPoint beta) }
  else { self with rho_ := rho }

/-- The method `computeLapackLogDeterminantCholesky`. -/
def computeLapackLogDeterminantCholesky (E : Collaborators R) (fuel : Nat)
    (self : GeneralizedLinearModelAlgorithm R) :
    Outcome R × GeneralizedLinearModelAlgorithm R :=
  match lapackLadderLoop E E.resourceMap.MaximalScaling fuel (lapackLadderStart E self) with
  | none => (.unfinished, self)
  | some l =>
    let self1 := { self with covarianceCholeskyFactor_ := l.covarianceCholeskyFactor_ }
    if l.scaling ≥ E.resourceMap.MaximalScaling then (.thrown .lapackCholesky, self1)
    else
      let self2 := lapackSolve E self1
      (.returned (lapackLogDeterminant E self2.covarianceCholeskyFactor_), self2)

/-! ### The hierarchical backend -/

/-- The local variables of the retry loop of `computeHMatLogDeterminantCholesky` and the
factor it assigns, with the same two counters as for the dense backend. -/
structure HMatLadder (R : Type) where
  covarianceCholeskyFactorHMatrix_ : HMatrix R
  hmatrixParameters : HMatrixParameters R
  continuationCondition : Bool
  cumulatedScaling : R
  scaling : R
  attempts : Nat
  failures : Nat

/-- One pass through the body of the `while` loop, lines 876-905.  After a failed pass the
member holds the matrix as built. -/
def hmatLadderStep (E : Collaborators R) (self : GeneralizedLinearModelAlgorithm R)
    (l : HMatLadder R) : HMatLadder R :=
  let covarianceDimension := self.reducedCovarianceModel_.getDimension
  let built := E.hmatBuild self.normalizedInputSample_ covarianceDimension l.hmatrixParameters
  match E.hmatAssembleFactorize built self.reducedCovarianceModel_
      self.normalizedInputSample_ (covarianceDimension != 1) l.cumulatedScaling with
  | some H =>
    { l with
      covarianceCholeskyFactorHMatrix_ := H
      continuationCondition := false
      attempts := l.attempts + 1 }
  | none =>
    { l with
      covarianceCholeskyFactorHMatrix_ := built
      cumulatedScaling := l.cumulatedScaling + l.scaling
      scaling := l.scaling * 2
      hmatrixParameters :=
        { assemblyEpsilon := l.hmatrixParameters.assemblyEpsilon / 10
          recompressionEpsilon := l.hmatrixParameters.recompressionEpsilon / 10 }
      attempts := l.attempts + 1
      failures := l.failures + 1 }

/-- The `while` loop of line 874; `none` when the fuel is spent before the loop exits. -/
def hmatLadderLoop (E : Collaborators R) (self : GeneralizedLinearModelAlgorithm R)
    (maximalScaling : R) : Nat → HMatLadder R → Option (HMatLadder R)
  | 0, l =>
    if l.continuationCondition && decide (l.cumulatedScaling < maximalScaling) then none
    else some l
  | fuel + 1, l =>
    if l.continuationCondition && decide (l.cumulatedScaling < maximalScaling) then
      hmatLadderLoop E self maximalScaling fuel (hmatLadderStep E self l)
    else some l

/-- Lines 864-872: the variables on entry of the loop. -/
def hmatLadderStart (E : Collaborators R) (self : GeneralizedLinearModelAlgorithm R) :
    HMatLadder R :=
  { covarianceCholeskyFactorHMatrix_ := self.covarianceCholeskyFactorHMatrix_
    hmatrixParameters :=
      ⟨E.resourceMap.HMatrixAssemblyEpsilon, E.resourceMap.HMatrixRecompressionEpsilon⟩
    continuationCondition := true
    cumulatedScaling := 0
    scaling := E.resourceMap.StartingScaling
    attempts := 0
    failures := 0 }

/-- Lines 913-928: `rho_` and `beta_` computed from a hierarchical factor. -/
def hmatSolve (E : Collaborators R) (self : GeneralizedLinearModelAlgorithm R) :
    GeneralizedLinearModelAlgorithm R :=
  let y := self.outputSample_.getData
  let rho := E.hmatSolveLower self.covarianceCholeskyFactorHMatrix_ y
  if self.basisCollection_.length > 0 then
    let Phi := E.hmatSolveLowerMatrix self.covarianceCholeskyFactorHMatrix_ self.F_
    let beta := E.leastSquares Phi rho
    { self with beta_ := beta, rho_ := subPoint rho (Phi.mulPoint beta) }
  else { self with rho_ := rho }

/-- Lines 929-938: the value returned for the diagonal of a hierarchical factor, read at the
indices below `size` (the size of `rho_`). -/
def hmatLogDeterminant (E : Collaborators R) (diagonal : List R) (size : Nat) : R :=
  match logDetLoop E ((List.range size).map (fun i => diagonal.getD i 0)) 0 with
  | none => E.specFunc.MaxNumericalScalar
  | some logDetL => 2 * logDetL

/-- The method `computeHMatLogDeterminantCholesky`. -/
def computeHMatLogDeterminantCholesky (E : Collaborators R) (fuel : Nat)
    (self : GeneralizedLinearModelAlgorithm R) :
    Outcome R × GeneralizedLinearModelAlgorithm R :=
  match hmatLadderLoop E self E.resourceMap.MaximalScaling fuel (hmatLadderStart E self) with
  | none => (.unfinished, self)
  | some l =>
    let self1 :=
      { self with covarianceCholeskyFactorHMatrix_ := l.covarianceCholeskyFactorHMatrix_ }
    if l.scaling ≥ E.resourceMap.MaximalScaling then (.thrown .hmatCholesky, self1)
    else
      let self2 := hmatSolve E self1
      (.returned
        (hmatLogDeterminant E (E.hmatGetDiagonal self2.covarianceCholeskyFactorHMatrix_)
          self2.rho_.length), self2)

/-! ### The reduced log-likelihood -/

/-- The difference of two `UnsignedInteger` (64 bits). -/
def unsignedSub (a b : Nat) : Nat := (a + 2 ^ 64 - b % 2 ^ 64) % 2 ^ 64

/-- Lines 756-770: the analytical amplitude.  From the log-determinant returned by the backend,
the corrected log-determinant and the record with the amplitude set and `rho_` rescaled.  The
two divisions are those of the field of scalars, in which `x / 0 = 0`; the program divides
floating-point numbers at line 764 and calls `NumericalPoint::operator/=` at line 768, and on
a zero divisor it leaves the scalars (an infinity, a NaN or an exception).  The definition is
the program on the states with `AmplitudeDefined`, and what is stated of the rescaled `rho_`
beyond the division itself is stated for such states or for `sigma != 0`. -/
def analyticalAmplitudeStep (E : Collaborators R) (self : GeneralizedLinearModelAlgorithm R)
    (logDeterminant : R) : R × GeneralizedLinearModelAlgorithm R :=
  let size := self.inputSample_.getSize
  let sigma := E.sqrt (normSquare self.rho_ /
    (if E.resourceMap.UnbiasedVariance then ((unsignedSub size self.beta_.length : Nat) : R)
     else (size : R)))
  (logDeterminant + 2 * (size : R) * E.log sigma,
   { self with
     reducedCovarianceModel_ := self.reducedCovarianceModel_.setAmplitude [sigma]
     rho_ := divPoint self.rho_ sigma })

/-- Lines 772-777: the log-likelihood from the log-determinant and `epsilon`. -/
def reducedLogLikelihoodValue (E : Collaborators R) (logDeterminant epsilon : R) : R :=
  if epsilon ≤ 0 then E.specFunc.LogMinNumericalScalar
  else -(1 / 2) * (logDeterminant + epsilon)

/-- Lines 744-753: the parameters are stored and the selected backend is called. -/
def computeLogDeterminant (E : Collaborators R) (fuel : Nat)
    (self : GeneralizedLinearModelAlgorithm R) (parameters : List R) :
    Outcome R × GeneralizedLinearModelAlgorithm R :=
  let model :=
    if self.analyticalAmplitude_ then self.reducedCovarianceModel_.setAmplitude [1]
    else self.reducedCovarianceModel_
  let self1 := { self with reducedCovarianceModel_ := model.setParameter parameters }
  if self1.method_ = 0 then computeLapackLogDeterminantCholesky E fuel self1
  else computeHMatLogDeterminantCholesky E fuel self1

/-- Lines 754-770: the log-determinant and the record after the analytical-amplitude block. -/
def amplitudeCorrected (E : Collaborators R) (self : GeneralizedLinearModelAlgorithm R)
    (logDeterminant : R) : R × GeneralizedLinearModelAlgorithm R :=
  if self.analyticalAmplitude_ then analyticalAmplitudeStep E self logDeterminant
  else (logDeterminant, self)

/-- The analytical-amplitude block of lines 756-770 stays within the scalars on a state left
by the backend: the divisor of line 764 (the sample size, or with the unbiased variance the
sample size minus the number of trend coefficients) is not zero, and neither is the amplitude
`sigma` by which line 768 divides `rho_`. -/
def AmplitudeDefined (E : Collaborators R) (self : GeneralizedLinearModelAlgorithm R) : Prop :=
  (if E.resourceMap.UnbiasedVariance then
      ((unsignedSub self.inputSample_.getSize self.beta_.length : Nat) : R)
    else (self.inputSample_.getSize : R)) ≠ 0 ∧
    E.sqrt (normSquare self.rho_ /
      (if E.resourceMap.UnbiasedVariance then
        ((unsignedSub self.inputSample_.getSize self.beta_.length : Nat) : R)
       else (self.inputSample_.getSize : R))) ≠ 0

instance (E : Collaborators R) (self : GeneralizedLinearModelAlgorithm R) :
    Decidable (AmplitudeDefined E self) := by
  unfold AmplitudeDefined
  infer_instance

/-- The method `computeReducedLogLikelihood`. -/
def computeReducedLogLikelihood (E : Collaborators R) (fuel : Nat)
    (self : GeneralizedLinearModelAlgorithm R) (parameters : List R) :
    Outcome (List R) × GeneralizedLinearModelAlgorithm R :=
  if parameters.length ≠ self.reducedCovarianceModel_.getParameter.length then
    (.thrown .parameterSize, self)
  else
    match computeLogDeterminant E fuel self parameters with
    | (.returned logDeterminant, self2) =>
      let corrected := amplitudeCorrected E self2 logDeterminant
      let epsilon := normSquare corrected.2.rho_
      let value := reducedLogLikelihoodValue E corrected.1 epsilon
      (.returned (List.replicate 1 value),
       { corrected.2 with lastReducedLogLikelihood_ := value })
    | (.thrown e, self2) => (.thrown e, self2)
    | (.unfinished, self2) => (.unfinished, self2)

/-! ### The driver -/

/-- The method `normalizeInputSample`. -/
def normalizeInputSample (self : GeneralizedLinearModelAlgorithm R) :
    GeneralizedLinearModelAlgorithm R :=
  if self.normalizedInputSample_.getSize ≠ 0 then self
  else if !self.normalize_ then { self with normalizedInputSample_ := self.inputSample_ }
  else
    { self with
      normalizedInputSample_ :=
        ⟨self.inputTransformation_.outputDimension,
         self.inputSample_.data.map self.inputTransformation_.eval⟩ }

/-- The innermost loop of `computeF`, line 555: the column `index` is written from the values
of one basis function on the normalized sample. -/
def writeColumn (outputDimension outputMarginal index : Nat) (basisSample : List (List R))
    (F : DenseMatrix R) : DenseMatrix R :=
  (List.range basisSample.length).foldl
    (fun F i => F.set (outputMarginal + i * outputDimension) index
      ((basisSample.getD i []).getD 0 0)) F

/-- The loop of `computeF` over the functions of one basis, lines 551-556; the matrix and the
running column index. -/
def writeBasis (sample : NumericalSample R) (outputDimension outputMarginal : Nat)
    (localBasis : List (NumericalMathFunction R)) (state : DenseMatrix R × Nat) :
    DenseMatrix R × Nat :=
  localBasis.foldl
    (fun st f =>
      (writeColumn outputDimension outputMarginal st.2 (sample.data.map f.eval) st.1,
       st.2 + 1))
    state

/-- The method `computeF`. -/
def computeF (self : GeneralizedLinearModelAlgorithm R) : GeneralizedLinearModelAlgorithm R :=
  if self.F_.nbRows ≠ 0 then self
  else
    let outputDimension := self.outputSample_.getDimension
    let sampleSize := self.normalizedInputSample_.getSize
    let totalSize := (self.basisCollection_.map List.length).sum
    let F0 : DenseMatrix R := DenseMatrix.zero (sampleSize * outputDimension) totalSize
    if totalSize = 0 then { self with F_ := F0 }
    else
      { self with
        F_ := ((List.range outputDimension).foldl
          (fun st outputMarginal =>
            writeBasis self.normalizedInputSample_ outputDimension outputMarginal
              (self.basisCollection_.getD outputMarginal []) st)
          (F0, 0)).1 }

/-- The cached objective: a point already in the cache gets the cached value and the engine is
not called; another point is evaluated by `computeReducedLogLikelihood` and added. -/
def evaluateObjective (E : Collaborators R) (fuel : Nat) (cache : List (List R × List R))
    (self : GeneralizedLinearModelAlgorithm R) (point : List R) :
    Outcome (List R) × List (List R × List R) × GeneralizedLinearModelAlgorithm R :=
  match cache.lookup point with
  | some value => (.returned value, cache, self)
  | none =>
    match computeReducedLogLikelihood E fuel self point with
    | (.returned value, self1) => (.returned value, (point, value) :: cache, self1)
    | (.thrown e, self1) => (.thrown e, cache, self1)
    | (.unfinished, self1) => (.unfinished, cache, self1)

/-- The method `OptimizationSolver::run` on the cached objective: the script is followed to
its report. -/
def runScript (E : Collaborators R) (fuel : Nat) :
    SolverScript R → List (List R × List R) → GeneralizedLinearModelAlgorithm R →
      Outcome (List R × List R) × GeneralizedLinearModelAlgorithm R
  | .report optimalPoint optimalValue, _, self => (.returned (optimalPoint, optimalValue), self)
  | .evaluate point next, cache, self =>
    match evaluateObjective E fuel cache self point with
    | (.returned value, cache1, self1) => runScript E fuel (next value) cache1 self1
    | (.thrown e, _, self1) => (.thrown e, self1)
    | (.unfinished, _, self1) => (.unfinished, self1)

/-- The method `OptimizationProblemImplementation::setBounds`. -/
def OptimizationProblem.setBounds (problem : OptimizationProblem R) (bounds : Interval R) :
    Outcome Unit × OptimizationProblem R :=
  if bounds.getDimension > 0 ∧ bounds.getDimension ≠ problem.dimension_ then
    (.thrown .problemBoundsDimension, problem)
  else (.returned (), { problem with bounds_ := bounds })

/-- The method `getObjectiveFunction`, as far as it changes the engine. -/
def getObjectiveFunction (self : GeneralizedLinearModelAlgorithm R) :
    GeneralizedLinearModelAlgorithm R :=
  computeF (normalizeInputSample self)

/-- The method `maximizeReducedLogLikelihood`. -/
def maximizeReducedLogLikelihood (E : Collaborators R) (fuel : Nat)
    (self : GeneralizedLinearModelAlgorithm R) :
    Outcome R × GeneralizedLinearModelAlgorithm R :=
  let initialParameters := self.reducedCovarianceModel_.getParameter
  let self1 := getObjectiveFunction self
  if initialParameters.length = 0 then
    match evaluateObjective E fuel [] self1 initialParameters with
    | (.returned value, _, self2) => (.returned (value.getD 0 0), self2)
    | (.thrown e, _, self2) => (.thrown e, self2)
    | (.unfinished, _, self2) => (.unfinished, self2)
  else
    -- the problem: objective, direction, bounds
    let problem0 : OptimizationProblem R :=
      { dimension_ := self1.reducedCovarianceModel_.getParameter.length
        bounds_ := Interval.empty
        minimization_ := false }
    match problem0.setBounds self1.optimizationBounds_ with
    | (.thrown e, _) => (.thrown e, self1)
    | (.unfinished, _) => (.unfinished, self1)
    | (.returned (), problem) =>
      let self2 :=
        { self1 with
          solver_ := { self1.solver_ with startingPoint_ := initialParameters
                                          problem_ := problem } }
      match runScript E fuel (self2.solver_.script problem initialParameters) [] self2 with
      | (.thrown e, self3) => (.thrown e, self3)
      | (.unfinished, self3) => (.unfinished, self3)
      | (.returned (optimalPoint, optimalValue), self3) =>
        let self4 :=
          { self3 with
            solver_ := { self3.solver_ with optimalPoint_ := optimalPoint
                                            optimalValue_ := optimalValue } }
        let optimalLogLikelihood := optimalValue.getD 0 0
        if self4.lastReducedLogLikelihood_ ≠ optimalLogLikelihood then
          match computeReducedLogLikelihood E fuel self4 optimalPoint with
          | (.returned _, self5) => (.returned optimalLogLikelihood, self5)
          | (.thrown e, self5) => (.thrown e, self5)
          | (.unfinished, self5) => (.unfinished, self5)
        else (.returned optimalLogLikelihood, self4)

/-- Lines 604-619 of `run`: the loop over the output marginals; the running `cumulatedSize`,
the trend coefficients so far and the sample of the coefficients. -/
def partitionTrend (beta : List R) (basisSizes : List Nat) (dimension : Nat) :
    Nat × List (List R) × List (List R) :=
  (List.range basisSizes.length).foldl
    (fun st outputIndex =>
      let localBasisSize := basisSizes.getD outputIndex 0
      let inner := (List.range localBasisSize).foldl
        (fun (acc : Nat × List R × List (List R)) basisElement =>
          (acc.1 + 1,
           acc.2.1.set basisElement (beta.getD acc.1 0),
           acc.2.2.set acc.1 ((acc.2.2.getD acc.1 []).set outputIndex (beta.getD acc.1 0))))
        (st.1, List.replicate localBasisSize 0, st.2.2)
      (inner.1, st.2.1.set outputIndex inner.2.1, inner.2.2))
    (0, List.replicate basisSizes.length [], List.replicate beta.length
      (List.replicate dimension 0))

/-- The function built from a collection of functions and a sample of coefficients: the sum
of the coefficient points weighted by the first components of the functions. -/
def dualLinearCombination (functions : List (NumericalMathFunction R))
    (coefficients : List (List R)) (inputDimension outputDimension : Nat) :
    NumericalMathFunction R :=
  { inputDimension := inputDimension
    outputDimension := outputDimension
    eval := fun x =>
      (List.range outputDimension).map (fun i =>
        ((List.range functions.length).map (fun k =>
          (((functions.getD k ⟨0, 0, fun _ => []⟩).eval x).getD 0 0) *
            ((coefficients.getD k []).getD i 0))).sum) }

/-- Lines 621-646 of `run`: the metamodel. -/
def buildMetaModel (E : Collaborators R) (self : GeneralizedLinearModelAlgorithm R)
    (trendCoefficientsSample : List (List R)) : NumericalMathFunction R :=
  let allFunctionsCollection := self.basisCollection_.flatten
  let metaModel : NumericalMathFunction R :=
    if self.basisCollection_.length > 0 then
      dualLinearCombination allFunctionsCollection trendCoefficientsSample
        self.inputSample_.getDimension self.reducedCovarianceModel_.getDimension
    else if E.haveMuParser then
      ⟨self.covarianceModel_.getSpatialDimension, self.covarianceModel_.getDimension,
       fun _ => List.replicate self.covarianceModel_.getDimension 0⟩
    else
      ⟨self.reducedCovarianceModel_.getSpatialDimension,
       self.reducedCovarianceModel_.getDimension,
       fun _ => List.replicate self.reducedCovarianceModel_.getDimension 0⟩
  if self.normalize_ then
    ⟨self.inputTransformation_.inputDimension, metaModel.outputDimension,
     fun x => metaModel.eval (self.inputTransformation_.eval x)⟩
  else metaModel

/-- Modelled from the spec: the method `NumericalSample::computeRawMoment(2)`, which is not in
the sources at hand; the second raw moment of a sample is its mean of squares, by component. -/
def computeRawMoment2 (sample : NumericalSample R) : List R :=
  (List.range sample.dimension).map (fun i =>
    (sample.data.map (fun point => point.getD i 0 * point.getD i 0)).sum /
      (sample.getSize : R))

/-- Lines 648-661 of `run`: the residuals and the relative errors. -/
def computeResiduals (E : Collaborators R) (self : GeneralizedLinearModelAlgorithm R)
    (metaModel : NumericalMathFunction R) : List R × List R :=
  let outputDimension := self.outputSample_.getDimension
  let outputVariance := E.computeVariance self.outputSample_
  let mY := self.inputSample_.data.map metaModel.eval
  let squaredResiduals := computeRawMoment2
    ⟨self.outputSample_.dimension, List.zipWith subPoint self.outputSample_.data mY⟩
  let size := self.inputSample_.getSize
  ((List.range outputDimension).map (fun outputIndex =>
      E.sqrt (squaredResiduals.getD outputIndex 0 / (size : R))),
   (List.range outputDimension).map (fun outputIndex =>
      squaredResiduals.getD outputIndex 0 / outputVariance.getD outputIndex 0))

/-- Lines 600-679 of `run`: the result is assembled and the completion flag is set. -/
def storeEstimates (E : Collaborators R) (self : GeneralizedLinearModelAlgorithm R)
    (optimalLogLikelihood : R) : GeneralizedLinearModelAlgorithm R :=
  let trend := partitionTrend self.beta_ (self.basisCollection_.map List.length)
    self.reducedCovarianceModel_.getDimension
  let metaModel := buildMetaModel E self trend.2.2
  let errors := computeResiduals E self metaModel
  let transformation := if self.normalize_ then some self.inputTransformation_ else none
  if self.keepCholeskyFactor_ then
    let self1 :=
      if self.analyticalAmplitude_ then
        let sigma := self.reducedCovarianceModel_.getAmplitude.getD 0 0
        if self.method_ = 0 then
          { self with covarianceCholeskyFactor_ := self.covarianceCholeskyFactor_.scale sigma }
        else
          { self with
            covarianceCholeskyFactorHMatrix_ :=
              E.hmatScale self.covarianceCholeskyFactorHMatrix_ sigma }
      else self
    { self1 with
      result_ := some
        { inputSample := self1.inputSample_
          outputSample := self1.outputSample_
          metaModel := metaModel
          residuals := errors.1
          relativeErrors := errors.2
          basisCollection := self1.basisCollection_
          trendCoefficients := trend.2.1
          covarianceModel := self1.reducedCovarianceModel_
          optimalLogLikelihood := optimalLogLikelihood
          covarianceCholeskyFactor := some self1.covarianceCholeskyFactor_
          covarianceCholeskyFactorHMatrix := some self1.covarianceCholeskyFactorHMatrix_
          transformation := transformation }
      hasRun_ := true }
  else
    { self with
      result_ := some
        { inputSample := self.inputSample_
          outputSample := self.outputSample_
          metaModel := metaModel
          residuals := errors.1
          relativeErrors := errors.2
          basisCollection := self.basisCollection_
          trendCoefficients := trend.2.1
          covarianceModel := self.reducedCovarianceModel_
          optimalLogLikelihood := optimalLogLikelihood
          covarianceCholeskyFactor := none
          covarianceCholeskyFactorHMatrix := none
          transformation := transformation }
      hasRun_ := true }

/-- The method `run`. -/
def run (E : Collaborators R) (fuel : Nat) (self : GeneralizedLinearModelAlgorithm R) :
    Outcome Unit × GeneralizedLinearModelAlgorithm R :=
  if self.hasRun_ then (.returned (), self)
  else
    match maximizeReducedLogLikelihood E fuel (computeF (normalizeInputSample self)) with
    | (.returned optimalLogLikelihood, self1) =>
      (.returned (), storeEstimates E self1 optimalLogLikelihood)
    | (.thrown e, self1) => (.thrown e, self1)
    | (.unfinished, self1) => (.unfinished, self1)

/-- The method `getResult`. -/
def getResult (E : Collaborators R) (fuel : Nat) (self : GeneralizedLinearModelAlgorithm R) :
    Outcome (Option (GeneralizedLinearModelResult R)) × GeneralizedLinearModelAlgorithm R :=
  if !self.hasRun_ then
    match run E fuel self with
    | (.returned (), self1) => (.returned self1.result_, self1)
    | (.thrown e, self1) => (.thrown e, self1)
    | (.unfinished, self1) => (.unfinished, self1)
  else (.returned self.result_, self)

/-! ### The accessors -/

/-- The method `setData`. -/
def setData (self : GeneralizedLinearModelAlgorithm R)
    (inputSample outputSample : NumericalSample R) :
    Outcome Unit × GeneralizedLinearModelAlgorithm R :=
  if inputSample.getSize ≠ outputSample.getSize then (.thrown .sampleSizeMismatch, self)
  else (.returned (), { self with inputSample_ := inputSample, outputSample_ := outputSample })

/-- The accessor `getInputSample`. -/
def getInputSample (self : GeneralizedLinearModelAlgorithm R) : NumericalSample R :=
  self.inputSample_

/-- The accessor `getOutputSample`. -/
def getOutputSample (self : GeneralizedLinearModelAlgorithm R) : NumericalSample R :=
  self.outputSample_

/-- The loop of `setNoise`, lines 1003-1004, over the indices still to be read: whether some
entry makes `!(noise[i] >= 0.0)` true. -/
def noiseLoopThrows (noise : List R) : List Nat → Bool
  | [] => false
  | i :: indices => if ¬ (noise.getD i 0 ≥ 0) then true else noiseLoopThrows noise indices

/-- The method `setNoise`. -/
def setNoise (self : GeneralizedLinearModelAlgorithm R) (noise : List R) :
    Outcome Unit × GeneralizedLinearModelAlgorithm R :=
  let size := self.inputSample_.getSize
  if noise.length ≠ size then (.thrown .noiseSize, self)
  else if noiseLoopThrows noise (List.range size) then (.thrown .noiseSign, self)
  else (.returned (), { self with noise_ := noise })

/-- The accessor `getNoise`. -/
def getNoise (self : GeneralizedLinearModelAlgorithm R) : List R := self.noise_

/-- The method `setOptimizationBounds`. -/
def setOptimizationBounds (self : GeneralizedLinearModelAlgorithm R)
    (optimizationBounds : Interval R) :
    Outcome Unit × GeneralizedLinearModelAlgorithm R :=
  if ¬ (optimizationBounds.getDimension = self.reducedCovarianceModel_.getParameter.length) then
    (.thrown .optimizationBoundsDimension, self)
  else (.returned (), { self with optimizationBounds_ := optimizationBounds })

/-- The accessor `getOptimizationBounds`. -/
def getOptimizationBounds (self : GeneralizedLinearModelAlgorithm R) : Interval R :=
  self.optimizationBounds_

/-- The accessor `getOptimizeParameters`. -/
def getOptimizeParameters (self : GeneralizedLinearModelAlgorithm R) : Bool :=
  self.optimizeParameters_

/-- The method `setOptimizeParameters`. -/
def setOptimizeParameters (E : Collaborators R) (self : GeneralizedLinearModelAlgorithm R)
    (optimizeParameters : Bool) : Outcome Unit × GeneralizedLinearModelAlgorithm R :=
  if optimizeParameters ≠ self.optimizeParameters_ then
    setCovarianceModel E { self with optimizeParameters_ := optimizeParameters }
      self.covarianceModel_
  else (.returned (), self)

/-! ### What the evaluations of the objective leave alone -/

/-- The part of the engine that neither an evaluation of the objective nor a run of the solver
writes: the data, the basis, the full model, the flags, the noise, the bounds and the result;
of the reduced model, its dimensions and its active set; and the trend coefficients when
there is no basis. -/
def SameProblem (s t : GeneralizedLinearModelAlgorithm R) : Prop :=
  t.inputSample_ = s.inputSample_ ∧ t.outputSample_ = s.outputSample_ ∧
    t.inputTransformation_ = s.inputTransformation_ ∧ t.normalize_ = s.normalize_ ∧
    t.covarianceModel_ = s.covarianceModel_ ∧ t.basisCollection_ = s.basisCollection_ ∧
    t.keepCholeskyFactor_ = s.keepCholeskyFactor_ ∧ t.method_ = s.method_ ∧
    t.hasRun_ = s.hasRun_ ∧ t.optimizeParameters_ = s.optimizeParameters_ ∧
    t.analyticalAmplitude_ = s.analyticalAmplitude_ ∧ t.noise_ = s.noise_ ∧
    t.optimizationBounds_ = s.optimizationBounds_ ∧ t.result_ = s.result_ ∧
    t.reducedCovarianceModel_.spatialDimension_ = s.reducedCovarianceModel_.spatialDimension_ ∧
    t.reducedCovarianceModel_.dimension_ = s.reducedCovarianceModel_.dimension_ ∧
    t.reducedCovarianceModel_.activeParameter_ = s.reducedCovarianceModel_.activeParameter_ ∧
    (s.basisCollection_ = [] → t.beta_ = s.beta_)

/-- The invariant of the optimization bounds: whenever the parameter vector of the reduced
model is non-empty, the dimension of the bounds is its size. -/
def BoundsInvariant (self : GeneralizedLinearModelAlgorithm R) : Prop :=
  self.reducedCovarianceModel_.getParameter.length ≠ 0 →
    (getOptimizationBounds self).getDimension = self.reducedCovarianceModel_.getParameter.length

/-- The accessor `getOptimizationSolver`. -/
def getOptimizationSolver (self : GeneralizedLinearModelAlgorithm R) : OptimizationSolver R :=
  self.solver_

/-- The method `setOptimizationSolver`, lines 946-950: the solver is stored and the completion
flag is cleared. -/
def setOptimizationSolver (self : GeneralizedLinearModelAlgorithm R)
    (solver : OptimizationSolver R) : GeneralizedLinearModelAlgorithm R :=
  { self with solver_ := solver, hasRun_ := false }

/-! ### The class `OptimizationProblemImplementation` -/

/-- Modelled from the spec: the default `Function()`, which is not in the sources at hand: the
empty function, of input and output dimension zero. -/
def NumericalMathFunction.empty : NumericalMathFunction R := ⟨0, 0, fun _ => []⟩

/-- Modelled from the spec: the constructor `Interval(dimension)`, which is not in the sources
at hand: the unit cube of the given dimension, of which only the dimension matters here. -/
def Interval.ofDimension (dimension : Nat) : Interval R :=
  ⟨List.replicate dimension 0, List.replicate dimension 1⟩

/-- The member fields of the class `OptimizationProblemImplementation`. -/
structure OptimizationProblemImplementation (R : Type) where
  objective_ : NumericalMathFunction R
  equalityConstraint_ : NumericalMathFunction R
  inequalityConstraint_ : NumericalMathFunction R
  bounds_ : Interval R
  levelFunction_ : NumericalMathFunction R
  levelValue_ : R
  minimization_ : Bool
  dimension_ : Nat

/-- The method `clearLevelFunction`. -/
def OptimizationProblemImplementation.clearLevelFunction
    (self : OptimizationProblemImplementation R) : OptimizationProblemImplementation R :=
  { self with levelFunction_ := NumericalMathFunction.empty, levelValue_ := 0 }

/-- The accessor `getObjective`. -/
def OptimizationProblemImplementation.getObjective
    (self : OptimizationProblemImplementation R) : NumericalMathFunction R :=
  self.objective_

/-- The method `setObjective`, lines 103-118. -/
def OptimizationProblemImplementation.setObjective
    (self : OptimizationProblemImplementation R) (objective : NumericalMathFunction R) :
    OptimizationProblemImplementation R :=
  let cleared :=
    if objective.inputDimension ≠ self.objective_.inputDimension then
      -- clear constraints, bounds
      { self with
        equalityConstraint_ := NumericalMathFunction.empty
        inequalityConstraint_ := NumericalMathFunction.empty
        bounds_ := Interval.ofDimension 0 }
    else self
  { cleared.clearLevelFunction with
    objective_ := objective
    -- Update dimension_ member accordingly
    dimension_ := objective.inputDimension }

/-- The accessor `getEqualityConstraint`. -/
def OptimizationProblemImplementation.getEqualityConstraint
    (self : OptimizationProblemImplementation R) : NumericalMathFunction R :=
  self.equalityConstraint_

/-- The accessor `getInequalityConstraint`. -/
def OptimizationProblemImplementation.getInequalityConstraint
    (self : OptimizationProblemImplementation R) : NumericalMathFunction R :=
  self.inequalityConstraint_

/-- The accessor `getBounds`. -/
def OptimizationProblemImplementation.getBounds
    (self : OptimizationProblemImplementation R) : Interval R :=
  self.bounds_

/-- The method `setBounds`, lines 170-175. -/
def OptimizationProblemImplementation.setBounds
    (self : OptimizationProblemImplementation R) (bounds : Interval R) :
    Outcome Unit × OptimizationProblemImplementation R :=
  if bounds.getDimension > 0 ∧ bounds.getDimension ≠ self.dimension_ then
    (.thrown .problemBoundsDimension, self)
  else (.returned (), { self with bounds_ := bounds })

/-- The accessor `getDimension`. -/
def OptimizationProblemImplementation.getDimension
    (self : OptimizationProblemImplementation R) : Nat :=
  self.dimension_

/-- The method `setMinimization`. -/
def OptimizationProblemImplementation.setMinimization
    (self : OptimizationProblemImplementation R) (minimization : Bool) :
    OptimizationProblemImplementation R :=
  { self with minimization_ := minimization }

/-- The accessor `isMinimization`. -/
def OptimizationProblemImplementation.isMinimization
    (self : OptimizationProblemImplementation R) : Bool :=
  self.minimization_

/-- The default constructor `OptimizationProblemImplementation()`. -/
def OptimizationProblemImplementation.default : OptimizationProblemImplementation R :=
  { objective_ := NumericalMathFunction.empty
    equalityConstraint_ := NumericalMathFunction.empty
    inequalityConstraint_ := NumericalMathFunction.empty
    bounds_ := Interval.empty
    levelFunction_ := NumericalMathFunction.empty
    levelValue_ := 0
    minimization_ := true
    dimension_ := 0 }

/-- The two properties that keep the dimensions of a problem consistent: `getDimension()` is
the input dimension of the stored objective, and the stored bounds have dimension zero or
`getDimension()`. -/
def OptimizationProblemImplementation.Consistent
    (self : OptimizationProblemImplementation R) : Prop :=
  self.getDimension = self.getObjective.inputDimension ∧
    (self.getBounds.getDimension = 0 ∨ self.getBounds.getDimension = self.getDimension)

/-- The closed forms of the retry loop of the hierarchical backend: after `failures` failed
attempts the cumulated scaling is `startingScaling * (2 ^ failures - 1)`, the next scaling is
`startingScaling * 2 ^ failures` and the two tolerances are their initial values divided by
`10 ^ failures`. -/
def HMatLadder.ClosedForm (E : Collaborators R) (l : HMatLadder R) : Prop :=
  l.cumulatedScaling = E.resourceMap.StartingScaling * (2 ^ l.failures - 1) ∧
    l.scaling = E.resourceMap.StartingScaling * 2 ^ l.failures ∧
    l.hmatrixParameters.assemblyEpsilon =
      E.resourceMap.HMatrixAssemblyEpsilon / 10 ^ l.failures ∧
    l.hmatrixParameters.recompressionEpsilon =
      E.resourceMap.HMatrixRecompressionEpsilon / 10 ^ l.failures

/-! ### Two states of one engine -/

/-- Two states of one engine between which only what the evaluations of the objective write may
differ.  The data, the normalized sample, the design matrix, the basis, the noise, the backend
and the analytical-amplitude flag are the same, and so are the dimensions and the active set of
the reduced model, the sizes of its scale and of its amplitude and the values of its parameters
that are not active.  The values of the active parameters, the amplitude in
analytical-amplitude mode, `rho_`, `beta_` (with a basis), the two factors and the cached
log-likelihood are free, as are the members an evaluation never reads. -/
def SameFit (s t : GeneralizedLinearModelAlgorithm R) : Prop :=
  t.inputSample_ = s.inputSample_ ∧ t.normalizedInputSample_ = s.normalizedInputSample_ ∧
    t.outputSample_ = s.outputSample_ ∧ t.F_ = s.F_ ∧
    t.basisCollection_ = s.basisCollection_ ∧ t.noise_ = s.noise_ ∧
    t.method_ = s.method_ ∧ t.analyticalAmplitude_ = s.analyticalAmplitude_ ∧
    t.reducedCovarianceModel_.spatialDimension_ = s.reducedCovarianceModel_.spatialDimension_ ∧
    t.reducedCovarianceModel_.dimension_ = s.reducedCovarianceModel_.dimension_ ∧
    t.reducedCovarianceModel_.activeParameter_ = s.reducedCovarianceModel_.activeParameter_ ∧
    t.reducedCovarianceModel_.scale_.length = s.reducedCovarianceModel_.scale_.length ∧
    (∀ i, i ∉ s.reducedCovarianceModel_.activeParameter_ →
      t.reducedCovarianceModel_.scale_.getD i 0 = s.reducedCovarianceModel_.scale_.getD i 0) ∧
    (s.analyticalAmplitude_ = false →
      t.reducedCovarianceModel_.amplitude_.length =
          s.reducedCovarianceModel_.amplitude_.length ∧
        ∀ i, s.reducedCovarianceModel_.scale_.length + i ∉
            s.reducedCovarianceModel_.activeParameter_ →
          t.reducedCovarianceModel_.amplitude_.getD i 0 =
            s.reducedCovarianceModel_.amplitude_.getD i 0) ∧
    (s.basisCollection_ = [] → t.beta_ = s.beta_)

/-! ### The right-hand side of the equation of the whitened residual -/

/-- The point `y - F * beta` for the flat output data `y`, the design matrix `F` and the trend
coefficients `beta` of the engine; `y` when there is no trend basis (lines 825-846 subtract the
trend only when `basisCollection_.getSize() > 0`). -/
def trendResidual (self : GeneralizedLinearModelAlgorithm R) : List R :=
  if self.basisCollection_.length > 0 then
    subPoint self.outputSample_.getData (self.F_.mulPoint self.beta_)
  else self.outputSample_.getData

/-! ### What an evaluation by the dense backend leaves -/

/-- The value of `cumulatedSize` on entry of the pass `outputIndex = i` of the loop of lines
604-619 (and of `index` on entry of the pass `outputMarginal = i` of `computeF`): the sum of the
sizes of the bases before the `i`-th. -/
def blockOffset (basisSizes : List Nat) (i : Nat) : Nat := (basisSizes.take i).sum

/-- One pass through the body of the loop of lines 604-619 over the output marginals, the
function folded by `partitionTrend`. -/
def partitionTrendStep (beta : List R) (basisSizes : List Nat)
    (st : Nat × List (List R) × List (List R)) (outputIndex : Nat) :
    Nat × List (List R) × List (List R) :=
  let localBasisSize := basisSizes.getD outputIndex 0
  let inner := (List.range localBasisSize).foldl
    (fun (acc : Nat × List R × List (List R)) basisElement =>
      (acc.1 + 1,
       acc.2.1.set basisElement (beta.getD acc.1 0),
       acc.2.2.set acc.1 ((acc.2.2.getD acc.1 []).set outputIndex (beta.getD acc.1 0))))
    (st.1, List.replicate localBasisSize 0, st.2.2)
  (inner.1, st.2.1.set outputIndex inner.2.1, inner.2.2)

end Scalars

/-! ## A small concrete environment

Linear algebra restricted to identity matrices: the only matrix that is factorized is the
identity, its factor is the identity, and the triangular solves with that factor are exact. -/

section Toy

variable {R : Type} [LinearOrderedField R]

/-- A product of models: the spatial dimensions add up, the dimension is one. -/
def toyProduct (collection : List (CovarianceModel R)) : CovarianceModel R :=
  { spatialDimension_ := (collection.map (fun m => m.spatialDimension_)).sum
    dimension_ := 1
    scale_ := (collection.map (fun m => m.scale_)).flatten
    amplitude_ := [1]
    activeParameter_ := List.range ((collection.map (fun m => m.scale_.length)).sum + 1) }

/-- A tensorization of models: the spatial dimension of the first model, the dimensions add
up. -/
def toyTensorized (collection : List (CovarianceModel R)) : CovarianceModel R :=
  { spatialDimension_ := ((collection.head?).map (fun m => m.spatialDimension_)).getD 0
    dimension_ := (collection.map (fun m => m.dimension_)).sum
    scale_ := ((collection.head?).map (fun m => m.scale_)).getD []
    amplitude_ := (collection.map (fun m => m.amplitude_)).flatten
    activeParameter_ := [] }

/-- A factorization that succeeds on identity matrices only, of which the identity is the
factor. -/
def toyCholesky (A : SquareMatrix R) : Option (SquareMatrix R) :=
  if A.coeff = 1 then some A else none

/-- A factorization that succeeds on zero and identity matrices, each being its own factor. -/
def toySemidefiniteCholesky (A : SquareMatrix R) : Option (SquareMatrix R) :=
  if A.coeff = 0 ∨ A.coeff = 1 then some A else none

/-- A configuration with the regularization ladder starting at 1 and bounded by 10. -/
def toyResourceMap : ResourceMap R :=
  { OptimizeParameters := true
    UseAnalyticalAmplitudeEstimate := true
    UnbiasedVariance := false
    DefaultOptimizationLowerBound := 1 / 100
    DefaultOptimizationUpperBound := 100
    StartingScaling := 1
    MaximalScaling := 10
    MeanEpsilon := 1 / 1000
    LinearAlgebra := "LAPACK"
    DefaultOptimizationSolver := "TNC"
    HMatrixAssemblyEpsilon := 1 / 10000
    HMatrixRecompressionEpsilon := 1 / 10000 }

/-- Round stand-ins for the numerical constants. -/
def toySpecFunc : SpecFunc R :=
  { LogMinNumericalScalar := -708
    LogMaxNumericalScalar := 709
    MaxNumericalScalar := 10 ^ 308
    MinNumericalScalar := 1 / 10 ^ 308
    NumericalScalarEpsilon := 1 / 2 ^ 52 }

/-- A concrete environment for a white-noise covariance (the discretized matrix is the
identity), with the given square root and logarithm. -/
def toyCollaborators (sqrt log : R → R) : Collaborators R :=
  { resourceMap := toyResourceMap
    specFunc := toySpecFunc
    sqrt := sqrt
    log := log
    haveMuParser := true
    ProductCovarianceModel := toyProduct
    TensorizedCovarianceModel := toyTensorized
    discretize := fun _ sample => ⟨sample.getSize, 1⟩
    computeCholesky := toyCholesky
    solveLinearSystem := fun _ y => y
    solveLinearSystemMatrix := fun _ F => F
    leastSquares := fun Phi _ => List.replicate Phi.nbColumns 0
    hmatBuild := fun sample _ _ => ⟨⟨sample.getSize, 1⟩⟩
    hmatAssembleFactorize := fun H _ _ _ cumulatedScaling =>
      (toyCholesky (H.dense.addToDiagonal (fun _ => cumulatedScaling))).map (fun L => ⟨L⟩)
    hmatSolveLower := fun _ y => y
    hmatSolveLowerMatrix := fun _ F => F
    hmatGetDiagonal := fun H => H.dense.diagonal
    hmatScale := fun H a => ⟨H.dense.scale a⟩
    computeVariance := fun sample => List.replicate sample.dimension 1
    outOfBounds := fun _ _ => 0 }

/-- The environment of a degenerate covariance: the discretized matrix is zero, so that the
first factorization fails and the first regularization gives the identity. -/
def degenerateCollaborators (sqrt log : R → R) (maximalScaling : R) : Collaborators R :=
  { toyCollaborators sqrt log with
    resourceMap := { toyResourceMap with MaximalScaling := maximalScaling }
    discretize := fun _ sample => ⟨sample.getSize, 0⟩
    hmatBuild := fun sample _ _ => ⟨⟨sample.getSize, 0⟩⟩ }

/-- A scalar covariance model on the line with one scale and one amplitude, both active. -/
def toyModel : CovarianceModel R :=
  { spatialDimension_ := 1
    dimension_ := 1
    scale_ := [1]
    amplitude_ := [1]
    activeParameter_ := [0, 1] }

/-- An engine on given samples as a constructor leaves it, before any covariance model is
set: no basis, no noise, no normalization, dense backend, nothing computed. -/
def toyAlgorithm (inputSample outputSample : NumericalSample R) :
    GeneralizedLinearModelAlgorithm R :=
  { inputSample_ := inputSample
    normalizedInputSample_ := ⟨inputSample.dimension, []⟩
    inputTransformation_ := ⟨inputSample.dimension, inputSample.dimension, fun x => x⟩
    normalize_ := false
    outputSample_ := outputSample
    covarianceModel_ := toyModel
    reducedCovarianceModel_ := toyModel
    solver_ :=
      { startingPoint_ := []
        problem_ := ⟨0, ⟨[], []⟩, true⟩
        script := fun _ start => .evaluate start (fun v => .report start v)
        optimalPoint_ := []
        optimalValue_ := [] }
    optimizationBounds_ := ⟨[], []⟩
    beta_ := []
    rho_ := []
    F_ := ⟨0, 0, 0⟩
    result_ := none
    basisCollection_ := []
    covarianceCholeskyFactor_ := ⟨0, 0⟩
    covarianceCholeskyFactorHMatrix_ := ⟨⟨0, 0⟩⟩
    keepCholeskyFactor_ := false
    method_ := 0
    hasRun_ := false
    optimizeParameters_ := true
    analyticalAmplitude_ := false
    lastReducedLogLikelihood_ := -708
    noise_ := [] }

/-- The engine on the data `[[0],[1],[2]]` and `[[0],[1],[0]]` in analytical-amplitude mode, as
`setCovarianceModel` and `getObjectiveFunction` leave it: the amplitude is out of the active
parameters and equal to one, the input sample is normalized. -/
def toyAnalyticalAlgorithm : GeneralizedLinearModelAlgorithm R :=
  { toyAlgorithm ⟨1, [[0], [1], [2]]⟩ ⟨1, [[0], [1], [0]]⟩ with
    normalizedInputSample_ := ⟨1, [[0], [1], [2]]⟩
    F_ := ⟨3, 0, 0⟩
    reducedCovarianceModel_ := { toyModel with activeParameter_ := [0] }
    optimizationBounds_ := ⟨[1 / 100], [100]⟩
    analyticalAmplitude_ := true }

/-- The toy environment with the unbiased-variance option on. -/
def toyUnbiasedCollaborators (sqrt log : R → R) : Collaborators R :=
  { toyCollaborators sqrt log with
    resourceMap := { toyResourceMap with UnbiasedVariance := true } }

/-- The engine on the data `[[0],[1],[2]]` and `[[-1],[1],[0]]` with a constant trend, in
analytical-amplitude mode, as `setCovarianceModel` and `getObjectiveFunction` leave it: the
design matrix is one column of ones.  The outputs add up to zero, so that the zero trend
coefficient of the toy least squares is the exact one. -/
def toyTrendAlgorithm : GeneralizedLinearModelAlgorithm R :=
  { toyAlgorithm ⟨1, [[0], [1], [2]]⟩ ⟨1, [[-1], [1], [0]]⟩ with
    normalizedInputSample_ := ⟨1, [[0], [1], [2]]⟩
    basisCollection_ := [[⟨1, 1, fun _ => [1]⟩]]
    F_ := ⟨3, 1, fun _ _ => 1⟩
    reducedCovarianceModel_ := { toyModel with activeParameter_ := [0] }
    optimizationBounds_ := ⟨[1 / 100], [100]⟩
    analyticalAmplitude_ := true }

end Toy

/-- The toy environment over the rationals, with the rational square root and the bound
`x - 1` in place of the logarithm. -/
def exampleCollaborators : Collaborators ℚ := toyCollaborators Rat.sqrt (fun x => x - 1)

/-- The scalar model over the rationals. -/
def exampleModel : CovarianceModel ℚ := toyModel

/-- An engine on the data `[[0],[1],[2]]` and `[[0],[1],[0]]` of the scenario of the spec. -/
def exampleAlgorithm : GeneralizedLinearModelAlgorithm ℚ :=
  toyAlgorithm ⟨1, [[0], [1], [2]]⟩ ⟨1, [[0], [1], [0]]⟩

/-- An engine on a sample of the plane with two outputs. -/
def examplePlaneAlgorithm : GeneralizedLinearModelAlgorithm ℚ :=
  toyAlgorithm ⟨2, [[0, 0], [1, 0], [0, 1]]⟩ ⟨2, [[0, 1], [1, 0], [0, 0]]⟩

/-- The example engine once the input sample is normalized and the design matrix is built, as
`getObjectiveFunction` leaves it. -/
def exampleReady : GeneralizedLinearModelAlgorithm ℚ := getObjectiveFunction exampleAlgorithm

/-- The degenerate environment over the rationals, for a maximal scaling. -/
def exampleDegenerate (maximalScaling : ℚ) : Collaborators ℚ :=
  degenerateCollaborators Rat.sqrt (fun x => x - 1) maximalScaling

/-- The degenerate environment over the rationals with a factorization that accepts the zero
matrix, of which zero is a factor. -/
def exampleSemidefinite : Collaborators ℚ :=
  { exampleDegenerate 10 with computeCholesky := toySemidefiniteCholesky }

/-- The semidefinite environment in which the hierarchical factorization accepts the zero
matrix too, so that both backends hold a factor with the diagonal `[0, 0, 0]`. -/
def exampleSemidefiniteHMat : Collaborators ℚ :=
  { exampleSemidefinite with
    hmatAssembleFactorize := fun H _ _ _ cumulatedScaling =>
      (toySemidefiniteCholesky (H.dense.addToDiagonal (fun _ => cumulatedScaling))).map
        (fun L => ⟨L⟩) }

/-- The toy environment with the entry `UseAnalyticalAmplitudeEstimate` switched off. -/
def exampleFlagOff : Collaborators ℚ :=
  { exampleCollaborators with
    resourceMap := { toyResourceMap with UseAnalyticalAmplitudeEstimate := false } }

/-- The example engine with no active parameter in the reduced model, as `setCovarianceModel`
leaves it when the optimization of the parameters is disabled. -/
def exampleFixed : GeneralizedLinearModelAlgorithm ℚ :=
  { exampleAlgorithm with
    reducedCovarianceModel_ := exampleModel.setActiveParameter []
    optimizeParameters_ := false }

/-- An engine on four points whose outputs are all one: without trend the metamodel is zero,
the squared residuals add up to 4 and their mean is 1. -/
def exampleFour : GeneralizedLinearModelAlgorithm ℚ :=
  toyAlgorithm ⟨1, [[0], [1], [2], [3]]⟩ ⟨1, [[1], [1], [1], [1]]⟩

/-- A model on the line (unit spatial dimension) with two outputs: one scale, two
amplitudes. -/
def exampleLineVector : CovarianceModel ℚ :=
  { spatialDimension_ := 1
    dimension_ := 2
    scale_ := [1]
    amplitude_ := [1, 1]
    activeParameter_ := [0, 1, 2] }

/-- The analytical-amplitude engine with another cached state: another scale and amplitude in
the reduced model, another `rho_`, another dense factor and another cached log-likelihood. -/
def exampleStale : GeneralizedLinearModelAlgorithm ℚ :=
  { (toyAnalyticalAlgorithm : GeneralizedLinearModelAlgorithm ℚ) with
    reducedCovarianceModel_ :=
      { spatialDimension_ := 1
        dimension_ := 1
        scale_ := [7]
        amplitude_ := [3]
        activeParameter_ := [0] }
    rho_ := [5, 5, 5]
    covarianceCholeskyFactor_ := ⟨3, 2⟩
    lastReducedLogLikelihood_ := 9 }

/-- An engine on four points with outputs all equal to 2, in analytical-amplitude mode as
`setCovarianceModel` and `getObjectiveFunction` leave it, and keeping the factor: with the
white-noise correlation the whitened residual has squared norm 16 and the analytical amplitude
is `sqrt(16 / 4) = 2`. -/
def exampleScaled : GeneralizedLinearModelAlgorithm ℚ :=
  { toyAlgorithm ⟨1, [[0], [1], [2], [3]]⟩ ⟨1, [[2], [2], [2], [2]]⟩ with
    normalizedInputSample_ := ⟨1, [[0], [1], [2], [3]]⟩
    F_ := ⟨4, 0, 0⟩
    reducedCovarianceModel_ := { toyModel with activeParameter_ := [0] }
    optimizationBounds_ := ⟨[1 / 100], [100]⟩
    keepCholeskyFactor_ := true
    analyticalAmplitude_ := true }

/-- An engine on the sample of the plane with two outputs, a trend basis of two functions (the
constant and the first coordinate) for the first output and of one function (the constant) for
the second, a reduced model of dimension 2 and the trend coefficients `[5, 6, 7]`. -/
def exampleTwoTrends : GeneralizedLinearModelAlgorithm ℚ :=
  { examplePlaneAlgorithm with
    basisCollection_ :=
      [[⟨2, 1, fun _ => [1]⟩, ⟨2, 1, fun x => [x.getD 0 0]⟩], [⟨2, 1, fun _ => [1]⟩]]
    reducedCovarianceModel_ := { exampleModel with spatialDimension_ := 2, dimension_ := 2 }
    beta_ := [5, 6, 7] }

/-- The toy environment with a regularization ladder that starts at `-2` and is bounded by
`-1`, and with solves that are exact for the multiples of the identity (the right-hand side is
divided by the first diagonal entry of the factor). -/
def exampleNegativeLadder : Collaborators ℚ :=
  { exampleCollaborators with
    resourceMap := { toyResourceMap with StartingScaling := -2, MaximalScaling := -1 }
    solveLinearSystem := fun L y => divPoint y (L.diagonalEntry 0)
    solveLinearSystemMatrix := fun L F =>
      ⟨F.nbRows, F.nbColumns, fun i j => F.coeff i j / L.diagonalEntry 0⟩ }

/-- The example engine, ready for an evaluation of the objective, holding the factor `2 * I`
of an earlier factorization. -/
def exampleTwice : GeneralizedLinearModelAlgorithm ℚ :=
  { exampleReady with covarianceCholeskyFactor_ := ⟨3, Matrix.diagonal (fun _ => 2)⟩ }

/-- The example engine, ready for an evaluation of the objective, holding the factor `I` of an
earlier factorization. -/
def exampleOnce : GeneralizedLinearModelAlgorithm ℚ :=
  { exampleReady with covarianceCholeskyFactor_ := ⟨3, Matrix.diagonal (fun _ => 1)⟩ }

/-- The example engine with outputs all zero, ready for an evaluation of the objective: the
whitened residual of the white-noise covariance is zero. -/
def exampleZero : GeneralizedLinearModelAlgorithm ℚ :=
  getObjectiveFunction (toyAlgorithm ⟨1, [[0], [1], [2]]⟩ ⟨1, [[0], [0], [0]]⟩)

section Theorems

variable {R : Type} [LinearOrderedField R]

theorem reduceCovarianceModel_dimensions (E : Collaborators R) (optimizeParameters : Bool)
    (full : CovarianceModel R) :
    (reduceCovarianceModel E optimizeParameters full).1.getSpatialDimension =
        full.getSpatialDimension ∧
      (reduceCovarianceModel E optimizeParameters full).1.getDimension = full.getDimension := by
  unfold reduceCovarianceModel
  split_ifs
  · exact ⟨rfl, rfl⟩
  · split <;> exact ⟨rfl, rfl⟩
  · exact ⟨rfl, rfl⟩
  · exact ⟨rfl, rfl⟩

omit [LinearOrderedField R] in
theorem fullCovarianceModel_eq_none_iff (E : Collaborators R) (inputDimension dimension : Nat)
    (cm : CovarianceModel R) :
    fullCovarianceModel E inputDimension dimension cm = none ↔
      ¬ ((cm.getSpatialDimension = inputDimension ∧
            (cm.getDimension = dimension ∨ cm.getDimension = 1)) ∨
          (cm.getSpatialDimension = 1 ∧ cm.getDimension = 1)) := by
  unfold fullCovarianceModel
  simp only [CovarianceModel.getDimension, CovarianceModel.getSpatialDimension]
  split_ifs with h1 h2 h3 h4 <;>
    simp only [Bool.and_eq_true, beq_iff_eq, not_and] at h1 <;>
    try simp only [Bool.and_eq_true, beq_iff_eq, not_and] at h2
  all_goals try simp only [Bool.and_eq_true, beq_iff_eq, not_and] at h3
  all_goals try simp only [Bool.and_eq_true, beq_iff_eq, not_and] at h4
  all_goals constructor
  all_goals intro h
  all_goals first
    | exact h.elim
    | rfl
    | omega

/-- Claim C1. For every covariance model accepted by `setCovarianceModel`, the stored full
model and the reduced model both have the spatial dimension of the input sample and the
dimension of the output sample, assuming that a product of `n` scalar models of unit spatial
dimension has spatial dimension `n` and dimension one, and that a tensorization of `d` scalar
models keeps the spatial dimension and has dimension `d` (`n` and `d` being the dimensions of
the problem).  The samples themselves are not touched. -/
theorem setCovarianceModel_dimensions (E : Collaborators R)
    (self : GeneralizedLinearModelAlgorithm R) (covarianceModel : CovarianceModel R)
    (hProduct : ∀ m : CovarianceModel R, m.getSpatialDimension = 1 → m.getDimension = 1 →
      (E.ProductCovarianceModel
          (CovarianceModelCollection self.inputSample_.getDimension m)).getSpatialDimension =
        self.inputSample_.getDimension ∧
      (E.ProductCovarianceModel
          (CovarianceModelCollection self.inputSample_.getDimension m)).getDimension = 1)
    (hTensorized : ∀ m : CovarianceModel R, m.getDimension = 1 →
      (E.TensorizedCovarianceModel
          (CovarianceModelCollection self.outputSample_.getDimension m)).getSpatialDimension =
        m.getSpatialDimension ∧
      (E.TensorizedCovarianceModel
          (CovarianceModelCollection self.outputSample_.getDimension m)).getDimension =
        self.outputSample_.getDimension)
    (hAccepted : (setCovarianceModel E self covarianceModel).1 = Outcome.returned ()) :
    (getCovarianceModel (setCovarianceModel E self covarianceModel).2).getSpatialDimension =
        self.inputSample_.getDimension ∧
      (getCovarianceModel (setCovarianceModel E self covarianceModel).2).getDimension =
        self.outputSample_.getDimension ∧
      (getReducedCovarianceModel
          (setCovarianceModel E self covarianceModel).2).getSpatialDimension =
        self.inputSample_.getDimension ∧
      (getReducedCovarianceModel (setCovarianceModel E self covarianceModel).2).getDimension =
        self.outputSample_.getDimension ∧
      (setCovarianceModel E self covarianceModel).2.inputSample_ = self.inputSample_ ∧
      (setCovarianceModel E self covarianceModel).2.outputSample_ = self.outputSample_ := by
  have key : ∀ full : CovarianceModel R,
      fullCovarianceModel E self.inputSample_.getDimension self.outputSample_.getDimension
          covarianceModel = some full →
        full.getSpatialDimension = self.inputSample_.getDimension ∧
          full.getDimension = self.outputSample_.getDimension := by
    intro full hfull
    unfold fullCovarianceModel at hfull
    dsimp only at hfull
    split_ifs at hfull with h1 h2 h3 h4
    · simp only [Bool.and_eq_true, beq_iff_eq] at h1
      cases hfull
      exact ⟨h1.1.symm, h1.2.symm⟩
    · simp only [Bool.and_eq_true, beq_iff_eq] at h2
      cases hfull
      exact ⟨(hProduct _ h2.1.1 h2.2).1, by rw [(hProduct _ h2.1.1 h2.2).2, h2.1.2, h2.2]⟩
    · simp only [Bool.and_eq_true, beq_iff_eq] at h3
      cases hfull
      exact ⟨by rw [(hTensorized _ h3.2).1, h3.1], (hTensorized _ h3.2).2⟩
    · simp only [Bool.and_eq_true, beq_iff_eq] at h4
      cases hfull
      have hp := hProduct _ h4.1 h4.2
      exact ⟨by rw [(hTensorized _ hp.2).1, hp.1], (hTensorized _ hp.2).2⟩
  cases hfull : fullCovarianceModel E self.inputSample_.getDimension
      self.outputSample_.getDimension covarianceModel with
  | none => simp [setCovarianceModel, hfull] at hAccepted
  | some full =>
    have hk := key full hfull
    have hr := reduceCovarianceModel_dimensions E self.optimizeParameters_ full
    simp only [setCovarianceModel, hfull, getCovarianceModel, getReducedCovarianceModel]
    exact ⟨hk.1, hk.2, hr.1.trans hk.1, hr.2.trans hk.2, trivial, trivial⟩

/-- Witness of claim C1: a scalar model on the line is accepted for a problem with two inputs
and two outputs (case 4), with a product and a tensorization that add the dimensions up. -/
theorem setCovarianceModel_dimensions_witness :
    (getCovarianceModel
        (setCovarianceModel exampleCollaborators examplePlaneAlgorithm
          exampleModel).2).getSpatialDimension = 2 ∧
      (getReducedCovarianceModel
        (setCovarianceModel exampleCollaborators examplePlaneAlgorithm
          exampleModel).2).getDimension = 2 := by
  have h := setCovarianceModel_dimensions exampleCollaborators examplePlaneAlgorithm
    exampleModel
    (by
      intro m h1 h2
      simp only [CovarianceModel.getSpatialDimension, CovarianceModel.getDimension] at h1 h2
      simp [exampleCollaborators, toyCollaborators, toyProduct, CovarianceModelCollection,
        examplePlaneAlgorithm, toyAlgorithm, NumericalSample.getDimension,
        CovarianceModel.getSpatialDimension, CovarianceModel.getDimension, h1,
        List.replicate])
    (by
      intro m h1
      simp only [CovarianceModel.getDimension] at h1
      simp [exampleCollaborators, toyCollaborators, toyTensorized, CovarianceModelCollection,
        examplePlaneAlgorithm, toyAlgorithm, NumericalSample.getDimension,
        CovarianceModel.getSpatialDimension, CovarianceModel.getDimension, h1,
        List.replicate])
    (by
      simp [setCovarianceModel, fullCovarianceModel, examplePlaneAlgorithm, toyAlgorithm,
        exampleModel, toyModel, NumericalSample.getDimension,
        CovarianceModel.getSpatialDimension, CovarianceModel.getDimension])
  exact ⟨h.1, h.2.2.2.1⟩

/-- Claim C2. `setCovarianceModel` throws the dimension-mismatch error exactly when none of
the four cases applies, that is unless the spatial dimension of the model is the input
dimension and its dimension is the output dimension or one, or both its spatial dimension and
its dimension are one; it returns otherwise; and when it throws, the record of the engine (the
full model, the reduced model, the analytical-amplitude flag and the optimization bounds among
its fields) is the record before the call. -/
theorem setCovarianceModel_throws_iff (E : Collaborators R)
    (self : GeneralizedLinearModelAlgorithm R) (covarianceModel : CovarianceModel R) :
    ((setCovarianceModel E self covarianceModel).1 =
        Outcome.thrown Error.covarianceModelDimension ↔
      ¬ ((covarianceModel.getSpatialDimension = self.inputSample_.getDimension ∧
            (covarianceModel.getDimension = self.outputSample_.getDimension ∨
              covarianceModel.getDimension = 1)) ∨
          (covarianceModel.getSpatialDimension = 1 ∧ covarianceModel.getDimension = 1))) ∧
      ((setCovarianceModel E self covarianceModel).1 ≠
          Outcome.thrown Error.covarianceModelDimension →
        (setCovarianceModel E self covarianceModel).1 = Outcome.returned ()) ∧
      ((setCovarianceModel E self covarianceModel).1 =
          Outcome.thrown Error.covarianceModelDimension →
        (setCovarianceModel E self covarianceModel).2 = self ∧
          (setCovarianceModel E self covarianceModel).2.covarianceModel_ =
            self.covarianceModel_ ∧
          (setCovarianceModel E self covarianceModel).2.reducedCovarianceModel_ =
            self.reducedCovarianceModel_ ∧
          (setCovarianceModel E self covarianceModel).2.analyticalAmplitude_ =
            self.analyticalAmplitude_ ∧
          (setCovarianceModel E self covarianceModel).2.optimizationBounds_ =
            self.optimizationBounds_) := by
  rw [← fullCovarianceModel_eq_none_iff E]
  cases hfull : fullCovarianceModel E self.inputSample_.getDimension
      self.outputSample_.getDimension covarianceModel with
  | none => simp [setCovarianceModel, hfull]
  | some full => simp [setCovarianceModel, hfull]

/-! ### The regularization ladder of the dense backend -/

omit [LinearOrderedField R] in
theorem SquareMatrix.ext_coeff {n : Nat} {A B : Matrix (Fin n) (Fin n) R} (h : A = B) :
    (⟨n, A⟩ : SquareMatrix R) = ⟨n, B⟩ := by
  rw [h]

theorem SquareMatrix.addToDiagonal_zero (C : SquareMatrix R) :
    C.addToDiagonal (fun _ => 0) = C := by
  obtain ⟨n, A⟩ := C
  simp only [SquareMatrix.addToDiagonal]
  apply SquareMatrix.ext_coeff
  funext i j
  simp

theorem SquareMatrix.addToDiagonal_add (C : SquareMatrix R) (d e : Nat → R) :
    (C.addToDiagonal d).addToDiagonal e = C.addToDiagonal (fun i => d i + e i) := by
  obtain ⟨n, A⟩ := C
  simp only [SquareMatrix.addToDiagonal]
  apply SquareMatrix.ext_coeff
  funext i j
  by_cases h : i = j
  · simp [h, add_assoc]
  · simp [h]

theorem lapackLadderStart_invariant (E : Collaborators R)
    (self : GeneralizedLinearModelAlgorithm R) :
    (lapackLadderStart E self).Invariant E E.resourceMap.StartingScaling
      (lapackCovarianceMatrix E self) := by
  refine ⟨?_, ?_, ?_, ?_, ?_⟩
  · simp [lapackLadderStart]
  · simp [lapackLadderStart]
  · simp [lapackLadderStart]
  · simp [lapackLadderStart, SquareMatrix.addToDiagonal_zero]
  · simp [lapackLadderStart]

theorem lapackLadderStep_invariant (E : Collaborators R) (s : R) (C0 : SquareMatrix R)
    (l : LapackLadder R) (h : l.Invariant E s C0) (hc : l.continuationCondition = true) :
    (lapackLadderStep E l).Invariant E s C0 := by
  obtain ⟨h1, h2, h3, h4, -⟩ := h
  unfold lapackLadderStep
  cases hchol : E.computeCholesky l.C with
  | some L =>
    refine ⟨h1, h2, ?_, h4, fun _ => hchol⟩
    simp [h3, hc]
  | none =>
    refine ⟨?_, ?_, ?_, ?_, ?_⟩
    · simp only [h1, h2, pow_succ]; ring
    · simp only [h2, pow_succ]; ring
    · simp [h3, hc]
    · simp only [h4, SquareMatrix.addToDiagonal_add]
    · intro hfalse
      simp [hc] at hfalse

theorem lapackLadderLoop_invariant (E : Collaborators R) (s M : R) (C0 : SquareMatrix R) :
    ∀ (fuel : Nat) (l l1 : LapackLadder R), l.Invariant E s C0 →
      lapackLadderLoop E M fuel l = some l1 →
      l1.Invariant E s C0 ∧ ¬ (l1.continuationCondition = true ∧ l1.cumulatedScaling < M) := by
  intro fuel
  induction fuel with
  | zero =>
    intro l l1 hinv hloop
    unfold lapackLadderLoop at hloop
    split_ifs at hloop with hcond
    cases hloop
    exact ⟨hinv, by simpa using hcond⟩
  | succ fuel ih =>
    intro l l1 hinv hloop
    unfold lapackLadderLoop at hloop
    split_ifs at hloop with hcond
    · simp only [Bool.and_eq_true, decide_eq_true_eq] at hcond
      exact ih _ _ (lapackLadderStep_invariant E s C0 l hinv hcond.1) hloop
    · cases hloop
      exact ⟨hinv, by simpa using hcond⟩

theorem ladder_bound_mono (s : R) (hs : 0 < s) {j k : Nat} (hjk : j ≤ k) :
    s * (2 ^ j - 1) ≤ s * (2 ^ k - 1) := by
  have h2 : (2 : R) ^ j ≤ 2 ^ k := pow_le_pow_right₀ (by norm_num) hjk
  have := mul_le_mul_of_nonneg_left h2 hs.le
  linarith

theorem lapackLadderLoop_terminates (E : Collaborators R) (s M : R) (C0 : SquareMatrix R)
    (hs : 0 < s) (K : Nat) (hK : M ≤ s * (2 ^ K - 1)) :
    ∀ (fuel : Nat) (l : LapackLadder R), l.Invariant E s C0 →
      l.continuationCondition = true → l.failures ≤ K → K ≤ l.failures + fuel →
      ∃ l1, lapackLadderLoop E M fuel l = some l1 ∧ l1.attempts ≤ K := by
  intro fuel
  induction fuel with
  | zero =>
    intro l hinv hc hf hfuel
    have hcond : ¬ (l.cumulatedScaling < M) := by
      have hfK : l.failures = K := by omega
      rw [hinv.1, hfK]
      exact not_lt.mpr hK
    refine ⟨l, ?_, ?_⟩
    · simp [lapackLadderLoop, hcond]
    · rw [hinv.2.2.1, hc]; simpa using hf
  | succ fuel ih =>
    intro l hinv hc hf hfuel
    by_cases hcond : l.cumulatedScaling < M
    · have hlt : l.failures < K := by
        by_contra hge
        have := ladder_bound_mono s hs (not_lt.mp hge)
        rw [hinv.1] at hcond
        linarith
      have hstep := lapackLadderStep_invariant E s C0 l hinv hc
      have hunfold : lapackLadderLoop E M (fuel + 1) l =
          lapackLadderLoop E M fuel (lapackLadderStep E l) := by
        simp [lapackLadderLoop, hc, hcond]
      rw [hunfold]
      cases hchol : E.computeCholesky l.C with
      | some L =>
        have hfalse : (lapackLadderStep E l).continuationCondition = false := by
          simp [lapackLadderStep, hchol]
        have hatt : (lapackLadderStep E l).attempts = l.failures + 1 := by
          simp [lapackLadderStep, hchol, hinv.2.2.1, hc]
        refine ⟨lapackLadderStep E l, ?_, by omega⟩
        cases fuel <;> simp [lapackLadderLoop, hfalse]
      | none =>
        have htrue : (lapackLadderStep E l).continuationCondition = true := by
          simp [lapackLadderStep, hchol, hc]
        have hfail : (lapackLadderStep E l).failures = l.failures + 1 := by
          simp [lapackLadderStep, hchol]
        exact ih _ hstep htrue (by omega) (by omega)
    · refine ⟨l, ?_, ?_⟩
      · simp [lapackLadderLoop, hcond]
      · rw [hinv.2.2.1, hc]; simpa using hf

theorem exists_least_ladder_bound [Archimedean R] (s M : R) (hs : 0 < s) :
    ∃ K : Nat, IsLeast {k : Nat | M ≤ s * (2 ^ k - 1)} K := by
  have hex : ∃ k : Nat, M ≤ s * (2 ^ k - 1) := by
    obtain ⟨n, hn⟩ := exists_nat_gt (M / s)
    refine ⟨n, ?_⟩
    have h1 : (n : R) + 1 ≤ 2 ^ n := by
      have : n + 1 ≤ 2 ^ n := Nat.lt_two_pow n
      exact_mod_cast this
    have h2 : M < s * n := by
      have := (div_lt_iff₀ hs).mp hn
      linarith [mul_comm (n : R) s]
    have h3 : s * n ≤ s * (2 ^ n - 1) := by
      apply mul_le_mul_of_nonneg_left _ hs.le
      linarith
    linarith
  classical
  exact ⟨Nat.find hex, Nat.find_spec hex, fun k hk => Nat.find_min' hex hk⟩

theorem lapackLadderStep_scaling (E : Collaborators R) (s : R) (l : LapackLadder R)
    (h1 : l.cumulatedScaling = s * (2 ^ l.failures - 1)) (h2 : l.scaling = s * 2 ^ l.failures) :
    (lapackLadderStep E l).cumulatedScaling = s * (2 ^ (lapackLadderStep E l).failures - 1) ∧
      (lapackLadderStep E l).scaling = s * 2 ^ (lapackLadderStep E l).failures := by
  unfold lapackLadderStep
  cases E.computeCholesky l.C with
  | some L => exact ⟨h1, h2⟩
  | none =>
    constructor
    · simp only [h1, h2, pow_succ]; ring
    · simp only [h2, pow_succ]; ring

theorem lapackLadderStep_iterate_scaling (E : Collaborators R)
    (self : GeneralizedLinearModelAlgorithm R) (j : Nat) :
    ((lapackLadderStep E)^[j] (lapackLadderStart E self)).cumulatedScaling =
        E.resourceMap.StartingScaling *
          (2 ^ ((lapackLadderStep E)^[j] (lapackLadderStart E self)).failures - 1) ∧
      ((lapackLadderStep E)^[j] (lapackLadderStart E self)).scaling =
        E.resourceMap.StartingScaling *
          2 ^ ((lapackLadderStep E)^[j] (lapackLadderStart E self)).failures := by
  induction j with
  | zero => simp [lapackLadderStart]
  | succ j ih =>
    rw [Function.iterate_succ_apply']
    exact lapackLadderStep_scaling E _ _ ih.1 ih.2

/-- Claim C7. Termination of the regularization ladder of the dense backend: for a starting
scaling `s > 0`, any maximal scaling `M` and any behaviour of the factorization, with `K` the
least `k` such that `s * (2 ^ k - 1) >= M`, the retry loop run with a fuel of at least `K`
exits after at most `K + 1` factorization attempts; after `k` failed attempts (at the exit
and after any number of passes through the body of the loop) the cumulated scaling is
`s * (2 ^ k - 1)` and the scaling is `s * 2 ^ k`; the function does not go on looping, and if
every attempt failed it throws the numerical-instability error. -/
theorem lapack_ladder_terminates [Archimedean R] (E : Collaborators R)
    (self : GeneralizedLinearModelAlgorithm R) (hs : 0 < E.resourceMap.StartingScaling) :
    ∃ K : Nat,
      IsLeast {k : Nat | E.resourceMap.MaximalScaling ≤
        E.resourceMap.StartingScaling * (2 ^ k - 1)} K ∧
      (∀ j : Nat,
        ((lapackLadderStep E)^[j] (lapackLadderStart E self)).cumulatedScaling =
            E.resourceMap.StartingScaling *
              (2 ^ ((lapackLadderStep E)^[j] (lapackLadderStart E self)).failures - 1) ∧
          ((lapackLadderStep E)^[j] (lapackLadderStart E self)).scaling =
            E.resourceMap.StartingScaling *
              2 ^ ((lapackLadderStep E)^[j] (lapackLadderStart E self)).failures) ∧
      ∀ fuel : Nat, K ≤ fuel →
        ∃ l : LapackLadder R,
          lapackLadderLoop E E.resourceMap.MaximalScaling fuel (lapackLadderStart E self) =
            some l ∧
          l.attempts ≤ K + 1 ∧
          l.cumulatedScaling = E.resourceMap.StartingScaling * (2 ^ l.failures - 1) ∧
          l.scaling = E.resourceMap.StartingScaling * 2 ^ l.failures ∧
          l.attempts = l.failures + (if l.continuationCondition then 0 else 1) ∧
          (computeLapackLogDeterminantCholesky E fuel self).1 ≠ Outcome.unfinished ∧
          (l.attempts = l.failures →
            (computeLapackLogDeterminantCholesky E fuel self).1 =
              Outcome.thrown Error.lapackCholesky) := by
  obtain ⟨K, hK⟩ := exists_least_ladder_bound E.resourceMap.StartingScaling
    E.resourceMap.MaximalScaling hs
  refine ⟨K, hK, lapackLadderStep_iterate_scaling E self, ?_⟩
  intro fuel hfuel
  have hstart := lapackLadderStart_invariant E self
  obtain ⟨l, hloop, hatt⟩ := lapackLadderLoop_terminates E E.resourceMap.StartingScaling
    E.resourceMap.MaximalScaling (lapackCovarianceMatrix E self) hs K hK.1 fuel
    (lapackLadderStart E self) hstart rfl (Nat.zero_le K) (by simpa [lapackLadderStart] using hfuel)
  obtain ⟨hinv, hexit⟩ := lapackLadderLoop_invariant E E.resourceMap.StartingScaling
    E.resourceMap.MaximalScaling (lapackCovarianceMatrix E self) fuel _ l hstart hloop
  refine ⟨l, hloop, by omega, hinv.1, hinv.2.1, hinv.2.2.1, ?_, ?_⟩
  · unfold computeLapackLogDeterminantCholesky
    rw [hloop]
    dsimp only
    split_ifs <;> simp
  · intro hall
    have hc : l.continuationCondition = true := by
      have h3 := hinv.2.2.1
      by_contra hne
      simp only [Bool.not_eq_true] at hne
      rw [hne] at h3
      simp at h3
      omega
    have hM : E.resourceMap.MaximalScaling ≤ l.cumulatedScaling := by
      by_contra hlt
      exact hexit ⟨hc, not_le.mp hlt⟩
    have hsc : l.scaling ≥ E.resourceMap.MaximalScaling := by
      have h1 := hinv.1
      have h2 := hinv.2.1
      have : l.scaling = l.cumulatedScaling + E.resourceMap.StartingScaling := by
        rw [h1, h2]; ring
      have hs' := hs.le
      rw [this]
      exact le_trans hM (by linarith)
    unfold computeLapackLogDeterminantCholesky
    rw [hloop]
    dsimp only
    rw [if_pos hsc]

/-- Witness of claim C7: the toy environment has a positive starting scaling, and the dense
backend leaves its loop on the example engine. -/
theorem lapack_ladder_terminates_witness :
    (0 : ℚ) < exampleCollaborators.resourceMap.StartingScaling ∧
      ∃ K : Nat, ∀ fuel : Nat, K ≤ fuel →
        (computeLapackLogDeterminantCholesky exampleCollaborators fuel exampleAlgorithm).1 ≠
          Outcome.unfinished := by
  have hpos : (0 : ℚ) < exampleCollaborators.resourceMap.StartingScaling := by
    simp [exampleCollaborators, toyCollaborators, toyResourceMap]
  refine ⟨hpos, ?_⟩
  obtain ⟨K, -, -, h⟩ := lapack_ladder_terminates exampleCollaborators exampleAlgorithm hpos
  refine ⟨K, fun fuel hfuel => ?_⟩
  obtain ⟨l, -, -, -, -, -, hne, -⟩ := h fuel hfuel
  exact hne

/-! ### Evaluation of the toy environment -/

theorem toyCholesky_one (n : Nat) : toyCholesky (⟨n, 1⟩ : SquareMatrix R) = some ⟨n, 1⟩ := by
  simp [toyCholesky]

theorem toyCholesky_zero (n : Nat) : toyCholesky (⟨n + 1, 0⟩ : SquareMatrix R) = none := by
  simp [toyCholesky]

theorem zero_addToDiagonal_one (n : Nat) :
    (⟨n, 0⟩ : SquareMatrix R).addToDiagonal (fun _ => 1) = ⟨n, 1⟩ := by
  simp only [SquareMatrix.addToDiagonal]
  apply SquareMatrix.ext_coeff
  funext i j
  by_cases h : i = j <;> simp [h, Matrix.one_apply]

theorem exampleDegenerate_lapack_returns :
    (computeLapackLogDeterminantCholesky (exampleDegenerate 10) 5 exampleReady).1 =
      Outcome.returned 0 := by
  simp [computeLapackLogDeterminantCholesky, lapackLadderLoop, lapackLadderStart,
    lapackLadderStep, lapackCovarianceMatrix, exampleDegenerate, degenerateCollaborators,
    toyCollaborators, exampleReady, getObjectiveFunction, computeF, normalizeInputSample,
    exampleAlgorithm, toyAlgorithm, toyResourceMap, NumericalSample.getSize,
    toyCholesky_zero, toyCholesky_one, zero_addToDiagonal_one, lapackSolve,
    lapackLogDeterminant, logDetLoop, SquareMatrix.diagonal]
  norm_num

/-! ### The factor of the dense backend -/

theorem noiseDiagonal_nil (E : Collaborators R) (i : Nat) :
    noiseDiagonal E ([] : List R) i = 0 := by
  simp [noiseDiagonal]

theorem noiseDiagonal_of_lt (E : Collaborators R) (noise : List R) (i : Nat)
    (hi : i < noise.length) : noiseDiagonal E noise i = noise.getD i 0 := by
  have hpos : noise.length > 0 := by omega
  simp [noiseDiagonal, readUnchecked, hpos, hi, List.getD_eq_getElem?_getD,
    List.getElem?_eq_getElem hi]

theorem lapack_thrown_iff (E : Collaborators R) (fuel : Nat)
    (self : GeneralizedLinearModelAlgorithm R) (l : LapackLadder R)
    (hloop : lapackLadderLoop E E.resourceMap.MaximalScaling fuel (lapackLadderStart E self) =
      some l) :
    (computeLapackLogDeterminantCholesky E fuel self).1 = Outcome.thrown Error.lapackCholesky ↔
      E.resourceMap.MaximalScaling ≤ E.resourceMap.StartingScaling * 2 ^ l.failures := by
  obtain ⟨hinv, -⟩ := lapackLadderLoop_invariant E E.resourceMap.StartingScaling
    E.resourceMap.MaximalScaling (lapackCovarianceMatrix E self) fuel _ l
    (lapackLadderStart_invariant E self) hloop
  rw [← hinv.2.1]
  unfold computeLapackLogDeterminantCholesky
  rw [hloop]
  dsimp only
  by_cases hsc : l.scaling ≥ E.resourceMap.MaximalScaling
  · simp [hsc]
  · simp only [if_neg hsc]
    constructor
    · intro h; cases h
    · intro h; exact absurd h hsc

/-- Claim C8, the code at a failing input. With a starting scaling of 1 and a maximal scaling
of 2 on a zero covariance matrix, the first factorization fails and the second, made with a
cumulated scaling of 1 < 2, succeeds (the loop is left with `continuationCondition` false
after two attempts); both backends then throw the numerical-instability error all the same,
because the scaling, doubled to 2, is not below the maximal scaling. -/
theorem backends_throw_after_successful_factorization :
    (0 : ℚ) < (exampleDegenerate 2).resourceMap.StartingScaling ∧
      (exampleDegenerate 2).resourceMap.StartingScaling <
        (exampleDegenerate 2).resourceMap.MaximalScaling ∧
      lapackLadderLoop (exampleDegenerate 2) (exampleDegenerate 2).resourceMap.MaximalScaling 5
          (lapackLadderStart (exampleDegenerate 2) exampleReady) =
        some { C := ⟨3, 1⟩, covarianceCholeskyFactor_ := ⟨3, 1⟩, continuationCondition := false,
               cumulatedScaling := 1, scaling := 2, attempts := 2, failures := 1 } ∧
      (computeLapackLogDeterminantCholesky (exampleDegenerate 2) 5 exampleReady).1 =
        Outcome.thrown Error.lapackCholesky ∧
      hmatLadderLoop (exampleDegenerate 2) exampleReady
          (exampleDegenerate 2).resourceMap.MaximalScaling 5
          (hmatLadderStart (exampleDegenerate 2) exampleReady) =
        some { covarianceCholeskyFactorHMatrix_ := ⟨⟨3, 1⟩⟩,
               hmatrixParameters := ⟨1 / 100000, 1 / 100000⟩, continuationCondition := false,
               cumulatedScaling := 1, scaling := 2, attempts := 2, failures := 1 } ∧
      (computeHMatLogDeterminantCholesky (exampleDegenerate 2) 5 exampleReady).1 =
        Outcome.thrown Error.hmatCholesky := by
  refine ⟨?_, ?_, ?_, ?_, ?_, ?_⟩
  · norm_num [exampleDegenerate, degenerateCollaborators, toyCollaborators, toyResourceMap]
  · norm_num [exampleDegenerate, degenerateCollaborators, toyCollaborators, toyResourceMap]
  · simp [lapackLadderLoop, lapackLadderStart,
      lapackLadderStep, lapackCovarianceMatrix, exampleDegenerate, degenerateCollaborators,
      toyCollaborators, exampleReady, getObjectiveFunction, computeF, normalizeInputSample,
      exampleAlgorithm, toyAlgorithm, toyResourceMap, NumericalSample.getSize,
      toyCholesky_zero, toyCholesky_one, zero_addToDiagonal_one]
  · simp [computeLapackLogDeterminantCholesky, lapackLadderLoop, lapackLadderStart,
      lapackLadderStep, lapackCovarianceMatrix, exampleDegenerate, degenerateCollaborators,
      toyCollaborators, exampleReady, getObjectiveFunction, computeF, normalizeInputSample,
      exampleAlgorithm, toyAlgorithm, toyResourceMap, NumericalSample.getSize,
      toyCholesky_zero, toyCholesky_one, zero_addToDiagonal_one]
  · simp [hmatLadderLoop, hmatLadderStart,
      hmatLadderStep, exampleDegenerate, degenerateCollaborators,
      toyCollaborators, exampleReady, getObjectiveFunction, computeF, normalizeInputSample,
      exampleAlgorithm, toyAlgorithm, toyResourceMap, NumericalSample.getSize,
      toyCholesky_zero, toyCholesky_one, zero_addToDiagonal_one,
      SquareMatrix.addToDiagonal_zero]
    norm_num
  · simp [computeHMatLogDeterminantCholesky, hmatLadderLoop, hmatLadderStart,
      hmatLadderStep, exampleDegenerate, degenerateCollaborators,
      toyCollaborators, exampleReady, getObjectiveFunction, computeF, normalizeInputSample,
      exampleAlgorithm, toyAlgorithm, toyResourceMap, NumericalSample.getSize,
      toyCholesky_zero, toyCholesky_one, zero_addToDiagonal_one,
      SquareMatrix.addToDiagonal_zero]

/-! ### The log-determinant of the dense backend -/

theorem logDetLoop_positive (E : Collaborators R) :
    ∀ (diagonal : List R) (logDetL : R), (∀ x ∈ diagonal, 0 < x) →
      logDetLoop E diagonal logDetL = some (logDetL + (diagonal.map E.log).sum) := by
  intro diagonal
  induction diagonal with
  | nil => intro logDetL _; simp [logDetLoop]
  | cons lii diagonal ih =>
    intro logDetL h
    have hpos : 0 < lii := h lii (List.mem_cons_self _ _)
    have hrest : ∀ x ∈ diagonal, 0 < x := fun x hx => h x (List.mem_cons_of_mem _ hx)
    simp [logDetLoop, not_le.mpr hpos, ih _ hrest, add_assoc]

theorem logDetLoop_nonpositive (E : Collaborators R) :
    ∀ (diagonal : List R) (logDetL : R), (∃ x ∈ diagonal, x ≤ 0) →
      logDetLoop E diagonal logDetL = none := by
  intro diagonal
  induction diagonal with
  | nil => intro logDetL h; simp at h
  | cons lii diagonal ih =>
    intro logDetL h
    by_cases hle : lii ≤ 0
    · simp [logDetLoop, hle]
    · have hrest : ∃ x ∈ diagonal, x ≤ 0 := by
        obtain ⟨x, hx, hx0⟩ := h
        rcases List.mem_cons.mp hx with rfl | hmem
        · exact absurd hx0 hle
        · exact ⟨x, hmem, hx0⟩
      simp [logDetLoop, hle, ih _ hrest]

theorem lapackLogDeterminant_positive (E : Collaborators R) (L : SquareMatrix R)
    (h : ∀ i : Fin L.dim, 0 < L.coeff i i) :
    lapackLogDeterminant E L = 2 * ∑ i : Fin L.dim, E.log (L.coeff i i) := by
  unfold lapackLogDeterminant
  have hall : ∀ x ∈ L.diagonal, 0 < x := by
    intro x hx
    simp only [SquareMatrix.diagonal, List.mem_ofFn] at hx
    obtain ⟨i, rfl⟩ := hx
    exact h i
  rw [logDetLoop_positive E _ _ hall]
  simp [SquareMatrix.diagonal, List.sum_ofFn]

theorem lapackLogDeterminant_nonpositive (E : Collaborators R) (L : SquareMatrix R)
    (h : ∃ i : Fin L.dim, L.coeff i i ≤ 0) :
    lapackLogDeterminant E L = -E.specFunc.LogMaxNumericalScalar := by
  unfold lapackLogDeterminant
  have hex : ∃ x ∈ L.diagonal, x ≤ 0 := by
    obtain ⟨i, hi⟩ := h
    exact ⟨L.coeff i i, by simp [SquareMatrix.diagonal, List.mem_ofFn], hi⟩
  rw [logDetLoop_nonpositive E _ _ hex]

theorem lapack_returned_value (E : Collaborators R) (fuel : Nat)
    (self : GeneralizedLinearModelAlgorithm R) (value : R)
    (hReturned : (computeLapackLogDeterminantCholesky E fuel self).1 = Outcome.returned value) :
    value = lapackLogDeterminant E
      (computeLapackLogDeterminantCholesky E fuel self).2.covarianceCholeskyFactor_ := by
  unfold computeLapackLogDeterminantCholesky at hReturned ⊢
  cases hloop : lapackLadderLoop E E.resourceMap.MaximalScaling fuel
      (lapackLadderStart E self) with
  | none => simp [hloop] at hReturned
  | some l =>
    simp only [hloop] at hReturned ⊢
    by_cases hsc : l.scaling ≥ E.resourceMap.MaximalScaling
    · simp [hsc] at hReturned
    · simp only [if_neg hsc, Outcome.returned.injEq] at hReturned ⊢
      exact hReturned.symm

/-- Claim C10, as amended. Whenever `computeLapackLogDeterminantCholesky` returns, with `L` the
factor it leaves in the engine, the value returned is `2 * sum_i log(L_ii)` when every diagonal
entry of `L` is strictly positive, and it is the opposite of the maximum-representable-log
value, `-LogMaxNumericalScalar`, when some diagonal entry is non-positive. -/
theorem lapack_log_determinant_value (E : Collaborators R) (fuel : Nat)
    (self : GeneralizedLinearModelAlgorithm R) (value : R)
    (hReturned : (computeLapackLogDeterminantCholesky E fuel self).1 = Outcome.returned value) :
    ((∀ i : Fin (computeLapackLogDeterminantCholesky E fuel self).2.covarianceCholeskyFactor_.dim,
        0 < (computeLapackLogDeterminantCholesky E fuel self).2.covarianceCholeskyFactor_.coeff
          i i) →
      value = 2 * ∑ i :
          Fin (computeLapackLogDeterminantCholesky E fuel self).2.covarianceCholeskyFactor_.dim,
        E.log
          ((computeLapackLogDeterminantCholesky E fuel self).2.covarianceCholeskyFactor_.coeff
            i i)) ∧
      ((∃ i : Fin
          (computeLapackLogDeterminantCholesky E fuel self).2.covarianceCholeskyFactor_.dim,
          (computeLapackLogDeterminantCholesky E fuel self).2.covarianceCholeskyFactor_.coeff
            i i ≤ 0) →
        value = -E.specFunc.LogMaxNumericalScalar) := by
  have hv := lapack_returned_value E fuel self value hReturned
  constructor
  · intro hpos
    rw [hv]
    exact lapackLogDeterminant_positive E _ hpos
  · intro hex
    rw [hv]
    exact lapackLogDeterminant_nonpositive E _ hex

/-- Witness of claim C10: on the example data with a degenerate covariance the dense backend
returns 0, twice the sum of the logarithms of the unit diagonal of its factor (the logarithm
of the toy environment vanishes at 1). -/
theorem lapack_log_determinant_value_witness :
    (computeLapackLogDeterminantCholesky (exampleDegenerate 10) 5 exampleReady).1 =
        Outcome.returned 0 ∧
      ((∃ i : Fin (computeLapackLogDeterminantCholesky (exampleDegenerate 10) 5
            exampleReady).2.covarianceCholeskyFactor_.dim,
          (computeLapackLogDeterminantCholesky (exampleDegenerate 10) 5
            exampleReady).2.covarianceCholeskyFactor_.coeff i i ≤ 0) →
        (0 : ℚ) = -(exampleDegenerate 10).specFunc.LogMaxNumericalScalar) :=
  ⟨exampleDegenerate_lapack_returns,
    (lapack_log_determinant_value (exampleDegenerate 10) 5 exampleReady 0
      exampleDegenerate_lapack_returns).2⟩

/-- Claim C10, counterexample to the claim as stated. With a factorization that accepts the
zero matrix (zero being a factor of it), the dense backend returns on a zero covariance matrix
with a factor whose diagonal entries are all zero, and the value returned is -709, the
opposite of the maximum-representable-log value 709 of the environment, not that value. -/
theorem lapack_sentinel_is_negated :
    (computeLapackLogDeterminantCholesky exampleSemidefinite 5 exampleReady).1 =
        Outcome.returned (-709) ∧
      (computeLapackLogDeterminantCholesky exampleSemidefinite 5
          exampleReady).2.covarianceCholeskyFactor_.diagonal = [0, 0, 0] ∧
      exampleSemidefinite.specFunc.LogMaxNumericalScalar = 709 ∧
      (computeLapackLogDeterminantCholesky exampleSemidefinite 5 exampleReady).1 ≠
        Outcome.returned exampleSemidefinite.specFunc.LogMaxNumericalScalar := by
  have h1 : (computeLapackLogDeterminantCholesky exampleSemidefinite 5 exampleReady).1 =
      Outcome.returned (-709) := by
    simp [computeLapackLogDeterminantCholesky, lapackLadderLoop, lapackLadderStart,
      lapackLadderStep, lapackCovarianceMatrix, exampleSemidefinite, exampleDegenerate,
      degenerateCollaborators, toyCollaborators, exampleReady, getObjectiveFunction, computeF,
      normalizeInputSample, exampleAlgorithm, toyAlgorithm, toyResourceMap,
      NumericalSample.getSize, toySemidefiniteCholesky, lapackSolve, lapackLogDeterminant,
      logDetLoop, SquareMatrix.diagonal, toySpecFunc]
  refine ⟨h1, ?_, ?_, ?_⟩
  · simp [computeLapackLogDeterminantCholesky, lapackLadderLoop, lapackLadderStart,
      lapackLadderStep, lapackCovarianceMatrix, exampleSemidefinite, exampleDegenerate,
      degenerateCollaborators, toyCollaborators, exampleReady, getObjectiveFunction, computeF,
      normalizeInputSample, exampleAlgorithm, toyAlgorithm, toyResourceMap,
      NumericalSample.getSize, toySemidefiniteCholesky, lapackSolve, SquareMatrix.diagonal]
  · simp [exampleSemidefinite, exampleDegenerate, degenerateCollaborators, toyCollaborators,
      toySpecFunc]
  · rw [h1]
    simp [exampleSemidefinite, exampleDegenerate, degenerateCollaborators, toyCollaborators,
      toySpecFunc]
    norm_num

/-! ### The reduced log-likelihood -/

theorem computeLapack_frame (E : Collaborators R) (fuel : Nat)
    (self : GeneralizedLinearModelAlgorithm R) :
    ∃ (L : SquareMatrix R) (rho beta : List R),
      (computeLapackLogDeterminantCholesky E fuel self).2 =
        { self with covarianceCholeskyFactor_ := L, rho_ := rho, beta_ := beta } := by
  unfold computeLapackLogDeterminantCholesky
  cases lapackLadderLoop E E.resourceMap.MaximalScaling fuel (lapackLadderStart E self) with
  | none => exact ⟨self.covarianceCholeskyFactor_, self.rho_, self.beta_, rfl⟩
  | some l =>
    dsimp only
    split_ifs
    · exact ⟨l.covarianceCholeskyFactor_, self.rho_, self.beta_, rfl⟩
    · unfold lapackSolve
      dsimp only
      split_ifs
      · exact ⟨_, _, _, rfl⟩
      · exact ⟨_, _, self.beta_, rfl⟩

theorem computeHMat_frame (E : Collaborators R) (fuel : Nat)
    (self : GeneralizedLinearModelAlgorithm R) :
    ∃ (H : HMatrix R) (rho beta : List R),
      (computeHMatLogDeterminantCholesky E fuel self).2 =
        { self with covarianceCholeskyFactorHMatrix_ := H, rho_ := rho, beta_ := beta } := by
  unfold computeHMatLogDeterminantCholesky
  cases hmatLadderLoop E self E.resourceMap.MaximalScaling fuel (hmatLadderStart E self) with
  | none => exact ⟨self.covarianceCholeskyFactorHMatrix_, self.rho_, self.beta_, rfl⟩
  | some l =>
    dsimp only
    split_ifs
    · exact ⟨l.covarianceCholeskyFactorHMatrix_, self.rho_, self.beta_, rfl⟩
    · unfold hmatSolve
      dsimp only
      split_ifs
      · exact ⟨_, _, _, rfl⟩
      · exact ⟨_, _, self.beta_, rfl⟩

theorem computeLapack_thrown (E : Collaborators R) (fuel : Nat)
    (self : GeneralizedLinearModelAlgorithm R) (e : Error)
    (h : (computeLapackLogDeterminantCholesky E fuel self).1 = Outcome.thrown e) :
    e = Error.lapackCholesky := by
  unfold computeLapackLogDeterminantCholesky at h
  cases hloop : lapackLadderLoop E E.resourceMap.MaximalScaling fuel
      (lapackLadderStart E self) with
  | none => simp [hloop] at h
  | some l =>
    simp only [hloop] at h
    by_cases hsc : l.scaling ≥ E.resourceMap.MaximalScaling
    · simp only [if_pos hsc, Outcome.thrown.injEq] at h
      exact h.symm
    · simp [if_neg hsc] at h

theorem computeHMat_thrown (E : Collaborators R) (fuel : Nat)
    (self : GeneralizedLinearModelAlgorithm R) (e : Error)
    (h : (computeHMatLogDeterminantCholesky E fuel self).1 = Outcome.thrown e) :
    e = Error.hmatCholesky := by
  unfold computeHMatLogDeterminantCholesky at h
  cases hloop : hmatLadderLoop E self E.resourceMap.MaximalScaling fuel
      (hmatLadderStart E self) with
  | none => simp [hloop] at h
  | some l =>
    simp only [hloop] at h
    by_cases hsc : l.scaling ≥ E.resourceMap.MaximalScaling
    · simp only [if_pos hsc, Outcome.thrown.injEq] at h
      exact h.symm
    · simp [if_neg hsc] at h

theorem computeLogDeterminant_thrown (E : Collaborators R) (fuel : Nat)
    (self : GeneralizedLinearModelAlgorithm R) (parameters : List R) (e : Error)
    (h : (computeLogDeterminant E fuel self parameters).1 = Outcome.thrown e) :
    e = Error.lapackCholesky ∨ e = Error.hmatCholesky := by
  unfold computeLogDeterminant at h
  dsimp only at h
  split_ifs at h
  · exact Or.inl (computeLapack_thrown E fuel _ e h)
  · exact Or.inl (computeLapack_thrown E fuel _ e h)
  · exact Or.inr (computeHMat_thrown E fuel _ e h)
  · exact Or.inr (computeHMat_thrown E fuel _ e h)

theorem computeReducedLogLikelihood_of_returned (E : Collaborators R) (fuel : Nat)
    (self : GeneralizedLinearModelAlgorithm R) (parameters : List R) (logDeterminant : R)
    (hsize : parameters.length = self.reducedCovarianceModel_.getParameter.length)
    (h : (computeLogDeterminant E fuel self parameters).1 = Outcome.returned logDeterminant) :
    computeReducedLogLikelihood E fuel self parameters =
      (Outcome.returned
        [reducedLogLikelihoodValue E
          (amplitudeCorrected E (computeLogDeterminant E fuel self parameters).2
            logDeterminant).1
          (normSquare (amplitudeCorrected E (computeLogDeterminant E fuel self parameters).2
            logDeterminant).2.rho_)],
       { (amplitudeCorrected E (computeLogDeterminant E fuel self parameters).2
            logDeterminant).2 with
         lastReducedLogLikelihood_ :=
          reducedLogLikelihoodValue E
            (amplitudeCorrected E (computeLogDeterminant E fuel self parameters).2
              logDeterminant).1
            (normSquare (amplitudeCorrected E (computeLogDeterminant E fuel self parameters).2
              logDeterminant).2.rho_) }) := by
  unfold computeReducedLogLikelihood
  rw [if_neg (not_not.mpr hsize)]
  rcases hcd : computeLogDeterminant E fuel self parameters with ⟨out, self2⟩
  rw [hcd] at h
  simp only at h
  subst h
  simp

theorem computeReducedLogLikelihood_of_thrown (E : Collaborators R) (fuel : Nat)
    (self : GeneralizedLinearModelAlgorithm R) (parameters : List R) (e : Error)
    (hsize : parameters.length = self.reducedCovarianceModel_.getParameter.length)
    (h : (computeLogDeterminant E fuel self parameters).1 = Outcome.thrown e) :
    computeReducedLogLikelihood E fuel self parameters =
      (Outcome.thrown e, (computeLogDeterminant E fuel self parameters).2) := by
  unfold computeReducedLogLikelihood
  rw [if_neg (not_not.mpr hsize)]
  rcases hcd : computeLogDeterminant E fuel self parameters with ⟨out, self2⟩
  rw [hcd] at h
  simp only at h
  subst h
  simp

theorem computeReducedLogLikelihood_of_unfinished (E : Collaborators R) (fuel : Nat)
    (self : GeneralizedLinearModelAlgorithm R) (parameters : List R)
    (hsize : parameters.length = self.reducedCovarianceModel_.getParameter.length)
    (h : (computeLogDeterminant E fuel self parameters).1 = Outcome.unfinished) :
    computeReducedLogLikelihood E fuel self parameters =
      (Outcome.unfinished, (computeLogDeterminant E fuel self parameters).2) := by
  unfold computeReducedLogLikelihood
  rw [if_neg (not_not.mpr hsize)]
  rcases hcd : computeLogDeterminant E fuel self parameters with ⟨out, self2⟩
  rw [hcd] at h
  simp only at h
  subst h
  simp

theorem example_objective_returns :
    (computeReducedLogLikelihood exampleCollaborators 5 exampleReady [1, 1]).1 =
      Outcome.returned [-(1 / 2)] := by
  simp [computeReducedLogLikelihood, computeLogDeterminant, amplitudeCorrected,
    reducedLogLikelihoodValue, normSquare, computeLapackLogDeterminantCholesky,
    lapackLadderLoop, lapackLadderStart, lapackLadderStep, lapackCovarianceMatrix,
    exampleCollaborators, toyCollaborators, exampleReady, getObjectiveFunction, computeF,
    normalizeInputSample, exampleAlgorithm, toyAlgorithm, toyModel, toyResourceMap,
    NumericalSample.getSize, NumericalSample.getData, CovarianceModel.getParameter,
    CovarianceModel.setParameter, CovarianceModel.getFullParameter, writeActive,
    toyCholesky_one, lapackSolve, lapackLogDeterminant, logDetLoop, SquareMatrix.diagonal]
  norm_num

/-- Claim C5, counterexample to the claim as stated. On the example data with a zero
covariance matrix and a maximal scaling of 1, a parameter vector of the right size (two
entries) does not make `computeReducedLogLikelihood` return a point: the only factorization
attempt fails, the ladder is exhausted and the numerical-instability error of the dense
backend comes out. -/
theorem computeReducedLogLikelihood_right_size_throws :
    ([1, 1] : List ℚ).length = exampleReady.reducedCovarianceModel_.getParameter.length ∧
      (computeReducedLogLikelihood (exampleDegenerate 1) 5 exampleReady [1, 1]).1 =
        Outcome.thrown Error.lapackCholesky ∧
      ∀ value : List ℚ,
        (computeReducedLogLikelihood (exampleDegenerate 1) 5 exampleReady [1, 1]).1 ≠
          Outcome.returned value := by
  have h : (computeReducedLogLikelihood (exampleDegenerate 1) 5 exampleReady [1, 1]).1 =
      Outcome.thrown Error.lapackCholesky := by
    simp [computeReducedLogLikelihood, computeLogDeterminant,
      computeLapackLogDeterminantCholesky, lapackLadderLoop, lapackLadderStart,
      lapackLadderStep, lapackCovarianceMatrix, exampleDegenerate, degenerateCollaborators,
      toyCollaborators, exampleReady, getObjectiveFunction, computeF, normalizeInputSample,
      exampleAlgorithm, toyAlgorithm, toyModel, toyResourceMap, NumericalSample.getSize,
      CovarianceModel.getParameter, CovarianceModel.setParameter,
      CovarianceModel.getFullParameter, writeActive, toyCholesky_zero]
  refine ⟨?_, h, ?_⟩
  · simp [exampleReady, getObjectiveFunction, computeF, normalizeInputSample,
      exampleAlgorithm, toyAlgorithm, toyModel, CovarianceModel.getParameter,
      NumericalSample.getSize]
  · intro value hv
    rw [h] at hv
    cases hv

/-- Claim C5, as amended. `computeReducedLogLikelihood` throws the parameter-size error exactly
when the size of the given parameter vector differs from the size of the parameter vector of
the reduced covariance model, and then nothing is mutated (the record of the engine is the one
before the call); otherwise, when the selected factorization backend returns, it returns a
point of length exactly 1 whose single entry is the cached last reduced log-likelihood, and
when the backend throws, its numerical-instability error comes out instead. -/
theorem computeReducedLogLikelihood_contract (E : Collaborators R) (fuel : Nat)
    (self : GeneralizedLinearModelAlgorithm R) (parameters : List R) :
    ((computeReducedLogLikelihood E fuel self parameters).1 =
        Outcome.thrown Error.parameterSize ↔
      parameters.length ≠ self.reducedCovarianceModel_.getParameter.length) ∧
      (parameters.length ≠ self.reducedCovarianceModel_.getParameter.length →
        (computeReducedLogLikelihood E fuel self parameters).2 = self) ∧
      (parameters.length = self.reducedCovarianceModel_.getParameter.length →
        ∀ logDeterminant : R,
          (computeLogDeterminant E fuel self parameters).1 = Outcome.returned logDeterminant →
          ∃ value : R,
            (computeReducedLogLikelihood E fuel self parameters).1 =
              Outcome.returned [value] ∧
            [value].length = 1 ∧
            (computeReducedLogLikelihood E fuel self
              parameters).2.lastReducedLogLikelihood_ = value) ∧
      (parameters.length = self.reducedCovarianceModel_.getParameter.length →
        ∀ e : Error, (computeLogDeterminant E fuel self parameters).1 = Outcome.thrown e →
          (computeReducedLogLikelihood E fuel self parameters).1 = Outcome.thrown e ∧
          (e = Error.lapackCholesky ∨ e = Error.hmatCholesky)) := by
  refine ⟨?_, ?_, ?_, ?_⟩
  · constructor
    · intro h
      by_contra hsize
      rcases hout : (computeLogDeterminant E fuel self parameters).1 with v | e | _
      · rw [computeReducedLogLikelihood_of_returned E fuel self parameters v hsize hout] at h
        cases h
      · rw [computeReducedLogLikelihood_of_thrown E fuel self parameters e hsize hout] at h
        simp only [Outcome.thrown.injEq] at h
        rcases computeLogDeterminant_thrown E fuel self parameters e hout with h1 | h1 <;>
          rw [h1] at h <;> cases h
      · rw [computeReducedLogLikelihood_of_unfinished E fuel self parameters hsize hout] at h
        cases h
    · intro hsize
      simp [computeReducedLogLikelihood, hsize]
  · intro hsize
    simp [computeReducedLogLikelihood, hsize]
  · intro hsize logDeterminant hout
    rw [computeReducedLogLikelihood_of_returned E fuel self parameters logDeterminant hsize hout]
    exact ⟨_, rfl, rfl, rfl⟩
  · intro hsize e hout
    rw [computeReducedLogLikelihood_of_thrown E fuel self parameters e hsize hout]
    exact ⟨rfl, computeLogDeterminant_thrown E fuel self parameters e hout⟩

/-! ### The analytical amplitude -/

theorem normSquare_divPoint (p : List R) (a : R) :
    normSquare (divPoint p a) = normSquare p / (a * a) := by
  induction p with
  | nil => simp [normSquare, divPoint]
  | cons x p ih =>
    simp only [normSquare, divPoint, List.map_cons, List.sum_cons] at ih ⊢
    rw [ih, div_mul_div_comm, add_div]

theorem computeLogDeterminant_frame (E : Collaborators R) (fuel : Nat)
    (self : GeneralizedLinearModelAlgorithm R) (parameters : List R) :
    ∃ (m : CovarianceModel R) (L : SquareMatrix R) (H : HMatrix R) (rho beta : List R),
      (computeLogDeterminant E fuel self parameters).2 =
        { self with
          reducedCovarianceModel_ := m
          covarianceCholeskyFactor_ := L
          covarianceCholeskyFactorHMatrix_ := H
          rho_ := rho
          beta_ := beta } := by
  unfold computeLogDeterminant
  dsimp only
  split_ifs
  · obtain ⟨L, rho, beta, h⟩ := computeLapack_frame E fuel
      { self with
        reducedCovarianceModel_ :=
          (self.reducedCovarianceModel_.setAmplitude [1]).setParameter parameters }
    exact ⟨_, L, self.covarianceCholeskyFactorHMatrix_, rho, beta, h⟩
  · obtain ⟨L, rho, beta, h⟩ := computeLapack_frame E fuel
      { self with
        reducedCovarianceModel_ := self.reducedCovarianceModel_.setParameter parameters }
    exact ⟨_, L, self.covarianceCholeskyFactorHMatrix_, rho, beta, h⟩
  · obtain ⟨H, rho, beta, h⟩ := computeHMat_frame E fuel
      { self with
        reducedCovarianceModel_ :=
          (self.reducedCovarianceModel_.setAmplitude [1]).setParameter parameters }
    exact ⟨_, self.covarianceCholeskyFactor_, H, rho, beta, h⟩
  · obtain ⟨H, rho, beta, h⟩ := computeHMat_frame E fuel
      { self with
        reducedCovarianceModel_ := self.reducedCovarianceModel_.setParameter parameters }
    exact ⟨_, self.covarianceCholeskyFactor_, H, rho, beta, h⟩

theorem log_amplitude_bound (N epsilon : ℝ) (hN : 1 ≤ N) (heps : 0 < epsilon) :
    2 * N * Real.log (Real.sqrt (epsilon / N)) + N ≤ epsilon := by
  have hNpos : 0 < N := by linarith
  have hx : 0 < epsilon / N := div_pos heps hNpos
  have hlog : Real.log (Real.sqrt (epsilon / N)) = Real.log (epsilon / N) / 2 :=
    Real.log_sqrt hx.le
  have hle : Real.log (epsilon / N) ≤ epsilon / N - 1 := Real.log_le_sub_one_of_pos hx
  have hmul : N * Real.log (epsilon / N) ≤ N * (epsilon / N - 1) :=
    mul_le_mul_of_nonneg_left hle hNpos.le
  have hcancel : N * (epsilon / N - 1) = epsilon - N := by
    field_simp
  rw [hlog]
  linarith

/-- Claim C3. Analytical-amplitude path, over the real numbers with the real square root and
logarithm and the unbiased-variance option off: for a sample size `N >= 1`, a log-determinant
`logDeterminant` and a whitened residual `rho` with `||rho||^2 > 0` returned by the backend
(computed with the amplitude at 1), `computeReducedLogLikelihood` in analytical-amplitude mode
returns `-0.5 * (logDeterminant + 2 * N * log(sigma) + ||rho / sigma||^2)` with
`sigma = sqrt(||rho||^2 / N)`, stores `sigma` as the amplitude, and this value is at least
`-0.5 * (logDeterminant + ||rho||^2)`, which is what line 777 gives for the same
log-determinant and residual when the amplitude is left at 1. -/
theorem analytical_amplitude_improves (E : Collaborators ℝ) (fuel : Nat)
    (self : GeneralizedLinearModelAlgorithm ℝ) (parameters : List ℝ) (logDeterminant : ℝ)
    (hsqrt : E.sqrt = Real.sqrt) (hlog : E.log = Real.log)
    (hUnbiased : E.resourceMap.UnbiasedVariance = false)
    (hAnalytical : self.analyticalAmplitude_ = true)
    (hsize : parameters.length = self.reducedCovarianceModel_.getParameter.length)
    (hBackend : (computeLogDeterminant E fuel self parameters).1 =
      Outcome.returned logDeterminant)
    (hN : 1 ≤ self.inputSample_.getSize)
    (hrho : 0 < normSquare (computeLogDeterminant E fuel self parameters).2.rho_) :
    ∃ sigma : ℝ,
      sigma = Real.sqrt (normSquare (computeLogDeterminant E fuel self parameters).2.rho_ /
        (self.inputSample_.getSize : ℝ)) ∧
      (computeReducedLogLikelihood E fuel self parameters).1 =
        Outcome.returned [-(1 / 2) *
          (logDeterminant + 2 * (self.inputSample_.getSize : ℝ) * Real.log sigma +
            normSquare (divPoint (computeLogDeterminant E fuel self parameters).2.rho_
              sigma))] ∧
      (computeReducedLogLikelihood E fuel self
        parameters).2.reducedCovarianceModel_.getAmplitude = [sigma] ∧
      reducedLogLikelihoodValue E logDeterminant
          (normSquare (computeLogDeterminant E fuel self parameters).2.rho_) =
        -(1 / 2) * (logDeterminant +
          normSquare (computeLogDeterminant E fuel self parameters).2.rho_) ∧
      -(1 / 2) * (logDeterminant +
          normSquare (computeLogDeterminant E fuel self parameters).2.rho_) ≤
        -(1 / 2) *
          (logDeterminant + 2 * (self.inputSample_.getSize : ℝ) * Real.log sigma +
            normSquare (divPoint (computeLogDeterminant E fuel self parameters).2.rho_
              sigma)) := by
  obtain ⟨m, L, H, rho, beta, hframe⟩ := computeLogDeterminant_frame E fuel self parameters
  have hflag : (computeLogDeterminant E fuel self parameters).2.analyticalAmplitude_ = true := by
    rw [hframe]; exact hAnalytical
  have hsample : (computeLogDeterminant E fuel self parameters).2.inputSample_ =
      self.inputSample_ := by
    rw [hframe]
  have hNreal : (1 : ℝ) ≤ (self.inputSample_.getSize : ℝ) := by exact_mod_cast hN
  have hNpos : (0 : ℝ) < (self.inputSample_.getSize : ℝ) := by linarith
  have hsigma_pos : 0 < Real.sqrt
      (normSquare (computeLogDeterminant E fuel self parameters).2.rho_ /
        (self.inputSample_.getSize : ℝ)) := Real.sqrt_pos.mpr (div_pos hrho hNpos)
  have hsq : Real.sqrt (normSquare (computeLogDeterminant E fuel self parameters).2.rho_ /
        (self.inputSample_.getSize : ℝ)) *
      Real.sqrt (normSquare (computeLogDeterminant E fuel self parameters).2.rho_ /
        (self.inputSample_.getSize : ℝ)) =
      normSquare (computeLogDeterminant E fuel self parameters).2.rho_ /
        (self.inputSample_.getSize : ℝ) := Real.mul_self_sqrt (div_pos hrho hNpos).le
  have hdiv : normSquare (divPoint (computeLogDeterminant E fuel self parameters).2.rho_
      (Real.sqrt (normSquare (computeLogDeterminant E fuel self parameters).2.rho_ /
        (self.inputSample_.getSize : ℝ)))) = (self.inputSample_.getSize : ℝ) := by
    rw [normSquare_divPoint, hsq]
    field_simp
  have hcorr : amplitudeCorrected E (computeLogDeterminant E fuel self parameters).2
      logDeterminant =
      analyticalAmplitudeStep E (computeLogDeterminant E fuel self parameters).2
        logDeterminant := by
    simp [amplitudeCorrected, hflag]
  refine ⟨_, rfl, ?_, ?_, ?_, ?_⟩
  · rw [computeReducedLogLikelihood_of_returned E fuel self parameters logDeterminant hsize
      hBackend, hcorr]
    simp only [analyticalAmplitudeStep, hUnbiased, hsample, hsqrt, hlog, Bool.false_eq_true,
      if_false, reducedLogLikelihoodValue]
    rw [if_neg]
    rw [hdiv]
    exact not_le.mpr hNpos
  · rw [computeReducedLogLikelihood_of_returned E fuel self parameters logDeterminant hsize
      hBackend, hcorr]
    simp [analyticalAmplitudeStep, hUnbiased, hsample, hsqrt, CovarianceModel.getAmplitude,
      CovarianceModel.setAmplitude]
  · simp [reducedLogLikelihoodValue, not_le.mpr hrho]
  · rw [hdiv]
    have := log_amplitude_bound (self.inputSample_.getSize : ℝ)
      (normSquare (computeLogDeterminant E fuel self parameters).2.rho_) hNreal hrho
    linarith

/-- Witness of claim C3: the analytical-amplitude engine on the example data with a white-noise
covariance over the real numbers; the backend returns a log-determinant of zero and the
residual `[0, 1, 0]` of squared norm 1. -/
theorem analytical_amplitude_improves_witness :
    ∃ sigma : ℝ,
      (computeReducedLogLikelihood (toyCollaborators Real.sqrt Real.log) 5
          toyAnalyticalAlgorithm [1]).1 =
        Outcome.returned [-(1 / 2) *
          (0 + 2 * ((toyAnalyticalAlgorithm :
              GeneralizedLinearModelAlgorithm ℝ).inputSample_.getSize : ℝ) * Real.log sigma +
            normSquare (divPoint (computeLogDeterminant (toyCollaborators Real.sqrt Real.log) 5
              toyAnalyticalAlgorithm [1]).2.rho_ sigma))] := by
  have hBackend : (computeLogDeterminant (toyCollaborators Real.sqrt Real.log) 5
      toyAnalyticalAlgorithm [1]).1 = Outcome.returned 0 := by
    simp [computeLogDeterminant, computeLapackLogDeterminantCholesky,
      lapackLadderLoop, lapackLadderStart, lapackLadderStep, lapackCovarianceMatrix,
      toyCollaborators, toyAnalyticalAlgorithm, toyAlgorithm, toyModel, toyResourceMap,
      NumericalSample.getSize, CovarianceModel.setParameter, CovarianceModel.setAmplitude,
      CovarianceModel.getFullParameter, writeActive,
      toyCholesky_one, lapackSolve, lapackLogDeterminant, logDetLoop, SquareMatrix.diagonal]
    norm_num
  have hrho : 0 < normSquare (computeLogDeterminant (toyCollaborators Real.sqrt Real.log) 5
      toyAnalyticalAlgorithm [1]).2.rho_ := by
    simp [computeLogDeterminant, computeLapackLogDeterminantCholesky,
      lapackLadderLoop, lapackLadderStart, lapackLadderStep, lapackCovarianceMatrix,
      toyCollaborators, toyAnalyticalAlgorithm, toyAlgorithm, toyModel, toyResourceMap,
      NumericalSample.getSize, NumericalSample.getData, CovarianceModel.setParameter,
      CovarianceModel.setAmplitude, CovarianceModel.getFullParameter, writeActive,
      toyCholesky_one, lapackSolve, normSquare]
  obtain ⟨sigma, -, h, -⟩ := analytical_amplitude_improves (toyCollaborators Real.sqrt Real.log)
    5 toyAnalyticalAlgorithm [1] 0 rfl rfl rfl rfl
    (by simp [toyAnalyticalAlgorithm, toyAlgorithm, toyModel, CovarianceModel.getParameter])
    hBackend
    (by simp [toyAnalyticalAlgorithm, toyAlgorithm, NumericalSample.getSize])
    hrho
  exact ⟨sigma, h⟩

theorem toyAnalyticalAlgorithm_eq (sqrt log : R → R) :
    getObjectiveFunction
        (setCovarianceModel (toyCollaborators sqrt log)
          (toyAlgorithm ⟨1, [[0], [1], [2]]⟩ ⟨1, [[0], [1], [0]]⟩) toyModel).2 =
      toyAnalyticalAlgorithm := by
  have hfull : fullCovarianceModel (toyCollaborators sqrt log) 1 1
      (toyModel : CovarianceModel R) = some toyModel := by
    simp [fullCovarianceModel, toyModel, CovarianceModel.getDimension,
      CovarianceModel.getSpatialDimension]
  have hdesc : (toyModel : CovarianceModel R).getParameterDescription =
      ["scale_0", "amplitude_0"] := by
    simp [CovarianceModel.getParameterDescription, CovarianceModel.getFullParameterDescription,
      toyModel, List.range, List.range.loop, CovarianceModel.getFullParameterDescription]
    decide
  have hfind : findAmplitude ["scale_0", "amplitude_0"] 0 = some 1 := by decide
  have hreduce : reduceCovarianceModel (toyCollaborators sqrt log) true
      (toyModel : CovarianceModel R) =
      ({ toyModel with activeParameter_ := [0] }, true) := by
    simp [reduceCovarianceModel, toyCollaborators, toyResourceMap, hdesc, hfind,
      CovarianceModel.getDimension, CovarianceModel.getActiveParameter,
      CovarianceModel.setActiveParameter, CovarianceModel.setAmplitude]
    simp [toyModel]
  have hrm : (toyCollaborators sqrt log).resourceMap = toyResourceMap := rfl
  simp only [getObjectiveFunction, setCovarianceModel, toyAlgorithm,
    NumericalSample.getDimension, hfull, hreduce]
  simp [defaultOptimizationBounds, hrm, toyResourceMap,
    toyAnalyticalAlgorithm, toyAlgorithm, computeF, normalizeInputSample, NumericalSample.getSize,
    NumericalSample.getDimension, CovarianceModel.getParameter, DenseMatrix.zero, toyModel]
  rfl

/-! ### The driver -/

theorem storeEstimates_hasRun (E : Collaborators R) (self : GeneralizedLinearModelAlgorithm R)
    (optimalLogLikelihood : R) :
    (storeEstimates E self optimalLogLikelihood).hasRun_ = true := by
  unfold storeEstimates
  dsimp only
  split_ifs <;> rfl

theorem run_of_hasRun (E : Collaborators R) (fuel : Nat)
    (self : GeneralizedLinearModelAlgorithm R) (h : self.hasRun_ = true) :
    run E fuel self = (Outcome.returned (), self) := by
  simp [run, h]

theorem run_returned_hasRun (E : Collaborators R) (fuel : Nat)
    (self : GeneralizedLinearModelAlgorithm R)
    (h : (run E fuel self).1 = Outcome.returned ()) : (run E fuel self).2.hasRun_ = true := by
  unfold run at h ⊢
  by_cases hrun : self.hasRun_ = true
  · simp [hrun]
  · simp only [hrun, Bool.false_eq_true, if_false] at h ⊢
    rcases hmax : maximizeReducedLogLikelihood E fuel (computeF (normalizeInputSample self))
      with ⟨out, self1⟩
    rw [hmax] at h
    cases out with
    | returned v => exact storeEstimates_hasRun E self1 v
    | thrown e => simp at h
    | unfinished => simp at h

/-- Claim C4. `run()` is idempotent: once a call to `run()` has completed, the completion flag
is set, and a further call to `run()` (with any fuel) returns at once and leaves every field
of the engine, the result included, unchanged, so that `run(); run()` is the state of a single
`run()`; on any engine whose flag is set `run()` changes nothing, and `getResult()` returns the
stored result without calling `run()`; it calls `run()` exactly when the flag is not set. -/
theorem run_idempotent (E : Collaborators R) (fuel fuel2 : Nat)
    (self : GeneralizedLinearModelAlgorithm R)
    (hCompleted : (run E fuel self).1 = Outcome.returned ()) :
    (run E fuel self).2.hasRun_ = true ∧
      run E fuel2 (run E fuel self).2 = (Outcome.returned (), (run E fuel self).2) ∧
      (run E fuel2 (run E fuel self).2).2.result_ = (run E fuel self).2.result_ ∧
      getResult E fuel2 (run E fuel self).2 =
        (Outcome.returned (run E fuel self).2.result_, (run E fuel self).2) ∧
      (∀ other : GeneralizedLinearModelAlgorithm R, other.hasRun_ = true →
        run E fuel2 other = (Outcome.returned (), other) ∧
        getResult E fuel2 other = (Outcome.returned other.result_, other)) ∧
      (∀ other : GeneralizedLinearModelAlgorithm R, other.hasRun_ = false →
        getResult E fuel2 other =
          match run E fuel2 other with
          | (Outcome.returned (), self1) => (Outcome.returned self1.result_, self1)
          | (Outcome.thrown e, self1) => (Outcome.thrown e, self1)
          | (Outcome.unfinished, self1) => (Outcome.unfinished, self1)) := by
  have hflag := run_returned_hasRun E fuel self hCompleted
  have hagain := run_of_hasRun E fuel2 _ hflag
  refine ⟨hflag, hagain, by rw [hagain], ?_, ?_, ?_⟩
  · simp [getResult, hflag]
  · intro other hother
    exact ⟨run_of_hasRun E fuel2 other hother, by simp [getResult, hother]⟩
  · intro other hother
    simp [getResult, hother]

theorem example_run_returns :
    (run exampleCollaborators 5 exampleAlgorithm).1 = Outcome.returned () := by
  simp [run, maximizeReducedLogLikelihood, getObjectiveFunction, runScript, evaluateObjective,
    OptimizationProblem.setBounds, Interval.getDimension, Interval.empty,
    computeReducedLogLikelihood, computeLogDeterminant, amplitudeCorrected,
    reducedLogLikelihoodValue, normSquare, computeLapackLogDeterminantCholesky,
    lapackLadderLoop, lapackLadderStart, lapackLadderStep, lapackCovarianceMatrix,
    exampleCollaborators, toyCollaborators, computeF,
    normalizeInputSample, exampleAlgorithm, toyAlgorithm, toyModel, toyResourceMap,
    NumericalSample.getSize, NumericalSample.getData, CovarianceModel.getParameter,
    CovarianceModel.setParameter, CovarianceModel.getFullParameter, writeActive,
    toyCholesky_one, lapackSolve, lapackLogDeterminant, logDetLoop, SquareMatrix.diagonal]

/-- Witness of claim C4: the first `run()` of the example engine completes (one evaluation of
the objective by the solver, white-noise covariance), and a second `run()` changes nothing. -/
theorem run_idempotent_witness :
    (run exampleCollaborators 5 exampleAlgorithm).1 = Outcome.returned () ∧
      run exampleCollaborators 5 (run exampleCollaborators 5 exampleAlgorithm).2 =
        (Outcome.returned (), (run exampleCollaborators 5 exampleAlgorithm).2) :=
  ⟨example_run_returns,
    (run_idempotent exampleCollaborators 5 5 exampleAlgorithm example_run_returns).2.1⟩

/-! ### The accessors -/

omit [LinearOrderedField R] in
/-- Claim C16. `setData` throws exactly when the size of the input sample differs from the size
of the output sample, and then leaves the engine, the stored samples included, unchanged;
otherwise it returns and stores both samples, so that after every successful `setData` the
stored samples have the same size. -/
theorem setData_contract (self : GeneralizedLinearModelAlgorithm R)
    (inputSample outputSample : NumericalSample R) :
    ((setData self inputSample outputSample).1 = Outcome.thrown Error.sampleSizeMismatch ↔
        inputSample.getSize ≠ outputSample.getSize) ∧
      ((setData self inputSample outputSample).1 = Outcome.returned () ↔
        inputSample.getSize = outputSample.getSize) ∧
      (inputSample.getSize ≠ outputSample.getSize →
        (setData self inputSample outputSample).2 = self ∧
        getInputSample (setData self inputSample outputSample).2 = getInputSample self ∧
        getOutputSample (setData self inputSample outputSample).2 = getOutputSample self) ∧
      (inputSample.getSize = outputSample.getSize →
        getInputSample (setData self inputSample outputSample).2 = inputSample ∧
        getOutputSample (setData self inputSample outputSample).2 = outputSample ∧
        (getInputSample (setData self inputSample outputSample).2).getSize =
          (getOutputSample (setData self inputSample outputSample).2).getSize) := by
  by_cases h : inputSample.getSize = outputSample.getSize
  · simp [setData, h, getInputSample, getOutputSample]
  · simp [setData, h, getInputSample, getOutputSample]

theorem noiseLoopThrows_iff (noise : List R) :
    ∀ indices : List Nat,
      noiseLoopThrows noise indices = true ↔ ∃ i ∈ indices, ¬ (noise.getD i 0 ≥ 0) := by
  intro indices
  induction indices with
  | nil => simp [noiseLoopThrows]
  | cons i indices ih =>
    by_cases h : noise.getD i 0 ≥ 0
    · simp [noiseLoopThrows, h, ih]
    · simp only [noiseLoopThrows, h, not_false_eq_true, if_true, List.mem_cons, true_iff]
      exact ⟨i, Or.inl rfl, h⟩

theorem noiseLoopThrows_range_iff (noise : List R) :
    noiseLoopThrows noise (List.range noise.length) = true ↔ ∃ x ∈ noise, ¬ (x ≥ 0) := by
  rw [noiseLoopThrows_iff]
  constructor
  · rintro ⟨i, hi, hx⟩
    rw [List.mem_range] at hi
    refine ⟨noise.getD i 0, ?_, hx⟩
    rw [List.getD_eq_getElem _ _ hi]
    exact List.getElem_mem _
  · rintro ⟨x, hx, hneg⟩
    obtain ⟨i, hi, rfl⟩ := List.getElem_of_mem hx
    refine ⟨i, List.mem_range.mpr hi, ?_⟩
    rw [List.getD_eq_getElem _ _ hi]
    exact hneg

/-- Claim C15. `setNoise` accepts a noise vector exactly when its size is the size of the input
sample and every entry is `>= 0` (the test of the source being that no entry makes
`!(noise[i] >= 0.0)` true); on acceptance `getNoise` returns the given vector; on rejection it
throws (the size error or the sign error) and the engine, the stored noise included, is
unchanged. -/
theorem setNoise_contract (self : GeneralizedLinearModelAlgorithm R) (noise : List R) :
    ((setNoise self noise).1 = Outcome.returned () ↔
        noise.length = self.inputSample_.getSize ∧ ∀ x ∈ noise, x ≥ 0) ∧
      ((setNoise self noise).1 = Outcome.returned () →
        getNoise (setNoise self noise).2 = noise) ∧
      ((setNoise self noise).1 ≠ Outcome.returned () →
        ((setNoise self noise).1 = Outcome.thrown Error.noiseSize ∨
          (setNoise self noise).1 = Outcome.thrown Error.noiseSign) ∧
        (setNoise self noise).2 = self ∧
        getNoise (setNoise self noise).2 = getNoise self) ∧
      ((setNoise self noise).1 = Outcome.thrown Error.noiseSize ↔
        noise.length ≠ self.inputSample_.getSize) ∧
      ((setNoise self noise).1 = Outcome.thrown Error.noiseSign ↔
        noise.length = self.inputSample_.getSize ∧ ∃ x ∈ noise, ¬ (x ≥ 0)) := by
  by_cases hsize : noise.length = self.inputSample_.getSize
  · by_cases hloop : noiseLoopThrows noise (List.range self.inputSample_.getSize) = true
    · have hex : ∃ x ∈ noise, ¬ (x ≥ 0) := by
        rw [← hsize] at hloop
        exact (noiseLoopThrows_range_iff noise).mp hloop
      have hnot : ¬ ∀ x ∈ noise, x ≥ 0 := by
        obtain ⟨x, hx, hneg⟩ := hex
        exact fun hall => hneg (hall x hx)
      simp [setNoise, hsize, hloop, getNoise, hex, hnot]
      obtain ⟨x, hx, hneg⟩ := hex
      exact ⟨x, hx, not_le.mp hneg⟩
    · have hall : ∀ x ∈ noise, x ≥ 0 := by
        intro x hx
        by_contra hneg
        apply hloop
        rw [← hsize]
        exact (noiseLoopThrows_range_iff noise).mpr ⟨x, hx, hneg⟩
      have hnex : ¬ ∃ x ∈ noise, ¬ (x ≥ 0) := by
        rintro ⟨x, hx, hneg⟩
        exact hneg (hall x hx)
      simp only [Bool.not_eq_true] at hloop
      simp [setNoise, hsize, hloop, getNoise, hall, hnex]
      exact hall
  · simp [setNoise, hsize, getNoise]

/-! ### The reduction of the model and the optimization bounds -/

theorem setCovarianceModel_returned (E : Collaborators R)
    (self : GeneralizedLinearModelAlgorithm R) (covarianceModel : CovarianceModel R)
    (h : (setCovarianceModel E self covarianceModel).1 = Outcome.returned ()) :
    ∃ full : CovarianceModel R,
      fullCovarianceModel E self.inputSample_.getDimension self.outputSample_.getDimension
          covarianceModel = some full ∧
        (setCovarianceModel E self covarianceModel).2 =
          { self with
            covarianceModel_ := full
            reducedCovarianceModel_ := (reduceCovarianceModel E self.optimizeParameters_ full).1
            analyticalAmplitude_ := (reduceCovarianceModel E self.optimizeParameters_ full).2
            optimizationBounds_ := defaultOptimizationBounds E
              (reduceCovarianceModel E self.optimizeParameters_ full).1 } := by
  cases hfull : fullCovarianceModel E self.inputSample_.getDimension
      self.outputSample_.getDimension covarianceModel with
  | none => simp [setCovarianceModel, hfull] at h
  | some full => exact ⟨full, rfl, by simp [setCovarianceModel, hfull]⟩

theorem defaultOptimizationBounds_dimension (E : Collaborators R)
    (reduced : CovarianceModel R) (h : reduced.getParameter.length ≠ 0) :
    (defaultOptimizationBounds E reduced).getDimension = reduced.getParameter.length := by
  have hpos : reduced.getParameter.length > 0 := Nat.pos_of_ne_zero h
  simp [defaultOptimizationBounds, hpos, Interval.getDimension]

/-- Claim C19. After `setCovarianceModel` succeeds, with `n` the size of the parameter vector
of the reduced model: if `n > 0` the optimization bounds are the interval of dimension `n`
whose lower bounds all equal the configured default lower scalar and whose upper bounds all
equal the configured default upper scalar; if `n = 0` the bounds are the default `Interval()`,
the empty interval. -/
theorem setCovarianceModel_bounds (E : Collaborators R)
    (self : GeneralizedLinearModelAlgorithm R) (covarianceModel : CovarianceModel R)
    (h : (setCovarianceModel E self covarianceModel).1 = Outcome.returned ()) :
    (0 < (setCovarianceModel E self
          covarianceModel).2.reducedCovarianceModel_.getParameter.length →
        getOptimizationBounds (setCovarianceModel E self covarianceModel).2 =
          ⟨List.replicate
            (setCovarianceModel E self
              covarianceModel).2.reducedCovarianceModel_.getParameter.length
            E.resourceMap.DefaultOptimizationLowerBound,
           List.replicate
            (setCovarianceModel E self
              covarianceModel).2.reducedCovarianceModel_.getParameter.length
            E.resourceMap.DefaultOptimizationUpperBound⟩ ∧
        (getOptimizationBounds (setCovarianceModel E self covarianceModel).2).getDimension =
          (setCovarianceModel E self
            covarianceModel).2.reducedCovarianceModel_.getParameter.length ∧
        (getOptimizationBounds (setCovarianceModel E self
            covarianceModel).2).upperBound.length =
          (setCovarianceModel E self
            covarianceModel).2.reducedCovarianceModel_.getParameter.length ∧
        (∀ x ∈ (getOptimizationBounds (setCovarianceModel E self
            covarianceModel).2).lowerBound, x = E.resourceMap.DefaultOptimizationLowerBound) ∧
        (∀ x ∈ (getOptimizationBounds (setCovarianceModel E self
            covarianceModel).2).upperBound,
          x = E.resourceMap.DefaultOptimizationUpperBound)) ∧
      ((setCovarianceModel E self
          covarianceModel).2.reducedCovarianceModel_.getParameter.length = 0 →
        getOptimizationBounds (setCovarianceModel E self covarianceModel).2 =
          Interval.empty) := by
  obtain ⟨full, -, hafter⟩ := setCovarianceModel_returned E self covarianceModel h
  rw [hafter]
  simp only [getOptimizationBounds]
  constructor
  · intro hpos
    have hpos2 : (reduceCovarianceModel E self.optimizeParameters_
        full).1.getParameter.length > 0 := hpos
    simp only [defaultOptimizationBounds, if_pos hpos2, Interval.getDimension,
      List.length_replicate, true_and]
    exact ⟨fun x hx => List.eq_of_mem_replicate hx, fun x hx => List.eq_of_mem_replicate hx⟩
  · intro hzero
    have hzero2 : ¬ (reduceCovarianceModel E self.optimizeParameters_
        full).1.getParameter.length > 0 := by
      rw [show (reduceCovarianceModel E self.optimizeParameters_
        full).1.getParameter.length = 0 from hzero]
      exact lt_irrefl 0
    simp only [defaultOptimizationBounds, if_neg hzero2]

/-- Witness of claim C19: on the example engine the scalar model is accepted, the reduced
model keeps the scale as its only parameter and the bounds are `[1/100, 100]`. -/
theorem setCovarianceModel_bounds_witness :
    (setCovarianceModel exampleCollaborators exampleAlgorithm
        exampleModel).2.reducedCovarianceModel_.getParameter.length = 1 ∧
      getOptimizationBounds
          (setCovarianceModel exampleCollaborators exampleAlgorithm exampleModel).2 =
        ⟨[1 / 100], [100]⟩ := by
  have hret : (setCovarianceModel exampleCollaborators exampleAlgorithm exampleModel).1 =
      Outcome.returned () := by
    simp [setCovarianceModel, fullCovarianceModel, exampleAlgorithm, toyAlgorithm,
      exampleModel, toyModel, NumericalSample.getDimension,
      CovarianceModel.getSpatialDimension, CovarianceModel.getDimension]
  have hlen : (setCovarianceModel exampleCollaborators exampleAlgorithm
      exampleModel).2.reducedCovarianceModel_.getParameter.length = 1 := by
    simp [setCovarianceModel, fullCovarianceModel, reduceCovarianceModel, exampleAlgorithm,
      toyAlgorithm, exampleModel, toyModel, NumericalSample.getDimension,
      CovarianceModel.getSpatialDimension, CovarianceModel.getDimension,
      exampleCollaborators, toyCollaborators, toyResourceMap,
      CovarianceModel.getParameterDescription, CovarianceModel.getFullParameterDescription,
      CovarianceModel.getParameter, CovarianceModel.setActiveParameter,
      CovarianceModel.setAmplitude, CovarianceModel.getActiveParameter, findAmplitude]
    decide
  have h := (setCovarianceModel_bounds exampleCollaborators exampleAlgorithm exampleModel
    hret).1 (by rw [hlen]; exact Nat.one_pos)
  refine ⟨hlen, ?_⟩
  rw [h.1, hlen]
  simp [exampleCollaborators, toyCollaborators, toyResourceMap]

/-- Claim C20. The invariant `BoundsInvariant` (whenever the parameter vector of the reduced
model is non-empty, the dimension of the optimization bounds is its size) holds after every
successful `setCovarianceModel` and `setOptimizationBounds`, and after every successful
`setOptimizeParameters` (which rebuilds the model and the bounds when the flag changes and
returns the engine as it was otherwise); `setOptimizationBounds` throws exactly when the
dimension of the given interval differs from the size of the reduced parameter vector, and
then leaves the engine, its bounds included, unchanged; `setOptimizeParameters` with a changed
flag leaves the default bounds of the rebuilt reduced model, whatever the bounds were. -/
theorem bounds_invariant (E : Collaborators R) (self : GeneralizedLinearModelAlgorithm R) :
    (∀ covarianceModel : CovarianceModel R,
        (setCovarianceModel E self covarianceModel).1 = Outcome.returned () →
        BoundsInvariant (setCovarianceModel E self covarianceModel).2) ∧
      (∀ optimizationBounds : Interval R,
        (setOptimizationBounds self optimizationBounds).1 = Outcome.returned () →
        BoundsInvariant (setOptimizationBounds self optimizationBounds).2 ∧
        getOptimizationBounds (setOptimizationBounds self optimizationBounds).2 =
          optimizationBounds) ∧
      (∀ optimizeParameters : Bool, optimizeParameters ≠ getOptimizeParameters self →
        (setOptimizeParameters E self optimizeParameters).1 = Outcome.returned () →
        BoundsInvariant (setOptimizeParameters E self optimizeParameters).2 ∧
        getOptimizationBounds (setOptimizeParameters E self optimizeParameters).2 =
          defaultOptimizationBounds E
            (setOptimizeParameters E self optimizeParameters).2.reducedCovarianceModel_ ∧
        getOptimizeParameters (setOptimizeParameters E self optimizeParameters).2 =
          optimizeParameters) ∧
      (∀ optimizeParameters : Bool, optimizeParameters = getOptimizeParameters self →
        setOptimizeParameters E self optimizeParameters = (Outcome.returned (), self) ∧
        (BoundsInvariant self →
          BoundsInvariant (setOptimizeParameters E self optimizeParameters).2)) ∧
      (∀ optimizationBounds : Interval R,
        ((setOptimizationBounds self optimizationBounds).1 =
            Outcome.thrown Error.optimizationBoundsDimension ↔
          optimizationBounds.getDimension ≠
            self.reducedCovarianceModel_.getParameter.length) ∧
        ((setOptimizationBounds self optimizationBounds).1 = Outcome.returned () ↔
          optimizationBounds.getDimension =
            self.reducedCovarianceModel_.getParameter.length) ∧
        (optimizationBounds.getDimension ≠
            self.reducedCovarianceModel_.getParameter.length →
          (setOptimizationBounds self optimizationBounds).2 = self ∧
          getOptimizationBounds (setOptimizationBounds self optimizationBounds).2 =
            getOptimizationBounds self)) := by
  refine ⟨?_, ?_, ?_, ?_, ?_⟩
  · intro covarianceModel h
    obtain ⟨full, -, hafter⟩ := setCovarianceModel_returned E self covarianceModel h
    rw [hafter]
    intro hne
    exact defaultOptimizationBounds_dimension E _ hne
  · intro optimizationBounds h
    by_cases hdim : optimizationBounds.getDimension =
        self.reducedCovarianceModel_.getParameter.length
    · simp [setOptimizationBounds, hdim, BoundsInvariant, getOptimizationBounds]
    · simp [setOptimizationBounds, hdim] at h
  · intro optimizeParameters hflag h
    have hflag2 : optimizeParameters ≠ self.optimizeParameters_ := hflag
    simp only [setOptimizeParameters, if_pos hflag2] at h ⊢
    obtain ⟨full, -, hafter⟩ := setCovarianceModel_returned E _ _ h
    rw [hafter]
    refine ⟨?_, ?_, ?_⟩
    · intro hne
      exact defaultOptimizationBounds_dimension E _ hne
    · trivial
    · trivial
  · intro optimizeParameters hflag
    have hflag2 : ¬ optimizeParameters ≠ self.optimizeParameters_ := not_not.mpr hflag
    simp only [setOptimizeParameters, if_neg hflag2]
    exact ⟨trivial, fun hinv => hinv⟩
  · intro optimizationBounds
    by_cases hdim : optimizationBounds.getDimension =
        self.reducedCovarianceModel_.getParameter.length
    · simp [setOptimizationBounds, hdim]
    · simp [setOptimizationBounds, hdim, getOptimizationBounds]

theorem findAmplitude_first :
    ∀ (description : List String) (start k : Nat), k < description.length →
      description.getD k "" = "amplitude_0" →
      (∀ j < k, description.getD j "" ≠ "amplitude_0") →
      findAmplitude description start = some (start + k) := by
  intro description
  induction description with
  | nil => intro start k hk; simp at hk
  | cons d description ih =>
    intro start k hk hat hbefore
    cases k with
    | zero =>
      simp only [List.getD_cons_zero] at hat
      simp [findAmplitude, hat]
    | succ k =>
      have hd : d ≠ "amplitude_0" := by
        have := hbefore 0 (Nat.succ_pos k)
        simpa using this
      simp only [findAmplitude, if_neg hd]
      rw [ih (start + 1) k (by simpa using hk) (by simpa using hat)
        (fun j hj => by simpa using hbefore (j + 1) (Nat.succ_lt_succ hj))]
      congr 1
      omega

theorem findAmplitude_none :
    ∀ (description : List String) (start : Nat), "amplitude_0" ∉ description →
      findAmplitude description start = none := by
  intro description
  induction description with
  | nil => intro start _; rfl
  | cons d description ih =>
    intro start hnot
    have hd : d ≠ "amplitude_0" := fun h => hnot (by simp [h])
    simp only [findAmplitude, if_neg hd]
    exact ih (start + 1) (fun h => hnot (List.mem_cons_of_mem _ h))

/-- Claim C18, as amended. After `setCovarianceModel` succeeds, with `full` the stored full
model: the active set of the reduced model is empty when the optimization of the parameters is
disabled; otherwise, when the configuration entry `UseAnalyticalAmplitudeEstimate` is on, the
model has dimension 1 and the description of its active parameters has `amplitude_0` at
position `i` and at no earlier position, the active set is the one of the full model without
its `i`-th entry (the entries before and after it kept in order), the amplitude is 1 and the
analytical-amplitude mode is on; otherwise (the entry off, a dimension other than 1, or no
`amplitude_0` in the description) the reduced model is the full model, its active set
unchanged, and the analytical-amplitude mode is off. -/
theorem setCovarianceModel_reduction (E : Collaborators R)
    (self : GeneralizedLinearModelAlgorithm R) (covarianceModel : CovarianceModel R)
    (h : (setCovarianceModel E self covarianceModel).1 = Outcome.returned ()) :
    (self.optimizeParameters_ = false →
        (getReducedCovarianceModel
          (setCovarianceModel E self covarianceModel).2).getActiveParameter = [] ∧
        (setCovarianceModel E self covarianceModel).2.analyticalAmplitude_ = false) ∧
      (self.optimizeParameters_ = true →
        E.resourceMap.UseAnalyticalAmplitudeEstimate = true →
        (getCovarianceModel (setCovarianceModel E self covarianceModel).2).getDimension = 1 →
        ∀ i : Nat,
          i < (getCovarianceModel
            (setCovarianceModel E self covarianceModel).2).getParameterDescription.length →
          (getCovarianceModel
            (setCovarianceModel E self covarianceModel).2).getParameterDescription.getD i "" =
            "amplitude_0" →
          (∀ j < i, (getCovarianceModel
            (setCovarianceModel E self covarianceModel).2).getParameterDescription.getD j "" ≠
            "amplitude_0") →
          (getReducedCovarianceModel
              (setCovarianceModel E self covarianceModel).2).getActiveParameter =
            (getCovarianceModel
                (setCovarianceModel E self covarianceModel).2).getActiveParameter.take i ++
              (getCovarianceModel
                (setCovarianceModel E self covarianceModel).2).getActiveParameter.drop
                (i + 1) ∧
          (getReducedCovarianceModel
              (setCovarianceModel E self covarianceModel).2).getAmplitude = [1] ∧
          (setCovarianceModel E self covarianceModel).2.analyticalAmplitude_ = true) ∧
      (self.optimizeParameters_ = true →
        (E.resourceMap.UseAnalyticalAmplitudeEstimate = false ∨
          (getCovarianceModel (setCovarianceModel E self covarianceModel).2).getDimension ≠ 1 ∨
          "amplitude_0" ∉ (getCovarianceModel
            (setCovarianceModel E self covarianceModel).2).getParameterDescription) →
        getReducedCovarianceModel (setCovarianceModel E self covarianceModel).2 =
          getCovarianceModel (setCovarianceModel E self covarianceModel).2 ∧
        (getReducedCovarianceModel
            (setCovarianceModel E self covarianceModel).2).getActiveParameter =
          (getCovarianceModel
            (setCovarianceModel E self covarianceModel).2).getActiveParameter ∧
        (setCovarianceModel E self covarianceModel).2.analyticalAmplitude_ = false) := by
  obtain ⟨full, -, hafter⟩ := setCovarianceModel_returned E self covarianceModel h
  rw [hafter]
  simp only [getReducedCovarianceModel, getCovarianceModel]
  refine ⟨?_, ?_, ?_⟩
  · intro hopt
    simp [reduceCovarianceModel, hopt, CovarianceModel.setActiveParameter,
      CovarianceModel.getActiveParameter]
  · intro hopt hflag hdim i hi hat hbefore
    have hfind := findAmplitude_first full.getParameterDescription 0 i hi hat hbefore
    rw [Nat.zero_add] at hfind
    simp [reduceCovarianceModel, hopt, hflag, hdim, hfind, CovarianceModel.setActiveParameter,
      CovarianceModel.getActiveParameter, CovarianceModel.setAmplitude,
      CovarianceModel.getAmplitude, List.eraseIdx_eq_take_drop_succ]
  · intro hopt hcases
    rcases hcases with hflag | hdim | hnot
    · simp [reduceCovarianceModel, hopt, hflag]
    · simp [reduceCovarianceModel, hopt, hdim]
    · have hfind := findAmplitude_none full.getParameterDescription 0 hnot
      by_cases hflag : E.resourceMap.UseAnalyticalAmplitudeEstimate = true
      · by_cases hdim : full.getDimension = 1
        · simp [reduceCovarianceModel, hopt, hflag, hdim, hfind]
        · simp [reduceCovarianceModel, hopt, hflag, hdim]
      · simp [reduceCovarianceModel, hopt, hflag]

theorem example_setCovarianceModel_description (E : Collaborators ℚ) :
    (setCovarianceModel E exampleAlgorithm exampleModel).1 = Outcome.returned () ∧
      getCovarianceModel (setCovarianceModel E exampleAlgorithm exampleModel).2 =
        exampleModel ∧
      exampleModel.getDimension = 1 ∧
      exampleModel.getActiveParameter = [0, 1] ∧
      exampleModel.getParameterDescription = ["scale_0", "amplitude_0"] := by
  refine ⟨?_, ?_, rfl, rfl, ?_⟩
  · simp [setCovarianceModel, fullCovarianceModel, exampleAlgorithm, toyAlgorithm,
      exampleModel, toyModel, NumericalSample.getDimension,
      CovarianceModel.getSpatialDimension, CovarianceModel.getDimension]
  · simp [setCovarianceModel, fullCovarianceModel, exampleAlgorithm, toyAlgorithm,
      exampleModel, toyModel, NumericalSample.getDimension,
      CovarianceModel.getSpatialDimension, CovarianceModel.getDimension, getCovarianceModel]
  · simp [exampleModel, toyModel, CovarianceModel.getParameterDescription,
      CovarianceModel.getFullParameterDescription]
    decide

/-- Witness of claim C18: on the example engine (optimization enabled, entry on, scalar model
whose active parameters are named `scale_0` and `amplitude_0`) the entry at position 1 is
removed from the active set `[0, 1]` and the analytical-amplitude mode is on. -/
theorem setCovarianceModel_reduction_witness :
    (getReducedCovarianceModel
        (setCovarianceModel exampleCollaborators exampleAlgorithm
          exampleModel).2).getActiveParameter = [0] ∧
      (getReducedCovarianceModel
        (setCovarianceModel exampleCollaborators exampleAlgorithm
          exampleModel).2).getAmplitude = [1] ∧
      (setCovarianceModel exampleCollaborators exampleAlgorithm
        exampleModel).2.analyticalAmplitude_ = true := by
  obtain ⟨hret, hfull, hdim, hactive, hdesc⟩ :=
    example_setCovarianceModel_description exampleCollaborators
  have h := (setCovarianceModel_reduction exampleCollaborators exampleAlgorithm exampleModel
    hret).2.1 rfl rfl (by rw [hfull]; exact hdim) 1
    (by rw [hfull, hdesc]; decide) (by rw [hfull, hdesc]; rfl)
    (by
      intro j hj
      have hj0 : j = 0 := by omega
      rw [hfull, hdesc, hj0]
      decide)
  rw [hfull, hactive] at h
  exact h

/-- Claim C18, counterexample to the claim as stated. With the configuration entry
`UseAnalyticalAmplitudeEstimate` off, `setCovarianceModel` succeeds on the example engine with
the optimization enabled and a model of dimension 1 whose description of the active parameters
has `amplitude_0` at position 1; yet the active set of the reduced model is the full set
`[0, 1]`, not `[0]`, and the analytical-amplitude mode is off. -/
theorem setCovarianceModel_keeps_amplitude_when_gate_off :
    (setCovarianceModel exampleFlagOff exampleAlgorithm exampleModel).1 =
        Outcome.returned () ∧
      exampleAlgorithm.optimizeParameters_ = true ∧
      (getCovarianceModel
        (setCovarianceModel exampleFlagOff exampleAlgorithm exampleModel).2).getDimension =
        1 ∧
      (getCovarianceModel
        (setCovarianceModel exampleFlagOff exampleAlgorithm
          exampleModel).2).getParameterDescription = ["scale_0", "amplitude_0"] ∧
      (getCovarianceModel
        (setCovarianceModel exampleFlagOff exampleAlgorithm
          exampleModel).2).getActiveParameter = [0, 1] ∧
      (getReducedCovarianceModel
        (setCovarianceModel exampleFlagOff exampleAlgorithm
          exampleModel).2).getActiveParameter = [0, 1] ∧
      (setCovarianceModel exampleFlagOff exampleAlgorithm
        exampleModel).2.analyticalAmplitude_ = false ∧
      ¬ ((getReducedCovarianceModel
            (setCovarianceModel exampleFlagOff exampleAlgorithm
              exampleModel).2).getActiveParameter =
          (getCovarianceModel
              (setCovarianceModel exampleFlagOff exampleAlgorithm
                exampleModel).2).getActiveParameter.take 1 ++
            (getCovarianceModel
              (setCovarianceModel exampleFlagOff exampleAlgorithm
                exampleModel).2).getActiveParameter.drop 2 ∧
        (setCovarianceModel exampleFlagOff exampleAlgorithm
          exampleModel).2.analyticalAmplitude_ = true) := by
  obtain ⟨hret, hfull, hdim, hactive, hdesc⟩ :=
    example_setCovarianceModel_description exampleFlagOff
  have hreduced : getReducedCovarianceModel
      (setCovarianceModel exampleFlagOff exampleAlgorithm exampleModel).2 = exampleModel ∧
      (setCovarianceModel exampleFlagOff exampleAlgorithm
        exampleModel).2.analyticalAmplitude_ = false := by
    constructor <;>
    simp [setCovarianceModel, fullCovarianceModel, reduceCovarianceModel, exampleAlgorithm,
      toyAlgorithm, exampleModel, toyModel, NumericalSample.getDimension,
      CovarianceModel.getSpatialDimension, CovarianceModel.getDimension,
      getReducedCovarianceModel, exampleFlagOff, toyResourceMap]
  rw [hfull, hreduced.1, hreduced.2, hactive, hdesc]
  refine ⟨hret, rfl, hdim, rfl, rfl, rfl, rfl, ?_⟩
  decide

/-! ### The log-determinant of the two backends -/

omit [LinearOrderedField R] in
theorem map_range_getD (d : List R) (z : R) :
    (List.range d.length).map (fun i => d.getD i z) = d := by
  apply List.ext_getElem
  · simp
  · intro i h1 h2
    simp [List.getElem?_eq_getElem h2]

theorem hmatLogDeterminant_positive (E : Collaborators R) (diagonal : List R)
    (h : ∀ x ∈ diagonal, 0 < x) :
    hmatLogDeterminant E diagonal diagonal.length = 2 * (diagonal.map E.log).sum := by
  unfold hmatLogDeterminant
  rw [map_range_getD, logDetLoop_positive E _ _ h]
  simp

theorem hmatLogDeterminant_nonpositive (E : Collaborators R) (diagonal : List R)
    (h : ∃ x ∈ diagonal, x ≤ 0) :
    hmatLogDeterminant E diagonal diagonal.length = E.specFunc.MaxNumericalScalar := by
  unfold hmatLogDeterminant
  rw [map_range_getD, logDetLoop_nonpositive E _ _ h]

theorem log_determinants_of_diagonal (E : Collaborators R) (L : SquareMatrix R) :
    ((∀ x ∈ L.diagonal, 0 < x) →
        hmatLogDeterminant E L.diagonal L.diagonal.length = lapackLogDeterminant E L) ∧
      ((∃ x ∈ L.diagonal, x ≤ 0) →
        lapackLogDeterminant E L = -E.specFunc.LogMaxNumericalScalar ∧
        hmatLogDeterminant E L.diagonal L.diagonal.length =
          E.specFunc.MaxNumericalScalar) := by
  constructor
  · intro h
    rw [hmatLogDeterminant_positive E _ h]
    unfold lapackLogDeterminant
    rw [logDetLoop_positive E _ _ h]
    simp
  · intro h
    refine ⟨?_, hmatLogDeterminant_nonpositive E _ h⟩
    unfold lapackLogDeterminant
    rw [logDetLoop_nonpositive E _ _ h]

theorem toySemidefiniteCholesky_zero (n : Nat) :
    toySemidefiniteCholesky (⟨n, 0⟩ : SquareMatrix R) = some ⟨n, 0⟩ := by
  simp [toySemidefiniteCholesky]

/-- Claim C11, the code at a failing input. On the example data with a zero covariance matrix
and factorizations that accept it (zero being a factor of zero), both backends return with a
factor whose diagonal is `[0, 0, 0]`, of length sampleSize*outputDimension = 3; the dense
backend returns -709, the opposite of the maximum-representable-log value, and the
hierarchical backend returns 10^308, the maximum representable value: the two values computed
from the same diagonal differ. -/
theorem backends_sentinels_differ :
    (computeLapackLogDeterminantCholesky exampleSemidefiniteHMat 5
        exampleReady).2.covarianceCholeskyFactor_.diagonal = [0, 0, 0] ∧
      exampleSemidefiniteHMat.hmatGetDiagonal
        (computeHMatLogDeterminantCholesky exampleSemidefiniteHMat 5
          exampleReady).2.covarianceCholeskyFactorHMatrix_ = [0, 0, 0] ∧
      exampleReady.inputSample_.getSize * exampleReady.outputSample_.getDimension = 3 ∧
      (computeLapackLogDeterminantCholesky exampleSemidefiniteHMat 5 exampleReady).1 =
        Outcome.returned (-709) ∧
      (computeHMatLogDeterminantCholesky exampleSemidefiniteHMat 5 exampleReady).1 =
        Outcome.returned (10 ^ 308) ∧
      (computeHMatLogDeterminantCholesky exampleSemidefiniteHMat 5 exampleReady).1 ≠
        (computeLapackLogDeterminantCholesky exampleSemidefiniteHMat 5 exampleReady).1 := by
  have h1 : (computeLapackLogDeterminantCholesky exampleSemidefiniteHMat 5 exampleReady).1 =
      Outcome.returned (-709) := by
    simp [computeLapackLogDeterminantCholesky, lapackLadderLoop, lapackLadderStart,
      lapackLadderStep, lapackCovarianceMatrix, exampleSemidefiniteHMat, exampleSemidefinite,
      exampleDegenerate,
      degenerateCollaborators, toyCollaborators, exampleReady, getObjectiveFunction, computeF,
      normalizeInputSample, exampleAlgorithm, toyAlgorithm, toyResourceMap,
      NumericalSample.getSize, toySemidefiniteCholesky, lapackSolve, lapackLogDeterminant,
      logDetLoop, SquareMatrix.diagonal, toySpecFunc]
  have h3 : (computeHMatLogDeterminantCholesky exampleSemidefiniteHMat 5 exampleReady).1 =
      Outcome.returned (toySpecFunc.MaxNumericalScalar : ℚ) := by
    simp [computeHMatLogDeterminantCholesky, hmatLadderLoop, hmatLadderStart,
      hmatLadderStep, exampleSemidefiniteHMat, exampleSemidefinite,
      exampleDegenerate,
      degenerateCollaborators, toyCollaborators, exampleReady, getObjectiveFunction, computeF,
      normalizeInputSample, exampleAlgorithm, toyAlgorithm, toyResourceMap,
      NumericalSample.getSize, NumericalSample.getData, toySemidefiniteCholesky_zero,
      hmatSolve,
      hmatLogDeterminant,
      logDetLoop, SquareMatrix.diagonal, SquareMatrix.addToDiagonal_zero,
      List.range_succ]
  have h2 : (computeHMatLogDeterminantCholesky exampleSemidefiniteHMat 5 exampleReady).1 =
      Outcome.returned (10 ^ 308) := by
    rw [h3]
    simp only [toySpecFunc]
  refine ⟨?_, ?_, ?_, h1, h2, ?_⟩
  · simp [computeLapackLogDeterminantCholesky, lapackLadderLoop, lapackLadderStart,
      lapackLadderStep, lapackCovarianceMatrix, exampleSemidefiniteHMat, exampleSemidefinite,
      exampleDegenerate,
      degenerateCollaborators, toyCollaborators, exampleReady, getObjectiveFunction, computeF,
      normalizeInputSample, exampleAlgorithm, toyAlgorithm, toyResourceMap,
      NumericalSample.getSize, toySemidefiniteCholesky, lapackSolve, SquareMatrix.diagonal]
  · simp [computeHMatLogDeterminantCholesky, hmatLadderLoop, hmatLadderStart,
      hmatLadderStep, exampleSemidefiniteHMat, exampleSemidefinite,
      exampleDegenerate,
      degenerateCollaborators, toyCollaborators, exampleReady, getObjectiveFunction, computeF,
      normalizeInputSample, exampleAlgorithm, toyAlgorithm, toyResourceMap,
      NumericalSample.getSize, toySemidefiniteCholesky_zero, hmatSolve,
      SquareMatrix.diagonal, SquareMatrix.addToDiagonal_zero]
  · simp [exampleReady, getObjectiveFunction, computeF,
      normalizeInputSample, exampleAlgorithm, toyAlgorithm,
      NumericalSample.getSize, NumericalSample.getDimension]
  · rw [h1, h2]
    intro h
    simp only [Outcome.returned.injEq] at h
    have hpos : (0 : ℚ) < 10 ^ 308 := by positivity
    rw [h] at hpos
    exact absurd hpos (by norm_num)

/-! ### What the evaluations of the objective leave alone -/

omit [LinearOrderedField R] in
theorem SameProblem.refl (s : GeneralizedLinearModelAlgorithm R) : SameProblem s s := by
  simp [SameProblem]

omit [LinearOrderedField R] in
theorem SameProblem.trans {s t u : GeneralizedLinearModelAlgorithm R}
    (h1 : SameProblem s t) (h2 : SameProblem t u) : SameProblem s u := by
  obtain ⟨a1, a2, a3, a4, a5, a6, a7, a8, a9, a10, a11, a12, a13, a14, a15, a16, a17, a18⟩ := h1
  obtain ⟨b1, b2, b3, b4, b5, b6, b7, b8, b9, b10, b11, b12, b13, b14, b15, b16, b17, b18⟩ := h2
  exact ⟨b1.trans a1, b2.trans a2, b3.trans a3, b4.trans a4, b5.trans a5, b6.trans a6,
    b7.trans a7, b8.trans a8, b9.trans a9, b10.trans a10, b11.trans a11, b12.trans a12,
    b13.trans a13, b14.trans a14, b15.trans a15, b16.trans a16, b17.trans a17,
    fun h => (b18 (a6.trans h)).trans (a18 h)⟩

theorem computeLapack_sameProblem (E : Collaborators R) (fuel : Nat)
    (self : GeneralizedLinearModelAlgorithm R) :
    SameProblem self (computeLapackLogDeterminantCholesky E fuel self).2 := by
  unfold computeLapackLogDeterminantCholesky
  cases lapackLadderLoop E E.resourceMap.MaximalScaling fuel (lapackLadderStart E self) with
  | none => exact SameProblem.refl self
  | some l =>
    dsimp only
    split_ifs
    · simp [SameProblem]
    · unfold lapackSolve
      dsimp only
      split_ifs with hbasis
      · simp only [SameProblem, true_and, and_true]
        intro hnil
        rw [hnil] at hbasis
        simp at hbasis
      · simp [SameProblem]

theorem computeHMat_sameProblem (E : Collaborators R) (fuel : Nat)
    (self : GeneralizedLinearModelAlgorithm R) :
    SameProblem self (computeHMatLogDeterminantCholesky E fuel self).2 := by
  unfold computeHMatLogDeterminantCholesky
  cases hmatLadderLoop E self E.resourceMap.MaximalScaling fuel (hmatLadderStart E self) with
  | none => exact SameProblem.refl self
  | some l =>
    dsimp only
    split_ifs
    · simp [SameProblem]
    · unfold hmatSolve
      dsimp only
      split_ifs with hbasis
      · simp only [SameProblem, true_and, and_true]
        intro hnil
        rw [hnil] at hbasis
        simp at hbasis
      · simp [SameProblem]

theorem computeLogDeterminant_sameProblem (E : Collaborators R) (fuel : Nat)
    (self : GeneralizedLinearModelAlgorithm R) (parameters : List R) :
    SameProblem self (computeLogDeterminant E fuel self parameters).2 := by
  unfold computeLogDeterminant
  dsimp only
  split_ifs
  · exact SameProblem.trans (by simp [SameProblem, CovarianceModel.setParameter,
      CovarianceModel.setAmplitude]) (computeLapack_sameProblem E fuel _)
  · exact SameProblem.trans (by simp [SameProblem, CovarianceModel.setParameter,
      CovarianceModel.setAmplitude]) (computeLapack_sameProblem E fuel _)
  · exact SameProblem.trans (by simp [SameProblem, CovarianceModel.setParameter,
      CovarianceModel.setAmplitude]) (computeHMat_sameProblem E fuel _)
  · exact SameProblem.trans (by simp [SameProblem, CovarianceModel.setParameter,
      CovarianceModel.setAmplitude]) (computeHMat_sameProblem E fuel _)

theorem amplitudeCorrected_sameProblem (E : Collaborators R)
    (self : GeneralizedLinearModelAlgorithm R) (logDeterminant : R) :
    SameProblem self (amplitudeCorrected E self logDeterminant).2 := by
  unfold amplitudeCorrected analyticalAmplitudeStep
  split_ifs <;> exact SameProblem.refl self

theorem computeReducedLogLikelihood_sameProblem (E : Collaborators R) (fuel : Nat)
    (self : GeneralizedLinearModelAlgorithm R) (parameters : List R) :
    SameProblem self (computeReducedLogLikelihood E fuel self parameters).2 := by
  unfold computeReducedLogLikelihood
  split_ifs
  · exact SameProblem.refl self
  · have h1 := computeLogDeterminant_sameProblem E fuel self parameters
    rcases hcd : computeLogDeterminant E fuel self parameters with ⟨out, self2⟩
    rw [hcd] at h1
    cases out with
    | returned logDeterminant =>
      have h2 := amplitudeCorrected_sameProblem E self2 logDeterminant
      exact SameProblem.trans h1 (SameProblem.trans h2 (by simp [SameProblem]))
    | thrown e => exact h1
    | unfinished => exact h1

theorem evaluateObjective_sameProblem (E : Collaborators R) (fuel : Nat)
    (cache : List (List R × List R)) (self : GeneralizedLinearModelAlgorithm R)
    (point : List R) :
    SameProblem self (evaluateObjective E fuel cache self point).2.2 := by
  unfold evaluateObjective
  cases cache.lookup point with
  | some value => exact SameProblem.refl self
  | none =>
    have h1 := computeReducedLogLikelihood_sameProblem E fuel self point
    rcases hc : computeReducedLogLikelihood E fuel self point with ⟨out, self1⟩
    rw [hc] at h1
    cases out <;> exact h1

theorem runScript_sameProblem (E : Collaborators R) (fuel : Nat) :
    ∀ (script : SolverScript R) (cache : List (List R × List R))
      (self : GeneralizedLinearModelAlgorithm R),
      SameProblem self (runScript E fuel script cache self).2 := by
  intro script
  induction script with
  | report optimalPoint optimalValue => intro cache self; exact SameProblem.refl self
  | evaluate point next ih =>
    intro cache self
    have h1 := evaluateObjective_sameProblem E fuel cache self point
    unfold runScript
    rcases he : evaluateObjective E fuel cache self point with ⟨out, cache1, self1⟩
    rw [he] at h1
    cases out with
    | returned value => exact SameProblem.trans h1 (ih value cache1 self1)
    | thrown e => exact h1
    | unfinished => exact h1

theorem getObjectiveFunction_sameProblem (self : GeneralizedLinearModelAlgorithm R) :
    SameProblem self (getObjectiveFunction self) := by
  have h1 : SameProblem self (normalizeInputSample self) := by
    unfold normalizeInputSample
    split_ifs <;> simp [SameProblem]
  have h2 : ∀ s : GeneralizedLinearModelAlgorithm R, SameProblem s (computeF s) := by
    intro s
    unfold computeF
    dsimp only
    split_ifs <;> simp [SameProblem]
  exact SameProblem.trans h1 (h2 _)

theorem maximize_sameProblem (E : Collaborators R) (fuel : Nat)
    (self : GeneralizedLinearModelAlgorithm R) :
    SameProblem self (maximizeReducedLogLikelihood E fuel self).2 := by
  have h0 := getObjectiveFunction_sameProblem self
  unfold maximizeReducedLogLikelihood
  dsimp only
  split_ifs with hlen
  · have h1 := evaluateObjective_sameProblem E fuel [] (getObjectiveFunction self)
      self.reducedCovarianceModel_.getParameter
    rcases he : evaluateObjective E fuel [] (getObjectiveFunction self)
      self.reducedCovarianceModel_.getParameter with ⟨out, cache1, self1⟩
    rw [he] at h1
    cases out <;> exact SameProblem.trans h0 h1
  · split
    · exact h0
    · exact h0
    · rename_i problem hbounds
      have h3 := runScript_sameProblem E fuel
        ((getObjectiveFunction self).solver_.script problem
          self.reducedCovarianceModel_.getParameter) []
        { getObjectiveFunction self with
          solver_ := { (getObjectiveFunction self).solver_ with
                       startingPoint_ := self.reducedCovarianceModel_.getParameter
                       problem_ := problem } }
      have h2 : SameProblem self
          { getObjectiveFunction self with
            solver_ := { (getObjectiveFunction self).solver_ with
                         startingPoint_ := self.reducedCovarianceModel_.getParameter
                         problem_ := problem } } := h0
      split
      · rename_i e self3 hrun
        rw [hrun] at h3
        exact SameProblem.trans h2 h3
      · rename_i self3 hrun
        rw [hrun] at h3
        exact SameProblem.trans h2 h3
      · rename_i optimalPoint optimalValue self3 hrun
        rw [hrun] at h3
        have h4 : SameProblem self
            { self3 with
              solver_ := { self3.solver_ with optimalPoint_ := optimalPoint
                                              optimalValue_ := optimalValue } } :=
          SameProblem.trans h2 h3
        split_ifs
        · have h5 := computeReducedLogLikelihood_sameProblem E fuel
            { self3 with
              solver_ := { self3.solver_ with optimalPoint_ := optimalPoint
                                              optimalValue_ := optimalValue } } optimalPoint
          split <;> rename_i hc <;> rw [hc] at h5 <;> exact SameProblem.trans h4 h5
        · exact h4

/-! ### The driver without parameters to optimize -/

theorem hmatLadderLoop_solver (E : Collaborators R) (self : GeneralizedLinearModelAlgorithm R)
    (solver : OptimizationSolver R) (maximalScaling : R) :
    ∀ (fuel : Nat) (l : HMatLadder R),
      hmatLadderLoop E { self with solver_ := solver } maximalScaling fuel l =
        hmatLadderLoop E self maximalScaling fuel l := by
  intro fuel
  induction fuel with
  | zero => intro l; rfl
  | succ fuel ih =>
    intro l
    unfold hmatLadderLoop
    split_ifs
    · have hstep : hmatLadderStep E { self with solver_ := solver } l =
          hmatLadderStep E self l := rfl
      rw [hstep, ih]
    · rfl

theorem computeLapack_solver (E : Collaborators R) (fuel : Nat)
    (self : GeneralizedLinearModelAlgorithm R) (solver : OptimizationSolver R) :
    computeLapackLogDeterminantCholesky E fuel { self with solver_ := solver } =
      ((computeLapackLogDeterminantCholesky E fuel self).1,
       { (computeLapackLogDeterminantCholesky E fuel self).2 with solver_ := solver }) := by
  have hstart : lapackLadderStart E { self with solver_ := solver } =
      lapackLadderStart E self := rfl
  unfold computeLapackLogDeterminantCholesky
  rw [hstart]
  cases lapackLadderLoop E E.resourceMap.MaximalScaling fuel (lapackLadderStart E self) with
  | none => rfl
  | some l =>
    dsimp only
    split_ifs
    · rfl
    · unfold lapackSolve
      dsimp only
      split_ifs <;> rfl

theorem computeHMat_solver (E : Collaborators R) (fuel : Nat)
    (self : GeneralizedLinearModelAlgorithm R) (solver : OptimizationSolver R) :
    computeHMatLogDeterminantCholesky E fuel { self with solver_ := solver } =
      ((computeHMatLogDeterminantCholesky E fuel self).1,
       { (computeHMatLogDeterminantCholesky E fuel self).2 with solver_ := solver }) := by
  have hstart : hmatLadderStart E { self with solver_ := solver } =
      hmatLadderStart E self := rfl
  unfold computeHMatLogDeterminantCholesky
  rw [hstart, hmatLadderLoop_solver]
  cases hmatLadderLoop E self E.resourceMap.MaximalScaling fuel (hmatLadderStart E self) with
  | none => rfl
  | some l =>
    dsimp only
    split_ifs
    · rfl
    · unfold hmatSolve
      dsimp only
      split_ifs <;> rfl

theorem computeLogDeterminant_solver (E : Collaborators R) (fuel : Nat)
    (self : GeneralizedLinearModelAlgorithm R) (parameters : List R)
    (solver : OptimizationSolver R) :
    computeLogDeterminant E fuel { self with solver_ := solver } parameters =
      ((computeLogDeterminant E fuel self parameters).1,
       { (computeLogDeterminant E fuel self parameters).2 with solver_ := solver }) := by
  unfold computeLogDeterminant
  dsimp only
  split_ifs
  · exact computeLapack_solver E fuel
      { self with
        reducedCovarianceModel_ :=
          (self.reducedCovarianceModel_.setAmplitude [1]).setParameter parameters } solver
  · exact computeLapack_solver E fuel
      { self with
        reducedCovarianceModel_ := self.reducedCovarianceModel_.setParameter parameters }
      solver
  · exact computeHMat_solver E fuel
      { self with
        reducedCovarianceModel_ :=
          (self.reducedCovarianceModel_.setAmplitude [1]).setParameter parameters } solver
  · exact computeHMat_solver E fuel
      { self with
        reducedCovarianceModel_ := self.reducedCovarianceModel_.setParameter parameters }
      solver

theorem computeReducedLogLikelihood_solver (E : Collaborators R) (fuel : Nat)
    (self : GeneralizedLinearModelAlgorithm R) (parameters : List R)
    (solver : OptimizationSolver R) :
    computeReducedLogLikelihood E fuel { self with solver_ := solver } parameters =
      ((computeReducedLogLikelihood E fuel self parameters).1,
       { (computeReducedLogLikelihood E fuel self parameters).2 with solver_ := solver }) := by
  unfold computeReducedLogLikelihood
  rw [computeLogDeterminant_solver]
  dsimp only
  split_ifs
  · rfl
  · rcases computeLogDeterminant E fuel self parameters with ⟨out, self2⟩
    cases out with
    | returned logDeterminant =>
      dsimp only
      unfold amplitudeCorrected analyticalAmplitudeStep
      dsimp only
      split_ifs <;> rfl
    | thrown e => rfl
    | unfinished => rfl

theorem getObjectiveFunction_solver (self : GeneralizedLinearModelAlgorithm R)
    (solver : OptimizationSolver R) :
    getObjectiveFunction { self with solver_ := solver } =
      { getObjectiveFunction self with solver_ := solver } := by
  unfold getObjectiveFunction normalizeInputSample
  dsimp only
  split_ifs <;> (unfold computeF; dsimp only; split_ifs <;> rfl)

theorem computeReducedLogLikelihood_returned_shape (E : Collaborators R) (fuel : Nat)
    (self : GeneralizedLinearModelAlgorithm R) (parameters value : List R)
    (h : (computeReducedLogLikelihood E fuel self parameters).1 = Outcome.returned value) :
    value = [(computeReducedLogLikelihood E fuel self parameters).2.lastReducedLogLikelihood_] := by
  by_cases hsize : parameters.length = self.reducedCovarianceModel_.getParameter.length
  · rcases hout : (computeLogDeterminant E fuel self parameters).1 with v | e | _
    · rw [computeReducedLogLikelihood_of_returned E fuel self parameters v hsize hout] at h ⊢
      simp only [Outcome.returned.injEq] at h
      exact h.symm
    · rw [computeReducedLogLikelihood_of_thrown E fuel self parameters e hsize hout] at h
      cases h
    · rw [computeReducedLogLikelihood_of_unfinished E fuel self parameters hsize hout] at h
      cases h
  · simp [computeReducedLogLikelihood, hsize] at h

/-- Claim C12. When the parameter vector of the reduced covariance model is empty,
`maximizeReducedLogLikelihood` is one evaluation of the objective, at the empty parameter
vector, on the engine prepared by `getObjectiveFunction`: its outcome and the engine it leaves
are those of that single call of `computeReducedLogLikelihood`; the optimizer is not run (the
solver is left as it was, and with any other solver in its place the outcome and the engine
are the same); and when it returns, the value returned is exactly the log-likelihood returned
and cached by that evaluation. -/
theorem maximize_without_parameters (E : Collaborators R) (fuel : Nat)
    (self : GeneralizedLinearModelAlgorithm R)
    (hEmpty : self.reducedCovarianceModel_.getParameter = []) :
    maximizeReducedLogLikelihood E fuel self =
        (match computeReducedLogLikelihood E fuel (getObjectiveFunction self) [] with
         | (Outcome.returned value, self2) => (Outcome.returned (value.getD 0 0), self2)
         | (Outcome.thrown e, self2) => (Outcome.thrown e, self2)
         | (Outcome.unfinished, self2) => (Outcome.unfinished, self2)) ∧
      (maximizeReducedLogLikelihood E fuel self).2.solver_ = self.solver_ ∧
      (∀ solver : OptimizationSolver R,
        maximizeReducedLogLikelihood E fuel { self with solver_ := solver } =
          ((maximizeReducedLogLikelihood E fuel self).1,
           { (maximizeReducedLogLikelihood E fuel self).2 with solver_ := solver })) ∧
      (∀ value : R, (maximizeReducedLogLikelihood E fuel self).1 = Outcome.returned value →
        computeReducedLogLikelihood E fuel (getObjectiveFunction self) [] =
          (Outcome.returned [value], (maximizeReducedLogLikelihood E fuel self).2) ∧
        (maximizeReducedLogLikelihood E fuel self).2.lastReducedLogLikelihood_ = value) := by
  have hmax : ∀ s : GeneralizedLinearModelAlgorithm R,
      s.reducedCovarianceModel_.getParameter = [] →
      maximizeReducedLogLikelihood E fuel s =
        (match computeReducedLogLikelihood E fuel (getObjectiveFunction s) [] with
         | (Outcome.returned value, self2) => (Outcome.returned (value.getD 0 0), self2)
         | (Outcome.thrown e, self2) => (Outcome.thrown e, self2)
         | (Outcome.unfinished, self2) => (Outcome.unfinished, self2)) := by
    intro s hs
    unfold maximizeReducedLogLikelihood
    simp only [hs, List.length_nil, if_true, evaluateObjective, List.lookup]
    rcases computeReducedLogLikelihood E fuel (getObjectiveFunction s) [] with ⟨out, self2⟩
    cases out <;> rfl
  refine ⟨hmax self hEmpty, ?_, ?_, ?_⟩
  · rw [hmax self hEmpty]
    have hc := computeReducedLogLikelihood_solver E fuel (getObjectiveFunction self) []
      (getObjectiveFunction self).solver_
    have hg : (getObjectiveFunction self).solver_ = self.solver_ := by
      have h1 := congrArg GeneralizedLinearModelAlgorithm.solver_
        (getObjectiveFunction_solver self self.solver_)
      exact h1
    have hs : (computeReducedLogLikelihood E fuel (getObjectiveFunction self) []).2.solver_ =
        (getObjectiveFunction self).solver_ :=
      congrArg (fun p => p.2.solver_) hc
    rw [← hg, ← hs]
    rcases computeReducedLogLikelihood E fuel (getObjectiveFunction self) [] with ⟨out, self2⟩
    cases out <;> rfl
  · intro solver
    rw [hmax self hEmpty, hmax { self with solver_ := solver } hEmpty,
      getObjectiveFunction_solver, computeReducedLogLikelihood_solver]
    rcases computeReducedLogLikelihood E fuel (getObjectiveFunction self) [] with ⟨out, self2⟩
    cases out <;> rfl
  · intro value hret
    rw [hmax self hEmpty] at hret ⊢
    have hshape := computeReducedLogLikelihood_returned_shape E fuel
      (getObjectiveFunction self) []
    rcases hc : computeReducedLogLikelihood E fuel (getObjectiveFunction self) []
      with ⟨out, self2⟩
    rw [hc] at hret hshape
    cases out with
    | returned v =>
      have hv := hshape v rfl
      simp only at hv
      subst hv
      simp only [Outcome.returned.injEq, List.getD_cons_zero] at hret
      subst hret
      exact ⟨rfl, rfl⟩
    | thrown e => simp at hret
    | unfinished => simp at hret

/-- Witness of claim C12: the example engine with no active parameter; the single evaluation
returns the log-likelihood -1/2 and the solver is left as it was. -/
theorem maximize_without_parameters_witness :
    exampleFixed.reducedCovarianceModel_.getParameter = [] ∧
      (maximizeReducedLogLikelihood exampleCollaborators 5 exampleFixed).1 =
        Outcome.returned (-(1 / 2)) ∧
      (maximizeReducedLogLikelihood exampleCollaborators 5 exampleFixed).2.solver_ =
        exampleFixed.solver_ ∧
      (maximizeReducedLogLikelihood exampleCollaborators 5
        exampleFixed).2.lastReducedLogLikelihood_ = -(1 / 2) := by
  have hret : (maximizeReducedLogLikelihood exampleCollaborators 5 exampleFixed).1 =
      Outcome.returned (-(1 / 2)) := by
    simp [maximizeReducedLogLikelihood, getObjectiveFunction, evaluateObjective,
      computeReducedLogLikelihood, computeLogDeterminant, amplitudeCorrected,
      reducedLogLikelihoodValue, normSquare, computeLapackLogDeterminantCholesky,
      lapackLadderLoop, lapackLadderStart, lapackLadderStep, lapackCovarianceMatrix,
      exampleCollaborators, toyCollaborators, computeF, exampleFixed, exampleModel,
      normalizeInputSample, exampleAlgorithm, toyAlgorithm, toyModel, toyResourceMap,
      NumericalSample.getSize, NumericalSample.getData, CovarianceModel.getParameter,
      CovarianceModel.setParameter, CovarianceModel.getFullParameter, writeActive,
      CovarianceModel.setActiveParameter,
      toyCholesky_one, lapackSolve, lapackLogDeterminant, logDetLoop, SquareMatrix.diagonal]
    norm_num
  have h := maximize_without_parameters exampleCollaborators 5 exampleFixed rfl
  exact ⟨rfl, hret, h.2.1, (h.2.2.2 _ hret).2⟩

/-! ### The estimates stored by the driver -/

theorem storeEstimates_result (E : Collaborators R) (self : GeneralizedLinearModelAlgorithm R)
    (optimalLogLikelihood : R) :
    ∃ result : GeneralizedLinearModelResult R,
      (storeEstimates E self optimalLogLikelihood).result_ = some result ∧
      result.metaModel = buildMetaModel E self
        (partitionTrend self.beta_ (self.basisCollection_.map List.length)
          self.reducedCovarianceModel_.getDimension).2.2 ∧
      result.trendCoefficients =
        (partitionTrend self.beta_ (self.basisCollection_.map List.length)
          self.reducedCovarianceModel_.getDimension).2.1 ∧
      result.residuals = (computeResiduals E self result.metaModel).1 ∧
      result.relativeErrors = (computeResiduals E self result.metaModel).2 ∧
      (storeEstimates E self optimalLogLikelihood).beta_ = self.beta_ := by
  unfold storeEstimates
  dsimp only
  split_ifs <;> exact ⟨_, rfl, rfl, rfl, rfl, rfl, rfl⟩

theorem buildMetaModel_without_basis (E : Collaborators R)
    (self : GeneralizedLinearModelAlgorithm R) (coefficients : List (List R))
    (hBasis : self.basisCollection_ = []) :
    (buildMetaModel E self coefficients).inputDimension =
        (if self.normalize_ then self.inputTransformation_.inputDimension
         else if E.haveMuParser then self.covarianceModel_.getSpatialDimension
         else self.reducedCovarianceModel_.getSpatialDimension) ∧
      (buildMetaModel E self coefficients).outputDimension =
        (if E.haveMuParser then self.covarianceModel_.getDimension
         else self.reducedCovarianceModel_.getDimension) ∧
      ∀ x : List R, (buildMetaModel E self coefficients).eval x =
        List.replicate
          (if E.haveMuParser then self.covarianceModel_.getDimension
           else self.reducedCovarianceModel_.getDimension) 0 := by
  unfold buildMetaModel
  simp only [hBasis, List.length_nil, gt_iff_lt, lt_self_iff_false, if_false]
  by_cases hn : self.normalize_ = true <;> by_cases hm : E.haveMuParser = true <;>
    simp [hn, hm]

theorem run_fresh (E : Collaborators R) (fuel : Nat)
    (self : GeneralizedLinearModelAlgorithm R) (hFresh : self.hasRun_ = false)
    (hRun : (run E fuel self).1 = Outcome.returned ()) :
    ∃ (optimalLogLikelihood : R) (self1 : GeneralizedLinearModelAlgorithm R),
      maximizeReducedLogLikelihood E fuel (computeF (normalizeInputSample self)) =
        (Outcome.returned optimalLogLikelihood, self1) ∧
      SameProblem self self1 ∧
      (run E fuel self).2 = storeEstimates E self1 optimalLogLikelihood := by
  have hframe := SameProblem.trans (getObjectiveFunction_sameProblem self)
    (maximize_sameProblem E fuel (getObjectiveFunction self))
  unfold getObjectiveFunction at hframe
  unfold run at hRun ⊢
  simp only [hFresh, Bool.false_eq_true, if_false] at hRun ⊢
  rcases hmax : maximizeReducedLogLikelihood E fuel (computeF (normalizeInputSample self))
    with ⟨out, self1⟩
  rw [hmax] at hRun hframe
  cases out with
  | returned v => exact ⟨v, self1, rfl, hframe, rfl⟩
  | thrown e => simp at hRun
  | unfinished => simp at hRun

/-- Claim C14. For every engine built without trend basis (empty basis collection, hence the
empty `beta_` the constructors leave) whose models have the dimensions of the samples and
whose input transformation, when the normalization is on, takes points of the input
dimension: after a `run()` that completes, `beta_` has size zero, the collection of trend
coefficients of the result is empty, and the metamodel of the result is the zero function from
the input dimension to the output dimension, equal to the zero point at every input, with or
without normalization. -/
theorem run_without_trend (E : Collaborators R) (fuel : Nat)
    (self : GeneralizedLinearModelAlgorithm R)
    (hBasis : self.basisCollection_ = []) (hBeta : self.beta_ = [])
    (hFresh : self.hasRun_ = false)
    (hFull : self.covarianceModel_.getSpatialDimension = self.inputSample_.getDimension ∧
      self.covarianceModel_.getDimension = self.outputSample_.getDimension)
    (hReduced :
      self.reducedCovarianceModel_.getSpatialDimension = self.inputSample_.getDimension ∧
      self.reducedCovarianceModel_.getDimension = self.outputSample_.getDimension)
    (hTransformation : self.normalize_ = true →
      self.inputTransformation_.inputDimension = self.inputSample_.getDimension)
    (hRun : (run E fuel self).1 = Outcome.returned ()) :
    (run E fuel self).2.beta_.length = 0 ∧
      ∃ result : GeneralizedLinearModelResult R,
        (run E fuel self).2.result_ = some result ∧
        result.trendCoefficients = [] ∧
        result.metaModel.inputDimension = self.inputSample_.getDimension ∧
        result.metaModel.outputDimension = self.outputSample_.getDimension ∧
        ∀ x : List R,
          result.metaModel.eval x = List.replicate self.outputSample_.getDimension 0 := by
  obtain ⟨v, self1, -, hframe, hstore⟩ := run_fresh E fuel self hFresh hRun
  obtain ⟨-, -, hT, hN, hC, hB, -, -, -, -, -, -, -, -, hS, hD, -, hbeta⟩ := hframe
  have hBasis1 : self1.basisCollection_ = [] := hB.trans hBasis
  obtain ⟨result, hres, hmeta, htrend, -, -, hb⟩ := storeEstimates_result E self1 v
  obtain ⟨hin, hout, heval⟩ := buildMetaModel_without_basis E self1
    (partitionTrend self1.beta_ (self1.basisCollection_.map List.length)
      self1.reducedCovarianceModel_.getDimension).2.2 hBasis1
  have hdim : (if E.haveMuParser then self1.covarianceModel_.getDimension
      else self1.reducedCovarianceModel_.getDimension) = self.outputSample_.getDimension := by
    split_ifs
    · rw [hC]; exact hFull.2
    · exact hD.trans hReduced.2
  rw [hstore]
  refine ⟨by rw [hb, hbeta hBasis, hBeta]; rfl, result, hres, ?_, ?_, ?_, ?_⟩
  · rw [htrend, hBasis1]
    simp [partitionTrend]
  · rw [hmeta, hin, hN, hT, hC]
    by_cases hn : self.normalize_ = true
    · simp [hn, hTransformation hn]
    · by_cases hm : E.haveMuParser = true
      · simp [hn, hm, hFull.1]
      · simp only [hn, hm, Bool.false_eq_true, if_false]
        exact hS.trans hReduced.1
  · rw [hmeta, hout, hdim]
  · intro x
    rw [hmeta, heval x, hdim]

/-- Witness of claim C14: the example engine has no trend basis; its run completes, leaves an
empty `beta_`, no trend coefficient, and a metamodel from dimension 1 to dimension 1 that is
zero at every point. -/
theorem run_without_trend_witness :
    (run exampleCollaborators 5 exampleAlgorithm).1 = Outcome.returned () ∧
      (run exampleCollaborators 5 exampleAlgorithm).2.beta_.length = 0 ∧
      ∃ result : GeneralizedLinearModelResult ℚ,
        (run exampleCollaborators 5 exampleAlgorithm).2.result_ = some result ∧
        result.trendCoefficients = [] ∧
        result.metaModel.inputDimension = 1 ∧
        result.metaModel.outputDimension = 1 ∧
        ∀ x : List ℚ, result.metaModel.eval x = [0] :=
  ⟨example_run_returns,
    run_without_trend exampleCollaborators 5 exampleAlgorithm rfl rfl rfl ⟨rfl, rfl⟩
      ⟨rfl, rfl⟩ (fun h => by cases h) example_run_returns⟩

/-! ### The residuals -/

omit [LinearOrderedField R] in
theorem getD_map_range (f : Nat → R) (z : R) (n i : Nat) (hi : i < n) :
    ((List.range n).map f).getD i z = f i := by
  simp [List.getD_eq_getElem?_getD, List.getElem?_map, List.getElem?_range hi]

theorem computeResiduals_residual (E : Collaborators R)
    (self : GeneralizedLinearModelAlgorithm R) (metaModel : NumericalMathFunction R)
    (hSize : self.inputSample_.getSize = self.outputSample_.getSize) :
    (computeResiduals E self metaModel).1.length = self.outputSample_.getDimension ∧
      ∀ i : Nat, i < self.outputSample_.getDimension →
        (computeResiduals E self metaModel).1.getD i 0 =
          E.sqrt
            (((List.zipWith subPoint self.outputSample_.data
                  (self.inputSample_.data.map metaModel.eval)).map
                (fun d => d.getD i 0 * d.getD i 0)).sum /
              (self.inputSample_.getSize : R) / (self.inputSample_.getSize : R)) := by
  constructor
  · simp [computeResiduals]
  · intro i hi
    have hi2 : i < self.outputSample_.dimension := hi
    have hlen : (List.zipWith subPoint self.outputSample_.data
        (self.inputSample_.data.map metaModel.eval)).length = self.inputSample_.getSize := by
      simp only [NumericalSample.getSize] at hSize
      simp [NumericalSample.getSize, hSize]
    unfold computeResiduals
    dsimp only
    rw [getD_map_range _ _ _ _ hi]
    unfold computeRawMoment2
    dsimp only
    rw [getD_map_range _ _ _ _ hi2]
    simp only [NumericalSample.getSize] at hlen ⊢
    rw [hlen]

/-- Claim C17, as amended. After a `run()` that completes on an engine whose samples have the
same size `N`, for every output index `i` the residual stored in the result is the square root
of the mean squared residual divided by `N`, that is
`sqrt((1/N) * sum_k (y_k[i] - m(x_k)[i])^2 / N)`, with `y` the output sample, `x` the
non-normalized input sample, `m` the metamodel of the result and `y_k - m(x_k)` the points of
the sample `outputSample_ - mY`: the second raw moment, already a mean, is divided by the
size. -/
theorem run_residuals (E : Collaborators R) (fuel : Nat)
    (self : GeneralizedLinearModelAlgorithm R) (hFresh : self.hasRun_ = false)
    (hSize : self.inputSample_.getSize = self.outputSample_.getSize)
    (hRun : (run E fuel self).1 = Outcome.returned ()) :
    ∃ result : GeneralizedLinearModelResult R,
      (run E fuel self).2.result_ = some result ∧
      result.residuals.length = self.outputSample_.getDimension ∧
      ∀ i : Nat, i < self.outputSample_.getDimension →
        result.residuals.getD i 0 =
          E.sqrt
            (((List.zipWith subPoint self.outputSample_.data
                  (self.inputSample_.data.map result.metaModel.eval)).map
                (fun d => d.getD i 0 * d.getD i 0)).sum /
              (self.inputSample_.getSize : R) / (self.inputSample_.getSize : R)) := by
  obtain ⟨v, self1, -, hframe, hstore⟩ := run_fresh E fuel self hFresh hRun
  obtain ⟨hI, hO, -⟩ := hframe
  obtain ⟨result, hres, -, -, hresiduals, -, -⟩ := storeEstimates_result E self1 v
  have h := computeResiduals_residual E self1 result.metaModel (by rw [hI, hO]; exact hSize)
  rw [hI, hO] at h
  rw [hstore]
  exact ⟨result, hres, by rw [hresiduals]; exact h.1, fun i hi => by
    rw [hresiduals]; exact h.2 i hi⟩

theorem exampleFour_run_returns :
    (run exampleCollaborators 5 exampleFour).1 = Outcome.returned () := by
  simp [run, maximizeReducedLogLikelihood, getObjectiveFunction, runScript, evaluateObjective,
    OptimizationProblem.setBounds, Interval.getDimension, Interval.empty,
    computeReducedLogLikelihood, computeLogDeterminant, amplitudeCorrected,
    reducedLogLikelihoodValue, normSquare, computeLapackLogDeterminantCholesky,
    lapackLadderLoop, lapackLadderStart, lapackLadderStep, lapackCovarianceMatrix,
    exampleCollaborators, toyCollaborators, computeF,
    normalizeInputSample, exampleFour, toyAlgorithm, toyModel, toyResourceMap,
    NumericalSample.getSize, NumericalSample.getData, CovarianceModel.getParameter,
    CovarianceModel.setParameter, CovarianceModel.getFullParameter, writeActive,
    toyCholesky_one, lapackSolve, lapackLogDeterminant, logDetLoop, SquareMatrix.diagonal]

/-- Witness of claim C17: the run of the four-point engine completes and its residual is the
square root of the mean squared residual divided by the size 4. -/
theorem run_residuals_witness :
    exampleFour.inputSample_.getSize = exampleFour.outputSample_.getSize ∧
      ∃ result : GeneralizedLinearModelResult ℚ,
        (run exampleCollaborators 5 exampleFour).2.result_ = some result ∧
        result.residuals.length = exampleFour.outputSample_.getDimension ∧
        ∀ i : Nat, i < exampleFour.outputSample_.getDimension →
          result.residuals.getD i 0 =
            exampleCollaborators.sqrt
              (((List.zipWith subPoint exampleFour.outputSample_.data
                    (exampleFour.inputSample_.data.map result.metaModel.eval)).map
                  (fun d => d.getD i 0 * d.getD i 0)).sum /
                (exampleFour.inputSample_.getSize : ℚ) /
                (exampleFour.inputSample_.getSize : ℚ)) :=
  ⟨rfl, run_residuals exampleCollaborators 5 exampleFour rfl rfl exampleFour_run_returns⟩

theorem rat_sqrt_quarter : Rat.sqrt (1 / 4) = 1 / 2 := by
  have h : (1 / 4 : ℚ) = (1 / 2) * (1 / 2) := by norm_num
  rw [h, Rat.sqrt_eq]
  norm_num [abs_of_pos]

theorem exampleFour_residuals :
    (run exampleCollaborators 5 exampleFour).2.result_.map
        (fun result => result.residuals) = some [exampleCollaborators.sqrt (1 / 4)] := by
  simp [run, maximizeReducedLogLikelihood, getObjectiveFunction, runScript, evaluateObjective,
      OptimizationProblem.setBounds, Interval.getDimension, Interval.empty,
      computeReducedLogLikelihood, computeLogDeterminant, amplitudeCorrected,
      reducedLogLikelihoodValue, normSquare, computeLapackLogDeterminantCholesky,
      lapackLadderLoop, lapackLadderStart, lapackLadderStep, lapackCovarianceMatrix,
      exampleCollaborators, toyCollaborators, computeF,
      normalizeInputSample, exampleFour, toyAlgorithm, toyModel, toyResourceMap,
      NumericalSample.getSize, NumericalSample.getData, CovarianceModel.getParameter,
      CovarianceModel.setParameter, CovarianceModel.getFullParameter, writeActive,
      toyCholesky_one, lapackSolve, lapackLogDeterminant, logDetLoop, SquareMatrix.diagonal,
      storeEstimates, computeResiduals, buildMetaModel, partitionTrend, computeRawMoment2,
      subPoint, NumericalSample.getDimension, CovarianceModel.getDimension,
      CovarianceModel.getSpatialDimension, List.range_succ]
  norm_num

theorem rat_sqrt_one : Rat.sqrt 1 = 1 := by
  have h : (1 : ℚ) = 1 * 1 := by norm_num
  rw [h, Rat.sqrt_eq]
  norm_num

/-- Claim C17, counterexample to the claim as stated. On four points with outputs all equal to
one and no trend basis, the run completes with the zero metamodel; the mean squared residual
`(1/N) * sum_k (y_k[0] - m(x_k)[0])^2` is 1, whose square root is 1, but the residual stored in
the result is 1/2, the square root of 1/4. -/
theorem residual_is_not_root_mean_square :
    (run exampleCollaborators 5 exampleFour).1 = Outcome.returned () ∧
      exampleFour.inputSample_.getSize = 4 ∧
      (run exampleCollaborators 5 exampleFour).2.result_.map
          (fun result =>
            exampleCollaborators.sqrt
              (1 / (exampleFour.inputSample_.getSize : ℚ) *
                ((List.range exampleFour.inputSample_.getSize).map
                  (fun k =>
                    ((exampleFour.outputSample_.data.getD k []).getD 0 0 -
                      (result.metaModel.eval
                        (exampleFour.inputSample_.data.getD k [])).getD 0 0) ^ 2)).sum)) =
        some 1 ∧
      (run exampleCollaborators 5 exampleFour).2.result_.map
          (fun result => result.residuals.getD 0 0) = some (1 / 2) ∧
      (run exampleCollaborators 5 exampleFour).2.result_.map
          (fun result => result.residuals.getD 0 0) ≠
        (run exampleCollaborators 5 exampleFour).2.result_.map
          (fun result =>
            exampleCollaborators.sqrt
              (1 / (exampleFour.inputSample_.getSize : ℚ) *
                ((List.range exampleFour.inputSample_.getSize).map
                  (fun k =>
                    ((exampleFour.outputSample_.data.getD k []).getD 0 0 -
                      (result.metaModel.eval
                        (exampleFour.inputSample_.data.getD k [])).getD 0 0) ^ 2)).sum)) := by
  have hclaim : (run exampleCollaborators 5 exampleFour).2.result_.map
          (fun result =>
            exampleCollaborators.sqrt
              (1 / (exampleFour.inputSample_.getSize : ℚ) *
                ((List.range exampleFour.inputSample_.getSize).map
                  (fun k =>
                    ((exampleFour.outputSample_.data.getD k []).getD 0 0 -
                      (result.metaModel.eval
                        (exampleFour.inputSample_.data.getD k [])).getD 0 0) ^ 2)).sum)) =
        some 1 := by
    simp [run, maximizeReducedLogLikelihood, getObjectiveFunction, runScript,
      evaluateObjective,
      OptimizationProblem.setBounds, Interval.getDimension, Interval.empty,
      computeReducedLogLikelihood, computeLogDeterminant, amplitudeCorrected,
      reducedLogLikelihoodValue, normSquare, computeLapackLogDeterminantCholesky,
      lapackLadderLoop, lapackLadderStart, lapackLadderStep, lapackCovarianceMatrix,
      exampleCollaborators, toyCollaborators, computeF,
      normalizeInputSample, exampleFour, toyAlgorithm, toyModel, toyResourceMap,
      NumericalSample.getSize, NumericalSample.getData, CovarianceModel.getParameter,
      CovarianceModel.setParameter, CovarianceModel.getFullParameter, writeActive,
      toyCholesky_one, lapackSolve, lapackLogDeterminant, logDetLoop, SquareMatrix.diagonal,
      storeEstimates, computeResiduals, buildMetaModel, partitionTrend, computeRawMoment2,
      subPoint, NumericalSample.getDimension, CovarianceModel.getDimension,
      CovarianceModel.getSpatialDimension, List.range_succ]
    norm_num [rat_sqrt_one]
  have hcode : (run exampleCollaborators 5 exampleFour).2.result_.map
          (fun result => result.residuals.getD 0 0) = some (1 / 2) := by
    have h := congrArg (Option.map (fun residuals : List ℚ => residuals.getD 0 0))
      exampleFour_residuals
    simp only [Option.map_map] at h
    rw [← rat_sqrt_quarter]
    exact h
  refine ⟨exampleFour_run_returns, rfl, hclaim, hcode, ?_⟩
  rw [hclaim, hcode]
  norm_num

/-! ### The state left by the optimization -/

omit [LinearOrderedField R] in
theorem writeActive_length :
    ∀ (active : List Nat) (values full : List R),
      (writeActive active values full).length = full.length := by
  intro active
  induction active with
  | nil => intro values full; simp [writeActive]
  | cons i active ih =>
    intro values full
    cases values with
    | nil => simp [writeActive]
    | cons v values => simp [writeActive, ih]

theorem writeActive_getD_of_not_mem :
    ∀ (active : List Nat) (values full : List R) (i : Nat), i ∉ active →
      (writeActive active values full).getD i 0 = full.getD i 0 := by
  intro active
  induction active with
  | nil => intro values full i _; simp [writeActive]
  | cons j active ih =>
    intro values full i hi
    cases values with
    | nil => simp [writeActive]
    | cons v values =>
      have hne : j ≠ i := fun h => hi (by simp [h])
      have hrest : i ∉ active := fun h => hi (List.mem_cons_of_mem _ h)
      simp only [writeActive]
      rw [ih values (full.set j v) i hrest]
      simp [List.getD_eq_getElem?_getD, List.getElem?_set_ne hne]

omit [LinearOrderedField R] in
theorem setParameter_shape (m : CovarianceModel R) (parameter : List R) :
    (m.setParameter parameter).activeParameter_ = m.activeParameter_ ∧
      (m.setParameter parameter).scale_.length = m.scale_.length ∧
      (m.setParameter parameter).amplitude_.length = m.amplitude_.length := by
  unfold CovarianceModel.setParameter CovarianceModel.getFullParameter
  simp [writeActive_length]

theorem computeLogDeterminant_reduced (E : Collaborators R) (fuel : Nat)
    (self : GeneralizedLinearModelAlgorithm R) (parameters : List R) :
    (computeLogDeterminant E fuel self parameters).2.reducedCovarianceModel_ =
        (if self.analyticalAmplitude_ then self.reducedCovarianceModel_.setAmplitude [1]
         else self.reducedCovarianceModel_).setParameter parameters ∧
      (computeLogDeterminant E fuel self parameters).2.analyticalAmplitude_ =
        self.analyticalAmplitude_ := by
  unfold computeLogDeterminant
  dsimp only
  split_ifs
  · obtain ⟨L, rho, beta, h⟩ := computeLapack_frame E fuel
      { self with
        reducedCovarianceModel_ :=
          (self.reducedCovarianceModel_.setAmplitude [1]).setParameter parameters }
    rw [h]
    exact ⟨rfl, rfl⟩
  · obtain ⟨L, rho, beta, h⟩ := computeLapack_frame E fuel
      { self with
        reducedCovarianceModel_ := self.reducedCovarianceModel_.setParameter parameters }
    rw [h]
    exact ⟨rfl, rfl⟩
  · obtain ⟨H, rho, beta, h⟩ := computeHMat_frame E fuel
      { self with
        reducedCovarianceModel_ :=
          (self.reducedCovarianceModel_.setAmplitude [1]).setParameter parameters }
    rw [h]
    exact ⟨rfl, rfl⟩
  · obtain ⟨H, rho, beta, h⟩ := computeHMat_frame E fuel
      { self with
        reducedCovarianceModel_ := self.reducedCovarianceModel_.setParameter parameters }
    rw [h]
    exact ⟨rfl, rfl⟩

theorem computeReducedLogLikelihood_shape (E : Collaborators R) (fuel : Nat)
    (self : GeneralizedLinearModelAlgorithm R) (parameters : List R) :
    (computeReducedLogLikelihood E fuel self parameters).2.reducedCovarianceModel_.scale_.length =
        self.reducedCovarianceModel_.scale_.length ∧
      (self.analyticalAmplitude_ = false →
        (computeReducedLogLikelihood E fuel self
            parameters).2.reducedCovarianceModel_.amplitude_.length =
          self.reducedCovarianceModel_.amplitude_.length) := by
  by_cases hsize : parameters.length = self.reducedCovarianceModel_.getParameter.length
  · obtain ⟨hred, hana⟩ := computeLogDeterminant_reduced E fuel self parameters
    have hshape : (computeLogDeterminant E fuel self
          parameters).2.reducedCovarianceModel_.scale_.length =
        self.reducedCovarianceModel_.scale_.length ∧
        (self.analyticalAmplitude_ = false →
          (computeLogDeterminant E fuel self
              parameters).2.reducedCovarianceModel_.amplitude_.length =
            self.reducedCovarianceModel_.amplitude_.length) := by
      rw [hred]
      by_cases ha : self.analyticalAmplitude_ = true
      · simp only [ha, if_true]
        exact ⟨(setParameter_shape _ parameters).2.1, fun h => by cases h⟩
      · simp only [ha, Bool.false_eq_true, if_false]
        exact ⟨(setParameter_shape _ parameters).2.1,
          fun _ => (setParameter_shape _ parameters).2.2⟩
    rcases hout : (computeLogDeterminant E fuel self parameters).1 with v | e | _
    · rw [computeReducedLogLikelihood_of_returned E fuel self parameters v hsize hout]
      simp only [amplitudeCorrected, hana, analyticalAmplitudeStep]
      by_cases ha : self.analyticalAmplitude_ = true
      · simp only [ha, if_true, CovarianceModel.setAmplitude]
        exact ⟨hshape.1, fun h => by cases h⟩
      · have ha2 : self.analyticalAmplitude_ = false := by simpa using ha
        simp only [ha, Bool.false_eq_true, if_false]
        exact ⟨hshape.1, fun _ => hshape.2 ha2⟩
    · rw [computeReducedLogLikelihood_of_thrown E fuel self parameters e hsize hout]
      exact hshape
    · rw [computeReducedLogLikelihood_of_unfinished E fuel self parameters hsize hout]
      exact hshape
  · simp [computeReducedLogLikelihood, hsize]

/-- Claim C21, as amended. `setCovarianceModel` accepts, for every input dimension and output
dimension of the problem, a model whose spatial dimension is the input dimension and whose
dimension is the output dimension (case 1), a model whose spatial dimension is the input
dimension and whose dimension is 1 (case 3), and a model of unit spatial dimension and unit
dimension (case 4, or an earlier case); a model of unit spatial dimension whose dimension is
the output dimension is accepted exactly when the input dimension or the output dimension of
the problem is 1 (cases 1 and 2), as the comment on the four cases has it ("the other
situations are invalid"). -/
theorem setCovarianceModel_accepts (E : Collaborators R)
    (self : GeneralizedLinearModelAlgorithm R) (covarianceModel : CovarianceModel R) :
    (covarianceModel.getSpatialDimension = self.inputSample_.getDimension →
        covarianceModel.getDimension = self.outputSample_.getDimension →
        (setCovarianceModel E self covarianceModel).1 = Outcome.returned ()) ∧
      (covarianceModel.getSpatialDimension = self.inputSample_.getDimension →
        covarianceModel.getDimension = 1 →
        (setCovarianceModel E self covarianceModel).1 = Outcome.returned ()) ∧
      (covarianceModel.getSpatialDimension = 1 → covarianceModel.getDimension = 1 →
        (setCovarianceModel E self covarianceModel).1 = Outcome.returned ()) ∧
      (covarianceModel.getSpatialDimension = 1 →
        covarianceModel.getDimension = self.outputSample_.getDimension →
        ((setCovarianceModel E self covarianceModel).1 = Outcome.returned () ↔
          self.inputSample_.getDimension = 1 ∨ self.outputSample_.getDimension = 1)) := by
  have hnone := fullCovarianceModel_eq_none_iff E self.inputSample_.getDimension
    self.outputSample_.getDimension covarianceModel
  have hiff : (setCovarianceModel E self covarianceModel).1 =
        Outcome.thrown Error.covarianceModelDimension ↔
      ¬ ((covarianceModel.getSpatialDimension = self.inputSample_.getDimension ∧
            (covarianceModel.getDimension = self.outputSample_.getDimension ∨
              covarianceModel.getDimension = 1)) ∨
          (covarianceModel.getSpatialDimension = 1 ∧ covarianceModel.getDimension = 1)) := by
    rw [← hnone]
    cases hfull : fullCovarianceModel E self.inputSample_.getDimension
        self.outputSample_.getDimension covarianceModel with
    | none => simp [setCovarianceModel, hfull]
    | some full => simp [setCovarianceModel, hfull]
  have hor : (setCovarianceModel E self covarianceModel).1 ≠
        Outcome.thrown Error.covarianceModelDimension →
      (setCovarianceModel E self covarianceModel).1 = Outcome.returned () := by
    cases hfull : fullCovarianceModel E self.inputSample_.getDimension
        self.outputSample_.getDimension covarianceModel with
    | none => simp [setCovarianceModel, hfull]
    | some full => simp [setCovarianceModel, hfull]
  have hacc : ((covarianceModel.getSpatialDimension = self.inputSample_.getDimension ∧
            (covarianceModel.getDimension = self.outputSample_.getDimension ∨
              covarianceModel.getDimension = 1)) ∨
          (covarianceModel.getSpatialDimension = 1 ∧ covarianceModel.getDimension = 1)) →
      (setCovarianceModel E self covarianceModel).1 = Outcome.returned () := by
    intro h
    exact hor (fun hthrown => (hiff.mp hthrown) h)
  refine ⟨fun h1 h2 => hacc (Or.inl ⟨h1, Or.inl h2⟩), fun h1 h2 => hacc (Or.inl ⟨h1, Or.inr h2⟩),
    fun h1 h2 => hacc (Or.inr ⟨h1, h2⟩), ?_⟩
  intro h1 h2
  constructor
  · intro hret
    by_contra hno
    rw [not_or] at hno
    have hthrown : (setCovarianceModel E self covarianceModel).1 =
        Outcome.thrown Error.covarianceModelDimension := by
      apply hiff.mpr
      rintro (⟨h3, -⟩ | ⟨-, h4⟩)
      · exact hno.1 (h3.symm.trans h1)
      · exact hno.2 (h2.symm.trans h4)
    rw [hthrown] at hret
    cases hret
  · rintro (h | h)
    · exact hacc (Or.inl ⟨h1.trans h.symm, Or.inl h2⟩)
    · exact hacc (Or.inr ⟨h1, h2.trans h⟩)

/-- Witness of claim C21: on the problem with two inputs and two outputs the scalar model on the
line (unit spatial dimension, unit dimension) is accepted, and the model on the line with two
outputs is accepted exactly when one of the two dimensions of the problem is 1. -/
theorem setCovarianceModel_accepts_witness :
    (setCovarianceModel exampleCollaborators examplePlaneAlgorithm exampleModel).1 =
        Outcome.returned () ∧
      ((setCovarianceModel exampleCollaborators examplePlaneAlgorithm exampleLineVector).1 =
          Outcome.returned () ↔
        examplePlaneAlgorithm.inputSample_.getDimension = 1 ∨
          examplePlaneAlgorithm.outputSample_.getDimension = 1) :=
  ⟨(setCovarianceModel_accepts exampleCollaborators examplePlaneAlgorithm
      exampleModel).2.2.1 rfl rfl,
    (setCovarianceModel_accepts exampleCollaborators examplePlaneAlgorithm
      exampleLineVector).2.2.2 rfl rfl⟩

/-- Claim C21, counterexample to the claim as stated. For a problem with two inputs and two
outputs, a model of unit spatial dimension and of dimension 2, the output dimension, is the
third shape of the claim (and of the dimension-mismatch message: "a model of unit spatial
dimension and dimension=2"); `setCovarianceModel` does not accept it: it throws the
dimension-mismatch error and leaves the engine as it was, because case 2 also asks for a unit
dimension of the model and cases 1 and 3 for the spatial dimension of the problem. -/
theorem setCovarianceModel_rejects_documented_shape :
    examplePlaneAlgorithm.inputSample_.getDimension = 2 ∧
      examplePlaneAlgorithm.outputSample_.getDimension = 2 ∧
      exampleLineVector.getSpatialDimension = 1 ∧
      exampleLineVector.getDimension = examplePlaneAlgorithm.outputSample_.getDimension ∧
      (setCovarianceModel exampleCollaborators examplePlaneAlgorithm exampleLineVector).1 =
        Outcome.thrown Error.covarianceModelDimension ∧
      (setCovarianceModel exampleCollaborators examplePlaneAlgorithm exampleLineVector).2 =
        examplePlaneAlgorithm := by
  refine ⟨rfl, rfl, rfl, rfl, ?_, ?_⟩
  · simp [setCovarianceModel, fullCovarianceModel, examplePlaneAlgorithm, toyAlgorithm,
      exampleLineVector, NumericalSample.getDimension,
      CovarianceModel.getSpatialDimension, CovarianceModel.getDimension]
  · simp [setCovarianceModel, fullCovarianceModel, examplePlaneAlgorithm, toyAlgorithm,
      exampleLineVector, NumericalSample.getDimension,
      CovarianceModel.getSpatialDimension, CovarianceModel.getDimension]

/-! ### The setters and the completion flag -/

theorem setCovarianceModel_hasRun (E : Collaborators R)
    (self : GeneralizedLinearModelAlgorithm R) (covarianceModel : CovarianceModel R) :
    (setCovarianceModel E self covarianceModel).2.hasRun_ = self.hasRun_ ∧
      (setCovarianceModel E self covarianceModel).2.result_ = self.result_ := by
  cases hfull : fullCovarianceModel E self.inputSample_.getDimension
      self.outputSample_.getDimension covarianceModel with
  | none => simp [setCovarianceModel, hfull]
  | some full => simp [setCovarianceModel, hfull]

theorem setters_hasRun (E : Collaborators R) (self : GeneralizedLinearModelAlgorithm R) :
    (∀ noise : List R,
        (setNoise self noise).2.hasRun_ = self.hasRun_ ∧
        (setNoise self noise).2.result_ = self.result_) ∧
      (∀ optimizationBounds : Interval R,
        (setOptimizationBounds self optimizationBounds).2.hasRun_ = self.hasRun_ ∧
        (setOptimizationBounds self optimizationBounds).2.result_ = self.result_) ∧
      (∀ optimizeParameters : Bool,
        (setOptimizeParameters E self optimizeParameters).2.hasRun_ = self.hasRun_ ∧
        (setOptimizeParameters E self optimizeParameters).2.result_ = self.result_) ∧
      (∀ covarianceModel : CovarianceModel R,
        (setCovarianceModel E self covarianceModel).2.hasRun_ = self.hasRun_ ∧
        (setCovarianceModel E self covarianceModel).2.result_ = self.result_) := by
  refine ⟨?_, ?_, ?_, setCovarianceModel_hasRun E self⟩
  · intro noise
    unfold setNoise
    dsimp only
    split_ifs <;> exact ⟨rfl, rfl⟩
  · intro optimizationBounds
    unfold setOptimizationBounds
    split_ifs <;> exact ⟨rfl, rfl⟩
  · intro optimizeParameters
    unfold setOptimizeParameters
    split_ifs
    · exact setCovarianceModel_hasRun E { self with optimizeParameters_ := optimizeParameters }
        self.covarianceModel_
    · exact ⟨rfl, rfl⟩

theorem run_getResult_of_hasRun (E : Collaborators R) (fuel : Nat)
    (self : GeneralizedLinearModelAlgorithm R) (h : self.hasRun_ = true) :
    run E fuel self = (Outcome.returned (), self) ∧
      getResult E fuel self = (Outcome.returned self.result_, self) := by
  constructor
  · simp [run, h]
  · simp [getResult, h]

/-- Claim C29. Among the setters only `setOptimizationSolver` clears the completion flag:
after a `run()` that completed, each of `setNoise`, `setOptimizationBounds`,
`setOptimizeParameters` and `setCovarianceModel` (whether it returns or throws) leaves the
completion flag set and the stored result unchanged, so that a following `run()` returns at
once without changing the engine and a following `getResult()` returns the result of the
earlier fit; `setOptimizationSolver` leaves the flag cleared. -/
theorem setters_keep_completion_flag (E : Collaborators R) (fuel fuel2 : Nat)
    (self : GeneralizedLinearModelAlgorithm R)
    (hCompleted : (run E fuel self).1 = Outcome.returned ()) :
    (∀ after : GeneralizedLinearModelAlgorithm R,
        ((∃ noise : List R, after = (setNoise (run E fuel self).2 noise).2) ∨
          (∃ optimizationBounds : Interval R,
            after = (setOptimizationBounds (run E fuel self).2 optimizationBounds).2) ∨
          (∃ optimizeParameters : Bool,
            after = (setOptimizeParameters E (run E fuel self).2 optimizeParameters).2) ∨
          (∃ covarianceModel : CovarianceModel R,
            after = (setCovarianceModel E (run E fuel self).2 covarianceModel).2)) →
        after.hasRun_ = true ∧
        after.result_ = (run E fuel self).2.result_ ∧
        run E fuel2 after = (Outcome.returned (), after) ∧
        getResult E fuel2 after = (Outcome.returned (run E fuel self).2.result_, after)) ∧
      (∀ solver : OptimizationSolver R,
        (setOptimizationSolver (run E fuel self).2 solver).hasRun_ = false ∧
        getOptimizationSolver (setOptimizationSolver (run E fuel self).2 solver) = solver ∧
        (setOptimizationSolver (run E fuel self).2 solver).result_ =
          (run E fuel self).2.result_) := by
  have hflag := run_returned_hasRun E fuel self hCompleted
  obtain ⟨hnoise, hbounds, hoptimize, hmodel⟩ := setters_hasRun E (run E fuel self).2
  constructor
  · intro after hafter
    have hkeep : after.hasRun_ = true ∧ after.result_ = (run E fuel self).2.result_ := by
      rcases hafter with ⟨noise, rfl⟩ | ⟨optimizationBounds, rfl⟩ | ⟨optimizeParameters, rfl⟩ |
        ⟨covarianceModel, rfl⟩
      · exact ⟨(hnoise noise).1.trans hflag, (hnoise noise).2⟩
      · exact ⟨(hbounds optimizationBounds).1.trans hflag, (hbounds optimizationBounds).2⟩
      · exact ⟨(hoptimize optimizeParameters).1.trans hflag, (hoptimize optimizeParameters).2⟩
      · exact ⟨(hmodel covarianceModel).1.trans hflag, (hmodel covarianceModel).2⟩
    obtain ⟨hrun, hget⟩ := run_getResult_of_hasRun E fuel2 after hkeep.1
    rw [hkeep.2] at hget
    exact ⟨hkeep.1, hkeep.2, hrun, hget⟩
  · intro solver
    exact ⟨rfl, rfl, rfl⟩

/-- Witness of claim C29: the run of the example engine completes; after a call of `setNoise`
the completion flag is still set and `run()` returns at once. -/
theorem setters_keep_completion_flag_witness :
    (run exampleCollaborators 5 exampleAlgorithm).1 = Outcome.returned () ∧
      (setNoise (run exampleCollaborators 5 exampleAlgorithm).2 [1, 1, 1]).2.hasRun_ = true ∧
      run exampleCollaborators 5
          (setNoise (run exampleCollaborators 5 exampleAlgorithm).2 [1, 1, 1]).2 =
        (Outcome.returned (),
          (setNoise (run exampleCollaborators 5 exampleAlgorithm).2 [1, 1, 1]).2) := by
  have h := (setters_keep_completion_flag exampleCollaborators 5 5 exampleAlgorithm
    example_run_returns).1 _ (Or.inl ⟨[1, 1, 1], rfl⟩)
  exact ⟨example_run_returns, h.1, h.2.2.1⟩

/-! ### The optimization problem -/

/-- Claim C30. `OptimizationProblemImplementation` keeps its dimensions consistent: from any
state where `getDimension()` is the input dimension of the stored objective and the stored
bounds have dimension 0 or `getDimension()`, every call of `setObjective`, `setBounds` (whether
it returns or throws) or `setMinimization` leads to a state with the same two properties;
`setObjective` replaces the bounds by `Interval(0)` and both constraints by the empty function
when the input dimension of the new objective differs from the one of the previous objective,
and leaves them unchanged otherwise; `setBounds` throws exactly when the given bounds have a
non-zero dimension different from `getDimension()`, and then leaves the problem, its bounds
included, unchanged; otherwise it stores the bounds. -/
theorem optimizationProblem_consistent (self : OptimizationProblemImplementation R)
    (hConsistent : self.Consistent) :
    (∀ objective : NumericalMathFunction R,
        (self.setObjective objective).Consistent ∧
        (self.setObjective objective).getObjective = objective ∧
        (self.setObjective objective).getDimension = objective.inputDimension ∧
        (objective.inputDimension ≠ self.getObjective.inputDimension →
          (self.setObjective objective).getBounds = Interval.ofDimension 0 ∧
          (self.setObjective objective).getBounds.getDimension = 0 ∧
          (self.setObjective objective).getEqualityConstraint = NumericalMathFunction.empty ∧
          (self.setObjective objective).getInequalityConstraint =
            NumericalMathFunction.empty) ∧
        (objective.inputDimension = self.getObjective.inputDimension →
          (self.setObjective objective).getBounds = self.getBounds ∧
          (self.setObjective objective).getEqualityConstraint = self.getEqualityConstraint ∧
          (self.setObjective objective).getInequalityConstraint =
            self.getInequalityConstraint)) ∧
      (∀ bounds : Interval R,
        (self.setBounds bounds).2.Consistent ∧
        ((self.setBounds bounds).1 = Outcome.thrown Error.problemBoundsDimension ↔
          bounds.getDimension ≠ 0 ∧ bounds.getDimension ≠ self.getDimension) ∧
        ((self.setBounds bounds).1 ≠ Outcome.thrown Error.problemBoundsDimension →
          (self.setBounds bounds).1 = Outcome.returned () ∧
          (self.setBounds bounds).2.getBounds = bounds) ∧
        ((self.setBounds bounds).1 = Outcome.thrown Error.problemBoundsDimension →
          (self.setBounds bounds).2 = self ∧
          (self.setBounds bounds).2.getBounds = self.getBounds)) ∧
      (∀ minimization : Bool,
        (self.setMinimization minimization).Consistent ∧
        (self.setMinimization minimization).isMinimization = minimization ∧
        (self.setMinimization minimization).getBounds = self.getBounds ∧
        (self.setMinimization minimization).getObjective = self.getObjective) := by
  obtain ⟨hdim, hbounds⟩ := hConsistent
  simp only [OptimizationProblemImplementation.getDimension,
    OptimizationProblemImplementation.getObjective,
    OptimizationProblemImplementation.getBounds] at hdim hbounds
  refine ⟨?_, ?_, ?_⟩
  · intro objective
    by_cases hsame : objective.inputDimension = self.objective_.inputDimension
    · have hb : self.bounds_.getDimension = 0 ∨
          self.bounds_.getDimension = objective.inputDimension := by
        rw [hsame, ← hdim]
        exact hbounds
      simp [OptimizationProblemImplementation.Consistent,
        OptimizationProblemImplementation.setObjective,
        OptimizationProblemImplementation.clearLevelFunction,
        OptimizationProblemImplementation.getDimension,
        OptimizationProblemImplementation.getObjective,
        OptimizationProblemImplementation.getBounds,
        OptimizationProblemImplementation.getEqualityConstraint,
        OptimizationProblemImplementation.getInequalityConstraint, hsame]
      rw [← hsame]
      exact hb
    · simp [OptimizationProblemImplementation.Consistent,
        OptimizationProblemImplementation.setObjective,
        OptimizationProblemImplementation.clearLevelFunction,
        OptimizationProblemImplementation.getDimension,
        OptimizationProblemImplementation.getObjective,
        OptimizationProblemImplementation.getBounds,
        OptimizationProblemImplementation.getEqualityConstraint,
        OptimizationProblemImplementation.getInequalityConstraint, hsame,
        Interval.ofDimension, Interval.getDimension]
  · intro bounds
    by_cases hthrow : bounds.getDimension > 0 ∧ bounds.getDimension ≠ self.dimension_
    · have hne : bounds.getDimension ≠ 0 := Nat.pos_iff_ne_zero.mp hthrow.1
      simp only [OptimizationProblemImplementation.setBounds, if_pos hthrow,
        OptimizationProblemImplementation.Consistent,
        OptimizationProblemImplementation.getDimension,
        OptimizationProblemImplementation.getObjective,
        OptimizationProblemImplementation.getBounds]
      refine ⟨⟨hdim, hbounds⟩, ⟨fun _ => ⟨hne, hthrow.2⟩, fun _ => trivial⟩, ?_, ?_⟩
      · intro h
        exact absurd rfl h
      · intro _
        exact ⟨trivial, trivial⟩
    · have hcases : bounds.getDimension = 0 ∨ bounds.getDimension = self.dimension_ := by
        by_cases h0 : bounds.getDimension = 0
        · exact Or.inl h0
        · right
          by_contra hne
          exact hthrow ⟨Nat.pos_of_ne_zero h0, hne⟩
      have hnot : ¬ (bounds.getDimension ≠ 0 ∧ bounds.getDimension ≠ self.dimension_) :=
        fun h => hthrow ⟨Nat.pos_of_ne_zero h.1, h.2⟩
      simp only [OptimizationProblemImplementation.setBounds, if_neg hthrow,
        OptimizationProblemImplementation.Consistent,
        OptimizationProblemImplementation.getDimension,
        OptimizationProblemImplementation.getObjective,
        OptimizationProblemImplementation.getBounds]
      refine ⟨⟨hdim, hcases⟩, ⟨fun h => (by cases h), fun h => absurd h hnot⟩, ?_, ?_⟩
      · intro _
        exact ⟨trivial, trivial⟩
      · intro h
        cases h
  · intro minimization
    exact ⟨⟨hdim, hbounds⟩, rfl, rfl, rfl⟩

/-- Witness of claim C30: the default problem (no objective, dimension 0, no bounds) is
consistent; with an objective of two inputs its dimension becomes 2 and its bounds have
dimension 0. -/
theorem optimizationProblem_consistent_witness :
    (OptimizationProblemImplementation.default :
        OptimizationProblemImplementation ℚ).Consistent ∧
      ((OptimizationProblemImplementation.default :
          OptimizationProblemImplementation ℚ).setObjective
        ⟨2, 1, fun _ => [0]⟩).Consistent ∧
      ((OptimizationProblemImplementation.default :
          OptimizationProblemImplementation ℚ).setObjective
        ⟨2, 1, fun _ => [0]⟩).getDimension = 2 := by
  have hdefault : (OptimizationProblemImplementation.default :
      OptimizationProblemImplementation ℚ).Consistent := ⟨rfl, Or.inl rfl⟩
  have h := (optimizationProblem_consistent
    (OptimizationProblemImplementation.default : OptimizationProblemImplementation ℚ)
    hdefault).1 ⟨2, 1, fun _ => [0]⟩
  exact ⟨hdefault, h.1, h.2.2.1⟩

/-! ### The regularization ladder of the hierarchical backend -/

theorem hmatLadderStart_closedForm (E : Collaborators R)
    (self : GeneralizedLinearModelAlgorithm R) :
    (hmatLadderStart E self).ClosedForm E := by
  simp [HMatLadder.ClosedForm, hmatLadderStart]

theorem hmatLadderStep_eq (E : Collaborators R) (self : GeneralizedLinearModelAlgorithm R)
    (l : HMatLadder R) (h : l.ClosedForm E) :
    hmatLadderStep E self l =
      match E.hmatAssembleFactorize
          (E.hmatBuild self.normalizedInputSample_ self.reducedCovarianceModel_.getDimension
            ⟨E.resourceMap.HMatrixAssemblyEpsilon / 10 ^ l.failures,
             E.resourceMap.HMatrixRecompressionEpsilon / 10 ^ l.failures⟩)
          self.reducedCovarianceModel_ self.normalizedInputSample_
          (self.reducedCovarianceModel_.getDimension != 1)
          (E.resourceMap.StartingScaling * (2 ^ l.failures - 1)) with
      | some H =>
        { l with
          covarianceCholeskyFactorHMatrix_ := H
          continuationCondition := false
          attempts := l.attempts + 1 }
      | none =>
        { covarianceCholeskyFactorHMatrix_ :=
            E.hmatBuild self.normalizedInputSample_ self.reducedCovarianceModel_.getDimension
              ⟨E.resourceMap.HMatrixAssemblyEpsilon / 10 ^ l.failures,
               E.resourceMap.HMatrixRecompressionEpsilon / 10 ^ l.failures⟩
          hmatrixParameters :=
            ⟨E.resourceMap.HMatrixAssemblyEpsilon / 10 ^ (l.failures + 1),
             E.resourceMap.HMatrixRecompressionEpsilon / 10 ^ (l.failures + 1)⟩
          continuationCondition := l.continuationCondition
          cumulatedScaling := E.resourceMap.StartingScaling * (2 ^ (l.failures + 1) - 1)
          scaling := E.resourceMap.StartingScaling * 2 ^ (l.failures + 1)
          attempts := l.attempts + 1
          failures := l.failures + 1 } := by
  obtain ⟨h1, h2, h3, h4⟩ := h
  have hp : l.hmatrixParameters =
      ⟨E.resourceMap.HMatrixAssemblyEpsilon / 10 ^ l.failures,
       E.resourceMap.HMatrixRecompressionEpsilon / 10 ^ l.failures⟩ := by
    cases hl : l.hmatrixParameters with
    | mk a r =>
      rw [hl] at h3 h4
      simp only at h3 h4
      rw [h3, h4]
  unfold hmatLadderStep
  dsimp only
  rw [hp, h1]
  cases E.hmatAssembleFactorize
      (E.hmatBuild self.normalizedInputSample_ self.reducedCovarianceModel_.getDimension
        ⟨E.resourceMap.HMatrixAssemblyEpsilon / 10 ^ l.failures,
         E.resourceMap.HMatrixRecompressionEpsilon / 10 ^ l.failures⟩)
      self.reducedCovarianceModel_ self.normalizedInputSample_
      (self.reducedCovarianceModel_.getDimension != 1)
      (E.resourceMap.StartingScaling * (2 ^ l.failures - 1)) with
  | some H => rfl
  | none =>
    simp only [HMatLadder.mk.injEq, true_and, and_true]
    refine ⟨?_, ?_, ?_⟩
    · simp only [HMatrixParameters.mk.injEq, pow_succ]
      constructor <;> field_simp
    · rw [h2, pow_succ]; ring
    · rw [h2, pow_succ]; ring

theorem hmatLadderStep_closedForm (E : Collaborators R)
    (self : GeneralizedLinearModelAlgorithm R) (l : HMatLadder R) (h : l.ClosedForm E) :
    (hmatLadderStep E self l).ClosedForm E := by
  rw [hmatLadderStep_eq E self l h]
  cases E.hmatAssembleFactorize
      (E.hmatBuild self.normalizedInputSample_ self.reducedCovarianceModel_.getDimension
        ⟨E.resourceMap.HMatrixAssemblyEpsilon / 10 ^ l.failures,
         E.resourceMap.HMatrixRecompressionEpsilon / 10 ^ l.failures⟩)
      self.reducedCovarianceModel_ self.normalizedInputSample_
      (self.reducedCovarianceModel_.getDimension != 1)
      (E.resourceMap.StartingScaling * (2 ^ l.failures - 1)) with
  | some H => exact h
  | none => exact ⟨rfl, rfl, rfl, rfl⟩

theorem hmatLadderStep_counters (E : Collaborators R)
    (self : GeneralizedLinearModelAlgorithm R) (l : HMatLadder R)
    (hc : l.continuationCondition = true) (ha : l.attempts = l.failures) :
    (hmatLadderStep E self l).attempts =
      (hmatLadderStep E self l).failures +
        (if (hmatLadderStep E self l).continuationCondition then 0 else 1) := by
  unfold hmatLadderStep
  dsimp only
  split <;> simp [ha, hc]

theorem hmatLadderLoop_closedForm (E : Collaborators R)
    (self : GeneralizedLinearModelAlgorithm R) (maximalScaling : R) :
    ∀ (fuel : Nat) (l l1 : HMatLadder R), l.ClosedForm E →
      l.attempts = l.failures + (if l.continuationCondition then 0 else 1) →
      hmatLadderLoop E self maximalScaling fuel l = some l1 →
      l1.ClosedForm E ∧
        l1.attempts = l1.failures + (if l1.continuationCondition then 0 else 1) := by
  intro fuel
  induction fuel with
  | zero =>
    intro l l1 hform hcount hloop
    unfold hmatLadderLoop at hloop
    split_ifs at hloop
    cases hloop
    exact ⟨hform, hcount⟩
  | succ fuel ih =>
    intro l l1 hform hcount hloop
    unfold hmatLadderLoop at hloop
    split_ifs at hloop with hcond
    · simp only [Bool.and_eq_true, decide_eq_true_eq] at hcond
      have ha : l.attempts = l.failures := by simpa [hcond.1] using hcount
      exact ih _ _ (hmatLadderStep_closedForm E self l hform)
        (hmatLadderStep_counters E self l hcond.1 ha) hloop
    · cases hloop
      exact ⟨hform, hcount⟩

theorem hmatLadderStep_iterate_closedForm (E : Collaborators R)
    (self : GeneralizedLinearModelAlgorithm R) (j : Nat) :
    ((hmatLadderStep E self)^[j] (hmatLadderStart E self)).ClosedForm E := by
  induction j with
  | zero => exact hmatLadderStart_closedForm E self
  | succ j ih =>
    rw [Function.iterate_succ_apply']
    exact hmatLadderStep_closedForm E self _ ih

/-- Claim C25. Retry ladder of the hierarchical backend: in every state `l` of the loop of
`computeHMatLogDeterminantCholesky` (after any number of passes through its body, and at its
exit), with `k` the number of failed attempts so far, the assembly epsilon and the
recompression epsilon are their initial values divided by `10 ^ k`, the cumulated scaling is
`startingScaling * (2 ^ k - 1)` and the scaling is `startingScaling * 2 ^ k`; the next pass,
attempt `k + 1`, builds the matrix with these tolerances and assembles it with exactly that
cumulated scaling as regularization, and on a failure leaves the closed forms for `k + 1`; the
first attempt is made with the regularization 0 and the initial tolerances, and a success of
it leaves them so. -/
theorem hmat_ladder_closed_forms (E : Collaborators R)
    (self : GeneralizedLinearModelAlgorithm R) :
    (∀ (j : Nat) (l : HMatLadder R),
        l = (hmatLadderStep E self)^[j] (hmatLadderStart E self) →
        l.ClosedForm E ∧
        hmatLadderStep E self l =
          match E.hmatAssembleFactorize
              (E.hmatBuild self.normalizedInputSample_
                self.reducedCovarianceModel_.getDimension
                ⟨E.resourceMap.HMatrixAssemblyEpsilon / 10 ^ l.failures,
                 E.resourceMap.HMatrixRecompressionEpsilon / 10 ^ l.failures⟩)
              self.reducedCovarianceModel_ self.normalizedInputSample_
              (self.reducedCovarianceModel_.getDimension != 1)
              (E.resourceMap.StartingScaling * (2 ^ l.failures - 1)) with
          | some H =>
            { l with
              covarianceCholeskyFactorHMatrix_ := H
              continuationCondition := false
              attempts := l.attempts + 1 }
          | none =>
            { covarianceCholeskyFactorHMatrix_ :=
                E.hmatBuild self.normalizedInputSample_
                  self.reducedCovarianceModel_.getDimension
                  ⟨E.resourceMap.HMatrixAssemblyEpsilon / 10 ^ l.failures,
                   E.resourceMap.HMatrixRecompressionEpsilon / 10 ^ l.failures⟩
              hmatrixParameters :=
                ⟨E.resourceMap.HMatrixAssemblyEpsilon / 10 ^ (l.failures + 1),
                 E.resourceMap.HMatrixRecompressionEpsilon / 10 ^ (l.failures + 1)⟩
              continuationCondition := l.continuationCondition
              cumulatedScaling := E.resourceMap.StartingScaling * (2 ^ (l.failures + 1) - 1)
              scaling := E.resourceMap.StartingScaling * 2 ^ (l.failures + 1)
              attempts := l.attempts + 1
              failures := l.failures + 1 }) ∧
      (∀ (fuel : Nat) (l : HMatLadder R),
        hmatLadderLoop E self E.resourceMap.MaximalScaling fuel (hmatLadderStart E self) =
          some l →
        l.ClosedForm E ∧
        l.attempts = l.failures + (if l.continuationCondition then 0 else 1)) ∧
      (hmatLadderStart E self).failures = 0 ∧
      (hmatLadderStart E self).cumulatedScaling = 0 ∧
      (hmatLadderStart E self).hmatrixParameters =
        ⟨E.resourceMap.HMatrixAssemblyEpsilon, E.resourceMap.HMatrixRecompressionEpsilon⟩ ∧
      (∀ H : HMatrix R,
        E.hmatAssembleFactorize
            (E.hmatBuild self.normalizedInputSample_
              self.reducedCovarianceModel_.getDimension
              ⟨E.resourceMap.HMatrixAssemblyEpsilon,
               E.resourceMap.HMatrixRecompressionEpsilon⟩)
            self.reducedCovarianceModel_ self.normalizedInputSample_
            (self.reducedCovarianceModel_.getDimension != 1) 0 = some H →
        hmatLadderStep E self (hmatLadderStart E self) =
          { covarianceCholeskyFactorHMatrix_ := H
            hmatrixParameters :=
              ⟨E.resourceMap.HMatrixAssemblyEpsilon,
               E.resourceMap.HMatrixRecompressionEpsilon⟩
            continuationCondition := false
            cumulatedScaling := 0
            scaling := E.resourceMap.StartingScaling
            attempts := 1
            failures := 0 }) := by
  refine ⟨?_, ?_, rfl, rfl, rfl, ?_⟩
  · intro j l hl
    have hform : l.ClosedForm E := by
      rw [hl]
      exact hmatLadderStep_iterate_closedForm E self j
    exact ⟨hform, hmatLadderStep_eq E self l hform⟩
  · intro fuel l hloop
    exact hmatLadderLoop_closedForm E self E.resourceMap.MaximalScaling fuel _ l
      (hmatLadderStart_closedForm E self) (by simp [hmatLadderStart]) hloop
  · intro H hH
    simp [hmatLadderStep, hmatLadderStart, hH]

/-! ### The analytical amplitude as a maximizer -/

theorem amplitude_maximizer (N epsilon s : ℝ) (hN : 0 < N) (heps : 0 < epsilon) (hs : 0 < s) :
    2 * N * Real.log (Real.sqrt (epsilon / N)) +
        epsilon / (Real.sqrt (epsilon / N) * Real.sqrt (epsilon / N)) ≤
      2 * N * Real.log s + epsilon / (s * s) := by
  have hx : 0 < epsilon / N := div_pos heps hN
  have hsq : Real.sqrt (epsilon / N) * Real.sqrt (epsilon / N) = epsilon / N :=
    Real.mul_self_sqrt hx.le
  have hlogsqrt : Real.log (Real.sqrt (epsilon / N)) = Real.log (epsilon / N) / 2 :=
    Real.log_sqrt hx.le
  have hss : 0 < s * s := mul_pos hs hs
  have hy : 0 < epsilon / N / (s * s) := div_pos hx hss
  have hle : Real.log (epsilon / N / (s * s)) ≤ epsilon / N / (s * s) - 1 :=
    Real.log_le_sub_one_of_pos hy
  have hlog : Real.log (epsilon / N / (s * s)) = Real.log (epsilon / N) - 2 * Real.log s := by
    rw [Real.log_div hx.ne' hss.ne', Real.log_mul hs.ne' hs.ne']
    ring
  have hmul : N * (Real.log (epsilon / N) - 2 * Real.log s) ≤
      N * (epsilon / N / (s * s) - 1) := by
    rw [← hlog]
    exact mul_le_mul_of_nonneg_left hle hN.le
  have h1 : epsilon / (epsilon / N) = N := by
    field_simp
  have h2 : N * (epsilon / N / (s * s) - 1) = epsilon / (s * s) - N := by
    field_simp
    ring
  rw [hsq, hlogsqrt, h1]
  rw [h2] at hmul
  linarith

/-- Claim C22, as amended. Analytical-amplitude mode over the real numbers with the real
square root and logarithm and the unbiased-variance option off: for a sample size `N >= 1`, a
log-determinant `logDeterminant` and a whitened residual `rho` with `||rho||^2 > 0` returned
by the backend (computed with the amplitude at 1), the amplitude stored by
`computeReducedLogLikelihood` is `sigma = sqrt(||rho||^2 / N)`, the value returned is
`-0.5 * (logDeterminant + 2 * N * log(sigma) + ||rho||^2 / sigma^2)`, and `sigma` maximizes
this expression over the amplitude: for every `s > 0`,
`-0.5 * (logDeterminant + 2 * N * log(s) + ||rho||^2 / s^2)` is at most that value. -/
theorem analytical_amplitude_maximizes (E : Collaborators ℝ) (fuel : Nat)
    (self : GeneralizedLinearModelAlgorithm ℝ) (parameters : List ℝ) (logDeterminant : ℝ)
    (hsqrt : E.sqrt = Real.sqrt) (hlog : E.log = Real.log)
    (hUnbiased : E.resourceMap.UnbiasedVariance = false)
    (hAnalytical : self.analyticalAmplitude_ = true)
    (hsize : parameters.length = self.reducedCovarianceModel_.getParameter.length)
    (hBackend : (computeLogDeterminant E fuel self parameters).1 =
      Outcome.returned logDeterminant)
    (hN : 1 ≤ self.inputSample_.getSize)
    (hrho : 0 < normSquare (computeLogDeterminant E fuel self parameters).2.rho_) :
    ∃ sigma : ℝ,
      sigma = Real.sqrt (normSquare (computeLogDeterminant E fuel self parameters).2.rho_ /
        (self.inputSample_.getSize : ℝ)) ∧
      0 < sigma ∧
      (computeReducedLogLikelihood E fuel self
        parameters).2.reducedCovarianceModel_.getAmplitude = [sigma] ∧
      (computeReducedLogLikelihood E fuel self parameters).1 =
        Outcome.returned [-(1 / 2) *
          (logDeterminant + 2 * (self.inputSample_.getSize : ℝ) * Real.log sigma +
            normSquare (computeLogDeterminant E fuel self parameters).2.rho_ /
              (sigma * sigma))] ∧
      ∀ s : ℝ, 0 < s →
        -(1 / 2) *
            (logDeterminant + 2 * (self.inputSample_.getSize : ℝ) * Real.log s +
              normSquare (computeLogDeterminant E fuel self parameters).2.rho_ / (s * s)) ≤
          -(1 / 2) *
            (logDeterminant + 2 * (self.inputSample_.getSize : ℝ) * Real.log sigma +
              normSquare (computeLogDeterminant E fuel self parameters).2.rho_ /
                (sigma * sigma)) := by
  obtain ⟨m, L, H, rho, beta, hframe⟩ := computeLogDeterminant_frame E fuel self parameters
  have hflag : (computeLogDeterminant E fuel self parameters).2.analyticalAmplitude_ = true := by
    rw [hframe]; exact hAnalytical
  have hsample : (computeLogDeterminant E fuel self parameters).2.inputSample_ =
      self.inputSample_ := by
    rw [hframe]
  have hNreal : (1 : ℝ) ≤ (self.inputSample_.getSize : ℝ) := by exact_mod_cast hN
  have hNpos : (0 : ℝ) < (self.inputSample_.getSize : ℝ) := by linarith
  have hsigma_pos : 0 < Real.sqrt
      (normSquare (computeLogDeterminant E fuel self parameters).2.rho_ /
        (self.inputSample_.getSize : ℝ)) := Real.sqrt_pos.mpr (div_pos hrho hNpos)
  have hsq : Real.sqrt (normSquare (computeLogDeterminant E fuel self parameters).2.rho_ /
        (self.inputSample_.getSize : ℝ)) *
      Real.sqrt (normSquare (computeLogDeterminant E fuel self parameters).2.rho_ /
        (self.inputSample_.getSize : ℝ)) =
      normSquare (computeLogDeterminant E fuel self parameters).2.rho_ /
        (self.inputSample_.getSize : ℝ) := Real.mul_self_sqrt (div_pos hrho hNpos).le
  have hratio : normSquare (computeLogDeterminant E fuel self parameters).2.rho_ /
      (normSquare (computeLogDeterminant E fuel self parameters).2.rho_ /
        (self.inputSample_.getSize : ℝ)) = (self.inputSample_.getSize : ℝ) := by
    field_simp
  have hcorr : amplitudeCorrected E (computeLogDeterminant E fuel self parameters).2
      logDeterminant =
      analyticalAmplitudeStep E (computeLogDeterminant E fuel self parameters).2
        logDeterminant := by
    simp [amplitudeCorrected, hflag]
  refine ⟨_, rfl, hsigma_pos, ?_, ?_, ?_⟩
  · rw [computeReducedLogLikelihood_of_returned E fuel self parameters logDeterminant hsize
      hBackend, hcorr]
    simp [analyticalAmplitudeStep, hUnbiased, hsample, hsqrt, CovarianceModel.getAmplitude,
      CovarianceModel.setAmplitude]
  · rw [computeReducedLogLikelihood_of_returned E fuel self parameters logDeterminant hsize
      hBackend, hcorr]
    simp only [analyticalAmplitudeStep, hUnbiased, hsample, hsqrt, hlog, Bool.false_eq_true,
      if_false, reducedLogLikelihoodValue, normSquare_divPoint]
    rw [if_neg]
    rw [hsq, hratio]
    exact not_le.mpr hNpos
  · intro s hs
    have := amplitude_maximizer (self.inputSample_.getSize : ℝ)
      (normSquare (computeLogDeterminant E fuel self parameters).2.rho_) s hNpos hrho hs
    linarith

theorem analytical_amplitude_maximizes_witness :
    ∃ sigma : ℝ,
      0 < sigma ∧
      (computeReducedLogLikelihood (toyCollaborators Real.sqrt Real.log) 5
        toyAnalyticalAlgorithm [1]).2.reducedCovarianceModel_.getAmplitude = [sigma] ∧
      ∀ s : ℝ, 0 < s →
        -(1 / 2) *
            (0 + 2 * ((toyAnalyticalAlgorithm :
                GeneralizedLinearModelAlgorithm ℝ).inputSample_.getSize : ℝ) * Real.log s +
              normSquare (computeLogDeterminant (toyCollaborators Real.sqrt Real.log) 5
                toyAnalyticalAlgorithm [1]).2.rho_ / (s * s)) ≤
          -(1 / 2) *
            (0 + 2 * ((toyAnalyticalAlgorithm :
                GeneralizedLinearModelAlgorithm ℝ).inputSample_.getSize : ℝ) * Real.log sigma +
              normSquare (computeLogDeterminant (toyCollaborators Real.sqrt Real.log) 5
                toyAnalyticalAlgorithm [1]).2.rho_ / (sigma * sigma)) := by
  have hBackend : (computeLogDeterminant (toyCollaborators Real.sqrt Real.log) 5
      toyAnalyticalAlgorithm [1]).1 = Outcome.returned 0 := by
    simp [computeLogDeterminant, computeLapackLogDeterminantCholesky,
      lapackLadderLoop, lapackLadderStart, lapackLadderStep, lapackCovarianceMatrix,
      toyCollaborators, toyAnalyticalAlgorithm, toyAlgorithm, toyModel, toyResourceMap,
      NumericalSample.getSize, CovarianceModel.setParameter, CovarianceModel.setAmplitude,
      CovarianceModel.getFullParameter, writeActive,
      toyCholesky_one, lapackSolve, lapackLogDeterminant, logDetLoop, SquareMatrix.diagonal]
    norm_num
  have hrho : 0 < normSquare (computeLogDeterminant (toyCollaborators Real.sqrt Real.log) 5
      toyAnalyticalAlgorithm [1]).2.rho_ := by
    simp [computeLogDeterminant, computeLapackLogDeterminantCholesky,
      lapackLadderLoop, lapackLadderStart, lapackLadderStep, lapackCovarianceMatrix,
      toyCollaborators, toyAnalyticalAlgorithm, toyAlgorithm, toyModel, toyResourceMap,
      NumericalSample.getSize, NumericalSample.getData, CovarianceModel.setParameter,
      CovarianceModel.setAmplitude, CovarianceModel.getFullParameter, writeActive,
      toyCholesky_one, lapackSolve, normSquare]
  obtain ⟨sigma, -, hpos, hamp, -, hmax⟩ := analytical_amplitude_maximizes
    (toyCollaborators Real.sqrt Real.log)
    5 toyAnalyticalAlgorithm [1] 0 rfl rfl rfl rfl
    (by simp [toyAnalyticalAlgorithm, toyAlgorithm, toyModel, CovarianceModel.getParameter])
    hBackend
    (by simp [toyAnalyticalAlgorithm, toyAlgorithm, NumericalSample.getSize])
    hrho
  exact ⟨sigma, hpos, hamp, hmax⟩

/-- With the unbiased-variance option on, the analytical amplitude is not the maximizer of the
expression of claim C22.  On three outputs `-1, 1, 0` with a constant trend and the identity
correlation, the backend returns the log-determinant 0, one trend coefficient and a whitened
residual with `||rho||^2 = 2`; the amplitude stored is `sqrt(2 / (3 - 1)) = 1`, and the
expression `-0.5 * (logDet + 2 * N * log(s) + ||rho||^2 / s^2)` is strictly greater at
`s = 9 / 10` than at the stored amplitude. -/
theorem unbiased_amplitude_is_not_maximizer :
    (toyUnbiasedCollaborators Real.sqrt Real.log).resourceMap.UnbiasedVariance = true ∧
      (toyTrendAlgorithm : GeneralizedLinearModelAlgorithm ℝ).analyticalAmplitude_ = true ∧
      (toyTrendAlgorithm : GeneralizedLinearModelAlgorithm ℝ).inputSample_.getSize = 3 ∧
      (computeLogDeterminant (toyUnbiasedCollaborators Real.sqrt Real.log) 5
        toyTrendAlgorithm [1]).1 = Outcome.returned 0 ∧
      (computeLogDeterminant (toyUnbiasedCollaborators Real.sqrt Real.log) 5
        toyTrendAlgorithm [1]).2.beta_ = [0] ∧
      normSquare (computeLogDeterminant (toyUnbiasedCollaborators Real.sqrt Real.log) 5
        toyTrendAlgorithm [1]).2.rho_ = 2 ∧
      (computeReducedLogLikelihood (toyUnbiasedCollaborators Real.sqrt Real.log) 5
        toyTrendAlgorithm [1]).2.reducedCovarianceModel_.getAmplitude = [1] ∧
      (computeReducedLogLikelihood (toyUnbiasedCollaborators Real.sqrt Real.log) 5
        toyTrendAlgorithm [1]).1 = Outcome.returned [-1] ∧
      -(1 / 2) * ((0 : ℝ) + 2 * 3 * Real.log 1 + 2 / (1 * 1)) = -1 ∧
      -(1 / 2) * ((0 : ℝ) + 2 * 3 * Real.log 1 + 2 / (1 * 1)) <
        -(1 / 2) * ((0 : ℝ) + 2 * 3 * Real.log (9 / 10) + 2 / (9 / 10 * (9 / 10))) := by
  have hBackend : (computeLogDeterminant (toyUnbiasedCollaborators Real.sqrt Real.log) 5
      toyTrendAlgorithm [1]).1 = Outcome.returned 0 := by
    simp [computeLogDeterminant, computeLapackLogDeterminantCholesky,
      lapackLadderLoop, lapackLadderStart, lapackLadderStep, lapackCovarianceMatrix,
      toyUnbiasedCollaborators,
      toyCollaborators, toyTrendAlgorithm, toyAlgorithm, toyModel, toyResourceMap,
      NumericalSample.getSize, CovarianceModel.setParameter, CovarianceModel.setAmplitude,
      CovarianceModel.getFullParameter, writeActive,
      toyCholesky_one, lapackSolve, lapackLogDeterminant, logDetLoop, SquareMatrix.diagonal]
    norm_num
  have hbeta : (computeLogDeterminant (toyUnbiasedCollaborators Real.sqrt Real.log) 5
      toyTrendAlgorithm [1]).2.beta_ = [0] := by
    simp [computeLogDeterminant, computeLapackLogDeterminantCholesky,
      lapackLadderLoop, lapackLadderStart, lapackLadderStep, lapackCovarianceMatrix,
      toyUnbiasedCollaborators,
      toyCollaborators, toyTrendAlgorithm, toyAlgorithm, toyModel, toyResourceMap,
      NumericalSample.getSize, NumericalSample.getData, CovarianceModel.setParameter,
      CovarianceModel.setAmplitude, CovarianceModel.getFullParameter, writeActive,
      toyCholesky_one, lapackSolve]
  have hrho : (computeLogDeterminant (toyUnbiasedCollaborators Real.sqrt Real.log) 5
      toyTrendAlgorithm [1]).2.rho_ = [-1, 1, 0] := by
    simp [computeLogDeterminant, computeLapackLogDeterminantCholesky,
      lapackLadderLoop, lapackLadderStart, lapackLadderStep, lapackCovarianceMatrix,
      toyUnbiasedCollaborators,
      toyCollaborators, toyTrendAlgorithm, toyAlgorithm, toyModel, toyResourceMap,
      NumericalSample.getSize, NumericalSample.getData, CovarianceModel.setParameter,
      CovarianceModel.setAmplitude, CovarianceModel.getFullParameter, writeActive,
      toyCholesky_one, lapackSolve, subPoint, DenseMatrix.mulPoint, List.ofFn, Fin.foldr,
      Fin.foldr.loop]
  have hnorm : normSquare (computeLogDeterminant (toyUnbiasedCollaborators Real.sqrt Real.log) 5
      toyTrendAlgorithm [1]).2.rho_ = 2 := by
    rw [hrho]
    norm_num [normSquare]
  have hsample : (computeLogDeterminant (toyUnbiasedCollaborators Real.sqrt Real.log) 5
      toyTrendAlgorithm [1]).2.inputSample_ = ⟨1, [[0], [1], [2]]⟩ := by
    obtain ⟨m, L, H, rho, beta, hframe⟩ := computeLogDeterminant_frame
      (toyUnbiasedCollaborators Real.sqrt Real.log) 5 toyTrendAlgorithm [1]
    rw [hframe]
    simp [toyTrendAlgorithm, toyAlgorithm]
  have hflag : (computeLogDeterminant (toyUnbiasedCollaborators Real.sqrt Real.log) 5
      toyTrendAlgorithm [1]).2.analyticalAmplitude_ = true := by
    obtain ⟨m, L, H, rho, beta, hframe⟩ := computeLogDeterminant_frame
      (toyUnbiasedCollaborators Real.sqrt Real.log) 5 toyTrendAlgorithm [1]
    rw [hframe]
    simp [toyTrendAlgorithm]
  have hsize : ([1] : List ℝ).length =
      (toyTrendAlgorithm : GeneralizedLinearModelAlgorithm ℝ).reducedCovarianceModel_.getParameter.length := by
    simp [toyTrendAlgorithm, toyAlgorithm, toyModel, CovarianceModel.getParameter]
  have hsub : ((unsignedSub 3 1 : Nat) : ℝ) = 2 := by
    have : unsignedSub 3 1 = 2 := by decide
    rw [this]
    norm_num
  have hcorr : amplitudeCorrected (toyUnbiasedCollaborators Real.sqrt Real.log)
      (computeLogDeterminant (toyUnbiasedCollaborators Real.sqrt Real.log) 5
        toyTrendAlgorithm [1]).2 0 =
      analyticalAmplitudeStep (toyUnbiasedCollaborators Real.sqrt Real.log)
        (computeLogDeterminant (toyUnbiasedCollaborators Real.sqrt Real.log) 5
          toyTrendAlgorithm [1]).2 0 := by
    simp [amplitudeCorrected, hflag]
  have hU : (toyUnbiasedCollaborators Real.sqrt Real.log).resourceMap.UnbiasedVariance = true :=
    rfl
  have hS : (toyUnbiasedCollaborators Real.sqrt Real.log).sqrt = Real.sqrt := rfl
  have hL : (toyUnbiasedCollaborators Real.sqrt Real.log).log = Real.log := rfl
  have hlog : Real.log (9 / 10) ≤ 9 / 10 - 1 := Real.log_le_sub_one_of_pos (by norm_num)
  refine ⟨rfl, rfl, by simp [toyTrendAlgorithm, toyAlgorithm, NumericalSample.getSize],
    hBackend, hbeta, hnorm, ?_, ?_, by norm_num, ?_⟩
  · rw [computeReducedLogLikelihood_of_returned _ 5 toyTrendAlgorithm [1] 0 hsize hBackend,
      hcorr]
    simp [analyticalAmplitudeStep, hU, hS, hsample, hbeta, hnorm, NumericalSample.getSize,
      hsub, CovarianceModel.getAmplitude, CovarianceModel.setAmplitude]
  · rw [computeReducedLogLikelihood_of_returned _ 5 toyTrendAlgorithm [1] 0 hsize hBackend,
      hcorr]
    simp [analyticalAmplitudeStep, hU, hS, hL, hsample, hbeta, hnorm, NumericalSample.getSize,
      hsub, reducedLogLikelihoodValue, normSquare_divPoint]
  · norm_num
    linarith

/-! ### The objective as a function of the parameter vector -/

theorem writeActive_congr :
    ∀ (active : List Nat) (values f g : List R), values.length = active.length →
      f.length = g.length → (∀ i, i ∉ active → f.getD i 0 = g.getD i 0) →
      writeActive active values f = writeActive active values g := by
  intro active
  induction active with
  | nil =>
    intro values f g hlen hfg hoff
    simp only [List.length_nil, List.length_eq_zero] at hlen
    subst hlen
    simp only [writeActive]
    apply List.ext_getElem hfg
    intro i h1 h2
    have := hoff i (by simp)
    simpa [List.getD_eq_getElem?_getD, List.getElem?_eq_getElem h1,
      List.getElem?_eq_getElem h2] using this
  | cons j active ih =>
    intro values f g hlen hfg hoff
    cases values with
    | nil => simp at hlen
    | cons v values =>
      simp only [writeActive]
      apply ih
      · simpa using hlen
      · simp [hfg]
      · intro i hi
        by_cases hij : j = i
        · subst hij
          simp only [List.getD_eq_getElem?_getD, List.getElem?_set, hfg]
          simp
        · have hmem : i ∉ j :: active := by
            simp only [List.mem_cons, not_or]
            exact ⟨fun h => hij h.symm, hi⟩
          have := hoff i hmem
          simpa [List.getD_eq_getElem?_getD, List.getElem?_set, hij] using this

theorem fullParameter_congr (active : List Nat) (a1 a2 b1 b2 : List R)
    (ha : a1.length = a2.length) (hb : b1.length = b2.length)
    (hoffa : ∀ i, i ∉ active → a1.getD i 0 = a2.getD i 0)
    (hoffb : ∀ i, a2.length + i ∉ active → b1.getD i 0 = b2.getD i 0) :
    (a1 ++ b1).length = (a2 ++ b2).length ∧
      ∀ i, i ∉ active → (a1 ++ b1).getD i 0 = (a2 ++ b2).getD i 0 := by
  refine ⟨by simp [ha, hb], ?_⟩
  intro i hi
  by_cases h : i < a1.length
  · rw [List.getD_append _ _ _ _ h, List.getD_append _ _ _ _ (ha ▸ h)]
    exact hoffa i hi
  · have h1 : a1.length ≤ i := not_lt.mp h
    rw [List.getD_append_right _ _ _ _ h1, List.getD_append_right _ _ _ _ (ha ▸ h1), ha]
    apply hoffb
    rw [Nat.add_sub_cancel' (ha ▸ h1)]
    exact hi

theorem setParameter_congr (m1 m2 : CovarianceModel R) (parameter : List R)
    (hsize : parameter.length = m2.activeParameter_.length)
    (hspatial : m1.spatialDimension_ = m2.spatialDimension_)
    (hdim : m1.dimension_ = m2.dimension_)
    (hactive : m1.activeParameter_ = m2.activeParameter_)
    (hscale : m1.scale_.length = m2.scale_.length)
    (hamplitude : m1.amplitude_.length = m2.amplitude_.length)
    (hoffScale : ∀ i, i ∉ m2.activeParameter_ → m1.scale_.getD i 0 = m2.scale_.getD i 0)
    (hoffAmplitude : ∀ i, m2.scale_.length + i ∉ m2.activeParameter_ →
      m1.amplitude_.getD i 0 = m2.amplitude_.getD i 0) :
    m1.setParameter parameter = m2.setParameter parameter := by
  obtain ⟨hlen, hoff⟩ := fullParameter_congr m2.activeParameter_ m1.scale_ m2.scale_
    m1.amplitude_ m2.amplitude_ hscale hamplitude hoffScale hoffAmplitude
  have hw := writeActive_congr m2.activeParameter_ parameter (m1.scale_ ++ m1.amplitude_)
    (m2.scale_ ++ m2.amplitude_) hsize hlen hoff
  unfold CovarianceModel.setParameter CovarianceModel.getFullParameter
  rw [hactive, hw, hscale, hspatial, hdim]

theorem lapackLadderLoop_congr (E : Collaborators R) (M : R) :
    ∀ (fuel : Nat) (l1 l2 : LapackLadder R), l1.C = l2.C →
      l1.continuationCondition = l2.continuationCondition →
      l1.cumulatedScaling = l2.cumulatedScaling → l1.scaling = l2.scaling →
      l1.cumulatedScaling < l1.scaling →
      (l1.continuationCondition = false →
        l1.covarianceCholeskyFactor_ = l2.covarianceCholeskyFactor_) →
      (lapackLadderLoop E M fuel l1 = none ∧ lapackLadderLoop E M fuel l2 = none) ∨
        ∃ r1 r2, lapackLadderLoop E M fuel l1 = some r1 ∧
          lapackLadderLoop E M fuel l2 = some r2 ∧ r1.scaling = r2.scaling ∧
          (r1.scaling < M → r1.covarianceCholeskyFactor_ = r2.covarianceCholeskyFactor_) := by
  intro fuel
  induction fuel with
  | zero =>
    intro l1 l2 hC hcont hcum hsc hlt hfactor
    unfold lapackLadderLoop
    rw [← hcont, ← hcum]
    by_cases hcond : (l1.continuationCondition && decide (l1.cumulatedScaling < M)) = true
    · left
      simp [hcond]
    · right
      refine ⟨l1, l2, by simp [hcond], by simp [hcond], hsc, ?_⟩
      intro hM
      apply hfactor
      simp only [Bool.and_eq_true, decide_eq_true_eq, not_and] at hcond
      by_contra hne
      exact hcond (by simpa using hne) (lt_trans hlt hM)
  | succ fuel ih =>
    intro l1 l2 hC hcont hcum hsc hlt hfactor
    unfold lapackLadderLoop
    rw [← hcont, ← hcum]
    by_cases hcond : (l1.continuationCondition && decide (l1.cumulatedScaling < M)) = true
    · rw [if_pos hcond, if_pos hcond]
      have hcont1 : l1.continuationCondition = true := by
        simp only [Bool.and_eq_true, decide_eq_true_eq] at hcond
        exact hcond.1
      unfold lapackLadderStep
      rw [← hC]
      cases E.computeCholesky l1.C with
      | some L =>
        dsimp only
        exact ih _ _ rfl rfl hcum hsc hlt (fun _ => rfl)
      | none =>
        dsimp only
        apply ih
        · dsimp only
          rw [hsc]
        · exact hcont
        · dsimp only
          rw [hcum, hsc]
        · dsimp only
          rw [hsc]
        · dsimp only
          linarith
        · intro h
          dsimp only at h
          rw [hcont1] at h
          cases h
    · right
      refine ⟨l1, l2, by simp [hcond], by simp [hcond], hsc, ?_⟩
      intro hM
      apply hfactor
      simp only [Bool.and_eq_true, decide_eq_true_eq, not_and] at hcond
      by_contra hne
      exact hcond (by simpa using hne) (lt_trans hlt hM)

theorem computeLapack_congr (E : Collaborators R) (fuel : Nat)
    (a b : GeneralizedLinearModelAlgorithm R) (hs : 0 < E.resourceMap.StartingScaling)
    (hmodel : b.reducedCovarianceModel_ = a.reducedCovarianceModel_)
    (hsample : b.normalizedInputSample_ = a.normalizedInputSample_)
    (hnoise : b.noise_ = a.noise_) (hout : b.outputSample_ = a.outputSample_)
    (hbasis : b.basisCollection_ = a.basisCollection_) (hF : b.F_ = a.F_)
    (hbeta : a.basisCollection_ = [] → b.beta_ = a.beta_) :
    (computeLapackLogDeterminantCholesky E fuel b).1 =
        (computeLapackLogDeterminantCholesky E fuel a).1 ∧
      ∀ value, (computeLapackLogDeterminantCholesky E fuel a).1 = Outcome.returned value →
        (computeLapackLogDeterminantCholesky E fuel b).2.rho_ =
            (computeLapackLogDeterminantCholesky E fuel a).2.rho_ ∧
          (computeLapackLogDeterminantCholesky E fuel b).2.beta_ =
            (computeLapackLogDeterminantCholesky E fuel a).2.beta_ ∧
          (computeLapackLogDeterminantCholesky E fuel b).2.covarianceCholeskyFactor_ =
            (computeLapackLogDeterminantCholesky E fuel a).2.covarianceCholeskyFactor_ := by
  have hC : (lapackLadderStart E a).C = (lapackLadderStart E b).C := by
    simp [lapackLadderStart, lapackCovarianceMatrix, hmodel, hsample, hnoise]
  rcases lapackLadderLoop_congr E E.resourceMap.MaximalScaling fuel (lapackLadderStart E a)
    (lapackLadderStart E b) hC rfl rfl rfl (by simpa [lapackLadderStart] using hs)
    (fun h => by simp [lapackLadderStart] at h) with ⟨h1, h2⟩ | ⟨r1, r2, h1, h2, hsc, hfac⟩
  · unfold computeLapackLogDeterminantCholesky
    rw [h1, h2]
    simp
  · unfold computeLapackLogDeterminantCholesky
    rw [h1, h2]
    dsimp only
    rw [← hsc]
    by_cases hthrow : r1.scaling ≥ E.resourceMap.MaximalScaling
    · rw [if_pos hthrow, if_pos hthrow]
      simp
    · rw [if_neg hthrow, if_neg hthrow]
      have hfactor := hfac (not_le.mp hthrow)
      rw [← hfactor]
      unfold lapackSolve
      dsimp only
      rw [hbasis, hout, hF]
      by_cases hb : a.basisCollection_.length > 0
      · rw [if_pos hb, if_pos hb]
        simp
      · rw [if_neg hb, if_neg hb]
        have hnil : a.basisCollection_ = [] := by
          simpa using hb
        simp [hbeta hnil]

theorem hmatLadderLoop_congr (E : Collaborators R)
    (a b : GeneralizedLinearModelAlgorithm R) (M : R)
    (hmodel : b.reducedCovarianceModel_ = a.reducedCovarianceModel_)
    (hsample : b.normalizedInputSample_ = a.normalizedInputSample_) :
    ∀ (fuel : Nat) (l1 l2 : HMatLadder R), l1.hmatrixParameters = l2.hmatrixParameters →
      l1.continuationCondition = l2.continuationCondition →
      l1.cumulatedScaling = l2.cumulatedScaling → l1.scaling = l2.scaling →
      l1.cumulatedScaling < l1.scaling →
      (l1.continuationCondition = false →
        l1.covarianceCholeskyFactorHMatrix_ = l2.covarianceCholeskyFactorHMatrix_) →
      (hmatLadderLoop E a M fuel l1 = none ∧ hmatLadderLoop E b M fuel l2 = none) ∨
        ∃ r1 r2, hmatLadderLoop E a M fuel l1 = some r1 ∧
          hmatLadderLoop E b M fuel l2 = some r2 ∧ r1.scaling = r2.scaling ∧
          (r1.scaling < M →
            r1.covarianceCholeskyFactorHMatrix_ = r2.covarianceCholeskyFactorHMatrix_) := by
  intro fuel
  induction fuel with
  | zero =>
    intro l1 l2 hP hcont hcum hsc hlt hfactor
    unfold hmatLadderLoop
    rw [← hcont, ← hcum]
    by_cases hcond : (l1.continuationCondition && decide (l1.cumulatedScaling < M)) = true
    · left
      simp [hcond]
    · right
      refine ⟨l1, l2, by simp [hcond], by simp [hcond], hsc, ?_⟩
      intro hM
      apply hfactor
      simp only [Bool.and_eq_true, decide_eq_true_eq, not_and] at hcond
      by_contra hne
      exact hcond (by simpa using hne) (lt_trans hlt hM)
  | succ fuel ih =>
    intro l1 l2 hP hcont hcum hsc hlt hfactor
    unfold hmatLadderLoop
    rw [← hcont, ← hcum]
    by_cases hcond : (l1.continuationCondition && decide (l1.cumulatedScaling < M)) = true
    · rw [if_pos hcond, if_pos hcond]
      have hcont1 : l1.continuationCondition = true := by
        simp only [Bool.and_eq_true, decide_eq_true_eq] at hcond
        exact hcond.1
      unfold hmatLadderStep
      rw [hmodel, hsample, ← hP, ← hcum]
      dsimp only
      cases E.hmatAssembleFactorize
          (E.hmatBuild a.normalizedInputSample_ a.reducedCovarianceModel_.getDimension
            l1.hmatrixParameters)
          a.reducedCovarianceModel_ a.normalizedInputSample_
          (a.reducedCovarianceModel_.getDimension != 1) l1.cumulatedScaling with
      | some H =>
        dsimp only
        exact ih _ _ rfl rfl rfl hsc hlt (fun _ => rfl)
      | none =>
        dsimp only
        refine ih _ _ rfl hcont ?_ ?_ ?_ ?_
        · dsimp only
          rw [hsc]
        · dsimp only
          rw [hsc]
        · dsimp only
          linarith
        · intro h
          simp [hcont1] at h
    · right
      refine ⟨l1, l2, by simp [hcond], by simp [hcond], hsc, ?_⟩
      intro hM
      apply hfactor
      simp only [Bool.and_eq_true, decide_eq_true_eq, not_and] at hcond
      by_contra hne
      exact hcond (by simpa using hne) (lt_trans hlt hM)

theorem computeHMat_congr (E : Collaborators R) (fuel : Nat)
    (a b : GeneralizedLinearModelAlgorithm R) (hs : 0 < E.resourceMap.StartingScaling)
    (hmodel : b.reducedCovarianceModel_ = a.reducedCovarianceModel_)
    (hsample : b.normalizedInputSample_ = a.normalizedInputSample_)
    (hout : b.outputSample_ = a.outputSample_)
    (hbasis : b.basisCollection_ = a.basisCollection_) (hF : b.F_ = a.F_)
    (hbeta : a.basisCollection_ = [] → b.beta_ = a.beta_) :
    (computeHMatLogDeterminantCholesky E fuel b).1 =
        (computeHMatLogDeterminantCholesky E fuel a).1 ∧
      ∀ value, (computeHMatLogDeterminantCholesky E fuel a).1 = Outcome.returned value →
        (computeHMatLogDeterminantCholesky E fuel b).2.rho_ =
            (computeHMatLogDeterminantCholesky E fuel a).2.rho_ ∧
          (computeHMatLogDeterminantCholesky E fuel b).2.beta_ =
            (computeHMatLogDeterminantCholesky E fuel a).2.beta_ ∧
          (computeHMatLogDeterminantCholesky E fuel b).2.covarianceCholeskyFactorHMatrix_ =
            (computeHMatLogDeterminantCholesky E fuel a).2.covarianceCholeskyFactorHMatrix_ := by
  rcases hmatLadderLoop_congr E a b E.resourceMap.MaximalScaling hmodel hsample fuel
    (hmatLadderStart E a) (hmatLadderStart E b) rfl rfl rfl rfl
    (by simpa [hmatLadderStart] using hs)
    (fun h => by simp [hmatLadderStart] at h) with ⟨h1, h2⟩ | ⟨r1, r2, h1, h2, hsc, hfac⟩
  · unfold computeHMatLogDeterminantCholesky
    rw [h1, h2]
    simp
  · unfold computeHMatLogDeterminantCholesky
    rw [h1, h2]
    dsimp only
    rw [← hsc]
    by_cases hthrow : r1.scaling ≥ E.resourceMap.MaximalScaling
    · rw [if_pos hthrow, if_pos hthrow]
      simp
    · rw [if_neg hthrow, if_neg hthrow]
      have hfactor := hfac (not_le.mp hthrow)
      rw [← hfactor]
      unfold hmatSolve
      dsimp only
      rw [hbasis, hout, hF]
      by_cases hb : a.basisCollection_.length > 0
      · rw [if_pos hb, if_pos hb]
        simp
      · rw [if_neg hb, if_neg hb]
        have hnil : a.basisCollection_ = [] := by
          simpa using hb
        simp [hbeta hnil]

theorem startModel_congr (s t : GeneralizedLinearModelAlgorithm R) (parameters : List R)
    (hSame : SameFit s t)
    (hsize : parameters.length = s.reducedCovarianceModel_.activeParameter_.length) :
    (if t.analyticalAmplitude_ then t.reducedCovarianceModel_.setAmplitude [1]
      else t.reducedCovarianceModel_).setParameter parameters =
      (if s.analyticalAmplitude_ then s.reducedCovarianceModel_.setAmplitude [1]
        else s.reducedCovarianceModel_).setParameter parameters := by
  obtain ⟨-, -, -, -, -, -, -, hana, hspatial, hdim, hactive, hscale, hoffScale, hamp, -⟩ :=
    hSame
  rw [hana]
  by_cases ha : s.analyticalAmplitude_ = true
  · rw [if_pos ha, if_pos ha]
    exact setParameter_congr _ _ parameters hsize hspatial hdim hactive hscale rfl hoffScale
      (fun _ _ => rfl)
  · rw [if_neg ha, if_neg ha]
    have ha2 : s.analyticalAmplitude_ = false := by simpa using ha
    exact setParameter_congr _ _ parameters hsize hspatial hdim hactive hscale (hamp ha2).1
      hoffScale (hamp ha2).2

theorem computeLogDeterminant_congr (E : Collaborators R) (fuel : Nat)
    (s t : GeneralizedLinearModelAlgorithm R) (parameters : List R)
    (hs : 0 < E.resourceMap.StartingScaling) (hSame : SameFit s t)
    (hsize : parameters.length = s.reducedCovarianceModel_.activeParameter_.length) :
    (computeLogDeterminant E fuel t parameters).1 =
        (computeLogDeterminant E fuel s parameters).1 ∧
      ∀ value, (computeLogDeterminant E fuel s parameters).1 = Outcome.returned value →
        (computeLogDeterminant E fuel t parameters).2.rho_ =
            (computeLogDeterminant E fuel s parameters).2.rho_ ∧
          (computeLogDeterminant E fuel t parameters).2.beta_ =
            (computeLogDeterminant E fuel s parameters).2.beta_ ∧
          (s.method_ = 0 →
            (computeLogDeterminant E fuel t parameters).2.covarianceCholeskyFactor_ =
              (computeLogDeterminant E fuel s parameters).2.covarianceCholeskyFactor_) ∧
          (s.method_ ≠ 0 →
            (computeLogDeterminant E fuel t parameters).2.covarianceCholeskyFactorHMatrix_ =
              (computeLogDeterminant E fuel s
                parameters).2.covarianceCholeskyFactorHMatrix_) := by
  have hM := startModel_congr s t parameters hSame hsize
  obtain ⟨-, hsample, hout, hF, hbasis, hnoise, hmethod, -, -, -, -, -, -, -, hbeta⟩ := hSame
  unfold computeLogDeterminant
  dsimp only
  rw [hM]
  by_cases hm : s.method_ = 0
  · rw [if_pos hm, if_pos (hmethod.trans hm)]
    obtain ⟨h1, h2⟩ := computeLapack_congr E fuel
      { s with
        reducedCovarianceModel_ :=
          (if s.analyticalAmplitude_ then s.reducedCovarianceModel_.setAmplitude [1]
            else s.reducedCovarianceModel_).setParameter parameters }
      { t with
        reducedCovarianceModel_ :=
          (if s.analyticalAmplitude_ then s.reducedCovarianceModel_.setAmplitude [1]
            else s.reducedCovarianceModel_).setParameter parameters }
      hs rfl hsample hnoise hout hbasis hF hbeta
    refine ⟨h1, fun value hv => ?_⟩
    obtain ⟨hrho, hb, hL⟩ := h2 value hv
    exact ⟨hrho, hb, fun _ => hL, fun h => absurd hm h⟩
  · rw [if_neg hm, if_neg (fun h => hm (hmethod.symm.trans h))]
    obtain ⟨h1, h2⟩ := computeHMat_congr E fuel
      { s with
        reducedCovarianceModel_ :=
          (if s.analyticalAmplitude_ then s.reducedCovarianceModel_.setAmplitude [1]
            else s.reducedCovarianceModel_).setParameter parameters }
      { t with
        reducedCovarianceModel_ :=
          (if s.analyticalAmplitude_ then s.reducedCovarianceModel_.setAmplitude [1]
            else s.reducedCovarianceModel_).setParameter parameters }
      hs rfl hsample hout hbasis hF hbeta
    refine ⟨h1, fun value hv => ?_⟩
    obtain ⟨hrho, hb, hH⟩ := h2 value hv
    exact ⟨hrho, hb, fun h => absurd h hm, fun _ => hH⟩

theorem amplitudeCorrected_kept (E : Collaborators R)
    (a : GeneralizedLinearModelAlgorithm R) (logDeterminant : R) :
    (amplitudeCorrected E a logDeterminant).2.beta_ = a.beta_ ∧
      (amplitudeCorrected E a logDeterminant).2.covarianceCholeskyFactor_ =
        a.covarianceCholeskyFactor_ ∧
      (amplitudeCorrected E a logDeterminant).2.covarianceCholeskyFactorHMatrix_ =
        a.covarianceCholeskyFactorHMatrix_ := by
  unfold amplitudeCorrected analyticalAmplitudeStep
  split_ifs <;> exact ⟨rfl, rfl, rfl⟩

theorem amplitudeCorrected_congr (E : Collaborators R)
    (a b : GeneralizedLinearModelAlgorithm R) (logDeterminant : R)
    (hana : b.analyticalAmplitude_ = a.analyticalAmplitude_)
    (hinput : b.inputSample_ = a.inputSample_) (hrho : b.rho_ = a.rho_)
    (hbeta : b.beta_ = a.beta_)
    (hmodel : b.reducedCovarianceModel_ = a.reducedCovarianceModel_) :
    (amplitudeCorrected E b logDeterminant).1 = (amplitudeCorrected E a logDeterminant).1 ∧
      (amplitudeCorrected E b logDeterminant).2.rho_ =
        (amplitudeCorrected E a logDeterminant).2.rho_ ∧
      (amplitudeCorrected E b logDeterminant).2.reducedCovarianceModel_ =
        (amplitudeCorrected E a logDeterminant).2.reducedCovarianceModel_ := by
  unfold amplitudeCorrected analyticalAmplitudeStep
  rw [hana]
  by_cases ha : a.analyticalAmplitude_ = true
  · rw [if_pos ha, if_pos ha]
    dsimp only
    rw [hinput, hrho, hbeta, hmodel]
    exact ⟨rfl, rfl, rfl⟩
  · rw [if_neg ha, if_neg ha]
    exact ⟨rfl, hrho, hmodel⟩

/-- Claim C28, as amended. The objective is a function of the parameter vector only when the
starting scaling is positive. For a positive starting scaling and two states `s` and `t` of
one engine related by `SameFit` (the same data, normalized sample, design matrix, basis, noise,
backend and mode, and reduced models that agree on everything but the values of the active
parameters and, in analytical-amplitude mode, the amplitude; `rho_`, `beta_`, the factors and
the cached log-likelihood are arbitrary), the evaluations of `computeReducedLogLikelihood` at
the same parameter vector from `s` and from `t` have the same outcome (the same log-likelihood, the same error, or both out of fuel), and when
they return they leave the same `rho_`, the same `beta_`, the same reduced model (hence the
same amplitude), the same cached log-likelihood and the same factor of the backend in use.
The dense backend is taken on the evaluations that read nothing past the end of the noise
vector (there is no noise vector, or the matrix discretized has no more rows than the vector
has entries, which is the case of one output): what line 793 adds to the diagonal is then the
stored noise, in both evaluations. -/
theorem objective_depends_on_parameters_only (E : Collaborators R) (fuel : Nat)
    (s t : GeneralizedLinearModelAlgorithm R) (parameters : List R)
    (hStart : 0 < E.resourceMap.StartingScaling) (hSame : SameFit s t)
    (hNoise : s.method_ = 0 → s.noise_ = [] ∨
      (E.discretize (computeLogDeterminant E fuel s parameters).2.reducedCovarianceModel_
        s.normalizedInputSample_).dim ≤ s.noise_.length) :
    ((computeReducedLogLikelihood E fuel t parameters).1 =
        (computeReducedLogLikelihood E fuel s parameters).1 ∧
      ∀ value, (computeReducedLogLikelihood E fuel s parameters).1 = Outcome.returned value →
        (computeReducedLogLikelihood E fuel t parameters).2.rho_ =
            (computeReducedLogLikelihood E fuel s parameters).2.rho_ ∧
          (computeReducedLogLikelihood E fuel t parameters).2.beta_ =
            (computeReducedLogLikelihood E fuel s parameters).2.beta_ ∧
          (computeReducedLogLikelihood E fuel t parameters).2.reducedCovarianceModel_ =
            (computeReducedLogLikelihood E fuel s parameters).2.reducedCovarianceModel_ ∧
          (computeReducedLogLikelihood E fuel t
              parameters).2.reducedCovarianceModel_.getAmplitude =
            (computeReducedLogLikelihood E fuel s
              parameters).2.reducedCovarianceModel_.getAmplitude ∧
          (computeReducedLogLikelihood E fuel t parameters).2.lastReducedLogLikelihood_ =
            (computeReducedLogLikelihood E fuel s parameters).2.lastReducedLogLikelihood_ ∧
          (s.method_ = 0 →
            (computeReducedLogLikelihood E fuel t parameters).2.covarianceCholeskyFactor_ =
              (computeReducedLogLikelihood E fuel s parameters).2.covarianceCholeskyFactor_) ∧
          (s.method_ ≠ 0 →
            (computeReducedLogLikelihood E fuel t
                parameters).2.covarianceCholeskyFactorHMatrix_ =
              (computeReducedLogLikelihood E fuel s
                parameters).2.covarianceCholeskyFactorHMatrix_)) ∧
      (s.method_ = 0 →
        ∀ i : Nat,
          i < (E.discretize (computeLogDeterminant E fuel s parameters).2.reducedCovarianceModel_
            s.normalizedInputSample_).dim →
          noiseDiagonal E s.noise_ i = s.noise_.getD i 0 ∧
            noiseDiagonal E t.noise_ i = s.noise_.getD i 0) := by
  have hnoise : t.noise_ = s.noise_ := hSame.2.2.2.2.2.1
  refine ⟨?_, fun hm i hi => ?_⟩
  swap
  · rw [hnoise]
    rcases hNoise hm with hnil | hle
    · rw [hnil]
      exact ⟨noiseDiagonal_nil E i, noiseDiagonal_nil E i⟩
    · exact ⟨noiseDiagonal_of_lt E s.noise_ i (lt_of_lt_of_le hi hle),
        noiseDiagonal_of_lt E s.noise_ i (lt_of_lt_of_le hi hle)⟩
  have hactive : t.reducedCovarianceModel_.activeParameter_ =
      s.reducedCovarianceModel_.activeParameter_ := hSame.2.2.2.2.2.2.2.2.2.2.1
  have hlenS : s.reducedCovarianceModel_.getParameter.length =
      s.reducedCovarianceModel_.activeParameter_.length := by
    simp [CovarianceModel.getParameter]
  have hlenT : t.reducedCovarianceModel_.getParameter.length =
      s.reducedCovarianceModel_.activeParameter_.length := by
    simp [CovarianceModel.getParameter, hactive]
  by_cases hsize : parameters.length = s.reducedCovarianceModel_.getParameter.length
  · have hsizeT : parameters.length = t.reducedCovarianceModel_.getParameter.length := by
      rw [hlenT, ← hlenS]
      exact hsize
    obtain ⟨hout, hfields⟩ := computeLogDeterminant_congr E fuel s t parameters hStart hSame
      (hlenS ▸ hsize)
    rcases hS : (computeLogDeterminant E fuel s parameters).1 with v | e | _
    · have hT : (computeLogDeterminant E fuel t parameters).1 = Outcome.returned v :=
        hout.trans hS
      obtain ⟨hrho, hbeta, hL, hH⟩ := hfields v hS
      obtain ⟨hredS, hanaS⟩ := computeLogDeterminant_reduced E fuel s parameters
      obtain ⟨hredT, hanaT⟩ := computeLogDeterminant_reduced E fuel t parameters
      have hmodel : (computeLogDeterminant E fuel t parameters).2.reducedCovarianceModel_ =
          (computeLogDeterminant E fuel s parameters).2.reducedCovarianceModel_ := by
        rw [hredS, hredT]
        exact startModel_congr s t parameters hSame (hlenS ▸ hsize)
      have hana : (computeLogDeterminant E fuel t parameters).2.analyticalAmplitude_ =
          (computeLogDeterminant E fuel s parameters).2.analyticalAmplitude_ := by
        rw [hanaS, hanaT]
        exact hSame.2.2.2.2.2.2.2.1
      have hinput : (computeLogDeterminant E fuel t parameters).2.inputSample_ =
          (computeLogDeterminant E fuel s parameters).2.inputSample_ := by
        obtain ⟨m1, L1, H1, rho1, beta1, hf1⟩ := computeLogDeterminant_frame E fuel s parameters
        obtain ⟨m2, L2, H2, rho2, beta2, hf2⟩ := computeLogDeterminant_frame E fuel t parameters
        rw [hf1, hf2]
        exact hSame.1
      obtain ⟨hc1, hc2, hc3⟩ := amplitudeCorrected_congr E
        (computeLogDeterminant E fuel s parameters).2
        (computeLogDeterminant E fuel t parameters).2 v hana hinput hrho hbeta hmodel
      obtain ⟨hkS1, hkS2, hkS3⟩ := amplitudeCorrected_kept E
        (computeLogDeterminant E fuel s parameters).2 v
      obtain ⟨hkT1, hkT2, hkT3⟩ := amplitudeCorrected_kept E
        (computeLogDeterminant E fuel t parameters).2 v
      rw [computeReducedLogLikelihood_of_returned E fuel s parameters v hsize hS,
        computeReducedLogLikelihood_of_returned E fuel t parameters v hsizeT hT]
      dsimp only
      rw [hc1, hc2, hc3, hkS1, hkS2, hkS3, hkT1, hkT2, hkT3]
      exact ⟨rfl, fun value _ => ⟨rfl, hbeta, rfl, rfl, rfl, hL, hH⟩⟩
    · have hT : (computeLogDeterminant E fuel t parameters).1 = Outcome.thrown e :=
        hout.trans hS
      rw [computeReducedLogLikelihood_of_thrown E fuel s parameters e hsize hS,
        computeReducedLogLikelihood_of_thrown E fuel t parameters e hsizeT hT]
      exact ⟨rfl, fun value h => by cases h⟩
    · have hT : (computeLogDeterminant E fuel t parameters).1 = Outcome.unfinished :=
        hout.trans hS
      rw [computeReducedLogLikelihood_of_unfinished E fuel s parameters hsize hS,
        computeReducedLogLikelihood_of_unfinished E fuel t parameters hsizeT hT]
      exact ⟨rfl, fun value h => by cases h⟩
  · have hsizeT : parameters.length ≠ t.reducedCovarianceModel_.getParameter.length := by
      rw [hlenT, ← hlenS]
      exact hsize
    unfold computeReducedLogLikelihood
    rw [if_pos hsize, if_pos hsizeT]
    exact ⟨rfl, fun value h => by cases h⟩

/-- Witness of claim C28: the analytical-amplitude engine and the same engine with another
cached scale, amplitude, `rho_`, factor and log-likelihood, evaluated at the parameter `[2]`. -/
theorem objective_depends_on_parameters_only_witness :
    0 < exampleCollaborators.resourceMap.StartingScaling ∧
      SameFit toyAnalyticalAlgorithm exampleStale ∧
      ((computeReducedLogLikelihood exampleCollaborators 5 exampleStale [2]).1 =
          (computeReducedLogLikelihood exampleCollaborators 5 toyAnalyticalAlgorithm [2]).1 ∧
        ∀ value,
          (computeReducedLogLikelihood exampleCollaborators 5 toyAnalyticalAlgorithm [2]).1 =
              Outcome.returned value →
            (computeReducedLogLikelihood exampleCollaborators 5 exampleStale [2]).2.rho_ =
                (computeReducedLogLikelihood exampleCollaborators 5 toyAnalyticalAlgorithm
                  [2]).2.rho_ ∧
              (computeReducedLogLikelihood exampleCollaborators 5 exampleStale [2]).2.beta_ =
                (computeReducedLogLikelihood exampleCollaborators 5 toyAnalyticalAlgorithm
                  [2]).2.beta_ ∧
              (computeReducedLogLikelihood exampleCollaborators 5 exampleStale
                  [2]).2.reducedCovarianceModel_ =
                (computeReducedLogLikelihood exampleCollaborators 5 toyAnalyticalAlgorithm
                  [2]).2.reducedCovarianceModel_ ∧
              (computeReducedLogLikelihood exampleCollaborators 5 exampleStale
                  [2]).2.reducedCovarianceModel_.getAmplitude =
                (computeReducedLogLikelihood exampleCollaborators 5 toyAnalyticalAlgorithm
                  [2]).2.reducedCovarianceModel_.getAmplitude ∧
              (computeReducedLogLikelihood exampleCollaborators 5 exampleStale
                  [2]).2.lastReducedLogLikelihood_ =
                (computeReducedLogLikelihood exampleCollaborators 5 toyAnalyticalAlgorithm
                  [2]).2.lastReducedLogLikelihood_ ∧
              ((toyAnalyticalAlgorithm : GeneralizedLinearModelAlgorithm ℚ).method_ = 0 →
                (computeReducedLogLikelihood exampleCollaborators 5 exampleStale
                    [2]).2.covarianceCholeskyFactor_ =
                  (computeReducedLogLikelihood exampleCollaborators 5 toyAnalyticalAlgorithm
                    [2]).2.covarianceCholeskyFactor_) ∧
              ((toyAnalyticalAlgorithm : GeneralizedLinearModelAlgorithm ℚ).method_ ≠ 0 →
                (computeReducedLogLikelihood exampleCollaborators 5 exampleStale
                    [2]).2.covarianceCholeskyFactorHMatrix_ =
                  (computeReducedLogLikelihood exampleCollaborators 5 toyAnalyticalAlgorithm
                    [2]).2.covarianceCholeskyFactorHMatrix_)) ∧
      ((toyAnalyticalAlgorithm : GeneralizedLinearModelAlgorithm ℚ).method_ = 0 →
        ∀ i : Nat,
          i < (exampleCollaborators.discretize
            (computeLogDeterminant exampleCollaborators 5 toyAnalyticalAlgorithm
              [2]).2.reducedCovarianceModel_
            (toyAnalyticalAlgorithm : GeneralizedLinearModelAlgorithm ℚ).normalizedInputSample_).dim →
          noiseDiagonal exampleCollaborators
              (toyAnalyticalAlgorithm : GeneralizedLinearModelAlgorithm ℚ).noise_ i =
              (toyAnalyticalAlgorithm : GeneralizedLinearModelAlgorithm ℚ).noise_.getD i 0 ∧
            noiseDiagonal exampleCollaborators exampleStale.noise_ i =
              (toyAnalyticalAlgorithm : GeneralizedLinearModelAlgorithm ℚ).noise_.getD i 0) := by
  have hStart : 0 < exampleCollaborators.resourceMap.StartingScaling := by
    simp [exampleCollaborators, toyCollaborators, toyResourceMap]
  have hSame : SameFit (toyAnalyticalAlgorithm : GeneralizedLinearModelAlgorithm ℚ)
      exampleStale := by
    unfold SameFit
    refine ⟨rfl, rfl, rfl, rfl, rfl, rfl, rfl, rfl, rfl, rfl, rfl, rfl, ?_, ?_, ?_⟩
    · intro i hi
      cases i with
      | zero => simp [toyAnalyticalAlgorithm] at hi
      | succ i => simp [exampleStale, toyAnalyticalAlgorithm, toyModel]
    · intro h
      simp [toyAnalyticalAlgorithm] at h
    · intro _
      rfl
  obtain ⟨h1, h2⟩ :=
    objective_depends_on_parameters_only exampleCollaborators 5 toyAnalyticalAlgorithm
      exampleStale [2] hStart hSame (fun _ => Or.inl rfl)
  exact ⟨hStart, hSame, h1, h2⟩

theorem exampleOnce_evaluation :
    computeReducedLogLikelihood exampleNegativeLadder 5 exampleOnce [1, 1] =
      (Outcome.returned [-(1 / 2)],
        { exampleOnce with rho_ := [0, 1, 0], lastReducedLogLikelihood_ := -(1 / 2) }) := by
  simp [computeReducedLogLikelihood, computeLogDeterminant, amplitudeCorrected,
    reducedLogLikelihoodValue, normSquare, computeLapackLogDeterminantCholesky,
    lapackLadderLoop, lapackLadderStart, lapackLadderStep, lapackCovarianceMatrix,
    exampleNegativeLadder, exampleOnce,
    exampleCollaborators, toyCollaborators, exampleReady, getObjectiveFunction, computeF,
    normalizeInputSample, exampleAlgorithm, toyAlgorithm, toyModel, toyResourceMap,
    NumericalSample.getSize, NumericalSample.getData, CovarianceModel.getParameter,
    CovarianceModel.setParameter, CovarianceModel.getFullParameter, writeActive,
    lapackSolve, lapackLogDeterminant, logDetLoop, SquareMatrix.diagonal,
    SquareMatrix.diagonalEntry, divPoint]
  norm_num [logDetLoop]

theorem exampleTwice_evaluation :
    computeReducedLogLikelihood exampleNegativeLadder 5 exampleTwice [1, 1] =
      (Outcome.returned [-(25 / 8)],
        { exampleTwice with rho_ := [0, 1 / 2, 0], lastReducedLogLikelihood_ := -(25 / 8) }) := by
  simp [computeReducedLogLikelihood, computeLogDeterminant, amplitudeCorrected,
    reducedLogLikelihoodValue, normSquare, computeLapackLogDeterminantCholesky,
    lapackLadderLoop, lapackLadderStart, lapackLadderStep, lapackCovarianceMatrix,
    exampleNegativeLadder, exampleTwice,
    exampleCollaborators, toyCollaborators, exampleReady, getObjectiveFunction, computeF,
    normalizeInputSample, exampleAlgorithm, toyAlgorithm, toyModel, toyResourceMap,
    NumericalSample.getSize, NumericalSample.getData, CovarianceModel.getParameter,
    CovarianceModel.setParameter, CovarianceModel.getFullParameter, writeActive,
    lapackSolve, lapackLogDeterminant, logDetLoop, SquareMatrix.diagonal,
    SquareMatrix.diagonalEntry, divPoint]
  norm_num [logDetLoop]

/-- Claim C28, counterexample to the claim as stated. With a starting scaling of `-2` and a
maximal scaling of `-1` the loop of the backend is not entered and nothing is thrown, so that
an evaluation works with the factor that the engine held before. From two prior states of one
engine that differ in the cached factor only (`I` and `2 * I`), for the same data,
configuration and backend, the evaluations at the same parameter vector `[1, 1]` return
different log-likelihoods (`-1/2` and `-25/8`) and leave different `rho_` and different
factors. -/
theorem objective_depends_on_stale_factor :
    SameFit exampleOnce exampleTwice ∧
      (computeReducedLogLikelihood exampleNegativeLadder 5 exampleOnce [1, 1]).1 =
        Outcome.returned [-(1 / 2)] ∧
      (computeReducedLogLikelihood exampleNegativeLadder 5 exampleTwice [1, 1]).1 =
        Outcome.returned [-(25 / 8)] ∧
      (computeReducedLogLikelihood exampleNegativeLadder 5 exampleTwice [1, 1]).1 ≠
        (computeReducedLogLikelihood exampleNegativeLadder 5 exampleOnce [1, 1]).1 ∧
      (computeReducedLogLikelihood exampleNegativeLadder 5 exampleTwice [1, 1]).2.rho_ ≠
        (computeReducedLogLikelihood exampleNegativeLadder 5 exampleOnce [1, 1]).2.rho_ ∧
      (computeReducedLogLikelihood exampleNegativeLadder 5 exampleTwice
          [1, 1]).2.covarianceCholeskyFactor_ ≠
        (computeReducedLogLikelihood exampleNegativeLadder 5 exampleOnce
          [1, 1]).2.covarianceCholeskyFactor_ := by
  rw [exampleOnce_evaluation, exampleTwice_evaluation]
  refine ⟨?_, rfl, rfl, ?_, ?_, ?_⟩
  · unfold SameFit
    refine ⟨rfl, rfl, rfl, rfl, rfl, rfl, rfl, rfl, rfl, rfl, rfl, rfl, ?_, ?_, ?_⟩
    · intro i _
      rfl
    · intro _
      exact ⟨rfl, fun i _ => rfl⟩
    · intro _
      rfl
  · intro h
    simp only [Outcome.returned.injEq, List.cons.injEq] at h
    norm_num at h
  · intro h
    simp only [List.cons.injEq] at h
    norm_num at h
  · intro h
    have h0 := congrArg (fun M : SquareMatrix ℚ => M.diagonalEntry 0) h
    simp [SquareMatrix.diagonalEntry, exampleOnce, exampleTwice, Matrix.diagonal_apply] at h0

/-! ### The equation of the whitened residual -/

theorem getD_subPoint (p q : List R) (j : Nat) (hpq : p.length = q.length) :
    (subPoint p q).getD j 0 = p.getD j 0 - q.getD j 0 := by
  unfold subPoint
  by_cases h : j < p.length
  · have h2 : j < q.length := hpq ▸ h
    simp [List.getD_eq_getElem?_getD, List.getElem?_eq_getElem, h, h2, List.getElem?_zipWith]
  · have h2 : ¬ j < q.length := hpq ▸ h
    simp [List.getD_eq_getElem?_getD, List.getElem?_eq_none, not_lt.mp h, not_lt.mp h2,
      List.getElem?_zipWith]

theorem getD_divPoint (p : List R) (a : R) (j : Nat) :
    (divPoint p a).getD j 0 = p.getD j 0 / a := by
  unfold divPoint
  by_cases h : j < p.length
  · simp [List.getD_eq_getElem?_getD, List.getElem?_eq_getElem, h]
  · simp [List.getD_eq_getElem?_getD, List.getElem?_eq_none, not_lt.mp h]

theorem SquareMatrix.mulPoint_length (L : SquareMatrix R) (x : List R) :
    (L.mulPoint x).length = L.dim := by
  simp [SquareMatrix.mulPoint]

theorem DenseMatrix.mulPoint_rows (A : DenseMatrix R) (x : List R) :
    (A.mulPoint x).length = A.nbRows := by
  simp [DenseMatrix.mulPoint]

theorem SquareMatrix.mulPoint_subPoint (L : SquareMatrix R) (p q : List R)
    (hpq : p.length = q.length) :
    L.mulPoint (subPoint p q) = subPoint (L.mulPoint p) (L.mulPoint q) := by
  unfold SquareMatrix.mulPoint
  apply List.ext_getElem
  · simp [subPoint]
  · intro i h1 h2
    simp only [List.getElem_ofFn, subPoint, List.getElem_zipWith]
    rw [← Finset.sum_sub_distrib]
    apply Finset.sum_congr rfl
    intro j _
    have := getD_subPoint p q j.val hpq
    unfold subPoint at this
    rw [this]
    ring

theorem SquareMatrix.mulPoint_divPoint (L : SquareMatrix R) (p : List R) (a : R) :
    L.mulPoint (divPoint p a) = divPoint (L.mulPoint p) a := by
  unfold SquareMatrix.mulPoint
  apply List.ext_getElem
  · simp [divPoint]
  · intro i h1 h2
    simp only [List.getElem_ofFn, divPoint, List.getElem_map]
    rw [Finset.sum_div]
    apply Finset.sum_congr rfl
    intro j _
    have := getD_divPoint p a j.val
    unfold divPoint at this
    rw [this]
    ring

theorem SquareMatrix.scale_mulPoint (L : SquareMatrix R) (p : List R) (a : R) (ha : a ≠ 0) :
    (L.scale a).mulPoint (divPoint p a) = L.mulPoint p := by
  unfold SquareMatrix.mulPoint SquareMatrix.scale
  apply List.ext_getElem
  · simp
  · intro i h1 h2
    simp only [List.getElem_ofFn]
    apply Finset.sum_congr rfl
    intro j _
    rw [getD_divPoint]
    field_simp
    ring

theorem residual_equation (L : SquareMatrix R) (rho : List R) (Phi : DenseMatrix R)
    (y : List R) (F : DenseMatrix R) (beta : List R)
    (hlen : rho.length = L.dim) (hL : L.mulPoint rho = y) (hrows : Phi.nbRows = L.dim)
    (hPhi : ∀ b : List R, L.mulPoint (Phi.mulPoint b) = F.mulPoint b) :
    L.mulPoint (subPoint rho (Phi.mulPoint beta)) = subPoint y (F.mulPoint beta) := by
  rw [SquareMatrix.mulPoint_subPoint L rho (Phi.mulPoint beta)
    (by rw [hlen, DenseMatrix.mulPoint_rows, hrows]), hL, hPhi]

theorem computeLapack_returned_state (E : Collaborators R) (fuel : Nat)
    (a : GeneralizedLinearModelAlgorithm R) (value : R)
    (h : (computeLapackLogDeterminantCholesky E fuel a).1 = Outcome.returned value) :
    (computeLapackLogDeterminantCholesky E fuel a).2.rho_ =
      if a.basisCollection_.length > 0 then
        subPoint
          (E.solveLinearSystem
            (computeLapackLogDeterminantCholesky E fuel a).2.covarianceCholeskyFactor_
            a.outputSample_.getData)
          ((E.solveLinearSystemMatrix
            (computeLapackLogDeterminantCholesky E fuel a).2.covarianceCholeskyFactor_
            a.F_).mulPoint (computeLapackLogDeterminantCholesky E fuel a).2.beta_)
      else
        E.solveLinearSystem
          (computeLapackLogDeterminantCholesky E fuel a).2.covarianceCholeskyFactor_
          a.outputSample_.getData := by
  unfold computeLapackLogDeterminantCholesky at h ⊢
  cases hloop : lapackLadderLoop E E.resourceMap.MaximalScaling fuel
      (lapackLadderStart E a) with
  | none => simp [hloop] at h
  | some l =>
    simp only [hloop] at h ⊢
    by_cases hsc : l.scaling ≥ E.resourceMap.MaximalScaling
    · simp [hsc] at h
    · simp only [if_neg hsc]
      unfold lapackSolve
      dsimp only
      by_cases hb : a.basisCollection_.length > 0
      · simp only [if_pos hb]
      · simp only [if_neg hb]

theorem computeHMat_returned_state (E : Collaborators R) (fuel : Nat)
    (a : GeneralizedLinearModelAlgorithm R) (value : R)
    (h : (computeHMatLogDeterminantCholesky E fuel a).1 = Outcome.returned value) :
    (computeHMatLogDeterminantCholesky E fuel a).2.rho_ =
      if a.basisCollection_.length > 0 then
        subPoint
          (E.hmatSolveLower
            (computeHMatLogDeterminantCholesky E fuel a).2.covarianceCholeskyFactorHMatrix_
            a.outputSample_.getData)
          ((E.hmatSolveLowerMatrix
            (computeHMatLogDeterminantCholesky E fuel a).2.covarianceCholeskyFactorHMatrix_
            a.F_).mulPoint (computeHMatLogDeterminantCholesky E fuel a).2.beta_)
      else
        E.hmatSolveLower
          (computeHMatLogDeterminantCholesky E fuel a).2.covarianceCholeskyFactorHMatrix_
          a.outputSample_.getData := by
  unfold computeHMatLogDeterminantCholesky at h ⊢
  cases hloop : hmatLadderLoop E a E.resourceMap.MaximalScaling fuel
      (hmatLadderStart E a) with
  | none => simp [hloop] at h
  | some l =>
    simp only [hloop] at h ⊢
    by_cases hsc : l.scaling ≥ E.resourceMap.MaximalScaling
    · simp [hsc] at h
    · simp only [if_neg hsc]
      unfold hmatSolve
      dsimp only
      by_cases hb : a.basisCollection_.length > 0
      · simp only [if_pos hb]
      · simp only [if_neg hb]

theorem computeLogDeterminant_returned_state (E : Collaborators R) (fuel : Nat)
    (self : GeneralizedLinearModelAlgorithm R) (parameters : List R) (value : R)
    (h : (computeLogDeterminant E fuel self parameters).1 = Outcome.returned value) :
    (self.method_ = 0 →
      (computeLogDeterminant E fuel self parameters).2.rho_ =
        if self.basisCollection_.length > 0 then
          subPoint
            (E.solveLinearSystem
              (computeLogDeterminant E fuel self parameters).2.covarianceCholeskyFactor_
              self.outputSample_.getData)
            ((E.solveLinearSystemMatrix
              (computeLogDeterminant E fuel self parameters).2.covarianceCholeskyFactor_
              self.F_).mulPoint (computeLogDeterminant E fuel self parameters).2.beta_)
        else
          E.solveLinearSystem
            (computeLogDeterminant E fuel self parameters).2.covarianceCholeskyFactor_
            self.outputSample_.getData) ∧
      (self.method_ ≠ 0 →
        (computeLogDeterminant E fuel self parameters).2.rho_ =
          if self.basisCollection_.length > 0 then
            subPoint
              (E.hmatSolveLower
                (computeLogDeterminant E fuel self
                  parameters).2.covarianceCholeskyFactorHMatrix_
                self.outputSample_.getData)
              ((E.hmatSolveLowerMatrix
                (computeLogDeterminant E fuel self
                  parameters).2.covarianceCholeskyFactorHMatrix_
                self.F_).mulPoint (computeLogDeterminant E fuel self parameters).2.beta_)
          else
            E.hmatSolveLower
              (computeLogDeterminant E fuel self
                parameters).2.covarianceCholeskyFactorHMatrix_
              self.outputSample_.getData) := by
  unfold computeLogDeterminant at h ⊢
  dsimp only at h ⊢
  by_cases hm : self.method_ = 0
  · rw [if_pos hm] at h ⊢
    refine ⟨fun _ => ?_, fun hne => absurd hm hne⟩
    exact computeLapack_returned_state E fuel _ value h
  · rw [if_neg hm] at h ⊢
    refine ⟨fun h0 => absurd h0 hm, fun _ => ?_⟩
    exact computeHMat_returned_state E fuel _ value h

theorem computeReducedLogLikelihood_returned_state (E : Collaborators R) (fuel : Nat)
    (self : GeneralizedLinearModelAlgorithm R) (parameters value : List R)
    (h : (computeReducedLogLikelihood E fuel self parameters).1 = Outcome.returned value) :
    ∃ logDeterminant : R,
      (computeLogDeterminant E fuel self parameters).1 = Outcome.returned logDeterminant ∧
      (computeReducedLogLikelihood E fuel self parameters).2.covarianceCholeskyFactor_ =
        (computeLogDeterminant E fuel self parameters).2.covarianceCholeskyFactor_ ∧
      (computeReducedLogLikelihood E fuel self parameters).2.covarianceCholeskyFactorHMatrix_ =
        (computeLogDeterminant E fuel self parameters).2.covarianceCholeskyFactorHMatrix_ ∧
      (computeReducedLogLikelihood E fuel self parameters).2.beta_ =
        (computeLogDeterminant E fuel self parameters).2.beta_ ∧
      (self.analyticalAmplitude_ = false →
        (computeReducedLogLikelihood E fuel self parameters).2.rho_ =
          (computeLogDeterminant E fuel self parameters).2.rho_) ∧
      (self.analyticalAmplitude_ = true →
        ∃ sigma : R,
          (computeReducedLogLikelihood E fuel self
            parameters).2.reducedCovarianceModel_.getAmplitude = [sigma] ∧
          (computeReducedLogLikelihood E fuel self parameters).2.rho_ =
            divPoint (computeLogDeterminant E fuel self parameters).2.rho_ sigma) := by
  obtain ⟨hred, hana⟩ := computeLogDeterminant_reduced E fuel self parameters
  by_cases hsize : parameters.length = self.reducedCovarianceModel_.getParameter.length
  · rcases hout : (computeLogDeterminant E fuel self parameters).1 with v | e | _
    · refine ⟨v, rfl, ?_⟩
      rw [computeReducedLogLikelihood_of_returned E fuel self parameters v hsize hout]
      obtain ⟨hk1, hk2, hk3⟩ := amplitudeCorrected_kept E
        (computeLogDeterminant E fuel self parameters).2 v
      refine ⟨hk2, hk3, hk1, ?_, ?_⟩
      · intro ha
        simp [amplitudeCorrected, hana, ha]
      · intro ha
        refine ⟨E.sqrt (normSquare (computeLogDeterminant E fuel self parameters).2.rho_ /
          (if E.resourceMap.UnbiasedVariance then
            ((unsignedSub (computeLogDeterminant E fuel self parameters).2.inputSample_.getSize
              (computeLogDeterminant E fuel self parameters).2.beta_.length : Nat) : R)
           else ((computeLogDeterminant E fuel self parameters).2.inputSample_.getSize : R))),
          ?_, ?_⟩
        · simp [amplitudeCorrected, hana, ha, analyticalAmplitudeStep,
            CovarianceModel.getAmplitude, CovarianceModel.setAmplitude]
        · simp [amplitudeCorrected, hana, ha, analyticalAmplitudeStep]
    · rw [computeReducedLogLikelihood_of_thrown E fuel self parameters e hsize hout] at h
      cases h
    · rw [computeReducedLogLikelihood_of_unfinished E fuel self parameters hsize hout] at h
      cases h
  · simp [computeReducedLogLikelihood, hsize] at h

theorem computeReducedLogLikelihood_design (E : Collaborators R) (fuel : Nat)
    (self : GeneralizedLinearModelAlgorithm R) (parameters : List R) :
    (computeReducedLogLikelihood E fuel self parameters).2.F_ = self.F_ := by
  have hframe : (computeLogDeterminant E fuel self parameters).2.F_ = self.F_ := by
    obtain ⟨m, L, H, rho, beta, hf⟩ := computeLogDeterminant_frame E fuel self parameters
    rw [hf]
  have hcorr : ∀ v, (amplitudeCorrected E (computeLogDeterminant E fuel self parameters).2
      v).2.F_ = (computeLogDeterminant E fuel self parameters).2.F_ := by
    intro v
    unfold amplitudeCorrected analyticalAmplitudeStep
    split_ifs <;> rfl
  by_cases hsize : parameters.length = self.reducedCovarianceModel_.getParameter.length
  · rcases hout : (computeLogDeterminant E fuel self parameters).1 with v | e | _
    · rw [computeReducedLogLikelihood_of_returned E fuel self parameters v hsize hout]
      exact (hcorr v).trans hframe
    · rw [computeReducedLogLikelihood_of_thrown E fuel self parameters e hsize hout]
      exact hframe
    · rw [computeReducedLogLikelihood_of_unfinished E fuel self parameters hsize hout]
      exact hframe
  · simp [computeReducedLogLikelihood, hsize]

theorem residual_of_solves (L : SquareMatrix R) (solve : List R → List R)
    (solveMatrix : DenseMatrix R → DenseMatrix R) (t : GeneralizedLinearModelAlgorithm R)
    (rho : List R)
    (hrho : rho =
      if t.basisCollection_.length > 0 then
        subPoint (solve t.outputSample_.getData) ((solveMatrix t.F_).mulPoint t.beta_)
      else solve t.outputSample_.getData)
    (hPoint : ExactPointSolve L solve t.outputSample_.getData)
    (hMatrix : t.basisCollection_.length > 0 → ExactMatrixSolve L solveMatrix t.F_) :
    L.mulPoint rho = trendResidual t := by
  unfold trendResidual
  rw [hrho]
  by_cases hb : t.basisCollection_.length > 0
  · rw [if_pos hb, if_pos hb]
    exact residual_equation L _ _ _ _ _ hPoint.1 hPoint.2 (hMatrix hb).1 (hMatrix hb).2
  · rw [if_neg hb, if_neg hb]
    exact hPoint.2

/-- Claim C23, as amended. After every evaluation of `computeReducedLogLikelihood` that
returns, with `L` the cached factor of the backend in use (the dense factor, or the matrix the
hierarchical factor stands for), `y` the flat output data, `F` the design matrix and `beta` the
cached trend coefficients, and `y - F * beta` read as `y` when there is no trend basis: if the
triangular solves by `L` are exact on `y` (and on `F` when there is a basis), then
`L * rho = y - F * beta` for the cached `rho` when the amplitude is not computed analytically,
and in analytical-amplitude mode `L * rho = (y - F * beta) / sigma` for the amplitude `sigma`
stored by the evaluation, so that `(sigma * L) * rho = y - F * beta` when `sigma` is not
zero. -/
theorem whitened_residual_equation (E : Collaborators R) (fuel : Nat)
    (self : GeneralizedLinearModelAlgorithm R) (parameters value : List R)
    (hReturned : (computeReducedLogLikelihood E fuel self parameters).1 =
      Outcome.returned value) :
    (∀ t L, t = (computeReducedLogLikelihood E fuel self parameters).2 →
        t.method_ = 0 → L = t.covarianceCholeskyFactor_ →
        ExactPointSolve L (E.solveLinearSystem L) t.outputSample_.getData →
        (t.basisCollection_.length > 0 →
          ExactMatrixSolve L (E.solveLinearSystemMatrix L) t.F_) →
        (t.analyticalAmplitude_ = false → L.mulPoint t.rho_ = trendResidual t) ∧
          (t.analyticalAmplitude_ = true →
            ∃ sigma : R, t.reducedCovarianceModel_.getAmplitude = [sigma] ∧
              L.mulPoint t.rho_ = divPoint (trendResidual t) sigma ∧
              (sigma ≠ 0 → (L.scale sigma).mulPoint t.rho_ = trendResidual t))) ∧
      (∀ t H, t = (computeReducedLogLikelihood E fuel self parameters).2 →
        t.method_ ≠ 0 → H = t.covarianceCholeskyFactorHMatrix_ →
        ExactPointSolve H.dense (E.hmatSolveLower H) t.outputSample_.getData →
        (t.basisCollection_.length > 0 →
          ExactMatrixSolve H.dense (E.hmatSolveLowerMatrix H) t.F_) →
        (t.analyticalAmplitude_ = false → H.dense.mulPoint t.rho_ = trendResidual t) ∧
          (t.analyticalAmplitude_ = true →
            ∃ sigma : R, t.reducedCovarianceModel_.getAmplitude = [sigma] ∧
              H.dense.mulPoint t.rho_ = divPoint (trendResidual t) sigma ∧
              (sigma ≠ 0 → (H.dense.scale sigma).mulPoint t.rho_ = trendResidual t))) := by
  obtain ⟨logDeterminant, hout, hL, hH, hbeta, hplain, hanalytical⟩ :=
    computeReducedLogLikelihood_returned_state E fuel self parameters value hReturned
  obtain ⟨hdense, hhmat⟩ :=
    computeLogDeterminant_returned_state E fuel self parameters logDeterminant hout
  obtain ⟨-, hout2, -, -, -, hbasis, -, hmethod, -, -, hana, -⟩ :=
    computeReducedLogLikelihood_sameProblem E fuel self parameters
  have hF := computeReducedLogLikelihood_design E fuel self parameters
  constructor
  · intro t L ht hm hLt hPoint hMatrix
    subst ht
    subst hLt
    rw [hmethod] at hm
    have hrho := hdense hm
    rw [← hL, ← hbeta, ← hout2, ← hbasis, ← hF] at hrho
    have hres := residual_of_solves _ _ _ _ _ hrho hPoint hMatrix
    rw [hana]
    constructor
    · intro ha
      rw [hplain ha]
      exact hres
    · intro ha
      obtain ⟨sigma, hamp, hdiv⟩ := hanalytical ha
      refine ⟨sigma, hamp, ?_, ?_⟩
      · rw [hdiv, SquareMatrix.mulPoint_divPoint, hres]
      · intro hsigma
        rw [hdiv, SquareMatrix.scale_mulPoint _ _ _ hsigma]
        exact hres
  · intro t H ht hm hHt hPoint hMatrix
    subst ht
    subst hHt
    rw [hmethod] at hm
    have hrho := hhmat hm
    rw [← hH, ← hbeta, ← hout2, ← hbasis, ← hF] at hrho
    have hres := residual_of_solves _ _ _ _ _ hrho hPoint hMatrix
    rw [hana]
    constructor
    · intro ha
      rw [hplain ha]
      exact hres
    · intro ha
      obtain ⟨sigma, hamp, hdiv⟩ := hanalytical ha
      refine ⟨sigma, hamp, ?_, ?_⟩
      · rw [hdiv, SquareMatrix.mulPoint_divPoint, hres]
      · intro hsigma
        rw [hdiv, SquareMatrix.scale_mulPoint _ _ _ hsigma]
        exact hres

theorem rat_sqrt_four : Rat.sqrt 4 = 2 := by
  have h : (4 : ℚ) = 2 * 2 := by norm_num
  rw [h, Rat.sqrt_eq]
  norm_num [abs_of_pos]

theorem SquareMatrix.one_mulPoint (n : Nat) (x : List R) (hx : x.length = n) :
    (⟨n, 1⟩ : SquareMatrix R).mulPoint x = x := by
  unfold SquareMatrix.mulPoint
  apply List.ext_getElem
  · simp [hx]
  · intro i h1 h2
    simp [Matrix.one_apply, List.getD_eq_getElem?_getD, List.getElem?_eq_getElem h2]

theorem exampleScaled_evaluation :
    computeReducedLogLikelihood exampleCollaborators 5 exampleScaled [1] =
      (Outcome.returned [-6],
       { exampleScaled with
         reducedCovarianceModel_ :=
           { spatialDimension_ := 1, dimension_ := 1, scale_ := [1], amplitude_ := [2],
             activeParameter_ := [0] }
         rho_ := [1, 1, 1, 1]
         covarianceCholeskyFactor_ := ⟨4, 1⟩
         lastReducedLogLikelihood_ := -6 }) := by
  simp [computeReducedLogLikelihood, computeLogDeterminant, amplitudeCorrected,
    analyticalAmplitudeStep, divPoint,
    reducedLogLikelihoodValue, normSquare, computeLapackLogDeterminantCholesky,
    lapackLadderLoop, lapackLadderStart, lapackLadderStep, lapackCovarianceMatrix,
    exampleCollaborators, toyCollaborators, exampleScaled, toyAlgorithm, toyModel,
    toyResourceMap,
    NumericalSample.getSize, NumericalSample.getData, CovarianceModel.getParameter,
    CovarianceModel.setParameter, CovarianceModel.setAmplitude,
    CovarianceModel.getFullParameter, writeActive,
    toyCholesky_one, lapackSolve, lapackLogDeterminant, logDetLoop, SquareMatrix.diagonal]
  norm_num [rat_sqrt_four]

theorem exampleScaled_exact :
    ExactPointSolve (⟨4, 1⟩ : SquareMatrix ℚ)
      (exampleCollaborators.solveLinearSystem ⟨4, 1⟩) [2, 2, 2, 2] := by
  refine ⟨rfl, ?_⟩
  exact SquareMatrix.one_mulPoint 4 [2, 2, 2, 2] rfl

/-- Witness of claim C23: on the four-point engine in analytical-amplitude mode the evaluation
at `[1]` returns -6 and stores the amplitude 2; the solve by the identity factor is exact, and
the whitened residual satisfies `L * rho = y / 2` and `(2 * L) * rho = y`. -/
theorem whitened_residual_equation_witness :
    (computeReducedLogLikelihood exampleCollaborators 5 exampleScaled [1]).1 =
        Outcome.returned [-6] ∧
      ∃ sigma : ℚ,
        (computeReducedLogLikelihood exampleCollaborators 5 exampleScaled
          [1]).2.reducedCovarianceModel_.getAmplitude = [sigma] ∧
        (computeReducedLogLikelihood exampleCollaborators 5 exampleScaled
            [1]).2.covarianceCholeskyFactor_.mulPoint
            (computeReducedLogLikelihood exampleCollaborators 5 exampleScaled [1]).2.rho_ =
          divPoint
            (trendResidual (computeReducedLogLikelihood exampleCollaborators 5 exampleScaled
              [1]).2) sigma ∧
        (sigma ≠ 0 →
          ((computeReducedLogLikelihood exampleCollaborators 5 exampleScaled
              [1]).2.covarianceCholeskyFactor_.scale sigma).mulPoint
              (computeReducedLogLikelihood exampleCollaborators 5 exampleScaled [1]).2.rho_ =
            trendResidual (computeReducedLogLikelihood exampleCollaborators 5 exampleScaled
              [1]).2) := by
  have hReturned : (computeReducedLogLikelihood exampleCollaborators 5 exampleScaled [1]).1 =
      Outcome.returned [-6] := by
    rw [exampleScaled_evaluation]
  refine ⟨hReturned, ?_⟩
  refine ((whitened_residual_equation exampleCollaborators 5 exampleScaled [1] [-6]
    hReturned).1 _ _ rfl ?_ rfl ?_ ?_).2 ?_
  · rw [exampleScaled_evaluation]
    rfl
  · rw [exampleScaled_evaluation]
    exact exampleScaled_exact
  · intro h
    rw [exampleScaled_evaluation] at h
    simp [exampleScaled, toyAlgorithm] at h
  · rw [exampleScaled_evaluation]
    rfl

/-- Claim C23, counterexample to the claim as stated. On the four-point engine in
analytical-amplitude mode (dense backend, no trend basis, outputs all 2), the evaluation at
`[1]` returns, the solve by the cached factor (the identity) is exact on `y`, the amplitude
stored is 2, and the cached `rho` is `[1, 1, 1, 1]`: `L * rho = [1, 1, 1, 1]` is not
`y - F * beta = y = [2, 2, 2, 2]`. -/
theorem whitened_residual_is_divided_by_amplitude :
    (computeReducedLogLikelihood exampleCollaborators 5 exampleScaled [1]).1 =
        Outcome.returned [-6] ∧
      (computeReducedLogLikelihood exampleCollaborators 5 exampleScaled
        [1]).2.analyticalAmplitude_ = true ∧
      (computeReducedLogLikelihood exampleCollaborators 5 exampleScaled [1]).2.method_ = 0 ∧
      (computeReducedLogLikelihood exampleCollaborators 5 exampleScaled
        [1]).2.basisCollection_ = [] ∧
      (computeReducedLogLikelihood exampleCollaborators 5 exampleScaled
        [1]).2.reducedCovarianceModel_.getAmplitude = [2] ∧
      ExactPointSolve
        (computeReducedLogLikelihood exampleCollaborators 5 exampleScaled
          [1]).2.covarianceCholeskyFactor_
        (exampleCollaborators.solveLinearSystem
          (computeReducedLogLikelihood exampleCollaborators 5 exampleScaled
            [1]).2.covarianceCholeskyFactor_)
        (computeReducedLogLikelihood exampleCollaborators 5 exampleScaled
          [1]).2.outputSample_.getData ∧
      (computeReducedLogLikelihood exampleCollaborators 5 exampleScaled
          [1]).2.covarianceCholeskyFactor_.mulPoint
          (computeReducedLogLikelihood exampleCollaborators 5 exampleScaled [1]).2.rho_ =
        [1, 1, 1, 1] ∧
      trendResidual (computeReducedLogLikelihood exampleCollaborators 5 exampleScaled [1]).2 =
        [2, 2, 2, 2] ∧
      (computeReducedLogLikelihood exampleCollaborators 5 exampleScaled
          [1]).2.covarianceCholeskyFactor_.mulPoint
          (computeReducedLogLikelihood exampleCollaborators 5 exampleScaled [1]).2.rho_ ≠
        trendResidual (computeReducedLogLikelihood exampleCollaborators 5 exampleScaled
          [1]).2 := by
  rw [exampleScaled_evaluation]
  have hmul : (⟨4, 1⟩ : SquareMatrix ℚ).mulPoint [1, 1, 1, 1] = [1, 1, 1, 1] :=
    SquareMatrix.one_mulPoint 4 [1, 1, 1, 1] rfl
  have htrend : trendResidual
      { exampleScaled with
        reducedCovarianceModel_ :=
          { spatialDimension_ := 1, dimension_ := 1, scale_ := [1], amplitude_ := [2],
            activeParameter_ := [0] }
        rho_ := [1, 1, 1, 1]
        covarianceCholeskyFactor_ := ⟨4, 1⟩
        lastReducedLogLikelihood_ := -6 } = [2, 2, 2, 2] := by
    simp [trendResidual, exampleScaled, toyAlgorithm, NumericalSample.getData]
  refine ⟨rfl, rfl, rfl, rfl, rfl, exampleScaled_exact, hmul, htrend, ?_⟩
  dsimp only
  rw [hmul, htrend]
  decide

/-! ### The factor stored in the result -/

theorem map_mul_divPoint (p : List R) (a : R) (ha : a ≠ 0) :
    (divPoint p a).map (fun v => v * a) = p := by
  unfold divPoint
  rw [List.map_map]
  conv_rhs => rw [← List.map_id p]
  apply List.map_congr_left
  intro x _
  simp only [Function.comp_apply, id_eq]
  field_simp

theorem computeReducedLogLikelihood_sample (E : Collaborators R) (fuel : Nat)
    (self : GeneralizedLinearModelAlgorithm R) (parameters : List R) :
    (computeReducedLogLikelihood E fuel self parameters).2.normalizedInputSample_ =
      self.normalizedInputSample_ := by
  have hframe : (computeLogDeterminant E fuel self parameters).2.normalizedInputSample_ =
      self.normalizedInputSample_ := by
    obtain ⟨m, L, H, rho, beta, hf⟩ := computeLogDeterminant_frame E fuel self parameters
    rw [hf]
  have hcorr : ∀ v, (amplitudeCorrected E (computeLogDeterminant E fuel self parameters).2
      v).2.normalizedInputSample_ =
      (computeLogDeterminant E fuel self parameters).2.normalizedInputSample_ := by
    intro v
    unfold amplitudeCorrected analyticalAmplitudeStep
    split_ifs <;> rfl
  by_cases hsize : parameters.length = self.reducedCovarianceModel_.getParameter.length
  · rcases hout : (computeLogDeterminant E fuel self parameters).1 with v | e | _
    · rw [computeReducedLogLikelihood_of_returned E fuel self parameters v hsize hout]
      exact (hcorr v).trans hframe
    · rw [computeReducedLogLikelihood_of_thrown E fuel self parameters e hsize hout]
      exact hframe
    · rw [computeReducedLogLikelihood_of_unfinished E fuel self parameters hsize hout]
      exact hframe
  · simp [computeReducedLogLikelihood, hsize]

theorem getD_set_eq {α : Type} (l : List α) (i j : Nat) (v d : α) :
    (l.set i v).getD j d = if i = j ∧ i < l.length then v else l.getD j d := by
  simp only [List.getD_eq_getElem?_getD, List.getElem?_set]
  by_cases hij : i = j
  · subst hij
    by_cases hi : i < l.length
    · simp [hi]
    · simp [hi, List.getElem?_eq_none (not_lt.mp hi)]
  · simp [hij]

theorem blockOffset_zero (basisSizes : List Nat) : blockOffset basisSizes 0 = 0 := by
  simp [blockOffset]

theorem blockOffset_succ (basisSizes : List Nat) (i : Nat) :
    blockOffset basisSizes (i + 1) = blockOffset basisSizes i + basisSizes.getD i 0 := by
  unfold blockOffset
  induction basisSizes generalizing i with
  | nil => simp
  | cons n rest ih =>
    cases i with
    | zero => simp
    | succ i =>
      simp only [List.take_succ_cons, List.sum_cons, List.getD_cons_succ]
      rw [ih i]
      ring

theorem blockOffset_mono (basisSizes : List Nat) {i j : Nat} (hij : i ≤ j) :
    blockOffset basisSizes i ≤ blockOffset basisSizes j := by
  induction hij with
  | refl => exact le_refl _
  | step _ ih =>
    rw [blockOffset_succ]
    exact le_trans ih (Nat.le_add_right _ _)

theorem blockOffset_length (basisSizes : List Nat) {i : Nat} (hi : basisSizes.length ≤ i) :
    blockOffset basisSizes i = basisSizes.sum := by
  unfold blockOffset
  rw [List.take_of_length_le hi]

theorem partitionInner (beta : List R) (o : Nat) :
    ∀ (m c0 : Nat) (b0 : List R) (S0 : List (List R)),
      ((List.range m).foldl
          (fun (acc : Nat × List R × List (List R)) basisElement =>
            (acc.1 + 1,
             acc.2.1.set basisElement (beta.getD acc.1 0),
             acc.2.2.set acc.1 ((acc.2.2.getD acc.1 []).set o (beta.getD acc.1 0))))
          (c0, b0, S0)).1 = c0 + m ∧
        (∀ e, ((List.range m).foldl
          (fun (acc : Nat × List R × List (List R)) basisElement =>
            (acc.1 + 1,
             acc.2.1.set basisElement (beta.getD acc.1 0),
             acc.2.2.set acc.1 ((acc.2.2.getD acc.1 []).set o (beta.getD acc.1 0))))
          (c0, b0, S0)).2.1.getD e 0 =
            if e < m ∧ e < b0.length then beta.getD (c0 + e) 0 else b0.getD e 0) ∧
        ((List.range m).foldl
          (fun (acc : Nat × List R × List (List R)) basisElement =>
            (acc.1 + 1,
             acc.2.1.set basisElement (beta.getD acc.1 0),
             acc.2.2.set acc.1 ((acc.2.2.getD acc.1 []).set o (beta.getD acc.1 0))))
          (c0, b0, S0)).2.1.length = b0.length ∧
        ((List.range m).foldl
          (fun (acc : Nat × List R × List (List R)) basisElement =>
            (acc.1 + 1,
             acc.2.1.set basisElement (beta.getD acc.1 0),
             acc.2.2.set acc.1 ((acc.2.2.getD acc.1 []).set o (beta.getD acc.1 0))))
          (c0, b0, S0)).2.2.length = S0.length ∧
        (∀ k, ((List.range m).foldl
          (fun (acc : Nat × List R × List (List R)) basisElement =>
            (acc.1 + 1,
             acc.2.1.set basisElement (beta.getD acc.1 0),
             acc.2.2.set acc.1 ((acc.2.2.getD acc.1 []).set o (beta.getD acc.1 0))))
          (c0, b0, S0)).2.2.getD k [] =
            if c0 ≤ k ∧ k < c0 + m ∧ k < S0.length then (S0.getD k []).set o (beta.getD k 0)
            else S0.getD k []) := by
  intro m
  induction m with
  | zero =>
    intro c0 b0 S0
    refine ⟨rfl, fun e => by simp, rfl, rfl, fun k => ?_⟩
    have h : ¬ (c0 ≤ k ∧ k < c0 + 0 ∧ k < S0.length) := by omega
    simp only [List.range_zero, List.foldl_nil, if_neg h]
  | succ m ih =>
    intro c0 b0 S0
    obtain ⟨h1, h2, h3, h4, h5⟩ := ih c0 b0 S0
    rw [List.range_succ, List.foldl_append]
    simp only [List.foldl_cons, List.foldl_nil]
    rw [h1]
    refine ⟨by ring, ?_, ?_, ?_, ?_⟩
    · intro e
      rw [getD_set_eq, h2, h3]
      by_cases hme : m = e
      · subst hme
        by_cases hlen : m < b0.length
        · simp [hlen]
        · simp [hlen]
      · have h6 : (e < m + 1 ∧ e < b0.length) ↔ (e < m ∧ e < b0.length) := by
          constructor
          · intro h
            exact ⟨by omega, h.2⟩
          · intro h
            exact ⟨by omega, h.2⟩
        simp only [hme, false_and, if_false, h6]
    · rw [List.length_set, h3]
    · rw [List.length_set, h4]
    · intro k
      rw [getD_set_eq, h5, h4, h5]
      by_cases hk : c0 + m = k
      · subst hk
        by_cases hlen : c0 + m < S0.length
        · simp [hlen]
        · simp [hlen]
      · have h6 : (c0 ≤ k ∧ k < c0 + (m + 1) ∧ k < S0.length) ↔
            (c0 ≤ k ∧ k < c0 + m ∧ k < S0.length) := by
          constructor
          · intro h
            exact ⟨h.1, by omega, h.2.2⟩
          · intro h
            exact ⟨h.1, by omega, h.2.2⟩
        simp only [hk, false_and, if_false, h6]

theorem partitionTrend_eq (beta : List R) (basisSizes : List Nat) (dimension : Nat) :
    partitionTrend beta basisSizes dimension =
      (List.range basisSizes.length).foldl (partitionTrendStep beta basisSizes)
        (0, List.replicate basisSizes.length [],
          List.replicate beta.length (List.replicate dimension 0)) := rfl

theorem partitionTrendStep_spec (beta : List R) (basisSizes : List Nat)
    (st : Nat × List (List R) × List (List R)) (o : Nat) :
    (partitionTrendStep beta basisSizes st o).1 = st.1 + basisSizes.getD o 0 ∧
      (partitionTrendStep beta basisSizes st o).2.1 =
        st.2.1.set o
          ((List.range (basisSizes.getD o 0)).map (fun e => beta.getD (st.1 + e) 0)) ∧
      (partitionTrendStep beta basisSizes st o).2.2.length = st.2.2.length ∧
      (∀ k, (partitionTrendStep beta basisSizes st o).2.2.getD k [] =
        if st.1 ≤ k ∧ k < st.1 + basisSizes.getD o 0 ∧ k < st.2.2.length then
          (st.2.2.getD k []).set o (beta.getD k 0)
        else st.2.2.getD k []) := by
  obtain ⟨h1, h2, h3, h4, h5⟩ := partitionInner beta o (basisSizes.getD o 0) st.1
    (List.replicate (basisSizes.getD o 0) 0) st.2.2
  unfold partitionTrendStep
  dsimp only
  refine ⟨h1, ?_, h4, h5⟩
  congr 1
  apply List.ext_getElem
  · rw [h3]
    simp
  · intro e he1 he2
    have he : e < basisSizes.getD o 0 := by
      rw [h3] at he1
      simpa using he1
    have := h2 e
    rw [List.getD_eq_getElem _ _ he1] at this
    rw [this, if_pos ⟨he, by simpa using he⟩]
    simp

theorem partitionOuter (beta : List R) (basisSizes : List Nat) (dimension : Nat) :
    ∀ m : Nat,
      ((List.range m).foldl (partitionTrendStep beta basisSizes)
          (0, List.replicate basisSizes.length [],
            List.replicate beta.length (List.replicate dimension 0))).1 =
        blockOffset basisSizes m ∧
      ((List.range m).foldl (partitionTrendStep beta basisSizes)
          (0, List.replicate basisSizes.length [],
            List.replicate beta.length (List.replicate dimension 0))).2.1.length =
        basisSizes.length ∧
      (∀ i, ((List.range m).foldl (partitionTrendStep beta basisSizes)
          (0, List.replicate basisSizes.length [],
            List.replicate beta.length (List.replicate dimension 0))).2.1.getD i [] =
        if i < m ∧ i < basisSizes.length then
          (List.range (basisSizes.getD i 0)).map
            (fun e => beta.getD (blockOffset basisSizes i + e) 0)
        else []) ∧
      ((List.range m).foldl (partitionTrendStep beta basisSizes)
          (0, List.replicate basisSizes.length [],
            List.replicate beta.length (List.replicate dimension 0))).2.2.length =
        beta.length ∧
      (∀ k, k < beta.length →
        (((List.range m).foldl (partitionTrendStep beta basisSizes)
          (0, List.replicate basisSizes.length [],
            List.replicate beta.length (List.replicate dimension 0))).2.2.getD k []).length =
          dimension) ∧
      (∀ k col, k < beta.length →
        (((List.range m).foldl (partitionTrendStep beta basisSizes)
          (0, List.replicate basisSizes.length [],
            List.replicate beta.length (List.replicate dimension 0))).2.2.getD k []).getD col 0 =
          if col < m ∧ col < dimension ∧ blockOffset basisSizes col ≤ k ∧
              k < blockOffset basisSizes (col + 1) then beta.getD k 0
          else 0) := by
  intro m
  induction m with
  | zero =>
    refine ⟨by simp [blockOffset], by simp, fun i => by simp, by simp, fun k hk => ?_,
      fun k col hk => ?_⟩
    · simp [List.getD_eq_getElem?_getD, List.getElem?_replicate, hk]
    · by_cases hc : col < dimension <;>
        simp [List.getD_eq_getElem?_getD, List.getElem?_replicate, hk, hc]
  | succ m ih =>
    obtain ⟨h1, h2, h3, h4, h5, h6⟩ := ih
    rw [List.range_succ, List.foldl_append]
    simp only [List.foldl_cons, List.foldl_nil]
    obtain ⟨s1, s2, s3, s4⟩ := partitionTrendStep_spec beta basisSizes
      ((List.range m).foldl (partitionTrendStep beta basisSizes)
        (0, List.replicate basisSizes.length [],
          List.replicate beta.length (List.replicate dimension 0))) m
    refine ⟨?_, ?_, ?_, ?_, ?_, ?_⟩
    · rw [s1, h1, blockOffset_succ]
    · rw [s2, List.length_set, h2]
    · intro i
      rw [s2, getD_set_eq, h3, h2, h1]
      by_cases hmi : m = i
      · subst hmi
        by_cases hlen : m < basisSizes.length
        · simp [hlen]
        · simp [hlen]
      · have h7 : (i < m + 1 ∧ i < basisSizes.length) ↔ (i < m ∧ i < basisSizes.length) := by
          constructor
          · intro h
            exact ⟨by omega, h.2⟩
          · intro h
            exact ⟨by omega, h.2⟩
        simp only [hmi, false_and, if_false, h7]
    · rw [s3, h4]
    · intro k hk
      rw [s4]
      split_ifs
      · rw [List.length_set]
        exact h5 k hk
      · exact h5 k hk
    · intro k col hk
      rw [s4, h1, h4]
      have hrow := h5 k hk
      have hold := h6 k col hk
      have hsucc := blockOffset_succ basisSizes m
      by_cases hblock : blockOffset basisSizes m ≤ k ∧
          k < blockOffset basisSizes m + basisSizes.getD m 0 ∧ k < beta.length
      · rw [if_pos hblock, getD_set_eq, hrow, hold]
        by_cases hmc : m = col
        · subst hmc
          by_cases hdim : m < dimension
          · have hc : m < m + 1 ∧ m < dimension ∧ blockOffset basisSizes m ≤ k ∧
                k < blockOffset basisSizes (m + 1) := ⟨by omega, hdim, hblock.1, by omega⟩
            simp [hdim, hc]
          · have hc : ¬ (m < m + 1 ∧ m < dimension ∧ blockOffset basisSizes m ≤ k ∧
                k < blockOffset basisSizes (m + 1)) := fun h => hdim h.2.1
            have hc2 : ¬ (m < m ∧ m < dimension ∧ blockOffset basisSizes m ≤ k ∧
                k < blockOffset basisSizes (m + 1)) := fun h => hdim h.2.1
            simp [hdim, hc, hc2]
        · have h7 : (col < m + 1 ∧ col < dimension ∧ blockOffset basisSizes col ≤ k ∧
              k < blockOffset basisSizes (col + 1)) ↔
              (col < m ∧ col < dimension ∧ blockOffset basisSizes col ≤ k ∧
              k < blockOffset basisSizes (col + 1)) := by
            constructor
            · intro h
              exact ⟨by omega, h.2⟩
            · intro h
              exact ⟨by omega, h.2⟩
          simp only [hmc, false_and, if_false, h7]
      · rw [if_neg hblock, hold]
        by_cases hmc : m = col
        · subst hmc
          have hc : ¬ (m < m + 1 ∧ m < dimension ∧ blockOffset basisSizes m ≤ k ∧
              k < blockOffset basisSizes (m + 1)) := by
            intro h
            apply hblock
            exact ⟨h.2.2.1, by omega, hk⟩
          have hc2 : ¬ (m < m ∧ m < dimension ∧ blockOffset basisSizes m ≤ k ∧
              k < blockOffset basisSizes (m + 1)) := fun h => absurd h.1 (lt_irrefl m)
          rw [if_neg hc, if_neg hc2]
        · have h7 : (col < m + 1 ∧ col < dimension ∧ blockOffset basisSizes col ≤ k ∧
              k < blockOffset basisSizes (col + 1)) ↔
              (col < m ∧ col < dimension ∧ blockOffset basisSizes col ≤ k ∧
              k < blockOffset basisSizes (col + 1)) := by
            constructor
            · intro h
              exact ⟨by omega, h.2⟩
            · intro h
              exact ⟨by omega, h.2⟩
          simp only [h7]

theorem block_eq_drop_take (beta : List R) (c n : Nat) (h : c + n ≤ beta.length) :
    (List.range n).map (fun e => beta.getD (c + e) 0) = (beta.drop c).take n := by
  apply List.ext_getElem
  · simp only [List.length_map, List.length_range, List.length_take, List.length_drop]
    omega
  · intro e h1 h2
    have he : e < n := by simpa using h1
    have hce : c + e < beta.length := by omega
    simp [List.getD_eq_getElem?_getD, List.getElem?_eq_getElem hce]

theorem blockOffset_cons (n : Nat) (rest : List Nat) (i : Nat) :
    blockOffset (n :: rest) (i + 1) = n + blockOffset rest i := by
  simp [blockOffset]

omit [LinearOrderedField R] in
theorem flatten_blocks (basisSizes : List Nat) :
    ∀ beta : List R,
      ((List.range basisSizes.length).map
        (fun i => (beta.drop (blockOffset basisSizes i)).take (basisSizes.getD i 0))).flatten =
        beta.take basisSizes.sum := by
  induction basisSizes with
  | nil => intro beta; simp
  | cons n rest ih =>
    intro beta
    rw [List.length_cons, List.range_succ_eq_map, List.map_cons, List.flatten_cons,
      List.map_map]
    have htail : (fun i => (beta.drop (blockOffset (n :: rest) i)).take
          ((n :: rest).getD i 0)) ∘ Nat.succ =
        fun i => ((beta.drop n).drop (blockOffset rest i)).take (rest.getD i 0) := by
      funext i
      simp only [Function.comp_apply, Nat.succ_eq_add_one, blockOffset_cons,
        List.getD_cons_succ, List.drop_drop]
    rw [htail, ih (beta.drop n)]
    simp only [blockOffset_zero, List.drop_zero, List.getD_cons_zero, List.sum_cons]
    rw [List.take_add]

theorem exists_block (basisSizes : List Nat) (k : Nat) :
    ∀ d : Nat, k < blockOffset basisSizes d →
      ∃ i, i < d ∧ blockOffset basisSizes i ≤ k ∧ k < blockOffset basisSizes (i + 1) := by
  intro d
  induction d with
  | zero =>
    intro h
    rw [blockOffset_zero] at h
    omega
  | succ d ih =>
    intro h
    by_cases hk : k < blockOffset basisSizes d
    · obtain ⟨i, hi, h1, h2⟩ := ih hk
      exact ⟨i, by omega, h1, h2⟩
    · exact ⟨d, by omega, not_lt.mp hk, h⟩

/-- Claim C26. Trend partition in `run()`: for an engine whose `beta_` has the size
`n_0 + ... + n_{d-1}` of the `d` bases of its collection, with `d` at most the dimension of the
reduced model, the trend coefficients of the result are `d` sub-vectors, the `i`-th of which has
length `n_i` and holds `beta[n_0 + ... + n_{i-1} + j]` at `j < n_i`, an index that is in range;
their concatenation is `beta`; the running index ends at the size of `beta`; and the
coefficient sample given to the metamodel has one row per coefficient and one column per
output, with entry `[k][i]` equal to `beta[k]` when `k` lies in block `i` and 0 elsewhere, every
row `k` lying in the block of one marginal `i`, where its coefficient is stored. -/
theorem trend_partition (E : Collaborators R) (self : GeneralizedLinearModelAlgorithm R)
    (optimalLogLikelihood : R)
    (hSize : self.beta_.length = (self.basisCollection_.map List.length).sum)
    (hMarginals : self.basisCollection_.length ≤ self.reducedCovarianceModel_.getDimension) :
    ∃ (result : GeneralizedLinearModelResult R) (sample : List (List R)),
      (storeEstimates E self optimalLogLikelihood).result_ = some result ∧
      (partitionTrend self.beta_ (self.basisCollection_.map List.length)
        self.reducedCovarianceModel_.getDimension) =
        (self.beta_.length, result.trendCoefficients, sample) ∧
      result.metaModel = buildMetaModel E self sample ∧
      result.trendCoefficients.length = self.basisCollection_.length ∧
      (∀ i, i < self.basisCollection_.length →
        result.trendCoefficients.getD i [] =
            (self.beta_.drop (blockOffset (self.basisCollection_.map List.length) i)).take
              (self.basisCollection_.getD i []).length ∧
          (result.trendCoefficients.getD i []).length =
            (self.basisCollection_.getD i []).length ∧
          ∀ j, j < (self.basisCollection_.getD i []).length →
            blockOffset (self.basisCollection_.map List.length) i + j < self.beta_.length ∧
            (result.trendCoefficients.getD i []).getD j 0 =
              self.beta_.getD (blockOffset (self.basisCollection_.map List.length) i + j) 0) ∧
      result.trendCoefficients.flatten = self.beta_ ∧
      sample.length = self.beta_.length ∧
      (∀ k, k < self.beta_.length →
        (sample.getD k []).length = self.reducedCovarianceModel_.getDimension ∧
        (∀ i, i < self.reducedCovarianceModel_.getDimension →
          (sample.getD k []).getD i 0 =
            if i < self.basisCollection_.length ∧
                blockOffset (self.basisCollection_.map List.length) i ≤ k ∧
                k < blockOffset (self.basisCollection_.map List.length) (i + 1) then
              self.beta_.getD k 0
            else 0) ∧
        ∃ i, i < self.basisCollection_.length ∧
          i < self.reducedCovarianceModel_.getDimension ∧
          blockOffset (self.basisCollection_.map List.length) i ≤ k ∧
          k < blockOffset (self.basisCollection_.map List.length) (i + 1) ∧
          (sample.getD k []).getD i 0 = self.beta_.getD k 0) := by
  obtain ⟨result, hres, hmeta, htrend, -⟩ := storeEstimates_result E self optimalLogLikelihood
  obtain ⟨h1, h2, h3, h4, h5, h6⟩ := partitionOuter self.beta_
    (self.basisCollection_.map List.length) self.reducedCovarianceModel_.getDimension
    (self.basisCollection_.map List.length).length
  rw [← partitionTrend_eq] at h1 h2 h3 h4 h5 h6
  rw [← htrend] at h2 h3
  have hd : (self.basisCollection_.map List.length).length = self.basisCollection_.length := by
    simp
  have hn : ∀ i, (self.basisCollection_.map List.length).getD i 0 =
      (self.basisCollection_.getD i []).length := by
    intro i
    by_cases hi : i < self.basisCollection_.length
    · simp [List.getD_eq_getElem?_getD, List.getElem?_eq_getElem hi]
    · simp [List.getD_eq_getElem?_getD, List.getElem?_eq_none (not_lt.mp hi)]
  have hall : blockOffset (self.basisCollection_.map List.length)
      (self.basisCollection_.map List.length).length = self.beta_.length := by
    rw [blockOffset_length _ (le_refl _), hSize]
  have hin : ∀ i, i < self.basisCollection_.length →
      blockOffset (self.basisCollection_.map List.length) i +
        (self.basisCollection_.getD i []).length ≤ self.beta_.length := by
    intro i hi
    rw [← hn, ← blockOffset_succ, ← hall]
    exact blockOffset_mono _ (by rw [hd]; omega)
  have hblock : ∀ i, i < self.basisCollection_.length →
      result.trendCoefficients.getD i [] =
        (self.beta_.drop (blockOffset (self.basisCollection_.map List.length) i)).take
          (self.basisCollection_.getD i []).length := by
    intro i hi
    rw [h3 i, if_pos ⟨by rw [hd]; exact hi, by rw [hd]; exact hi⟩, hn]
    exact block_eq_drop_take _ _ _ (hin i hi)
  have hlen : result.trendCoefficients.length = self.basisCollection_.length := by
    rw [h2, hd]
  have hlist : result.trendCoefficients =
      (List.range (self.basisCollection_.map List.length).length).map
        (fun i => (self.beta_.drop (blockOffset (self.basisCollection_.map List.length) i)).take
          ((self.basisCollection_.map List.length).getD i 0)) := by
    apply List.ext_getElem
    · simp [hlen]
    · intro i hi1 hi2
      have hi : i < self.basisCollection_.length := by rw [← hlen]; exact hi1
      have := hblock i hi
      rw [List.getD_eq_getElem _ _ hi1] at this
      rw [this, List.getElem_map, List.getElem_range, hn]
  refine ⟨result, (partitionTrend self.beta_ (self.basisCollection_.map List.length)
    self.reducedCovarianceModel_.getDimension).2.2, hres, ?_, hmeta, hlen, ?_, ?_, h4, ?_⟩
  · rw [htrend, ← h1.trans hall]
  · intro i hi
    refine ⟨hblock i hi, ?_, ?_⟩
    · rw [hblock i hi, List.length_take, List.length_drop]
      have := hin i hi
      omega
    · intro j hj
      have hle := hin i hi
      refine ⟨by omega, ?_⟩
      rw [h3 i, if_pos ⟨by rw [hd]; exact hi, by rw [hd]; exact hi⟩]
      have hj2 : j < (self.basisCollection_.map List.length).getD i 0 := by
        rw [hn]
        exact hj
      rw [List.getD_eq_getElem _ _ (by simpa using hj2), List.getElem_map, List.getElem_range]
  · rw [hlist, flatten_blocks, ← hSize, List.take_length]
  · intro k hk
    refine ⟨h5 k hk, ?_, ?_⟩
    · intro i hi
      rw [h6 k i hk, hd]
      by_cases hid : i < self.basisCollection_.length
      · simp only [hid, hi, true_and]
      · simp only [hid, false_and, if_false]
    · obtain ⟨i, hi, hlo, hhi⟩ := exists_block (self.basisCollection_.map List.length) k
        (self.basisCollection_.map List.length).length (by rw [hall]; exact hk)
      rw [hd] at hi
      have hidim : i < self.reducedCovarianceModel_.getDimension := lt_of_lt_of_le hi hMarginals
      refine ⟨i, hi, hidim, hlo, hhi, ?_⟩
      rw [h6 k i hk, if_pos ⟨by rw [hd]; exact hi, hidim, hlo, hhi⟩]

theorem exampleTwoTrends_partition :
    partitionTrend ([5, 6, 7] : List ℚ) [2, 1] 2 =
      (3, [[5, 6], [7]], [[5, 0], [6, 0], [0, 7]]) := by
  simp [partitionTrend, List.range, List.range.loop]

/-- Witness of claim C26: on the engine with bases of sizes 2 and 1 and `beta = [5, 6, 7]` the
trend coefficients of the result are two sub-vectors whose concatenation is `beta`, and the
running index ends at 3. -/
theorem trend_partition_witness :
    exampleTwoTrends.beta_.length = (exampleTwoTrends.basisCollection_.map List.length).sum ∧
      exampleTwoTrends.basisCollection_.length ≤
        exampleTwoTrends.reducedCovarianceModel_.getDimension ∧
      ∃ (result : GeneralizedLinearModelResult ℚ) (sample : List (List ℚ)),
        (storeEstimates exampleCollaborators exampleTwoTrends 0).result_ = some result ∧
        (partitionTrend exampleTwoTrends.beta_
            (exampleTwoTrends.basisCollection_.map List.length)
            exampleTwoTrends.reducedCovarianceModel_.getDimension) =
          (exampleTwoTrends.beta_.length, result.trendCoefficients, sample) ∧
        result.trendCoefficients.length = exampleTwoTrends.basisCollection_.length ∧
        result.trendCoefficients.flatten = exampleTwoTrends.beta_ := by
  have hSize : exampleTwoTrends.beta_.length =
      (exampleTwoTrends.basisCollection_.map List.length).sum := rfl
  have hMarginals : exampleTwoTrends.basisCollection_.length ≤
      exampleTwoTrends.reducedCovarianceModel_.getDimension := by
    simp [exampleTwoTrends, CovarianceModel.getDimension]
  obtain ⟨result, sample, h1, h2, -, h3, -, h4, -⟩ :=
    trend_partition exampleCollaborators exampleTwoTrends 0 hSize hMarginals
  exact ⟨hSize, hMarginals, result, sample, h1, h2, h3, h4⟩

/-! ### The design matrix -/

theorem DenseMatrix.entry_set (A : DenseMatrix R) (i j a b : Nat) (v : R) :
    (A.set i j v).entry a b =
      if a = i ∧ b = j ∧ a < A.nbRows ∧ b < A.nbColumns then v else A.entry a b := by
  unfold DenseMatrix.entry DenseMatrix.set
  by_cases h : a < A.nbRows ∧ b < A.nbColumns
  · simp only [h, and_self, dite_true, and_true]
  · have h2 : ¬ (a = i ∧ b = j ∧ a < A.nbRows ∧ b < A.nbColumns) := fun hc => h hc.2.2
    simp [h]

theorem DenseMatrix.entry_zero (nbRows nbColumns a b : Nat) :
    (DenseMatrix.zero nbRows nbColumns : DenseMatrix R).entry a b = 0 := by
  unfold DenseMatrix.entry DenseMatrix.zero
  split_ifs <;> rfl

theorem writeColumn_spec (D m index : Nat) (hm : m < D) (basisSample : List (List R))
    (F : DenseMatrix R) :
    (writeColumn D m index basisSample F).nbRows = F.nbRows ∧
      (writeColumn D m index basisSample F).nbColumns = F.nbColumns ∧
      ∀ a b, (writeColumn D m index basisSample F).entry a b =
        if b = index ∧ a % D = m ∧ a / D < basisSample.length ∧ a < F.nbRows ∧
            b < F.nbColumns then
          (basisSample.getD (a / D) []).getD 0 0
        else F.entry a b := by
  unfold writeColumn
  generalize basisSample.length = L
  induction L with
  | zero =>
    refine ⟨rfl, rfl, fun a b => ?_⟩
    have h : ¬ (b = index ∧ a % D = m ∧ a / D < 0 ∧ a < F.nbRows ∧ b < F.nbColumns) :=
      fun hc => Nat.not_lt_zero _ hc.2.2.1
    simp only [List.range_zero, List.foldl_nil, if_neg h]
  | succ L ih =>
    obtain ⟨h1, h2, h3⟩ := ih
    rw [List.range_succ, List.foldl_append]
    simp only [List.foldl_cons, List.foldl_nil]
    refine ⟨?_, ?_, fun a b => ?_⟩
    · exact h1
    · exact h2
    · rw [DenseMatrix.entry_set, h3, h1, h2]
      have hD : 0 < D := by omega
      have hmod : (m + L * D) % D = m := by
        rw [Nat.add_mul_mod_self_right]
        exact Nat.mod_eq_of_lt hm
      have hdiv : (m + L * D) / D = L := by
        rw [Nat.add_mul_div_right _ _ hD, Nat.div_eq_of_lt hm]
        simp
      by_cases hnew : a = m + L * D ∧ b = index ∧ a < F.nbRows ∧ b < F.nbColumns
      · rw [if_pos hnew]
        obtain ⟨ha, hb, hr, hc⟩ := hnew
        have hcond : b = index ∧ a % D = m ∧ a / D < L + 1 ∧ a < F.nbRows ∧
            b < F.nbColumns := by
          refine ⟨hb, ?_, ?_, hr, hc⟩
          · rw [ha]; exact hmod
          · rw [ha, hdiv]; omega
        rw [if_pos hcond, ha, hdiv]
      · rw [if_neg hnew]
        have hiff : (b = index ∧ a % D = m ∧ a / D < L + 1 ∧ a < F.nbRows ∧
            b < F.nbColumns) ↔
            (b = index ∧ a % D = m ∧ a / D < L ∧ a < F.nbRows ∧ b < F.nbColumns) := by
          constructor
          · intro ⟨hb, hmd, hdv, hr, hc⟩
            refine ⟨hb, hmd, ?_, hr, hc⟩
            by_contra hL
            have hq : a / D = L := by omega
            apply hnew
            refine ⟨?_, hb, hr, hc⟩
            have := Nat.mod_add_div a D
            rw [hmd, hq] at this
            rw [← this]
            ring
          · intro ⟨hb, hmd, hdv, hr, hc⟩
            exact ⟨hb, hmd, by omega, hr, hc⟩
        simp only [hiff]

theorem writeBasis_spec (sample : NumericalSample R) (D m : Nat) (hm : m < D) :
    ∀ (localBasis : List (NumericalMathFunction R)) (state : DenseMatrix R × Nat),
      (writeBasis sample D m localBasis state).2 = state.2 + localBasis.length ∧
      (writeBasis sample D m localBasis state).1.nbRows = state.1.nbRows ∧
      (writeBasis sample D m localBasis state).1.nbColumns = state.1.nbColumns ∧
      ∀ a b, (writeBasis sample D m localBasis state).1.entry a b =
        if state.2 ≤ b ∧ b < state.2 + localBasis.length ∧ a % D = m ∧
            a / D < sample.getSize ∧ a < state.1.nbRows ∧ b < state.1.nbColumns then
          (((localBasis.getD (b - state.2) ⟨0, 0, fun _ => []⟩).eval
            (sample.data.getD (a / D) [])).getD 0 0)
        else state.1.entry a b := by
  intro localBasis
  induction localBasis with
  | nil =>
    intro state
    refine ⟨rfl, rfl, rfl, fun a b => ?_⟩
    have h : ¬ (state.2 ≤ b ∧ b < state.2 + ([] : List (NumericalMathFunction R)).length ∧
        a % D = m ∧ a / D < sample.getSize ∧ a < state.1.nbRows ∧ b < state.1.nbColumns) := by
      intro hc
      have := hc.2.1
      simp only [List.length_nil, add_zero] at this
      omega
    rw [if_neg h]
    rfl
  | cons f fs ih =>
    intro state
    obtain ⟨c1, c2, c3⟩ := writeColumn_spec D m state.2 hm (sample.data.map f.eval) state.1
    obtain ⟨h1, h2, h3, h4⟩ := ih
      (writeColumn D m state.2 (sample.data.map f.eval) state.1, state.2 + 1)
    have hstep : writeBasis sample D m (f :: fs) state =
        writeBasis sample D m fs
          (writeColumn D m state.2 (sample.data.map f.eval) state.1, state.2 + 1) := rfl
    rw [hstep]
    refine ⟨?_, ?_, ?_, fun a b => ?_⟩
    · rw [h1, List.length_cons]
      simp only
      omega
    · rw [h2]
      exact c1
    · rw [h3]
      exact c2
    · rw [h4]
      simp only
      rw [c1, c2, c3]
      simp only [List.length_map, List.length_cons]
      have hS : sample.getSize = sample.data.length := rfl
      by_cases hlater : state.2 + 1 ≤ b ∧ b < state.2 + 1 + fs.length ∧ a % D = m ∧
          a / D < sample.getSize ∧ a < state.1.nbRows ∧ b < state.1.nbColumns
      · rw [if_pos hlater]
        have hall : state.2 ≤ b ∧ b < state.2 + (fs.length + 1) ∧ a % D = m ∧
            a / D < sample.getSize ∧ a < state.1.nbRows ∧ b < state.1.nbColumns :=
          ⟨by omega, by omega, hlater.2.2⟩
        rw [if_pos hall]
        have hidx : b - state.2 = (b - (state.2 + 1)) + 1 := by omega
        rw [hidx, List.getD_cons_succ]
      · rw [if_neg hlater]
        by_cases hfirst : b = state.2 ∧ a % D = m ∧ a / D < sample.data.length ∧
            a < state.1.nbRows ∧ b < state.1.nbColumns
        · rw [if_pos hfirst]
          have hall : state.2 ≤ b ∧ b < state.2 + (fs.length + 1) ∧ a % D = m ∧
              a / D < sample.getSize ∧ a < state.1.nbRows ∧ b < state.1.nbColumns :=
            ⟨by omega, by omega, hfirst.2.1, hfirst.2.2.1, hfirst.2.2.2⟩
          rw [if_pos hall]
          have hidx : b - state.2 = 0 := by omega
          rw [hidx, List.getD_cons_zero]
          have hlt := hfirst.2.2.1
          simp [List.getD_eq_getElem?_getD, List.getElem?_eq_getElem hlt]
        · rw [if_neg hfirst]
          have hall : ¬ (state.2 ≤ b ∧ b < state.2 + (fs.length + 1) ∧ a % D = m ∧
              a / D < sample.getSize ∧ a < state.1.nbRows ∧ b < state.1.nbColumns) := by
            intro hc
            by_cases hb : b = state.2
            · exact hfirst ⟨hb, hc.2.2⟩
            · exact hlater ⟨by omega, by omega, hc.2.2⟩
          rw [if_neg hall]

theorem getD_map_length {α : Type} (l : List (List α)) (i : Nat) :
    (l.map List.length).getD i 0 = (l.getD i []).length := by
  by_cases hi : i < l.length
  · simp [List.getD_eq_getElem?_getD, List.getElem?_eq_getElem hi]
  · simp [List.getD_eq_getElem?_getD, List.getElem?_eq_none (not_lt.mp hi)]

theorem computeF_loop (sample : NumericalSample R) (D : Nat)
    (basisCollection : List (List (NumericalMathFunction R))) (F0 : DenseMatrix R) :
    ∀ M : Nat, M ≤ D →
      ((List.range M).foldl
          (fun st outputMarginal =>
            writeBasis sample D outputMarginal (basisCollection.getD outputMarginal []) st)
          (F0, 0)).2 = blockOffset (basisCollection.map List.length) M ∧
      ((List.range M).foldl
          (fun st outputMarginal =>
            writeBasis sample D outputMarginal (basisCollection.getD outputMarginal []) st)
          (F0, 0)).1.nbRows = F0.nbRows ∧
      ((List.range M).foldl
          (fun st outputMarginal =>
            writeBasis sample D outputMarginal (basisCollection.getD outputMarginal []) st)
          (F0, 0)).1.nbColumns = F0.nbColumns ∧
      ∀ a b, ((List.range M).foldl
          (fun st outputMarginal =>
            writeBasis sample D outputMarginal (basisCollection.getD outputMarginal []) st)
          (F0, 0)).1.entry a b =
        if a % D < M ∧ blockOffset (basisCollection.map List.length) (a % D) ≤ b ∧
            b < blockOffset (basisCollection.map List.length) (a % D + 1) ∧
            a / D < sample.getSize ∧ a < F0.nbRows ∧ b < F0.nbColumns then
          ((((basisCollection.getD (a % D) []).getD
              (b - blockOffset (basisCollection.map List.length) (a % D))
              ⟨0, 0, fun _ => []⟩).eval (sample.data.getD (a / D) [])).getD 0 0)
        else F0.entry a b := by
  intro M
  induction M with
  | zero =>
    intro _
    refine ⟨by simp [blockOffset], rfl, rfl, fun a b => ?_⟩
    have h : ¬ (a % D < 0 ∧ blockOffset (basisCollection.map List.length) (a % D) ≤ b ∧
        b < blockOffset (basisCollection.map List.length) (a % D + 1) ∧
        a / D < sample.getSize ∧ a < F0.nbRows ∧ b < F0.nbColumns) :=
      fun hc => Nat.not_lt_zero _ hc.1
    rw [if_neg h]
    rfl
  | succ M ih =>
    intro hM
    obtain ⟨h1, h2, h3, h4⟩ := ih (by omega)
    rw [List.range_succ, List.foldl_append]
    simp only [List.foldl_cons, List.foldl_nil]
    obtain ⟨w1, w2, w3, w4⟩ := writeBasis_spec sample D M (by omega)
      (basisCollection.getD M [])
      ((List.range M).foldl
        (fun st outputMarginal =>
          writeBasis sample D outputMarginal (basisCollection.getD outputMarginal []) st)
        (F0, 0))
    have hsucc := blockOffset_succ (basisCollection.map List.length) M
    rw [getD_map_length] at hsucc
    refine ⟨?_, ?_, ?_, fun a b => ?_⟩
    · rw [w1, h1, hsucc]
    · rw [w2, h2]
    · rw [w3, h3]
    · rw [w4, h1, h2, h3, h4]
      by_cases hmod : a % D = M
      · have hold : ¬ (a % D < M ∧ blockOffset (basisCollection.map List.length) (a % D) ≤ b ∧
            b < blockOffset (basisCollection.map List.length) (a % D + 1) ∧
            a / D < sample.getSize ∧ a < F0.nbRows ∧ b < F0.nbColumns) := by
          intro hc
          omega
        rw [if_neg hold]
        by_cases hw : blockOffset (basisCollection.map List.length) M ≤ b ∧
            b < blockOffset (basisCollection.map List.length) M +
              (basisCollection.getD M []).length ∧
            a % D = M ∧ a / D < sample.getSize ∧ a < F0.nbRows ∧ b < F0.nbColumns
        · rw [if_pos hw]
          have hnew : a % D < M + 1 ∧
              blockOffset (basisCollection.map List.length) (a % D) ≤ b ∧
              b < blockOffset (basisCollection.map List.length) (a % D + 1) ∧
              a / D < sample.getSize ∧ a < F0.nbRows ∧ b < F0.nbColumns := by
            rw [hmod, hsucc]
            exact ⟨by omega, hw.1, hw.2.1, hw.2.2.2⟩
          rw [if_pos hnew, hmod]
        · rw [if_neg hw]
          have hnew : ¬ (a % D < M + 1 ∧
              blockOffset (basisCollection.map List.length) (a % D) ≤ b ∧
              b < blockOffset (basisCollection.map List.length) (a % D + 1) ∧
              a / D < sample.getSize ∧ a < F0.nbRows ∧ b < F0.nbColumns) := by
            rw [hmod, hsucc]
            intro hc
            exact hw ⟨hc.2.1, hc.2.2.1, hmod, hc.2.2.2⟩
          rw [if_neg hnew]
      · have hw : ¬ (blockOffset (basisCollection.map List.length) M ≤ b ∧
            b < blockOffset (basisCollection.map List.length) M +
              (basisCollection.getD M []).length ∧
            a % D = M ∧ a / D < sample.getSize ∧ a < F0.nbRows ∧ b < F0.nbColumns) :=
          fun hc => hmod hc.2.2.1
        rw [if_neg hw]
        have hiff : (a % D < M + 1 ∧
            blockOffset (basisCollection.map List.length) (a % D) ≤ b ∧
            b < blockOffset (basisCollection.map List.length) (a % D + 1) ∧
            a / D < sample.getSize ∧ a < F0.nbRows ∧ b < F0.nbColumns) ↔
            (a % D < M ∧ blockOffset (basisCollection.map List.length) (a % D) ≤ b ∧
            b < blockOffset (basisCollection.map List.length) (a % D + 1) ∧
            a / D < sample.getSize ∧ a < F0.nbRows ∧ b < F0.nbColumns) := by
          constructor
          · intro hc
            exact ⟨by omega, hc.2⟩
          · intro hc
            exact ⟨by omega, hc.2⟩
        simp only [hiff]

/-- Claim C27. Design matrix: when the design matrix is not yet computed and, as soon as there
is a basis function, there is one basis per output marginal, `computeF` produces a matrix with
`sampleSize * outputDimension` rows and as many columns as the sum of the sizes of the bases
(none without basis functions). The column of the `j`-th function of marginal `m`, whose
index `n_0 + ... + n_{m-1} + j` is below the number of columns, has at row
`m + i * outputDimension`, a row of the matrix, the first component of the value of that
function at the normalized input point `i`, for every `i < sampleSize`, and is zero at every
row not congruent to `m` modulo the output dimension. -/
theorem design_matrix (self : GeneralizedLinearModelAlgorithm R)
    (hFresh : self.F_.nbRows = 0)
    (hBasis : (self.basisCollection_.map List.length).sum ≠ 0 →
      self.basisCollection_.length = self.outputSample_.getDimension) :
    (computeF self).F_.nbRows =
        self.normalizedInputSample_.getSize * self.outputSample_.getDimension ∧
      (computeF self).F_.nbColumns = (self.basisCollection_.map List.length).sum ∧
      ((self.basisCollection_.map List.length).sum = 0 → (computeF self).F_.nbColumns = 0) ∧
      ∀ m j, m < self.basisCollection_.length → j < (self.basisCollection_.getD m []).length →
        blockOffset (self.basisCollection_.map List.length) m + j <
            (computeF self).F_.nbColumns ∧
          (∀ i, i < self.normalizedInputSample_.getSize →
            m + i * self.outputSample_.getDimension < (computeF self).F_.nbRows ∧
            (computeF self).F_.entry (m + i * self.outputSample_.getDimension)
                (blockOffset (self.basisCollection_.map List.length) m + j) =
              ((((self.basisCollection_.getD m []).getD j ⟨0, 0, fun _ => []⟩).eval
                (self.normalizedInputSample_.data.getD i [])).getD 0 0)) ∧
          (∀ r, r % self.outputSample_.getDimension ≠ m →
            (computeF self).F_.entry r
              (blockOffset (self.basisCollection_.map List.length) m + j) = 0) := by
  have hd : (self.basisCollection_.map List.length).length = self.basisCollection_.length := by
    simp
  have hall : blockOffset (self.basisCollection_.map List.length)
      self.basisCollection_.length = (self.basisCollection_.map List.length).sum :=
    blockOffset_length _ (by rw [hd])
  have hin : ∀ m, m < self.basisCollection_.length →
      blockOffset (self.basisCollection_.map List.length) m +
        (self.basisCollection_.getD m []).length ≤
        (self.basisCollection_.map List.length).sum := by
    intro m hm
    rw [← getD_map_length, ← blockOffset_succ, ← hall]
    exact blockOffset_mono _ (by omega)
  unfold computeF
  rw [if_neg (not_not.mpr hFresh)]
  dsimp only
  by_cases htotal : (self.basisCollection_.map List.length).sum = 0
  · rw [if_pos htotal]
    refine ⟨rfl, rfl, fun _ => htotal, fun m j hm hj => ?_⟩
    have := hin m hm
    omega
  · rw [if_neg htotal]
    have hD := hBasis htotal
    obtain ⟨h1, h2, h3, h4⟩ := computeF_loop self.normalizedInputSample_
      self.outputSample_.getDimension self.basisCollection_
      (DenseMatrix.zero
        (self.normalizedInputSample_.getSize * self.outputSample_.getDimension)
        (self.basisCollection_.map List.length).sum)
      self.outputSample_.getDimension (le_refl _)
    refine ⟨h2, h3, fun h => absurd h htotal, fun m j hm hj => ?_⟩
    have hmD : m < self.outputSample_.getDimension := by rw [← hD]; exact hm
    have hDpos : 0 < self.outputSample_.getDimension := by omega
    have hcol : blockOffset (self.basisCollection_.map List.length) m + j <
        (self.basisCollection_.map List.length).sum := by
      have := hin m hm
      omega
    have hsucc := blockOffset_succ (self.basisCollection_.map List.length) m
    rw [getD_map_length] at hsucc
    refine ⟨by rw [h3]; exact hcol, fun i hi => ?_, fun r hr => ?_⟩
    · have hrow : m + i * self.outputSample_.getDimension <
          self.normalizedInputSample_.getSize * self.outputSample_.getDimension := by
        have hle : (i + 1) * self.outputSample_.getDimension ≤
            self.normalizedInputSample_.getSize * self.outputSample_.getDimension :=
          Nat.mul_le_mul_right _ (by omega)
        have hexp : (i + 1) * self.outputSample_.getDimension =
            i * self.outputSample_.getDimension + self.outputSample_.getDimension := by ring
        omega
      have hmod : (m + i * self.outputSample_.getDimension) %
          self.outputSample_.getDimension = m := by
        rw [Nat.add_mul_mod_self_right]
        exact Nat.mod_eq_of_lt hmD
      have hdiv : (m + i * self.outputSample_.getDimension) /
          self.outputSample_.getDimension = i := by
        rw [Nat.add_mul_div_right _ _ hDpos, Nat.div_eq_of_lt hmD]
        simp
      refine ⟨by rw [h2]; exact hrow, ?_⟩
      rw [h4, hmod, hdiv, hsucc]
      have hcond : m < self.outputSample_.getDimension ∧
          blockOffset (self.basisCollection_.map List.length) m ≤
            blockOffset (self.basisCollection_.map List.length) m + j ∧
          blockOffset (self.basisCollection_.map List.length) m + j <
            blockOffset (self.basisCollection_.map List.length) m +
              (self.basisCollection_.getD m []).length ∧
          i < self.normalizedInputSample_.getSize ∧
          m + i * self.outputSample_.getDimension <
            (DenseMatrix.zero
              (self.normalizedInputSample_.getSize * self.outputSample_.getDimension)
              (self.basisCollection_.map List.length).sum : DenseMatrix R).nbRows ∧
          blockOffset (self.basisCollection_.map List.length) m + j <
            (DenseMatrix.zero
              (self.normalizedInputSample_.getSize * self.outputSample_.getDimension)
              (self.basisCollection_.map List.length).sum : DenseMatrix R).nbColumns :=
        ⟨hmD, by omega, by omega, hi, hrow, hcol⟩
      rw [if_pos hcond, Nat.add_sub_cancel_left]
    · rw [h4]
      have hcond : ¬ (r % self.outputSample_.getDimension < self.outputSample_.getDimension ∧
          blockOffset (self.basisCollection_.map List.length)
              (r % self.outputSample_.getDimension) ≤
            blockOffset (self.basisCollection_.map List.length) m + j ∧
          blockOffset (self.basisCollection_.map List.length) m + j <
            blockOffset (self.basisCollection_.map List.length)
              (r % self.outputSample_.getDimension + 1) ∧
          r / self.outputSample_.getDimension < self.normalizedInputSample_.getSize ∧
          r < (DenseMatrix.zero
              (self.normalizedInputSample_.getSize * self.outputSample_.getDimension)
              (self.basisCollection_.map List.length).sum : DenseMatrix R).nbRows ∧
          blockOffset (self.basisCollection_.map List.length) m + j <
            (DenseMatrix.zero
              (self.normalizedInputSample_.getSize * self.outputSample_.getDimension)
              (self.basisCollection_.map List.length).sum : DenseMatrix R).nbColumns) := by
        intro hc
        obtain ⟨-, hlo, hhi, -⟩ := hc
        rcases Nat.lt_or_gt_of_ne hr with hlt | hgt
        · have := blockOffset_mono (self.basisCollection_.map List.length)
            (show r % self.outputSample_.getDimension + 1 ≤ m by omega)
          omega
        · have := blockOffset_mono (self.basisCollection_.map List.length)
            (show m + 1 ≤ r % self.outputSample_.getDimension by omega)
          omega
      rw [if_neg hcond]
      exact DenseMatrix.entry_zero _ _ _ _

/-- Witness of claim C27: on the engine with bases of sizes 2 and 1 on three points of the
plane and two outputs, the design matrix has 6 rows and 3 columns, and the entry at row
`0 + 1 * 2` of the column `0 + 1` of the second function of the first basis (the first
coordinate) is its value 1 at the second point `[1, 0]`. -/
theorem design_matrix_witness :
    (normalizeInputSample exampleTwoTrends).F_.nbRows = 0 ∧
      (normalizeInputSample exampleTwoTrends).basisCollection_.length =
        (normalizeInputSample exampleTwoTrends).outputSample_.getDimension ∧
      (computeF (normalizeInputSample exampleTwoTrends)).F_.nbRows = 6 ∧
      (computeF (normalizeInputSample exampleTwoTrends)).F_.nbColumns = 3 ∧
      (computeF (normalizeInputSample exampleTwoTrends)).F_.entry 2 1 = 1 := by
  have hFresh : (normalizeInputSample exampleTwoTrends).F_.nbRows = 0 := rfl
  have hBasis : (normalizeInputSample exampleTwoTrends).basisCollection_.length =
      (normalizeInputSample exampleTwoTrends).outputSample_.getDimension := rfl
  obtain ⟨h1, h2, -, h3⟩ := design_matrix (normalizeInputSample exampleTwoTrends) hFresh
    (fun _ => hBasis)
  have h4 := ((h3 0 1 (by decide) (by decide)).2.1 1 (by decide)).2
  exact ⟨hFresh, hBasis, h1, h2, h4⟩

/-! ### The states reached by evaluations of the objective -/

theorem setParameter_off_active (m : CovarianceModel R) (parameter : List R) :
    (∀ i, i ∉ m.activeParameter_ →
        (m.setParameter parameter).scale_.getD i 0 = m.scale_.getD i 0) ∧
      (∀ i, m.scale_.length + i ∉ m.activeParameter_ →
        (m.setParameter parameter).amplitude_.getD i 0 = m.amplitude_.getD i 0) := by
  unfold CovarianceModel.setParameter CovarianceModel.getFullParameter
  dsimp only
  constructor
  · intro i hi
    by_cases hlt : i < m.scale_.length
    · have hw := writeActive_getD_of_not_mem m.activeParameter_ parameter
        (m.scale_ ++ m.amplitude_) i hi
      rw [List.getD_append _ _ _ _ hlt] at hw
      rw [← hw]
      simp only [List.getD_eq_getElem?_getD, List.getElem?_take, hlt, if_true]
    · have h1 : ((writeActive m.activeParameter_ parameter
          (m.scale_ ++ m.amplitude_)).take m.scale_.length).length ≤ i := by
        rw [List.length_take]
        omega
      rw [List.getD_eq_default _ _ h1, List.getD_eq_default _ _ (not_lt.mp hlt)]
  · intro i hi
    have hw := writeActive_getD_of_not_mem m.activeParameter_ parameter
      (m.scale_ ++ m.amplitude_) (m.scale_.length + i) hi
    rw [List.getD_append_right _ _ _ _ (Nat.le_add_right _ _), Nat.add_sub_cancel_left] at hw
    rw [← hw]
    simp only [List.getD_eq_getElem?_getD, List.getElem?_drop]

theorem sameFit_refl (s : GeneralizedLinearModelAlgorithm R) : SameFit s s :=
  ⟨rfl, rfl, rfl, rfl, rfl, rfl, rfl, rfl, rfl, rfl, rfl, rfl, fun _ _ => rfl,
    fun _ => ⟨rfl, fun _ _ => rfl⟩, fun _ => rfl⟩

theorem computeLogDeterminant_off_active (E : Collaborators R) (fuel : Nat)
    (self : GeneralizedLinearModelAlgorithm R) (parameters : List R) :
    (∀ i, i ∉ self.reducedCovarianceModel_.activeParameter_ →
        (computeLogDeterminant E fuel self parameters).2.reducedCovarianceModel_.scale_.getD
            i 0 =
          self.reducedCovarianceModel_.scale_.getD i 0) ∧
      (self.analyticalAmplitude_ = false →
        ∀ i, self.reducedCovarianceModel_.scale_.length + i ∉
            self.reducedCovarianceModel_.activeParameter_ →
          (computeLogDeterminant E fuel self
              parameters).2.reducedCovarianceModel_.amplitude_.getD i 0 =
            self.reducedCovarianceModel_.amplitude_.getD i 0) := by
  obtain ⟨hred, -⟩ := computeLogDeterminant_reduced E fuel self parameters
  rw [hred]
  by_cases ha : self.analyticalAmplitude_ = true
  · rw [if_pos ha]
    refine ⟨?_, fun h => ?_⟩
    · exact (setParameter_off_active (self.reducedCovarianceModel_.setAmplitude [1])
        parameters).1
    · rw [ha] at h
      cases h
  · rw [if_neg ha]
    exact ⟨(setParameter_off_active self.reducedCovarianceModel_ parameters).1,
      fun _ => (setParameter_off_active self.reducedCovarianceModel_ parameters).2⟩

theorem computeReducedLogLikelihood_off_active (E : Collaborators R) (fuel : Nat)
    (self : GeneralizedLinearModelAlgorithm R) (parameters : List R) :
    (∀ i, i ∉ self.reducedCovarianceModel_.activeParameter_ →
        (computeReducedLogLikelihood E fuel self
            parameters).2.reducedCovarianceModel_.scale_.getD i 0 =
          self.reducedCovarianceModel_.scale_.getD i 0) ∧
      (self.analyticalAmplitude_ = false →
        ∀ i, self.reducedCovarianceModel_.scale_.length + i ∉
            self.reducedCovarianceModel_.activeParameter_ →
          (computeReducedLogLikelihood E fuel self
              parameters).2.reducedCovarianceModel_.amplitude_.getD i 0 =
            self.reducedCovarianceModel_.amplitude_.getD i 0) := by
  obtain ⟨hscale, hamp⟩ := computeLogDeterminant_off_active E fuel self parameters
  obtain ⟨-, hana⟩ := computeLogDeterminant_reduced E fuel self parameters
  by_cases hsize : parameters.length = self.reducedCovarianceModel_.getParameter.length
  · rcases hout : (computeLogDeterminant E fuel self parameters).1 with v | e | _
    · rw [computeReducedLogLikelihood_of_returned E fuel self parameters v hsize hout]
      dsimp only
      unfold amplitudeCorrected analyticalAmplitudeStep
      rw [hana]
      by_cases ha : self.analyticalAmplitude_ = true
      · rw [if_pos ha]
        refine ⟨hscale, fun h => ?_⟩
        rw [ha] at h
        cases h
      · rw [if_neg ha]
        exact ⟨hscale, hamp⟩
    · rw [computeReducedLogLikelihood_of_thrown E fuel self parameters e hsize hout]
      exact ⟨hscale, hamp⟩
    · rw [computeReducedLogLikelihood_of_unfinished E fuel self parameters hsize hout]
      exact ⟨hscale, hamp⟩
  · unfold computeReducedLogLikelihood
    rw [if_pos hsize]
    exact ⟨fun _ _ => rfl, fun _ _ _ => rfl⟩

theorem computeReducedLogLikelihood_sameFit (E : Collaborators R) (fuel : Nat)
    (self : GeneralizedLinearModelAlgorithm R) (parameters : List R) :
    SameFit self (computeReducedLogLikelihood E fuel self parameters).2 := by
  obtain ⟨hin, hout, -, -, -, hbasis, -, hmethod, -, -, hana, hnoise, -, -, hspatial, hdim,
    hactive, hbeta⟩ := computeReducedLogLikelihood_sameProblem E fuel self parameters
  obtain ⟨hscale, hamp⟩ := computeReducedLogLikelihood_shape E fuel self parameters
  obtain ⟨hoffs, hoffa⟩ := computeReducedLogLikelihood_off_active E fuel self parameters
  exact ⟨hin, computeReducedLogLikelihood_sample E fuel self parameters, hout,
    computeReducedLogLikelihood_design E fuel self parameters, hbasis, hnoise, hmethod, hana,
    hspatial, hdim, hactive, hscale, hoffs, fun h => ⟨hamp h, hoffa h⟩, hbeta⟩

theorem sameFit_symm {s t : GeneralizedLinearModelAlgorithm R} (h : SameFit s t) :
    SameFit t s := by
  obtain ⟨h1, h2, h3, h4, h5, h6, h7, h8, h9, h10, h11, h12, h13, h14, h15⟩ := h
  refine ⟨h1.symm, h2.symm, h3.symm, h4.symm, h5.symm, h6.symm, h7.symm, h8.symm, h9.symm,
    h10.symm, h11.symm, h12.symm, ?_, ?_, ?_⟩
  · intro i hi
    rw [h11] at hi
    exact (h13 i hi).symm
  · intro ha
    rw [h8] at ha
    refine ⟨(h14 ha).1.symm, fun i hi => ?_⟩
    rw [h11, h12] at hi
    exact ((h14 ha).2 i hi).symm
  · intro hb
    rw [h5] at hb
    exact (h15 hb).symm

theorem sameFit_trans {s t u : GeneralizedLinearModelAlgorithm R} (h : SameFit s t)
    (k : SameFit t u) : SameFit s u := by
  obtain ⟨h1, h2, h3, h4, h5, h6, h7, h8, h9, h10, h11, h12, h13, h14, h15⟩ := h
  obtain ⟨k1, k2, k3, k4, k5, k6, k7, k8, k9, k10, k11, k12, k13, k14, k15⟩ := k
  refine ⟨k1.trans h1, k2.trans h2, k3.trans h3, k4.trans h4, k5.trans h5, k6.trans h6,
    k7.trans h7, k8.trans h8, k9.trans h9, k10.trans h10, k11.trans h11, k12.trans h12,
    ?_, ?_, ?_⟩
  · intro i hi
    exact (k13 i (by rw [h11]; exact hi)).trans (h13 i hi)
  · intro ha
    have ha2 : t.analyticalAmplitude_ = false := h8.trans ha
    refine ⟨(k14 ha2).1.trans (h14 ha).1, fun i hi => ?_⟩
    exact ((k14 ha2).2 i (by rw [h11, h12]; exact hi)).trans ((h14 ha).2 i hi)
  · intro hb
    exact (k15 (h5.trans hb)).trans (h15 hb)

theorem evaluations_sameFit (E : Collaborators R) (fuel : Nat)
    (self : GeneralizedLinearModelAlgorithm R) (p q : List R) :
    SameFit (computeReducedLogLikelihood E fuel self p).2
      (computeReducedLogLikelihood E fuel self q).2 :=
  sameFit_trans (sameFit_symm (computeReducedLogLikelihood_sameFit E fuel self p))
    (computeReducedLogLikelihood_sameFit E fuel self q)

/-! ### The value of the reduced log-likelihood -/

theorem exampleZero_evaluation :
    computeReducedLogLikelihood exampleCollaborators 5 exampleZero [1, 1] =
      (Outcome.returned [-708],
        { exampleZero with
          rho_ := [0, 0, 0]
          covarianceCholeskyFactor_ := ⟨3, 1⟩
          lastReducedLogLikelihood_ := -708 }) := by
  simp [computeReducedLogLikelihood, computeLogDeterminant, amplitudeCorrected,
    reducedLogLikelihoodValue, normSquare, computeLapackLogDeterminantCholesky,
    lapackLadderLoop, lapackLadderStart, lapackLadderStep, lapackCovarianceMatrix,
    exampleCollaborators, toyCollaborators, exampleZero, getObjectiveFunction, computeF,
    normalizeInputSample, toyAlgorithm, toyModel, toyResourceMap, toySpecFunc,
    NumericalSample.getSize, NumericalSample.getData, CovarianceModel.getParameter,
    CovarianceModel.setParameter, CovarianceModel.getFullParameter, writeActive,
    toyCholesky_one, lapackSolve, lapackLogDeterminant, logDetLoop, SquareMatrix.diagonal]

theorem exampleScaled_backend :
    computeLogDeterminant exampleCollaborators 5 exampleScaled [1] =
      (Outcome.returned 0,
       { exampleScaled with
         reducedCovarianceModel_ :=
           { spatialDimension_ := 1, dimension_ := 1, scale_ := [1], amplitude_ := [1],
             activeParameter_ := [0] }
         rho_ := [2, 2, 2, 2]
         covarianceCholeskyFactor_ := ⟨4, 1⟩ }) := by
  simp [computeLogDeterminant, computeLapackLogDeterminantCholesky,
    lapackLadderLoop, lapackLadderStart, lapackLadderStep, lapackCovarianceMatrix,
    exampleCollaborators, toyCollaborators, exampleScaled, toyAlgorithm, toyModel,
    toyResourceMap,
    NumericalSample.getSize, NumericalSample.getData, CovarianceModel.getParameter,
    CovarianceModel.setParameter, CovarianceModel.setAmplitude,
    CovarianceModel.getFullParameter, writeActive,
    toyCholesky_one, lapackSolve, lapackLogDeterminant, logDetLoop, SquareMatrix.diagonal]
  norm_num

theorem exampleScaled_amplitudeDefined :
    AmplitudeDefined exampleCollaborators
      (computeLogDeterminant exampleCollaborators 5 exampleScaled [1]).2 := by
  rw [exampleScaled_backend]
  unfold AmplitudeDefined
  simp [exampleCollaborators, toyCollaborators, toyResourceMap, exampleScaled, toyAlgorithm,
    NumericalSample.getSize, normSquare]
  norm_num [rat_sqrt_four]

/-- Claim C6. For every evaluation of `computeReducedLogLikelihood` that returns and whose
analytical-amplitude block, when there is one, divides by nothing that is zero
(`AmplitudeDefined` on the state left by the backend), with `epsilon` the squared norm of the
`rho_` it leaves in the engine and `logDeterminant` the log-determinant of the backend after
the analytical-amplitude correction: the value returned (and cached) is the
minimum-representable-log sentinel if `epsilon <= 0`, and `-0.5 * (logDeterminant + epsilon)`
otherwise. Without the analytical amplitude `rho_` and the log-determinant are those of the
backend; with it there is an amplitude `sigma`, not zero, such that `rho_` is the one of the
backend divided by `sigma` (so that `sigma * rho_` is the one of the backend) and the
log-determinant is the one of the backend plus `2 * N * log(sigma)`. -/
theorem reduced_log_likelihood_value (E : Collaborators R) (fuel : Nat)
    (self : GeneralizedLinearModelAlgorithm R) (parameters value : List R)
    (hReturned : (computeReducedLogLikelihood E fuel self parameters).1 =
      Outcome.returned value)
    (hDefined : self.analyticalAmplitude_ = true →
      AmplitudeDefined E (computeLogDeterminant E fuel self parameters).2) :
    ∃ backendLogDeterminant : R,
      (computeLogDeterminant E fuel self parameters).1 =
        Outcome.returned backendLogDeterminant ∧
      (computeReducedLogLikelihood E fuel self parameters).2.rho_ =
        (amplitudeCorrected E (computeLogDeterminant E fuel self parameters).2
          backendLogDeterminant).2.rho_ ∧
      (self.analyticalAmplitude_ = false →
        (computeReducedLogLikelihood E fuel self parameters).2.rho_ =
            (computeLogDeterminant E fuel self parameters).2.rho_ ∧
          (amplitudeCorrected E (computeLogDeterminant E fuel self parameters).2
            backendLogDeterminant).1 = backendLogDeterminant) ∧
      (self.analyticalAmplitude_ = true →
        ∃ sigma : R,
          sigma ≠ 0 ∧
          (computeReducedLogLikelihood E fuel self
            parameters).2.reducedCovarianceModel_.getAmplitude = [sigma] ∧
          (computeReducedLogLikelihood E fuel self parameters).2.rho_ =
            divPoint (computeLogDeterminant E fuel self parameters).2.rho_ sigma ∧
          ((computeReducedLogLikelihood E fuel self parameters).2.rho_).map
              (fun v => v * sigma) =
            (computeLogDeterminant E fuel self parameters).2.rho_ ∧
          (amplitudeCorrected E (computeLogDeterminant E fuel self parameters).2
            backendLogDeterminant).1 =
            backendLogDeterminant +
              2 * (self.inputSample_.getSize : R) * E.log sigma) ∧
      (normSquare (computeReducedLogLikelihood E fuel self parameters).2.rho_ ≤ 0 →
        value = [E.specFunc.LogMinNumericalScalar] ∧
        (computeReducedLogLikelihood E fuel self parameters).2.lastReducedLogLikelihood_ =
          E.specFunc.LogMinNumericalScalar) ∧
      (¬ normSquare (computeReducedLogLikelihood E fuel self parameters).2.rho_ ≤ 0 →
        value = [-(1 / 2) *
          ((amplitudeCorrected E (computeLogDeterminant E fuel self parameters).2
              backendLogDeterminant).1 +
            normSquare (computeReducedLogLikelihood E fuel self parameters).2.rho_)] ∧
        (computeReducedLogLikelihood E fuel self parameters).2.lastReducedLogLikelihood_ =
          -(1 / 2) *
            ((amplitudeCorrected E (computeLogDeterminant E fuel self parameters).2
                backendLogDeterminant).1 +
              normSquare (computeReducedLogLikelihood E fuel self parameters).2.rho_)) := by
  obtain ⟨hred, hana⟩ := computeLogDeterminant_reduced E fuel self parameters
  have hinput : (computeLogDeterminant E fuel self parameters).2.inputSample_ =
      self.inputSample_ := by
    obtain ⟨m, L, H, rho, beta, hf⟩ := computeLogDeterminant_frame E fuel self parameters
    rw [hf]
  by_cases hsize : parameters.length = self.reducedCovarianceModel_.getParameter.length
  · rcases hout : (computeLogDeterminant E fuel self parameters).1 with v | e | _
    · have hfull := computeReducedLogLikelihood_of_returned E fuel self parameters v hsize hout
      rw [hfull] at hReturned ⊢
      simp only [Outcome.returned.injEq] at hReturned
      refine ⟨v, rfl, rfl, ?_, ?_, ?_, ?_⟩
      · intro ha
        simp [amplitudeCorrected, hana, ha]
      · intro ha
        obtain ⟨-, hsigma⟩ := hDefined ha
        refine ⟨_, hsigma, ?_, ?_, ?_, ?_⟩
        · simp [amplitudeCorrected, hana, ha, analyticalAmplitudeStep,
            CovarianceModel.getAmplitude, CovarianceModel.setAmplitude]
        · simp [amplitudeCorrected, hana, ha, analyticalAmplitudeStep]
        · have hrho : (amplitudeCorrected E (computeLogDeterminant E fuel self parameters).2
              v).2.rho_ = divPoint (computeLogDeterminant E fuel self parameters).2.rho_
                (E.sqrt (normSquare (computeLogDeterminant E fuel self parameters).2.rho_ /
                  (if E.resourceMap.UnbiasedVariance then
                    ((unsignedSub
                      (computeLogDeterminant E fuel self parameters).2.inputSample_.getSize
                      (computeLogDeterminant E fuel self parameters).2.beta_.length : Nat) : R)
                   else
                    ((computeLogDeterminant E fuel self
                      parameters).2.inputSample_.getSize : R)))) := by
            simp [amplitudeCorrected, hana, ha, analyticalAmplitudeStep]
          dsimp only
          rw [hrho]
          exact map_mul_divPoint _ _ hsigma
        · simp [amplitudeCorrected, hana, ha, analyticalAmplitudeStep, hinput]
      · intro heps
        simp only at heps
        rw [← hReturned]
        simp [reducedLogLikelihoodValue, heps]
      · intro heps
        simp only at heps
        rw [← hReturned]
        simp [reducedLogLikelihoodValue, heps]
    · rw [computeReducedLogLikelihood_of_thrown E fuel self parameters e hsize hout]
        at hReturned
      cases hReturned
    · rw [computeReducedLogLikelihood_of_unfinished E fuel self parameters hsize hout]
        at hReturned
      cases hReturned
  · simp [computeReducedLogLikelihood, hsize] at hReturned

/-- Witness of claim C6, on both branches. On the four-point engine in analytical-amplitude
mode the amplitude is `sqrt(16 / 4) = 2`, not zero, `epsilon = 4` and the evaluation returns
`-0.5 * (8 + 4) = -6`; on the engine with zero outputs, without the analytical amplitude,
`epsilon = 0` and the evaluation returns the sentinel. -/
theorem reduced_log_likelihood_value_witness :
    ((computeReducedLogLikelihood exampleCollaborators 5 exampleScaled [1]).1 =
        Outcome.returned [-6] ∧
      AmplitudeDefined exampleCollaborators
        (computeLogDeterminant exampleCollaborators 5 exampleScaled [1]).2 ∧
      ¬ normSquare (computeReducedLogLikelihood exampleCollaborators 5 exampleScaled
          [1]).2.rho_ ≤ 0 ∧
      ∃ backendLogDeterminant : ℚ,
        (computeLogDeterminant exampleCollaborators 5 exampleScaled [1]).1 =
          Outcome.returned backendLogDeterminant ∧
        ([-6] : List ℚ) = [-(1 / 2) *
          ((amplitudeCorrected exampleCollaborators
              (computeLogDeterminant exampleCollaborators 5 exampleScaled [1]).2
              backendLogDeterminant).1 +
            normSquare (computeReducedLogLikelihood exampleCollaborators 5 exampleScaled
              [1]).2.rho_)]) ∧
      ((computeReducedLogLikelihood exampleCollaborators 5 exampleZero [1, 1]).1 =
        Outcome.returned [-708] ∧
      exampleZero.analyticalAmplitude_ = false ∧
      normSquare (computeReducedLogLikelihood exampleCollaborators 5 exampleZero
          [1, 1]).2.rho_ ≤ 0 ∧
      ([-708] : List ℚ) = [exampleCollaborators.specFunc.LogMinNumericalScalar]) := by
  have h1 : (computeReducedLogLikelihood exampleCollaborators 5 exampleScaled [1]).1 =
      Outcome.returned [-6] := by
    rw [exampleScaled_evaluation]
  have h2 : (computeReducedLogLikelihood exampleCollaborators 5 exampleZero [1, 1]).1 =
      Outcome.returned [-708] := by
    rw [exampleZero_evaluation]
  have hpos : ¬ normSquare (computeReducedLogLikelihood exampleCollaborators 5 exampleScaled
      [1]).2.rho_ ≤ 0 := by
    rw [exampleScaled_evaluation]
    norm_num [normSquare]
  have hzero : normSquare (computeReducedLogLikelihood exampleCollaborators 5 exampleZero
      [1, 1]).2.rho_ ≤ 0 := by
    rw [exampleZero_evaluation]
    norm_num [normSquare]
  have hplain : exampleZero.analyticalAmplitude_ = false := rfl
  obtain ⟨v, hv, -, -, -, -, hformula⟩ :=
    reduced_log_likelihood_value exampleCollaborators 5 exampleScaled [1] [-6] h1
      (fun _ => exampleScaled_amplitudeDefined)
  obtain ⟨w, -, -, -, -, hsentinel, -⟩ :=
    reduced_log_likelihood_value exampleCollaborators 5 exampleZero [1, 1] [-708] h2
      (fun h => by rw [hplain] at h; cases h)
  exact ⟨⟨h1, exampleScaled_amplitudeDefined, hpos, v, hv, (hformula hpos).1⟩,
    h2, hplain, hzero, (hsentinel hzero).1⟩

end Theorems

end OT
